import Mathlib

/-!
# Cartridge emulation (`cartridge.c`)

A shallow embedding of the cartridge subsystem of the Atari800 emulator:
the two cartridge slots and the active-cartridge pointer, the bank-switching
engine driven by accesses to page `$D5`, the image loader and writer, and the
address/data line decoder for the Atrax cartridges.

Conventions.
* A C `int` is an `Int`; the bitwise operators on `int` operands are `band`,
  `bor`, `bxor`, `bnot`, `shl`, `shr` below (32-bit two's complement).
* `UWORD` addresses and `UBYTE` values are `Nat`.
* The memory module (`memory.h`) is outside this file: every call made to it
  is appended to `World.ops`, and what it holds is read through `Env.MEMORY_mem`.
* The header `cartridge.h` (type codes, size table, result codes) is outside
  this file as well: it is the parameter `Env`.
-/

namespace Cartridge

/-! ## C integer arithmetic -/

/-- Bit pattern of a C `int`: the value modulo 2^32. -/
def bits (x : Int) : Nat := (x % 4294967296).toNat

/-- The C `int` whose 32-bit two's complement pattern is `n`. -/
def ofBits (n : Nat) : Int :=
  if n % 4294967296 < 2147483648 then ((n % 4294967296 : Nat) : Int)
  else ((n % 4294967296 : Nat) : Int) - 4294967296

/-- C `a & b` on `int`. -/
def band (a b : Int) : Int := ofBits (bits a &&& bits b)

/-- C `a | b` on `int`. -/
def bor (a b : Int) : Int := ofBits (bits a ||| bits b)

/-- C `a ^ b` on `int`. -/
def bxor (a b : Int) : Int := ofBits (bits a ^^^ bits b)

/-- C `~a` on `int`. -/
def bnot (a : Int) : Int := -a - 1

/-- C `a << k` on `int` (wrapping to 32 bits). -/
def shl (a : Int) (k : Nat) : Int := ofBits (bits a <<< k)

/-- C `a >> k` on `int` (arithmetic shift). -/
def shr (a : Int) (k : Nat) : Int := a / (2 : Int) ^ k

/-- Conversion of an `int` to `UBYTE`. -/
def toUBYTE (x : Int) : Nat := (x % 256).toNat

/-- C `TRUE`. -/
def TRUE : Int := 1

/-- C `FALSE`. -/
def FALSE : Int := 0

/-! ## Data model -/

/-- The two cartridge slots, `&CARTRIDGE_main` and `&CARTRIDGE_piggyback`. -/
inductive Slot
  | main
  | piggyback
  deriving DecidableEq, Repr

/-- The named cartridge types that `cartridge.c` dispatches on; `other` is any
type code that is none of them (it takes the `default` arm everywhere). -/
inductive Kind
  | CARTRIDGE_STD_8 | CARTRIDGE_STD_16 | CARTRIDGE_OSS_034M_16 | CARTRIDGE_5200_32
  | CARTRIDGE_DB_32 | CARTRIDGE_5200_EE_16 | CARTRIDGE_5200_40 | CARTRIDGE_WILL_64
  | CARTRIDGE_EXP_64 | CARTRIDGE_DIAMOND_64 | CARTRIDGE_SDX_64 | CARTRIDGE_XEGS_32
  | CARTRIDGE_XEGS_07_64 | CARTRIDGE_XEGS_128 | CARTRIDGE_OSS_M091_16 | CARTRIDGE_5200_NS_16
  | CARTRIDGE_ATRAX_DEC_128 | CARTRIDGE_BBSB_40 | CARTRIDGE_5200_8 | CARTRIDGE_5200_4
  | CARTRIDGE_RIGHT_8 | CARTRIDGE_WILL_32 | CARTRIDGE_XEGS_256 | CARTRIDGE_XEGS_512
  | CARTRIDGE_XEGS_1024 | CARTRIDGE_MEGA_16 | CARTRIDGE_MEGA_32 | CARTRIDGE_MEGA_64
  | CARTRIDGE_MEGA_128 | CARTRIDGE_MEGA_256 | CARTRIDGE_MEGA_512 | CARTRIDGE_MEGA_1024
  | CARTRIDGE_SWXEGS_32 | CARTRIDGE_SWXEGS_64 | CARTRIDGE_SWXEGS_128 | CARTRIDGE_SWXEGS_256
  | CARTRIDGE_SWXEGS_512 | CARTRIDGE_SWXEGS_1024 | CARTRIDGE_PHOENIX_8 | CARTRIDGE_BLIZZARD_16
  | CARTRIDGE_ATMAX_128 | CARTRIDGE_ATMAX_OLD_1024 | CARTRIDGE_SDX_128 | CARTRIDGE_OSS_8
  | CARTRIDGE_OSS_043M_16 | CARTRIDGE_BLIZZARD_4 | CARTRIDGE_AST_32 | CARTRIDGE_ATRAX_SDX_64
  | CARTRIDGE_ATRAX_SDX_128 | CARTRIDGE_TURBOSOFT_64 | CARTRIDGE_TURBOSOFT_128
  | CARTRIDGE_ULTRACART_32 | CARTRIDGE_LOW_BANK_8 | CARTRIDGE_SIC_128 | CARTRIDGE_SIC_256
  | CARTRIDGE_SIC_512 | CARTRIDGE_STD_2 | CARTRIDGE_STD_4 | CARTRIDGE_RIGHT_4
  | CARTRIDGE_BLIZZARD_32 | CARTRIDGE_MEGAMAX_2048 | CARTRIDGE_THECART_128M
  | CARTRIDGE_MEGA_4096 | CARTRIDGE_MEGA_2048 | CARTRIDGE_THECART_32M | CARTRIDGE_THECART_64M
  | CARTRIDGE_XEGS_8F_64 | CARTRIDGE_ATRAX_128 | CARTRIDGE_ADAWLIAH_32 | CARTRIDGE_ADAWLIAH_64
  | CARTRIDGE_5200_SUPER_64 | CARTRIDGE_5200_SUPER_128 | CARTRIDGE_5200_SUPER_256
  | CARTRIDGE_5200_SUPER_512 | CARTRIDGE_ATMAX_NEW_1024 | CARTRIDGE_RAMCART_64
  | CARTRIDGE_RAMCART_128 | CARTRIDGE_DOUBLE_RAMCART_256 | CARTRIDGE_RAMCART_1M
  | CARTRIDGE_RAMCART_2M | CARTRIDGE_RAMCART_4M | CARTRIDGE_RAMCART_8M | CARTRIDGE_RAMCART_16M
  | CARTRIDGE_RAMCART_32M | CARTRIDGE_SIDICAR_32
  | other
  deriving DecidableEq, Repr

open Kind

/-- The struct `CARTRIDGE_image_t`; `image = none` is the `NULL` pointer. -/
structure CARTRIDGE_image_t where
  type : Int
  state : Int
  size : Int
  image : Option (List Nat)
  filename : String
  raw : Int
  deriving DecidableEq, Repr

/-- The values of `Atari800_machine_type`. -/
inductive Machine
  | Atari800_MACHINE_800
  | Atari800_MACHINE_XLXE
  | Atari800_MACHINE_5200
  deriving DecidableEq, Repr

/-- A source or destination pointer handed to the memory module: an offset
into a slot's image, or the BASIC ROM `MEMORY_basic`. -/
inductive Ptr
  | image (slot : Slot) (offset : Int)
  | MEMORY_basic
  deriving DecidableEq, Repr

/-- The page handlers installed in `MEMORY_readmap` / `MEMORY_writemap`. -/
inductive Handler
  | CARTRIDGE_BountyBob1GetByte | CARTRIDGE_BountyBob2GetByte
  | CARTRIDGE_BountyBob1PutByte | CARTRIDGE_BountyBob2PutByte
  | CARTRIDGE_5200SuperCartGetByte | CARTRIDGE_5200SuperCartPutByte
  deriving DecidableEq, Repr

/-- One call into the memory-window interface (`MEMORY_...`). -/
inductive MemOp
  | Cart809fDisable
  | Cart809fEnable
  | CartA0bfDisable
  | CartA0bfEnable
  | CopyFromCart (addr1 addr2 : Nat) (src : Ptr)
  | CopyToCart (addr1 addr2 : Nat) (dst : Ptr)
  | dFillMem (addr value length : Nat)
  | SetRAM (addr1 addr2 : Nat)
  | SetROM (addr1 addr2 : Nat)
  | SetHARDWARE (addr1 addr2 : Nat)
  | readmap (page : Nat) (h : Handler)
  | writemap (page : Nat) (h : Handler)
  deriving DecidableEq, Repr

/-- The global state the cartridge code reads and writes: both slots, the
`active_cart` pointer, the globals of other modules it consults or sets, the
sequence `ops` of calls it has made to the memory module (oldest first), and
the sequence `written` of files it has written, each with its name and the
bytes handed to `fwrite`. -/
structure World where
  CARTRIDGE_main : CARTRIDGE_image_t
  CARTRIDGE_piggyback : CARTRIDGE_image_t
  active_cart : Slot
  Atari800_machine_type : Machine
  Atari800_builtin_basic : Bool
  Atari800_disable_basic : Bool
  BINLOAD_loading_basic : Bool
  MEMORY_have_basic : Bool
  AF80_enabled : Bool
  BIT3_enabled : Bool
  RTIME_enabled : Bool
  IDE_enabled : Bool
  ops : List MemOp
  MEMORY_ram_size : Int
  CARTRIDGE_autoreboot : Int
  written : List (String × List Nat)

/-- What `cartridge.c` takes from outside: the type codes (`kind` tells which
named constant a code is), the size table `CARTRIDGES[t].kb`, the result
codes, the checksum helper, the build option `PAGED_ATTRIB`, the compiler's
choice `and_right_first` of which operand of `&` it evaluates first, the
contents of emulated memory, the `$D5xx` devices that take precedence over
the slots, the length `FILENAME_MAX` of the file name buffers, whether
`f_open` for writing succeeds, and the three calls into the machine
(`atari.c`), `Atari800_SetMachineType`, `Atari800_InitialiseMachine` and
`Atari800_Coldstart`. -/
structure Env where
  kind : Int → Kind
  CARTRIDGE_NONE : Int
  CARTRIDGE_UNKNOWN : Int
  CARTRIDGE_TYPE_COUNT : Int
  kb : Int → Int
  CARTRIDGE_CANT_OPEN : Int
  CARTRIDGE_BAD_FORMAT : Int
  CARTRIDGE_BAD_CHECKSUM : Int
  CARTRIDGE_TOO_FEW_DATA : Int
  CARTRIDGE_Checksum : List Nat → Int
  PAGED_ATTRIB : Bool
  and_right_first : Bool
  MEMORY_mem : World → Nat → Nat
  AF80_D5GetByte : Nat → Bool → Nat
  BIT3_D5GetByte : Nat → Bool → Nat
  RTIME_GetByte : Nat
  IDE_GetByte : Nat → Bool → Nat
  FILENAME_MAX : Nat
  f_open_write : World → String → Bool
  Atari800_SetMachineType : Machine → World → World
  Atari800_InitialiseMachine : World → World
  Atari800_Coldstart : World → World

namespace World

/-- Dereference of a slot pointer. -/
def cart (W : World) : Slot → CARTRIDGE_image_t
  | .main => W.CARTRIDGE_main
  | .piggyback => W.CARTRIDGE_piggyback

/-- Assignment through a slot pointer. -/
def setCart (W : World) (s : Slot) (c : CARTRIDGE_image_t) : World :=
  match s with
  | .main => { W with CARTRIDGE_main := c }
  | .piggyback => { W with CARTRIDGE_piggyback := c }

/-- The cartridge `*active_cart`. -/
def active (W : World) : CARTRIDGE_image_t := W.cart W.active_cart

/-- Record one call to the memory module. -/
def emit (W : World) (op : MemOp) : World := { W with ops := W.ops ++ [op] }

/-- A pointer `active_cart->image + offset`. -/
def img (W : World) (offset : Int) : Ptr := .image W.active_cart offset

end World

/-- Bytes `buf[offset .. offset + bytes.length)` replaced by `bytes`; a copy
that would run outside the buffer is left out. -/
def pokeBytes (buf : List Nat) (offset : Int) (bytes : List Nat) : List Nat :=
  if 0 ≤ offset ∧ offset + bytes.length ≤ buf.length then
    buf.take offset.toNat ++ bytes ++ buf.drop (offset.toNat + bytes.length)
  else buf

/-- Embedding of `MEMORY_CopyToCart(addr1, addr2, active_cart->image + offset)`: the bytes
at `addr1..addr2` of emulated memory are copied into the active image. -/
def MEMORY_CopyToCart (E : Env) (addr1 addr2 : Nat) (offset : Int) (W : World) : World :=
  let bytes := (List.range (addr2 + 1 - addr1)).map (fun i => E.MEMORY_mem W (addr1 + i))
  let c := W.active
  let W1 := W.setCart W.active_cart
    { c with image := c.image.map (fun buf => pokeBytes buf offset bytes) }
  W1.emit (.CopyToCart addr1 addr2 (W.img offset))

/-! ## Bank mapping -/

/-- Embedding of `Calculate_RamCart_Address`. -/
def Calculate_RamCart_Address (k : Kind) (cart_state : Int) : Int :=
  let state := cart_state
  let state :=
    match k with
    | CARTRIDGE_RAMCART_64 | CARTRIDGE_RAMCART_128 | CARTRIDGE_DOUBLE_RAMCART_256 =>
      let state := if band cart_state 0x2000 = 0 then band state 0xfffb else state
      bxor state (shr (band cart_state 0x4000) 12)
    | CARTRIDGE_RAMCART_1M => bxor state (shr (band cart_state 0x4000) 12)
    | _ => state
  bor (bor (bor (shl (band state 0x0038) 11) (shl (band state 0x0004) 15))
    (shl (band state 0x0fc0) 12)) (shl (band state 0x40000) 6)

/-- Embedding of `Calculate_SiDiCar_Address`. -/
def Calculate_SiDiCar_Address (_k : Kind) (cart_state : Int) : Int :=
  shl (band cart_state 0x0003) 11

/-- Embedding of `set_bank_809F`. -/
def set_bank_809F (main : Int) (old_state : Int) (W : World) : World :=
  if band W.active.state 0x80 ≠ 0 then
    (W.emit .Cart809fDisable).emit .CartA0bfDisable
  else
    let W := (W.emit .Cart809fEnable).emit .CartA0bfEnable
    let W := W.emit (.CopyFromCart 0x8000 0x9fff (W.img (W.active.state * 0x2000)))
    if band old_state 0x80 ≠ 0 then W.emit (.CopyFromCart 0xa000 0xbfff (W.img main)) else W

/-- Embedding of `set_bank_XEGS_8F_64`. -/
def set_bank_XEGS_8F_64 (W : World) : World :=
  if band W.active.state 0x08 ≠ 0 then
    W.emit (.CopyFromCart 0x8000 0x9fff (W.img (band W.active.state (bnot 0x08) * 0x2000)))
  else
    W.emit (.dFillMem 0x8000 0xff 0x2000)

/-- Embedding of `set_bank_A0AF`. -/
def set_bank_A0AF (main : Int) (old_state : Int) (W : World) : World :=
  if W.active.state < 0 then W.emit .CartA0bfDisable
  else
    let W := W.emit .CartA0bfEnable
    let W :=
      if W.active.state = 0xff then W.emit (.dFillMem 0xa000 0xff 0x1000)
      else W.emit (.CopyFromCart 0xa000 0xafff (W.img (W.active.state * 0x1000)))
    if old_state < 0 then W.emit (.CopyFromCart 0xb000 0xbfff (W.img main)) else W

/-- Embedding of `set_bank_A0BF`. -/
def set_bank_A0BF (disable_mask bank_mask : Int) (W : World) : World :=
  if band W.active.state disable_mask ≠ 0 then W.emit .CartA0bfDisable
  else
    (W.emit .CartA0bfEnable).emit
      (.CopyFromCart 0xa000 0xbfff (W.img (band W.active.state bank_mask * 0x2000)))

/-- Embedding of `set_bank_80BF`. -/
def set_bank_80BF (W : World) : World :=
  if band W.active.state 0x80 ≠ 0 then
    (W.emit .Cart809fDisable).emit .CartA0bfDisable
  else
    ((W.emit .Cart809fEnable).emit .CartA0bfEnable).emit
      (.CopyFromCart 0x8000 0xbfff (W.img (band W.active.state 0x7f * 0x4000)))

/-- Embedding of `set_bank_5200_SUPER`. -/
def set_bank_5200_SUPER (W : World) : World :=
  W.emit (.CopyFromCart 0x4000 0xbfff (W.img (W.active.state * 0x8000)))

/-- Embedding of `set_bank_SDX_128`. -/
def set_bank_SDX_128 (W : World) : World :=
  if band W.active.state 8 ≠ 0 then W.emit .CartA0bfDisable
  else
    (W.emit .CartA0bfEnable).emit
      (.CopyFromCart 0xa000 0xbfff
        (W.img ((band W.active.state 7 + shr (band W.active.state 0x10) 1) * 0x2000)))

/-- Embedding of `set_bank_SIC`. -/
def set_bank_SIC (n : Int) (W : World) : World :=
  let W :=
    if band W.active.state 0x20 = 0 then W.emit .Cart809fDisable
    else
      (W.emit .Cart809fEnable).emit
        (.CopyFromCart 0x8000 0x9fff (W.img (band W.active.state n * 0x4000)))
  if band W.active.state 0x40 ≠ 0 then W.emit .CartA0bfDisable
  else
    (W.emit .CartA0bfEnable).emit
      (.CopyFromCart 0xa000 0xbfff (W.img (band W.active.state n * 0x4000 + 0x2000)))

/-- Embedding of `set_bank_MEGA_4096`. -/
def set_bank_MEGA_4096 (W : World) : World :=
  if W.active.state = 0xff then
    (W.emit .Cart809fDisable).emit .CartA0bfDisable
  else
    ((W.emit .Cart809fEnable).emit .CartA0bfEnable).emit
      (.CopyFromCart 0x8000 0xbfff (W.img (W.active.state * 0x4000)))

/-- First block of `set_bank_RAMCART`: when the old bank was writable, the
RAM windows are copied back into the image. -/
def RAMCART_writeback (E : Env) (mask : Int) (old_state : Int) (W : World) : World :=
  if band old_state 0x1000 ≠ 0 then
    let W :=
      if band old_state 0x0002 ≠ 0 then
        let offset := Calculate_RamCart_Address (E.kind W.active.type) (band old_state mask)
        MEMORY_CopyToCart E 0x8000 0x9fff offset W
      else W
    if band old_state 0x0001 ≠ 0 then
      let offset := Calculate_RamCart_Address (E.kind W.active.type) (band old_state mask)
      MEMORY_CopyToCart E 0xa000 0xbfff (offset + 0x2000) W
    else W
  else W

/-- Second block of `set_bank_RAMCART`: the window `$8000-$9FFF`. -/
def RAMCART_map809f (E : Env) (mask : Int) (W : World) : World :=
  if band W.active.state 0x0002 ≠ 0 then
    let offset := Calculate_RamCart_Address (E.kind W.active.type) (band W.active.state mask)
    let W := W.emit .Cart809fEnable
    let W := if band W.active.state 0x1000 ≠ 0 then W.emit (.SetRAM 0x8000 0x9fff) else W
    W.emit (.CopyFromCart 0x8000 0x9fff (W.img offset))
  else W.emit .Cart809fDisable

/-- Third block of `set_bank_RAMCART`: the window `$A000-$BFFF`. -/
def RAMCART_mapA0bf (E : Env) (mask : Int) (W : World) : World :=
  if bxor (band W.active.state 0x0001) (shr (band W.active.state 0x1000) 12) ≠ 0 then
    W.emit .CartA0bfDisable
  else
    let offset := Calculate_RamCart_Address (E.kind W.active.type) (band W.active.state mask)
    let W := W.emit .CartA0bfEnable
    let W := if band W.active.state 0x1000 ≠ 0 then W.emit (.SetRAM 0xa000 0xbfff) else W
    W.emit (.CopyFromCart 0xa000 0xbfff (W.img (offset + 0x2000)))

/-- Embedding of `set_bank_RAMCART`: its three blocks in order. -/
def set_bank_RAMCART (E : Env) (mask : Int) (old_state : Int) (W : World) : World :=
  RAMCART_mapA0bf E mask (RAMCART_map809f E mask (RAMCART_writeback E mask old_state W))

/-- Embedding of `set_bank_SIDICAR`. -/
def set_bank_SIDICAR (E : Env) (mask : Int) (old_state : Int) (W : World) : World :=
  let W :=
    if band old_state 0x10 ≠ 0 then
      let offset := Calculate_SiDiCar_Address (E.kind W.active.type) (band old_state mask)
      MEMORY_CopyToCart E 0x8000 0x9fff offset W
    else W
  if band W.active.state 0x10 ≠ 0 then
    let offset := Calculate_SiDiCar_Address (E.kind W.active.type) (band W.active.state mask)
    let W := W.emit .Cart809fEnable
    let W := W.emit (.SetRAM 0x8000 0x9fff)
    W.emit (.CopyFromCart 0x8000 0x9fff (W.img offset))
  else W.emit .Cart809fDisable

/-- Embedding of `SwitchBank`: maps the banked part of `*active_cart` for its
current state. -/
def SwitchBank (E : Env) (old_state : Int) (W : World) : World :=
  match E.kind W.active.type with
  | CARTRIDGE_OSS_034M_16 | CARTRIDGE_OSS_043M_16 => set_bank_A0AF 0x3000 old_state W
  | CARTRIDGE_OSS_M091_16 | CARTRIDGE_OSS_8 => set_bank_A0AF 0x0000 old_state W
  | CARTRIDGE_WILL_64 | CARTRIDGE_EXP_64 | CARTRIDGE_DIAMOND_64 | CARTRIDGE_SDX_64
  | CARTRIDGE_WILL_32 | CARTRIDGE_ATRAX_SDX_64 | CARTRIDGE_ADAWLIAH_64 => set_bank_A0BF 8 7 W
  | CARTRIDGE_DB_32 | CARTRIDGE_XEGS_32 | CARTRIDGE_SWXEGS_32 => set_bank_809F 0x6000 old_state W
  | CARTRIDGE_XEGS_07_64 | CARTRIDGE_SWXEGS_64 => set_bank_809F 0xe000 old_state W
  | CARTRIDGE_XEGS_8F_64 => set_bank_XEGS_8F_64 W
  | CARTRIDGE_XEGS_128 | CARTRIDGE_SWXEGS_128 => set_bank_809F 0x1e000 old_state W
  | CARTRIDGE_XEGS_256 | CARTRIDGE_SWXEGS_256 => set_bank_809F 0x3e000 old_state W
  | CARTRIDGE_XEGS_512 | CARTRIDGE_SWXEGS_512 => set_bank_809F 0x7e000 old_state W
  | CARTRIDGE_XEGS_1024 | CARTRIDGE_SWXEGS_1024 => set_bank_809F 0xfe000 old_state W
  | CARTRIDGE_ATRAX_DEC_128 | CARTRIDGE_ATMAX_OLD_1024 | CARTRIDGE_ATRAX_128
  | CARTRIDGE_ATMAX_NEW_1024 => set_bank_A0BF 0x80 0x7f W
  | CARTRIDGE_ATMAX_128 | CARTRIDGE_TURBOSOFT_64 | CARTRIDGE_TURBOSOFT_128 =>
    set_bank_A0BF 0x10 0x0f W
  | CARTRIDGE_MEGA_16 | CARTRIDGE_MEGA_32 | CARTRIDGE_MEGA_64 | CARTRIDGE_MEGA_128
  | CARTRIDGE_MEGA_256 | CARTRIDGE_MEGA_512 | CARTRIDGE_MEGA_1024 | CARTRIDGE_MEGA_2048
  | CARTRIDGE_MEGAMAX_2048 => set_bank_80BF W
  | CARTRIDGE_PHOENIX_8 | CARTRIDGE_BLIZZARD_4 =>
    if W.active.state ≠ 0 then W.emit .CartA0bfDisable else W
  | CARTRIDGE_BLIZZARD_16 =>
    if W.active.state ≠ 0 then (W.emit .Cart809fDisable).emit .CartA0bfDisable else W
  | CARTRIDGE_SDX_128 | CARTRIDGE_ATRAX_SDX_128 => set_bank_SDX_128 W
  | CARTRIDGE_AST_32 =>
    if W.active.state < 0x10000 then W.emit .CartA0bfDisable else W
  | CARTRIDGE_ULTRACART_32 | CARTRIDGE_BLIZZARD_32 | CARTRIDGE_ADAWLIAH_32 => set_bank_A0BF 4 3 W
  | CARTRIDGE_SIC_128 => set_bank_SIC 0x07 W
  | CARTRIDGE_SIC_256 => set_bank_SIC 0x0f W
  | CARTRIDGE_SIC_512 => set_bank_SIC 0x1f W
  | CARTRIDGE_MEGA_4096 => set_bank_MEGA_4096 W
  | CARTRIDGE_THECART_128M => set_bank_A0BF 0x4000 0x3fff W
  | CARTRIDGE_THECART_32M => set_bank_A0BF 0x4000 0x0fff W
  | CARTRIDGE_THECART_64M => set_bank_A0BF 0x4000 0x1fff W
  | CARTRIDGE_RAMCART_64 => set_bank_RAMCART E 0x00018 old_state W
  | CARTRIDGE_RAMCART_128 => set_bank_RAMCART E 0x00038 old_state W
  | CARTRIDGE_DOUBLE_RAMCART_256 => set_bank_RAMCART E 0x0603c old_state W
  | CARTRIDGE_RAMCART_1M => set_bank_RAMCART E 0x000fc old_state W
  | CARTRIDGE_RAMCART_2M => set_bank_RAMCART E 0x001fc old_state W
  | CARTRIDGE_RAMCART_4M => set_bank_RAMCART E 0x003fc old_state W
  | CARTRIDGE_RAMCART_8M => set_bank_RAMCART E 0x007fc old_state W
  | CARTRIDGE_RAMCART_16M => set_bank_RAMCART E 0x00ffc old_state W
  | CARTRIDGE_RAMCART_32M => set_bank_RAMCART E 0x40ffc old_state W
  | CARTRIDGE_SIDICAR_32 => set_bank_SIDICAR E 0x03 old_state W
  | _ => W

/-- Embedding of `CARTRIDGE_UpdateState`. -/
def CARTRIDGE_UpdateState (E : Env) (cart : Slot) (old_state : Int) (W : World) : World :=
  if cart = W.active_cart then SwitchBank E old_state W else W

/-- The test `(!Atari800_disable_basic || BINLOAD_loading_basic) && MEMORY_have_basic`. -/
def basicWanted (W : World) : Bool :=
  (!W.Atari800_disable_basic || W.BINLOAD_loading_basic) && W.MEMORY_have_basic

/-- Record a list of calls to the memory module, in order. -/
def emits (W : World) (l : List MemOp) : World := l.foldl World.emit W

/-- The XEGS arm of `MapActiveCart`: the fixed last bank at `$A000-$BFFF`. -/
def mapXEGS (main : Int) (W : World) : World :=
  if band W.active.state 0x80 = 0 then
    emits W [.CartA0bfEnable, .CopyFromCart 0xa000 0xbfff (W.img main)]
  else W

/-- Embedding of `MapActiveCart`, 5200 branch. -/
def MapActiveCart5200 (E : Env) (W : World) : World :=
  let W := emits W [.SetROM 0x4ff6 0x4ff9, .SetROM 0x5ff6 0x5ff9, .SetROM 0xbfc0 0xbfff]
  match E.kind W.active.type with
  | CARTRIDGE_5200_SUPER_64 | CARTRIDGE_5200_SUPER_128 | CARTRIDGE_5200_SUPER_256
  | CARTRIDGE_5200_SUPER_512 =>
    let W := set_bank_5200_SUPER W
    if E.PAGED_ATTRIB then
      emits W [.readmap 0xbf .CARTRIDGE_5200SuperCartGetByte,
               .writemap 0xbf .CARTRIDGE_5200SuperCartPutByte]
    else W.emit (.SetHARDWARE 0xbfc0 0xbfff)
  | CARTRIDGE_5200_32 => W.emit (.CopyFromCart 0x4000 0xbfff (W.img 0))
  | CARTRIDGE_5200_EE_16 =>
    emits W [.CopyFromCart 0x4000 0x5fff (W.img 0), .CopyFromCart 0x6000 0x9fff (W.img 0),
             .CopyFromCart 0xa000 0xbfff (W.img 0x2000)]
  | CARTRIDGE_5200_40 =>
    let W := emits W
      [.CopyFromCart 0x4000 0x4fff (W.img (band W.active.state 0x03 * 0x1000)),
       .CopyFromCart 0x5000 0x5fff
          (W.img (0x4000 + shr (band W.active.state 0x0c) 2 * 0x1000)),
       .CopyFromCart 0x8000 0x9fff (W.img 0x8000),
       .CopyFromCart 0xa000 0xbfff (W.img 0x8000)]
    if E.PAGED_ATTRIB then
      emits W [.readmap 0x4f .CARTRIDGE_BountyBob1GetByte,
               .readmap 0x5f .CARTRIDGE_BountyBob2GetByte,
               .writemap 0x4f .CARTRIDGE_BountyBob1PutByte,
               .writemap 0x5f .CARTRIDGE_BountyBob2PutByte]
    else emits W [.SetHARDWARE 0x4ff6 0x4ff9, .SetHARDWARE 0x5ff6 0x5ff9]
  | CARTRIDGE_5200_NS_16 => W.emit (.CopyFromCart 0x8000 0xbfff (W.img 0))
  | CARTRIDGE_5200_8 =>
    emits W [.CopyFromCart 0x8000 0x9fff (W.img 0), .CopyFromCart 0xa000 0xbfff (W.img 0)]
  | CARTRIDGE_5200_4 =>
    emits W [.CopyFromCart 0x8000 0x8fff (W.img 0), .CopyFromCart 0x9000 0x9fff (W.img 0),
             .CopyFromCart 0xa000 0xafff (W.img 0), .CopyFromCart 0xb000 0xbfff (W.img 0)]
  | _ => W.emit (.dFillMem 0x4000 0 0x8000)

/-- Embedding of `MapActiveCart`, computer (non-5200) branch. -/
def MapActiveCartComputer (E : Env) (W : World) : World :=
  match E.kind W.active.type with
  | CARTRIDGE_STD_2 =>
    SwitchBank E W.active.state (emits W [.Cart809fDisable, .CartA0bfEnable,
      .dFillMem 0xa000 0xff 0x1800, .CopyFromCart 0xb800 0xbfff (W.img 0)])
  | CARTRIDGE_STD_4 =>
    SwitchBank E W.active.state (emits W [.Cart809fDisable, .CartA0bfEnable,
      .dFillMem 0xa000 0xff 0x1000, .CopyFromCart 0xb000 0xbfff (W.img 0)])
  | CARTRIDGE_BLIZZARD_4 =>
    SwitchBank E W.active.state (emits W [.Cart809fDisable, .CartA0bfEnable,
      .CopyFromCart 0xa000 0xafff (W.img 0), .CopyFromCart 0xb000 0xbfff (W.img 0)])
  | CARTRIDGE_STD_8 | CARTRIDGE_PHOENIX_8 =>
    SwitchBank E W.active.state (emits W [.Cart809fDisable, .CartA0bfEnable,
      .CopyFromCart 0xa000 0xbfff (W.img 0)])
  | CARTRIDGE_LOW_BANK_8 =>
    SwitchBank E W.active.state (emits W [.Cart809fEnable, .CartA0bfDisable,
      .CopyFromCart 0x8000 0x9fff (W.img 0)])
  | CARTRIDGE_STD_16 | CARTRIDGE_BLIZZARD_16 =>
    SwitchBank E W.active.state (emits W [.Cart809fEnable, .CartA0bfEnable,
      .CopyFromCart 0x8000 0xbfff (W.img 0)])
  | CARTRIDGE_OSS_034M_16 | CARTRIDGE_OSS_043M_16 =>
    let W := W.emit .Cart809fDisable
    let W :=
      if W.active.state ≥ 0 then
        emits W [.CartA0bfEnable, .CopyFromCart 0xb000 0xbfff (W.img 0x3000)]
      else W
    SwitchBank E W.active.state W
  | CARTRIDGE_OSS_M091_16 | CARTRIDGE_OSS_8 =>
    let W := W.emit .Cart809fDisable
    let W :=
      if W.active.state ≥ 0 then
        emits W [.CartA0bfEnable, .CopyFromCart 0xb000 0xbfff (W.img 0)]
      else W
    SwitchBank E W.active.state W
  | CARTRIDGE_WILL_64 | CARTRIDGE_EXP_64 | CARTRIDGE_DIAMOND_64 | CARTRIDGE_SDX_64
  | CARTRIDGE_ATRAX_DEC_128 | CARTRIDGE_WILL_32 | CARTRIDGE_ATMAX_128
  | CARTRIDGE_ATMAX_OLD_1024 | CARTRIDGE_SDX_128 | CARTRIDGE_ATRAX_SDX_64
  | CARTRIDGE_ATRAX_SDX_128 | CARTRIDGE_TURBOSOFT_64 | CARTRIDGE_TURBOSOFT_128
  | CARTRIDGE_ULTRACART_32 | CARTRIDGE_BLIZZARD_32 | CARTRIDGE_THECART_128M
  | CARTRIDGE_THECART_32M | CARTRIDGE_THECART_64M | CARTRIDGE_ATRAX_128
  | CARTRIDGE_ADAWLIAH_32 | CARTRIDGE_ADAWLIAH_64 | CARTRIDGE_ATMAX_NEW_1024 =>
    SwitchBank E W.active.state (W.emit .Cart809fDisable)
  | CARTRIDGE_DB_32 | CARTRIDGE_XEGS_32 | CARTRIDGE_SWXEGS_32 =>
    SwitchBank E W.active.state (mapXEGS 0x6000 W)
  | CARTRIDGE_XEGS_07_64 | CARTRIDGE_SWXEGS_64 | CARTRIDGE_XEGS_8F_64 =>
    SwitchBank E W.active.state (mapXEGS 0xe000 W)
  | CARTRIDGE_XEGS_128 | CARTRIDGE_SWXEGS_128 =>
    SwitchBank E W.active.state (mapXEGS 0x1e000 W)
  | CARTRIDGE_XEGS_256 | CARTRIDGE_SWXEGS_256 =>
    SwitchBank E W.active.state (mapXEGS 0x3e000 W)
  | CARTRIDGE_XEGS_512 | CARTRIDGE_SWXEGS_512 =>
    SwitchBank E W.active.state (mapXEGS 0x7e000 W)
  | CARTRIDGE_XEGS_1024 | CARTRIDGE_SWXEGS_1024 =>
    SwitchBank E W.active.state (mapXEGS 0xfe000 W)
  | CARTRIDGE_BBSB_40 =>
    let W := emits W
      [.Cart809fEnable, .CartA0bfEnable,
       .CopyFromCart 0x8000 0x8fff (W.img (band W.active.state 0x03 * 0x1000)),
       .CopyFromCart 0x9000 0x9fff
          (W.img (0x4000 + shr (band W.active.state 0x0c) 2 * 0x1000)),
       .CopyFromCart 0xa000 0xbfff (W.img 0x8000)]
    if E.PAGED_ATTRIB then
      emits W [.readmap 0x8f .CARTRIDGE_BountyBob1GetByte,
               .readmap 0x9f .CARTRIDGE_BountyBob2GetByte,
               .writemap 0x8f .CARTRIDGE_BountyBob1PutByte,
               .writemap 0x9f .CARTRIDGE_BountyBob2PutByte]
    else emits W [.SetHARDWARE 0x8ff6 0x8ff9, .SetHARDWARE 0x9ff6 0x9ff9]
  | CARTRIDGE_RIGHT_4 =>
    if W.Atari800_machine_type = .Atari800_MACHINE_800 then
      let W := emits W [.Cart809fEnable, .dFillMem 0x8000 0xff 0x1000,
        .CopyFromCart 0x9000 0x9fff (W.img 0)]
      if basicWanted W then
        emits W [.CartA0bfEnable, .CopyFromCart 0xa000 0xbfff .MEMORY_basic]
      else W.emit .CartA0bfDisable
    else emits W [.Cart809fDisable, .CartA0bfDisable]
  | CARTRIDGE_RIGHT_8 =>
    if W.Atari800_machine_type = .Atari800_MACHINE_800 then
      let W := emits W [.Cart809fEnable, .CopyFromCart 0x8000 0x9fff (W.img 0)]
      if !W.Atari800_builtin_basic && basicWanted W then
        emits W [.CartA0bfEnable, .CopyFromCart 0xa000 0xbfff .MEMORY_basic]
      else W.emit .CartA0bfDisable
    else emits W [.Cart809fDisable, .CartA0bfDisable]
  | CARTRIDGE_AST_32 =>
    let W := emits W [.Cart809fDisable, .CartA0bfEnable]
    let W := emits W ((List.range 0x20).map (fun j =>
      .CopyFromCart (0xa000 + 0x100 * j) (0xa000 + 0x100 * j + 0xff)
        (W.img (band W.active.state 0xffff))))
    SwitchBank E W.active.state W
  | CARTRIDGE_MEGA_16 | CARTRIDGE_MEGA_32 | CARTRIDGE_MEGA_64 | CARTRIDGE_MEGA_128
  | CARTRIDGE_MEGA_256 | CARTRIDGE_MEGA_512 | CARTRIDGE_MEGA_1024 | CARTRIDGE_MEGA_2048
  | CARTRIDGE_MEGA_4096 | CARTRIDGE_SIC_128 | CARTRIDGE_SIC_256 | CARTRIDGE_SIC_512
  | CARTRIDGE_MEGAMAX_2048 | CARTRIDGE_RAMCART_64 | CARTRIDGE_RAMCART_128
  | CARTRIDGE_DOUBLE_RAMCART_256 | CARTRIDGE_RAMCART_1M | CARTRIDGE_RAMCART_2M
  | CARTRIDGE_RAMCART_4M | CARTRIDGE_RAMCART_8M | CARTRIDGE_RAMCART_16M
  | CARTRIDGE_RAMCART_32M | CARTRIDGE_SIDICAR_32 =>
    SwitchBank E W.active.state W
  | _ =>
    let W := W.emit .Cart809fDisable
    if !W.Atari800_builtin_basic && basicWanted W then
      emits W [.CartA0bfEnable, .CopyFromCart 0xa000 0xbfff .MEMORY_basic]
    else W.emit .CartA0bfDisable

/-- Embedding of `MapActiveCart`: maps `*active_cart` to memory according to
its state. -/
def MapActiveCart (E : Env) (W : World) : World :=
  if W.Atari800_machine_type = .Atari800_MACHINE_5200 then MapActiveCart5200 E W
  else MapActiveCartComputer E W

/-! ## Accesses to page `$D5` -/

/-- Embedding of `CartIsPassthrough`. -/
def CartIsPassthrough (E : Env) (type : Int) : Bool :=
  match E.kind type with
  | CARTRIDGE_SDX_64 | CARTRIDGE_SDX_128 | CARTRIDGE_ATRAX_SDX_64 | CARTRIDGE_ATRAX_SDX_128 => true
  | _ => false

/-- The piggyback switch inside the SDX arms of `access_D5`: when the first
cartridge is accessed, `active_cart` follows the pattern `(state & 0x0c) == 0x08`
of the new state and the newly active cartridge is mapped. -/
def switchPiggyback (E : Env) (cart : Slot) (old_state new_state : Int) (W : World) : World :=
  if cart = .main then
    if band old_state 0x0c = 0x08 then
      if band new_state 0x0c ≠ 0x08 then MapActiveCart E { W with active_cart := .main }
      else W
    else if band new_state 0x0c = 0x08 then
      MapActiveCart E { W with active_cart := .piggyback }
    else W
  else W

/-- The bank choice of the two OSS 16KB schemes: state for `addr & 0x07`, with
`a37` the bank for `0x03`/`0x07` and `a4` the bank for `0x04`. -/
def ossBank (addr : Nat) (a37 a4 : Int) : Int :=
  if addr &&& 0x08 ≠ 0 then -1
  else if addr &&& 0x07 = 0x00 then 0
  else if addr &&& 0x07 = 0x01 then 0xff
  else if addr &&& 0x07 = 0x03 ∨ addr &&& 0x07 = 0x07 then a37
  else if addr &&& 0x07 = 0x04 then a4
  else 0xff

/-- Embedding of `access_D5`: the new state of a cartridge switched by any access to page
`$D5`; `none` is the return value `FALSE` (the cartridge did not react). -/
def access_D5 (E : Env) (cart : Slot) (addr : Nat) (W : World) : Option Int × World :=
  let old_state := (W.cart cart).state
  match E.kind (W.cart cart).type with
  | CARTRIDGE_OSS_034M_16 => (some (ossBank addr 1 2), W)
  | CARTRIDGE_OSS_043M_16 => (some (ossBank addr 2 1), W)
  | CARTRIDGE_DB_32 => (some ((addr &&& 0x03 : Nat) : Int), W)
  | CARTRIDGE_WILL_64 => (some ((addr &&& 0x0f : Nat) : Int), W)
  | CARTRIDGE_WILL_32 => (some ((addr &&& 0x0b : Nat) : Int), W)
  | CARTRIDGE_EXP_64 =>
    if addr &&& 0xf0 ≠ 0x70 then (none, W)
    else (some (((addr ^^^ 7) &&& 0x0f : Nat) : Int), W)
  | CARTRIDGE_DIAMOND_64 =>
    if addr &&& 0xf0 ≠ 0xd0 then (none, W)
    else (some (((addr ^^^ 7) &&& 0x0f : Nat) : Int), W)
  | CARTRIDGE_SDX_64 | CARTRIDGE_ATRAX_SDX_64 =>
    if addr &&& 0xf0 ≠ 0xe0 then (none, W)
    else
      let new_state : Int :=
        if addr &&& 0x08 ≠ 0 then ((addr &&& 0x0c : Nat) : Int)
        else (((addr ^^^ 0x07) &&& 0x0f : Nat) : Int)
      (some new_state, switchPiggyback E cart old_state new_state W)
  | CARTRIDGE_SDX_128 | CARTRIDGE_ATRAX_SDX_128 =>
    if addr &&& 0xe0 ≠ 0xe0 then (none, W)
    else
      let new_state : Int :=
        if addr &&& 0x08 ≠ 0 then ((addr &&& 0x0c : Nat) : Int)
        else (((addr ^^^ 0x17) &&& 0x1f : Nat) : Int)
      (some new_state, switchPiggyback E cart old_state new_state W)
  | CARTRIDGE_OSS_M091_16 =>
    if addr &&& 0x09 = 0x00 then (some 1, W)
    else if addr &&& 0x09 = 0x01 then (some 3, W)
    else if addr &&& 0x09 = 0x08 then (some (-1), W)
    else (some 2, W)
  | CARTRIDGE_BLIZZARD_4 | CARTRIDGE_PHOENIX_8 | CARTRIDGE_BLIZZARD_16 => (some 1, W)
  | CARTRIDGE_ATMAX_128 =>
    if addr &&& 0xe0 ≠ 0 then (none, W)
    else (some ((addr &&& 0x1f : Nat) : Int), W)
  | CARTRIDGE_TURBOSOFT_128 => (some ((addr &&& 0x1f : Nat) : Int), W)
  | CARTRIDGE_TURBOSOFT_64 => (some ((addr &&& 0x17 : Nat) : Int), W)
  | CARTRIDGE_ATMAX_OLD_1024 | CARTRIDGE_MEGAMAX_2048 | CARTRIDGE_ATMAX_NEW_1024 =>
    (some (addr : Int), W)
  | CARTRIDGE_OSS_8 =>
    if addr &&& 0x09 = 0x00 ∨ addr &&& 0x09 = 0x01 then (some 1, W)
    else if addr &&& 0x09 = 0x08 then (some (-1), W)
    else (some 0, W)
  | CARTRIDGE_ULTRACART_32 => (some (Int.tmod (old_state + 1) 5), W)
  | CARTRIDGE_ADAWLIAH_32 => (some (band (old_state + 1) 0x03), W)
  | CARTRIDGE_ADAWLIAH_64 => (some (band (old_state + 1) 0x07), W)
  | CARTRIDGE_BLIZZARD_32 =>
    if old_state < 4 then (some (old_state + 1), W) else (none, W)
  | _ => (none, W)

/-- The byte `image[i]` of a slot; `none` when the image is `NULL` or `i` lies
outside it. -/
def imageByte (c : CARTRIDGE_image_t) (i : Int) : Option Nat :=
  match c.image with
  | none => none
  | some buf => if 0 ≤ i then buf[i.toNat]? else none

/-- The second half of `GetByte` ("Determine returned byte value"): the byte
a read of `addr` returns from cartridge `c`. -/
def GetByte_value (E : Env) (c : CARTRIDGE_image_t) (addr : Nat) : Option Nat :=
  match E.kind c.type with
  | CARTRIDGE_AST_32 => imageByte c (bor (band c.state 0xff00) ((addr &&& 0xff : Nat) : Int))
  | CARTRIDGE_SIC_512 | CARTRIDGE_SIC_256 | CARTRIDGE_SIC_128 | CARTRIDGE_MEGA_4096 =>
    if addr &&& 0xe0 = 0x00 then some (toUBYTE c.state) else some 0xff
  | CARTRIDGE_THECART_128M | CARTRIDGE_THECART_32M | CARTRIDGE_THECART_64M =>
    if addr = 0xd5a0 then some (toUBYTE (band c.state 0x00ff))
    else if addr = 0xd5a1 then some (toUBYTE (shr (band c.state 0x3f00) 8))
    else if addr = 0xd5a2 then some (toUBYTE (shr (band (bnot c.state) 0x4000) 14))
    else some 0xff
  | CARTRIDGE_RAMCART_32M | CARTRIDGE_RAMCART_16M | CARTRIDGE_RAMCART_8M =>
    if addr = 0xd501 then
      some (toUBYTE (bor (shr (band c.state 0x0f00) 8) (shr (band c.state 0x40000) 14)))
    else if addr = 0xd500 then some (toUBYTE c.state)
    else some 0xff
  | CARTRIDGE_RAMCART_4M | CARTRIDGE_RAMCART_2M =>
    if addr = 0xd500 then some (toUBYTE c.state) else some 0xff
  | CARTRIDGE_RAMCART_1M =>
    if (band c.state 0x10000 = 0 ∨ addr = 0xd500) ∧ band c.state 0x20000 ≠ 0 then
      some (toUBYTE c.state)
    else some 0xff
  | CARTRIDGE_DOUBLE_RAMCART_256 =>
    if band c.state 0x20000 ≠ 0 then some (toUBYTE (bor c.state 0x00c0)) else some 0xff
  | _ => some 0xff

/-- The first half of `GetByte` ("Set the cartridge's new state"). -/
def GetByte_switch (E : Env) (cart : Slot) (addr : Nat) (no_side_effects : Bool)
    (W : World) : World :=
  let old_state := (W.cart cart).state
  if no_side_effects then W
  else
    match access_D5 E cart addr W with
    | (some new_state, W1) =>
      if new_state ≠ old_state then
        let W2 := W1.setCart cart { W1.cart cart with state := new_state }
        if cart = W2.active_cart then SwitchBank E old_state W2 else W2
      else W1
    | (none, W1) => W1

/-- Embedding of `GetByte`: a read of `addr` in page `$D5` from slot `cart`. The byte is
`none` when the C code reads outside the image. -/
def GetByte (E : Env) (cart : Slot) (addr : Nat) (no_side_effects : Bool)
    (W : World) : Option Nat × World :=
  let W1 := GetByte_switch E cart addr no_side_effects W
  (GetByte_value E (W1.cart cart) addr, W1)

/-- C `a & b` on two bytes, either of which may be undefined. -/
def andBytes (a b : Option Nat) : Option Nat :=
  match a, b with
  | some x, some y => some (x &&& y)
  | _, _ => none

/-- Embedding of `CARTRIDGE_GetByte`: a read from `$D500-$D5FF`. C leaves open which
operand of the final `&` is evaluated first; `Env.and_right_first` says. -/
def CARTRIDGE_GetByte (E : Env) (addr : Nat) (no_side_effects : Bool)
    (W : World) : Option Nat × World :=
  if W.AF80_enabled then (some (E.AF80_D5GetByte addr no_side_effects), W)
  else if W.BIT3_enabled then (some (E.BIT3_D5GetByte addr no_side_effects), W)
  else if W.RTIME_enabled ∧ (addr = 0xd5b8 ∨ addr = 0xd5b9) then (some E.RTIME_GetByte, W)
  else if W.IDE_enabled ∧ addr ≤ 0xd50f then (some (E.IDE_GetByte addr no_side_effects), W)
  else if E.and_right_first then
    let r2 := GetByte E .piggyback addr no_side_effects W
    let r1 := GetByte E .main addr no_side_effects r2.2
    (andBytes r1.1 r2.1, r1.2)
  else
    let r1 := GetByte E .main addr no_side_effects W
    let r2 := GetByte E .piggyback addr no_side_effects r1.2
    (andBytes r1.1 r2.1, r2.2)

/-- The end of `GetByte`'s first half and of `PutByte`: if the state changed,
it is stored and, for the active cartridge, the bank is switched. -/
def commit_state (E : Env) (cart : Slot) (old_state new_state : Int) (W : World) : World :=
  if new_state ≠ old_state then
    let W2 := W.setCart cart { W.cart cart with state := new_state }
    if cart = W2.active_cart then SwitchBank E old_state W2 else W2
  else W

/-- The first half of `PutByte` ("Set the cartridge's new state"): the new
state for a write of `byte` to `addr`, `none` where the code returns without
touching the state. -/
def PutByte_state (E : Env) (cart : Slot) (addr : Nat) (byte : Nat) (W : World) :
    Option Int × World :=
  let old_state := (W.cart cart).state
  let new_state := old_state
  match E.kind (W.cart cart).type with
  | CARTRIDGE_XEGS_32 => (some ((byte &&& 0x03 : Nat) : Int), W)
  | CARTRIDGE_XEGS_07_64 => (some ((byte &&& 0x07 : Nat) : Int), W)
  | CARTRIDGE_XEGS_128 | CARTRIDGE_XEGS_8F_64 => (some ((byte &&& 0x0f : Nat) : Int), W)
  | CARTRIDGE_XEGS_256 => (some ((byte &&& 0x1f : Nat) : Int), W)
  | CARTRIDGE_XEGS_512 => (some ((byte &&& 0x3f : Nat) : Int), W)
  | CARTRIDGE_XEGS_1024 => (some ((byte &&& 0x7f : Nat) : Int), W)
  | CARTRIDGE_MEGA_16 => (some ((byte &&& 0x80 : Nat) : Int), W)
  | CARTRIDGE_MEGA_32 => (some ((byte &&& 0x81 : Nat) : Int), W)
  | CARTRIDGE_MEGA_64 | CARTRIDGE_SWXEGS_32 => (some ((byte &&& 0x83 : Nat) : Int), W)
  | CARTRIDGE_MEGA_128 | CARTRIDGE_SWXEGS_64 => (some ((byte &&& 0x87 : Nat) : Int), W)
  | CARTRIDGE_MEGA_256 | CARTRIDGE_SWXEGS_128 | CARTRIDGE_ATRAX_DEC_128
  | CARTRIDGE_ATRAX_128 => (some ((byte &&& 0x8f : Nat) : Int), W)
  | CARTRIDGE_MEGA_512 | CARTRIDGE_SWXEGS_256 => (some ((byte &&& 0x9f : Nat) : Int), W)
  | CARTRIDGE_MEGA_1024 | CARTRIDGE_SWXEGS_512 => (some ((byte &&& 0xbf : Nat) : Int), W)
  | CARTRIDGE_MEGA_2048 | CARTRIDGE_SWXEGS_1024 => (some (byte : Int), W)
  | CARTRIDGE_AST_32 => (some (band (old_state + 0x100) 0x7fff), W)
  | CARTRIDGE_SIC_512 | CARTRIDGE_SIC_256 | CARTRIDGE_SIC_128 | CARTRIDGE_MEGA_4096 =>
    if addr &&& 0xe0 = 0x00 then (some (byte : Int), W) else (some new_state, W)
  | CARTRIDGE_THECART_128M | CARTRIDGE_THECART_32M | CARTRIDGE_THECART_64M =>
    if addr = 0xd5a0 then (some (bor (band old_state 0x3f00) (byte : Int)), W)
    else if addr = 0xd5a1 then
      (some (bor (band old_state 0x00ff) (shl ((byte &&& 0x3f : Nat) : Int) 8)), W)
    else if addr = 0xd5a2 then
      (some (bor (band old_state 0x3fff) (shl (band (bnot (byte : Int)) 0x01) 14)), W)
    else (some new_state, W)
  | CARTRIDGE_RAMCART_64 =>
    if band old_state 0x0004 = 0 then
      (some (bor (band old_state 0x7f000) ((byte &&& 0x1f : Nat) : Int)), W)
    else (some new_state, W)
  | CARTRIDGE_RAMCART_128 =>
    if band old_state 0x0004 = 0 then
      (some (bor (band old_state 0x7f000) ((byte &&& 0x3f : Nat) : Int)), W)
    else (some new_state, W)
  | CARTRIDGE_DOUBLE_RAMCART_256 =>
    if band old_state 0x2000 ≠ 0 ∨ band old_state 0x0004 = 0 then
      (some (bor (band old_state 0x7f000) ((byte &&& 0x3f : Nat) : Int)), W)
    else (some new_state, W)
  | CARTRIDGE_RAMCART_1M =>
    if band old_state 0x10000 = 0 ∨ addr = 0xd500 then
      if band old_state 0x8000 ≠ 0 then (some (bor (band old_state 0x7ff00) (byte : Int)), W)
      else (some (bor (band old_state 0x7ffc4) ((byte &&& 0x3b : Nat) : Int)), W)
    else (some new_state, W)
  | CARTRIDGE_RAMCART_2M | CARTRIDGE_RAMCART_4M =>
    if addr = 0xd500 then
      if band old_state 0x8000 ≠ 0 then (some (bor (band old_state 0x7ff00) (byte : Int)), W)
      else (some (bor (band old_state 0x7ffc4) ((byte &&& 0x3b : Nat) : Int)), W)
    else (some new_state, W)
  | CARTRIDGE_RAMCART_8M =>
    if addr = 0xd501 then
      (some (bor (band old_state 0x3f0ff) (shl ((byte &&& 0x07 : Nat) : Int) 8)), W)
    else if addr = 0xd500 then (some (bor (band old_state 0x7ff00) (byte : Int)), W)
    else (some new_state, W)
  | CARTRIDGE_RAMCART_16M =>
    if addr = 0xd501 then
      (some (bor (band old_state 0x3f0ff) (shl ((byte &&& 0x0f : Nat) : Int) 8)), W)
    else if addr = 0xd500 then (some (bor (band old_state 0x7ff00) (byte : Int)), W)
    else (some new_state, W)
  | CARTRIDGE_RAMCART_32M =>
    if addr = 0xd501 then
      (some (bor (bor (band old_state 0x3f0ff) (shl ((byte &&& 0x0f : Nat) : Int) 8))
        (shl ((byte &&& 0x10 : Nat) : Int) 14)), W)
    else if addr = 0xd500 then (some (bor (band old_state 0x7ff00) (byte : Int)), W)
    else (some new_state, W)
  | CARTRIDGE_SIDICAR_32 =>
    if byte &&& 0x80 = 0 then (some ((byte &&& 0x13 : Nat) : Int), W) else (some new_state, W)
  | _ => access_D5 E cart addr W

/-- Embedding of `PutByte`: a write of `byte` to `addr` in page `$D5` for slot
`cart`. -/
def PutByte (E : Env) (cart : Slot) (addr : Nat) (byte : Nat) (W : World) : World :=
  let old_state := (W.cart cart).state
  match PutByte_state E cart addr byte W with
  | (some new_state, W1) => commit_state E cart old_state new_state W1
  | (none, W1) => W1

/-- Embedding of `CARTRIDGE_PutByte`: a write to `$D500-$D5FF`. The writes
to the other `$D5xx` devices happen outside this file; with an AF80 card the
slots are not written at all. -/
def CARTRIDGE_PutByte (E : Env) (addr : Nat) (byte : Nat) (W : World) : World :=
  if W.AF80_enabled then W
  else PutByte E .piggyback addr byte (PutByte E .main addr byte W)

/-! ## Switching by accesses inside the cartridge window -/

/-- Assignment `active_cart->state = s`. -/
def setActiveState (s : Int) (W : World) : World :=
  W.setCart W.active_cart { W.active with state := s }

/-- Embedding of `access_BountyBob1`. -/
def access_BountyBob1 (addr : Nat) (W : World) : World :=
  let base_addr := addr &&& 0xf000
  let addr := addr &&& 0x00ff
  if 0xf6 ≤ addr ∧ addr ≤ 0xf9 then
    let addr := addr - 0xf6
    let new_state := bor (band W.active.state 0x0c) (addr : Int)
    if new_state ≠ W.active.state then
      setActiveState new_state
        (W.emit (.CopyFromCart base_addr (base_addr + 0x0fff) (W.img ((addr : Int) * 0x1000))))
    else W
  else W

/-- Embedding of `access_BountyBob2`. -/
def access_BountyBob2 (addr : Nat) (W : World) : World :=
  let base_addr := addr &&& 0xf000
  let addr := addr &&& 0x00ff
  if 0xf6 ≤ addr ∧ addr ≤ 0xf9 then
    let addr := addr - 0xf6
    let new_state := bor (band W.active.state 0x03) ((addr <<< 2 : Nat) : Int)
    if new_state ≠ W.active.state then
      setActiveState new_state
        (W.emit (.CopyFromCart base_addr (base_addr + 0x0fff)
          (W.img (0x4000 + (addr : Int) * 0x1000))))
    else W
  else W

/-- Embedding of `access_5200SuperCart`. -/
def access_5200SuperCart (addr : Nat) (W : World) : World :=
  let old_state := W.active.state
  let new_state := old_state
  let new_state :=
    if addr &&& 0xc0 = 0xc0 then
      let new_state :=
        if addr &&& 0x30 = 0x00 then bor (band new_state 0x03) ((addr &&& 0x0c : Nat) : Int)
        else if addr &&& 0x30 = 0x10 then
          bor (band new_state 0x0c) (((addr &&& 0x0c) >>> 2 : Nat) : Int)
        else 0x0f
      band new_state (shr W.active.size 5 - 1)
    else new_state
  if old_state ≠ new_state then set_bank_5200_SUPER (setActiveState new_state W) else W

/-- Embedding of `CARTRIDGE_BountyBob1GetByte`. -/
def CARTRIDGE_BountyBob1GetByte (E : Env) (addr : Nat) (no_side_effects : Bool)
    (W : World) : Nat × World :=
  let W1 := if no_side_effects then W else access_BountyBob1 addr W
  (E.MEMORY_mem W1 addr, W1)

/-- Embedding of `CARTRIDGE_BountyBob2GetByte`. -/
def CARTRIDGE_BountyBob2GetByte (E : Env) (addr : Nat) (no_side_effects : Bool)
    (W : World) : Nat × World :=
  let W1 := if no_side_effects then W else access_BountyBob2 addr W
  (E.MEMORY_mem W1 addr, W1)

/-- Embedding of `CARTRIDGE_5200SuperCartGetByte`. -/
def CARTRIDGE_5200SuperCartGetByte (E : Env) (addr : Nat) (no_side_effects : Bool)
    (W : World) : Nat × World :=
  let W1 := if no_side_effects then W else access_5200SuperCart addr W
  (E.MEMORY_mem W1 addr, W1)

/-! ## Address and data line decoding -/

/-- The struct `cross_map_t`: where each of the 17 address lines and each of
the 8 data lines of the cartridge port goes on the EPROM. -/
structure cross_map_t where
  addr : List Nat
  data : List Nat

/-- The table `cross_maps`: entry 0 is the Atrax games cartridge, entry 1 the
Atrax SDX cartridge. -/
def cross_maps (j : Nat) : cross_map_t :=
  if j = 0 then
    { addr := [0x0020, 0x0040, 0x0080, 0x1000, 0x0001, 0x0002, 0x0004, 0x0008, 0x0010,
               0x0100, 0x0400, 0x0800, 0x0200, 0x2000, 0x4000, 0x8000, 0x10000],
      data := [0x10, 0x20, 0x04, 0x80, 0x08, 0x01, 0x02, 0x40] }
  else
    { addr := [0x0040, 0x0080, 0x1000, 0x8000, 0x4000, 0x2000, 0x0100, 0x0020, 0x0010,
               0x0008, 0x0001, 0x0002, 0x0004, 0x0200, 0x0800, 0x0400, 0x10000],
      data := [0x02, 0x08, 0x80, 0x40, 0x01, 0x04, 0x20, 0x10] }

/-- C `c ? v : 0`. -/
def sel (c v : Nat) : Nat := if c ≠ 0 then v else 0

/-- The expression `rom_addr` of `PreprocessCart`. -/
def rom_addr (map : cross_map_t) (i : Nat) : Nat :=
  sel (i &&& 0x0001) (map.addr.getD 0 0) |||
  sel (i &&& 0x0002) (map.addr.getD 1 0) |||
  sel (i &&& 0x0004) (map.addr.getD 2 0) |||
  sel (i &&& 0x0008) (map.addr.getD 3 0) |||
  sel (i &&& 0x0010) (map.addr.getD 4 0) |||
  sel (i &&& 0x0020) (map.addr.getD 5 0) |||
  sel (i &&& 0x0040) (map.addr.getD 6 0) |||
  sel (i &&& 0x0080) (map.addr.getD 7 0) |||
  sel (i &&& 0x0100) (map.addr.getD 8 0) |||
  sel (i &&& 0x0200) (map.addr.getD 9 0) |||
  sel (i &&& 0x0400) (map.addr.getD 10 0) |||
  sel (i &&& 0x0800) (map.addr.getD 11 0) |||
  sel (i &&& 0x1000) (map.addr.getD 12 0) |||
  sel (i &&& 0x2000) (map.addr.getD 13 0) |||
  sel (i &&& 0x4000) (map.addr.getD 14 0) |||
  sel (i &&& 0x8000) (map.addr.getD 15 0) |||
  sel (i &&& 0x10000) (map.addr.getD 16 0)

/-- The expression assigned to `new_image[i]` in `PreprocessCart`, for the
byte `byte` read from the EPROM. -/
def decode_byte (map : cross_map_t) (byte : Nat) : Nat :=
  sel (byte &&& 0x01) (map.data.getD 0 0) |||
  sel (byte &&& 0x02) (map.data.getD 1 0) |||
  sel (byte &&& 0x04) (map.data.getD 2 0) |||
  sel (byte &&& 0x08) (map.data.getD 3 0) |||
  sel (byte &&& 0x10) (map.data.getD 4 0) |||
  sel (byte &&& 0x20) (map.data.getD 5 0) |||
  sel (byte &&& 0x40) (map.data.getD 6 0) |||
  sel (byte &&& 0x80) (map.data.getD 7 0)

/-- The loop of `PreprocessCart`: the decoded image of `size` bytes. A read
`image[rom_addr]` outside the buffer, which C leaves undefined, reads as 0. -/
def decode_image (map : cross_map_t) (image : List Nat) (size : Nat) : List Nat :=
  (List.range size).map (fun i => decode_byte map (image.getD (rom_addr map i) 0))

/-- Embedding of `PreprocessCart`. -/
def PreprocessCart (E : Env) (cart : CARTRIDGE_image_t) : CARTRIDGE_image_t :=
  let size := bits (shl cart.size 10)
  match E.kind cart.type with
  | CARTRIDGE_ATRAX_128 =>
    { cart with image := some (decode_image (cross_maps 0) (cart.image.getD []) size) }
  | CARTRIDGE_ATRAX_SDX_64 | CARTRIDGE_ATRAX_SDX_128 =>
    { cart with image := some (decode_image (cross_maps 1) (cart.image.getD []) size) }
  | _ => cart

/-! ## Image files -/

/-- Embedding of `Util_flen`: the file size converted to `int`. -/
def Util_flen (file : List Nat) : Int := ofBits file.length

/-- The C expression `(b0 << 24) | (b1 << 16) | (b2 << 8) | b3` on four header
bytes. -/
def be32 (b0 b1 b2 b3 : Nat) : Int :=
  bor (bor (bor (shl b0 24) (shl b1 16)) (shl b2 8)) b3

/-- The loop `for (type = 1; type < CARTRIDGE_TYPE_COUNT; type++)` of
`CARTRIDGE_ReadImage`, with `n` iterations left, the loop variable at `type`
and `cart->type` at `cart_type`. The result is `cart->type` after the loop and
whether the loop was left by `return len`. -/
def find_type (E : Env) (len : Int) : Nat → Int → Int → Bool × Int
  | 0, _, cart_type => (false, cart_type)
  | n + 1, type, cart_type =>
    if E.kb type = len then
      if cart_type = E.CARTRIDGE_NONE then find_type E len n (type + 1) type
      else (true, E.CARTRIDGE_UNKNOWN)
    else find_type E len n (type + 1) cart_type

/-- Embedding of `CARTRIDGE_ReadImage`. The file is `none` when `f_open` fails and its
bytes otherwise; `fread` returns the bytes that are there, up to the count
asked for, and the counts are compared as `size_t` (32 bits). The result is
the return value and the struct `*cart` on return. -/
def CARTRIDGE_ReadImage (E : Env) (filename : String) (file : Option (List Nat))
    (cart : CARTRIDGE_image_t) : Int × CARTRIDGE_image_t :=
  match file with
  | none => (E.CARTRIDGE_CANT_OPEN, cart)
  | some data =>
    let len := Util_flen data
    let cart := { cart with filename := filename }
    let cart := { cart with raw := TRUE }
    if band len 0x3ff = 0 then
      let buf := data.take (bits len)
      if buf.length < bits len then
        (E.CARTRIDGE_TOO_FEW_DATA, { cart with image := none })
      else
        let cart := { cart with image := some buf }
        let cart := { cart with type := E.CARTRIDGE_NONE }
        let len := shr len 10
        let cart := { cart with size := len }
        match find_type E len (E.CARTRIDGE_TYPE_COUNT - 1).toNat 1 cart.type with
        | (true, t) => (len, { cart with type := t })
        | (false, t) =>
          let cart := { cart with type := t }
          if cart.type ≠ E.CARTRIDGE_NONE then (0, cart)
          else (E.CARTRIDGE_BAD_FORMAT, { cart with image := none })
    else
      let header := data.take 16
      if header.length < 16 then (E.CARTRIDGE_BAD_FORMAT, cart)
      else if header.getD 0 0 = 0x43 ∧ header.getD 1 0 = 0x41 ∧ header.getD 2 0 = 0x52 ∧
          header.getD 3 0 = 0x54 then
        let type := be32 (header.getD 4 0) (header.getD 5 0) (header.getD 6 0) (header.getD 7 0)
        if type ≥ 1 ∧ type < E.CARTRIDGE_TYPE_COUNT then
          let len := shl (E.kb type) 10
          let cart := { cart with raw := FALSE }
          let cart := { cart with size := E.kb type }
          let buf := (data.drop 16).take (bits len)
          if buf.length < bits len then
            (E.CARTRIDGE_TOO_FEW_DATA, { cart with image := none })
          else
            let cart := { cart with image := some buf }
            let checksum :=
              be32 (header.getD 8 0) (header.getD 9 0) (header.getD 10 0) (header.getD 11 0)
            let cart := { cart with type := type }
            let result := if checksum = E.CARTRIDGE_Checksum buf then 0
              else E.CARTRIDGE_BAD_CHECKSUM
            (result, cart)
        else (E.CARTRIDGE_BAD_FORMAT, cart)
      else (E.CARTRIDGE_BAD_FORMAT, cart)

/-- Embedding of `CARTRIDGE_WriteImage`. `opened` tells whether `f_open` succeeded; the
code tests `fp != NULL` instead, and `fp` is the address of a local variable.
The result is the return value and the bytes handed to `fwrite`, in order.
`image = none` is the `NULL` buffer; otherwise the first `size` bytes of the
buffer are written. -/
def CARTRIDGE_WriteImage (E : Env) (opened : Bool) (type : Int) (image : Option (List Nat))
    (size : Int) (raw : Int) (value : Nat) : Int × List Nat :=
  let _fr := opened
  let fp_is_NULL := false
  if ¬ fp_is_NULL then
    let header :=
      if raw = 0 then
        let checksum :=
          match image with
          | some buf => E.CARTRIDGE_Checksum (buf.take size.toNat)
          | none => 0
        [0x43, 0x41, 0x52, 0x54,
         0, 0, 0, toUBYTE type,
         toUBYTE (shr checksum 24), toUBYTE (shr checksum 16), toUBYTE (shr checksum 8),
         toUBYTE checksum,
         0, 0, 0, 0]
      else []
    let body :=
      match image with
      | some buf => buf.take size.toNat
      | none => List.replicate size.toNat value
    (0, header ++ body)
  else (-1, [])

/-! ## Slot operations -/

/-- Embedding of `CartIsFor5200`. -/
def CartIsFor5200 (E : Env) (type : Int) : Bool :=
  match E.kind type with
  | CARTRIDGE_5200_32 | CARTRIDGE_5200_EE_16 | CARTRIDGE_5200_40 | CARTRIDGE_5200_NS_16
  | CARTRIDGE_5200_8 | CARTRIDGE_5200_4 | CARTRIDGE_5200_SUPER_64 | CARTRIDGE_5200_SUPER_128
  | CARTRIDGE_5200_SUPER_256 | CARTRIDGE_5200_SUPER_512 => true
  | _ => false

/-- Embedding of `ResetCartState`. -/
def ResetCartState (E : Env) (cart : Slot) (W : World) : World :=
  match E.kind (W.cart cart).type with
  | CARTRIDGE_OSS_034M_16 => W.setCart cart { W.cart cart with state := 1 }
  | CARTRIDGE_ATMAX_OLD_1024 => W.setCart cart { W.cart cart with state := 0x7f }
  | CARTRIDGE_AST_32 => W.setCart cart { W.cart cart with state := 0x10000 }
  | CARTRIDGE_MEGA_4096 => W.setCart cart { W.cart cart with state := 254 }
  | _ => W.setCart cart { W.cart cart with state := 0 }

/-- The block of `InitCartridge` that switches between computer and 5200 when
the first slot's cartridge asks for the other machine. -/
def InitCartridge_machine (E : Env) (W : World) : World :=
  let for5200 := CartIsFor5200 E W.CARTRIDGE_main.type
  if for5200 = true ∧ W.Atari800_machine_type ≠ .Atari800_MACHINE_5200 then
    let W1 := E.Atari800_SetMachineType .Atari800_MACHINE_5200 W
    let W2 := { W1 with MEMORY_ram_size := 16 }
    E.Atari800_InitialiseMachine W2
  else if for5200 = false ∧ W.Atari800_machine_type = .Atari800_MACHINE_5200 then
    let W1 := E.Atari800_SetMachineType .Atari800_MACHINE_XLXE W
    let W2 := { W1 with MEMORY_ram_size := 64 }
    E.Atari800_InitialiseMachine W2
  else W

/-- Embedding of `InitCartridge`. -/
def InitCartridge (E : Env) (cart : Slot) (W : World) : World :=
  let W1 := W.setCart cart (PreprocessCart E (W.cart cart))
  let W2 := ResetCartState E cart W1
  let W3 := if cart = .main then InitCartridge_machine E W2 else W2
  if cart = W3.active_cart then MapActiveCart E W3 else W3

/-- The types whose image `RemoveCart` writes back to its file. -/
def isRamCart (k : Kind) : Bool :=
  match k with
  | CARTRIDGE_RAMCART_64 | CARTRIDGE_RAMCART_128 | CARTRIDGE_DOUBLE_RAMCART_256
  | CARTRIDGE_RAMCART_1M | CARTRIDGE_RAMCART_2M | CARTRIDGE_RAMCART_4M | CARTRIDGE_RAMCART_8M
  | CARTRIDGE_RAMCART_16M | CARTRIDGE_RAMCART_32M | CARTRIDGE_SIDICAR_32 => true
  | _ => false

/-- The first block of `RemoveCart`: an image that is there is written back to
its file if it is a RAM cartridge, and freed. The file written is appended to
`written`. -/
def RemoveCart_image (E : Env) (cart : Slot) (W : World) : World :=
  let c := W.cart cart
  match c.image with
  | some buf =>
    let W0 :=
      if isRamCart (E.kind c.type) = true then
        let r := CARTRIDGE_WriteImage E (E.f_open_write W c.filename) c.type (some buf)
          (shl c.size 10) c.raw (toUBYTE (-1))
        { W with written := W.written ++ [(c.filename, r.2)] }
      else W
    W0.setCart cart { c with image := none }
  | none => W

/-- Embedding of `RemoveCart`. -/
def RemoveCart (E : Env) (cart : Slot) (W : World) : World :=
  let W1 := RemoveCart_image E cart W
  if (W1.cart cart).type ≠ E.CARTRIDGE_NONE then
    let W2 := W1.setCart cart { W1.cart cart with type := E.CARTRIDGE_NONE }
    if cart = W2.active_cart then MapActiveCart E W2 else W2
  else W1

/-- Embedding of `AutoReboot`. -/
def AutoReboot (E : Env) (W : World) : World :=
  if W.CARTRIDGE_autoreboot ≠ 0 then E.Atari800_Coldstart W else W

/-- Embedding of `CARTRIDGE_SetType`. -/
def CARTRIDGE_SetType (E : Env) (cart : Slot) (type : Int) (W : World) : World :=
  let W1 := W.setCart cart { W.cart cart with type := type }
  let W2 := if type = E.CARTRIDGE_NONE then RemoveCart E cart W1 else W1
  InitCartridge E cart W2

/-- Embedding of `CARTRIDGE_SetTypeAutoReboot`. -/
def CARTRIDGE_SetTypeAutoReboot (E : Env) (cart : Slot) (type : Int) (W : World) : World :=
  let W1 := CARTRIDGE_SetType E cart type W
  if cart ≠ .piggyback then AutoReboot E W1 else W1

/-- Embedding of `CARTRIDGE_ColdStart`. -/
def CARTRIDGE_ColdStart (E : Env) (W : World) : World :=
  let W1 := { W with active_cart := .main }
  let W2 := ResetCartState E .main W1
  let W3 := ResetCartState E .piggyback W2
  MapActiveCart E W3

/-- Embedding of `InsertCartridge`. `file` is what `f_open` finds under `filename`:
`none` when the file cannot be opened, its bytes otherwise. -/
def InsertCartridge (E : Env) (filename : String) (file : Option (List Nat)) (cart : Slot)
    (W : World) : Int × World :=
  let r := CARTRIDGE_ReadImage E filename file (W.cart cart)
  let kb := r.1
  let W1 := W.setCart cart r.2
  if kb = E.CARTRIDGE_BAD_CHECKSUM ∨ kb = 0 then (kb, InitCartridge E cart W1)
  else (kb, W1)

/-- Embedding of `CARTRIDGE_Remove_Second`. -/
def CARTRIDGE_Remove_Second (E : Env) (W : World) : World :=
  RemoveCart E .piggyback W

/-- Embedding of `CARTRIDGE_Remove`. -/
def CARTRIDGE_Remove (E : Env) (W : World) : World :=
  let W1 := { W with active_cart := .main }
  let W2 := CARTRIDGE_Remove_Second E W1
  RemoveCart E .main W2

/-- Embedding of `CARTRIDGE_RemoveAutoReboot`. -/
def CARTRIDGE_RemoveAutoReboot (E : Env) (W : World) : World :=
  AutoReboot E (CARTRIDGE_Remove E W)

/-- Embedding of `CARTRIDGE_Insert`. -/
def CARTRIDGE_Insert (E : Env) (filename : String) (file : Option (List Nat))
    (W : World) : Int × World :=
  InsertCartridge E filename file .main (CARTRIDGE_Remove E W)

/-- Embedding of `CARTRIDGE_InsertAutoReboot`. -/
def CARTRIDGE_InsertAutoReboot (E : Env) (filename : String) (file : Option (List Nat))
    (W : World) : Int × World :=
  let r := CARTRIDGE_Insert E filename file W
  (r.1, AutoReboot E r.2)

/-- Embedding of `CARTRIDGE_Insert_Second`. -/
def CARTRIDGE_Insert_Second (E : Env) (filename : String) (file : Option (List Nat))
    (W : World) : Int × World :=
  InsertCartridge E filename file .piggyback (CARTRIDGE_Remove_Second E W)

/-! ## Configuration keys -/

/-- The loop of `Util_sscandec` over the characters left, the terminating NUL
being the end of the list; `int` arithmetic wraps at 32 bits. -/
def Util_sscandec_loop : List Char → Int → Int
  | [], result => result
  | c :: s, result =>
    if '0' ≤ c ∧ c ≤ '9' then
      Util_sscandec_loop s (ofBits (bits (10 * result + (c.toNat : Int) - ('0'.toNat : Int))))
    else if c = Char.ofNat 0 then result
    else -1

/-- Embedding of `Util_sscandec`; `none` is the `NULL` pointer. -/
def Util_sscandec (s : Option String) : Int :=
  match s with
  | none => -1
  | some str =>
    match str.data with
    | [] => -1
    | c :: _ => if c = Char.ofNat 0 then -1 else Util_sscandec_loop str.data 0

/-- Embedding of `Util_sscansdec`; `none` is the `NULL` pointer, for the string and
for `dest`. The result is the return value and `*dest` on return. -/
def Util_sscansdec (s : Option String) (dest : Option Int) : Int × Option Int :=
  match s, dest with
  | some str, some _ =>
    let minus := str.data.head? = some '-'
    let rest :=
      if str.data.head? = some '-' ∨ str.data.head? = some '+' then String.mk str.data.tail
      else str
    let value := Util_sscandec (some rest)
    if value = -1 then (FALSE, some value)
    else if minus then (TRUE, some (ofBits (bits (-value))))
    else (TRUE, some value)
  | _, _ => (FALSE, dest)

/-- Embedding of `Util_sscanbool` on a string that is not `NULL`. -/
def Util_sscanbool (s : String) : Int :=
  if s = "0" then 0
  else if s = "1" then 1
  else -1

/-- Embedding of `Util_strlcpy` into a buffer of `size` characters: the string that
`dest` holds afterwards. -/
def Util_strlcpy (src : String) (size : Nat) : String :=
  String.mk (src.data.take (size - 1))

/-- Embedding of `CARTRIDGE_ReadConfig`: the key `string` with value `ptr`. The
result is the return value and the world afterwards. -/
def CARTRIDGE_ReadConfig (E : Env) (string : String) (ptr : String) (W : World) :
    Int × World :=
  if string = "CARTRIDGE_FILENAME" then
    let c := { W.CARTRIDGE_main with filename := Util_strlcpy ptr E.FILENAME_MAX }
    let c := if c.type = E.CARTRIDGE_NONE then { c with type := E.CARTRIDGE_UNKNOWN } else c
    (TRUE, { W with CARTRIDGE_main := c })
  else if string = "CARTRIDGE_TYPE" then
    let value := Util_sscandec (some ptr)
    if value < 0 ∨ value ≥ E.CARTRIDGE_TYPE_COUNT then (FALSE, W)
    else (TRUE, { W with CARTRIDGE_main := { W.CARTRIDGE_main with type := value } })
  else if string = "CARTRIDGE_PIGGYBACK_FILENAME" then
    let c := { W.CARTRIDGE_piggyback with filename := Util_strlcpy ptr E.FILENAME_MAX }
    let c := if c.type = E.CARTRIDGE_NONE then { c with type := E.CARTRIDGE_UNKNOWN } else c
    (TRUE, { W with CARTRIDGE_piggyback := c })
  else if string = "CARTRIDGE_PIGGYBACK_TYPE" then
    let value := Util_sscandec (some ptr)
    if value < 0 ∨ value ≥ E.CARTRIDGE_TYPE_COUNT then (FALSE, W)
    else (TRUE, { W with CARTRIDGE_piggyback := { W.CARTRIDGE_piggyback with type := value } })
  else if string = "CARTRIDGE_AUTOREBOOT" then
    let value := Util_sscanbool ptr
    if value < 0 then (FALSE, W)
    else (TRUE, { W with CARTRIDGE_autoreboot := value })
  else (FALSE, W)

/-! ## Saved state -/

/-- One call into the save-state writer: `StateSav_SaveINT` of one `int`, or
`StateSav_SaveFNAME`. -/
inductive SaveItem
  | INT (value : Int)
  | FNAME (filename : String)
  deriving DecidableEq, Repr

/-- Embedding of `CARTRIDGE_StateSave`: the calls it makes to the save-state writer,
in order. -/
def CARTRIDGE_StateSave (E : Env) (W : World) : List SaveItem :=
  let cart_save := W.CARTRIDGE_main.type
  let cart_save :=
    if W.CARTRIDGE_piggyback.type ≠ E.CARTRIDGE_NONE then ofBits (bits (-cart_save))
    else cart_save
  let out := [SaveItem.INT cart_save]
  let out :=
    if W.CARTRIDGE_main.type ≠ E.CARTRIDGE_NONE then
      out ++ [.FNAME W.CARTRIDGE_main.filename, .INT W.CARTRIDGE_main.state,
        .INT W.CARTRIDGE_main.raw]
    else out
  if W.CARTRIDGE_piggyback.type ≠ E.CARTRIDGE_NONE then
    out ++ [.INT W.CARTRIDGE_piggyback.type, .FNAME W.CARTRIDGE_piggyback.filename,
      .INT W.CARTRIDGE_piggyback.state, .INT W.CARTRIDGE_piggyback.raw]
  else out

/-! ## Strings -/

/-- The terminating character of a C string. -/
def NUL : Char := Char.ofNat 0

/-- The C library's `strlen`: the number of characters before the first NUL. -/
def strlen (s : List Char) : Nat := (s.takeWhile (fun c => c ≠ NUL)).length

/-- The C library's `tolower` in the C locale, on an ASCII character. -/
def tolower (c : Char) : Char :=
  if 'A' ≤ c ∧ c ≤ 'Z' then Char.ofNat (c.toNat + 32) else c

/-- The `for` loop of `stricmp` in `util.h` over the characters left of two
strings of the same length. -/
def stricmp_loop : List Char → List Char → Int
  | x :: s1, y :: s2 =>
    let c1 := tolower x
    let c2 := tolower y
    if c1 > c2 then 1
    else if c2 < c2 then -1
    else stricmp_loop s1 s2
  | _, _ => 0

/-- Embedding of `stricmp` of `util.h`, which `Util_stricmp` stands for when no library
function is configured. -/
def stricmp (s1 s2 : String) : Int :=
  let l1 := strlen s1.data
  let l2 := strlen s2.data
  if l1 > l2 then 1
  else if l1 < l2 then -1
  else stricmp_loop (s1.data.take l1) (s2.data.take l1)

/-- Embedding of `Util_striendswith`, with `Util_stricmp` being `stricmp`. -/
def Util_striendswith (s1 s2 : String) : Int :=
  let pos := ofBits (bits ((strlen s1.data : Int) - (strlen s2.data : Int)))
  if pos < 0 then 0
  else if stricmp (String.mk (s1.data.drop pos.toNat)) s2 = 0 then 1 else 0

/-! ## File name patterns -/

/-- The `do ... while` loop of `parse_hashes` that counts a run of hashes, entered
with `p` at a hash: the rest of the pattern, `no_max` and `no_width` after
it. -/
def count_hashes : List Char → Int → Nat → List Char × Int × Nat
  | [], no_max, no_width => ([], no_max, no_width)
  | _ :: p, no_max, no_width =>
    let no_max := ofBits (bits (no_max * 10))
    let no_width := no_width + 1
    if no_width < '9'.toNat ∧ p.head? = some '#' then count_hashes p no_max no_width
    else (p, no_max, no_width)

/-- The `while` loop of `parse_hashes`, at most `n` times round: `p` is the rest of
the pattern, `out` the characters written to the buffer so far, `no_width` the
code of the character of that name. The result is the return value and the
characters written; `none` if `n` times round were not enough. -/
def parse_hashes_loop (bufsize : Int) :
    Nat → List Char → List Char → Nat → Int → Option (Int × List Char)
  | 0, _, _, _, _ => none
  | n + 1, p, out, no_width, no_max =>
    if (out.length : Int) < bufsize - 9 then
      if p.head? = some '#' then
        if no_width > '0'.toNat then some (0, out)
        else
          let r := count_hashes p no_max no_width
          parse_hashes_loop bufsize n r.1 (out ++ ['%', '0', Char.ofNat r.2.2, 'd'])
            r.2.2 r.2.1
      else
        match p with
        | [] => some (no_max, out ++ [NUL])
        | c :: rest =>
          let out := if c = '%' then out ++ ['%'] else out
          if c = NUL then some (no_max, out ++ [c])
          else parse_hashes_loop bufsize n rest (out ++ [c]) no_width no_max
    else some (0, out)

/-- Embedding of `parse_hashes`: the return value and the characters written to
`buffer`. Every time round the loop takes a character of the pattern or
leaves, so one more round than the pattern has characters is enough. -/
def parse_hashes (p : String) (bufsize : Int) : Option (Int × List Char) :=
  parse_hashes_loop bufsize (p.data.length + 1) p.data [] '0'.toNat 1

/-- Embedding of `Util_filenamepattern`; `default_pattern = none` is the `NULL` pointer. The
second call writes over the buffer from its start. -/
def Util_filenamepattern (p : String) (bufsize : Int) (default_pattern : Option String) :
    Option (Int × List Char) :=
  match parse_hashes p bufsize with
  | none => none
  | some (no_max, buffer) =>
    match default_pattern with
    | some d =>
      if no_max = 0 then
        match parse_hashes d bufsize with
        | none => none
        | some (no_max2, buffer2) => some (no_max2, buffer2 ++ buffer.drop buffer2.length)
      else some (no_max, buffer)
    | none => some (no_max, buffer)

/-! ## The specification's wording of the file layout and of the decoder -/

/-- The four bytes of a 32-bit integer, most significant byte first. -/
def bigEndian32 (x : Int) : List Nat :=
  [bits x / 16777216 % 256, bits x / 65536 % 256, bits x / 256 % 256, bits x % 256]

/-- The bytes `write_image` is specified to produce: in headered mode the
magic `CART`, the type code and the checksum of the `size` image bytes as
4-byte big-endian integers (checksum 0 when there is no buffer), four zero
bytes, then the image bytes, or `size` copies of the fill byte when there is
no buffer; in raw mode the image or fill bytes alone. -/
def WriteImage_spec (E : Env) (type : Int) (image : Option (List Nat)) (size : Int)
    (raw : Int) (value : Nat) : List Nat :=
  let body :=
    match image with
    | some buf => buf.take size.toNat
    | none => List.replicate size.toNat value
  if raw = 0 then
    [0x43, 0x41, 0x52, 0x54] ++ bigEndian32 type ++
      bigEndian32 (match image with
        | some buf => E.CARTRIDGE_Checksum (buf.take size.toNat)
        | none => 0) ++
      [0, 0, 0, 0] ++ body
  else body

/-- The physical address for the logical address `i`: the OR of `map.addr[k]`
over the set bits `k` (0..16) of `i`. -/
def physical_addr (map : cross_map_t) (i : Nat) : Nat :=
  (List.range 17).foldl (fun acc k => if i.testBit k then acc ||| map.addr.getD k 0 else acc) 0

/-- The decoded byte for the EPROM byte `b`: the OR of `map.data[k]` over the
set bits `k` (0..7) of `b`. -/
def physical_data (map : cross_map_t) (b : Nat) : Nat :=
  (List.range 8).foldl (fun acc k => if b.testBit k then acc ||| map.data.getD k 0 else acc) 0

/-- The image `new_image` is `old_image` decoded through `map`: it has the same
length and its byte `i` is the decoded byte of `old_image` at the physical
address of `i`, wherever that address lies inside the image. -/
def DecodedImage (map : cross_map_t) (old_image new_image : List Nat) : Prop :=
  new_image.length = old_image.length ∧
  ∀ i b : Nat, i < old_image.length → old_image[physical_addr map i]? = some b →
    new_image[i]? = some (physical_data map b)

/-! ## A concrete instance -/

/-- A small instance of `Env` on which the model can be run: a handful of
type codes with their sizes in KB, the byte sum as checksum, memory that reads
as zero, a machine whose type can be set and whose initialisation and cold
start do nothing. -/
def demoEnv : Env where
  kind := fun t =>
    if t = 1 then CARTRIDGE_STD_8
    else if t = 2 then CARTRIDGE_STD_16
    else if t = 3 then CARTRIDGE_OSS_034M_16
    else if t = 4 then CARTRIDGE_SDX_64
    else if t = 5 then CARTRIDGE_AST_32
    else if t = 6 then CARTRIDGE_ATRAX_128
    else if t = 7 then CARTRIDGE_ATRAX_SDX_64
    else if t = 8 then CARTRIDGE_THECART_128M
    else other
  CARTRIDGE_NONE := 0
  CARTRIDGE_UNKNOWN := -1
  CARTRIDGE_TYPE_COUNT := 9
  kb := fun t =>
    if t = 1 then 8
    else if t = 2 then 16
    else if t = 3 then 16
    else if t = 4 then 64
    else if t = 5 then 32
    else if t = 6 then 128
    else if t = 7 then 64
    else if t = 8 then 131072
    else 0
  CARTRIDGE_CANT_OPEN := -1
  CARTRIDGE_BAD_FORMAT := -2
  CARTRIDGE_BAD_CHECKSUM := -3
  CARTRIDGE_TOO_FEW_DATA := -4
  CARTRIDGE_Checksum := fun l => ofBits l.sum
  PAGED_ATTRIB := false
  and_right_first := false
  MEMORY_mem := fun _ _ => 0
  AF80_D5GetByte := fun _ _ => 0xff
  BIT3_D5GetByte := fun _ _ => 0xff
  RTIME_GetByte := 0
  IDE_GetByte := fun _ _ => 0xff
  FILENAME_MAX := 256
  f_open_write := fun _ _ => true
  Atari800_SetMachineType := fun m W => { W with Atari800_machine_type := m }
  Atari800_InitialiseMachine := fun W => W
  Atari800_Coldstart := fun W => W

/-- An empty slot. -/
def emptySlot : CARTRIDGE_image_t :=
  { type := 0, state := 0, size := 0, image := none, filename := "", raw := 1 }

/-- A world for `demoEnv`: an SDX 64KB cartridge (type code 4) in the first
slot, an AST 32KB cartridge (type code 5) holding 0x5a in every byte behind it,
the first slot active, no other `$D5xx` device. -/
def demoWorld : World where
  CARTRIDGE_main :=
    { type := 4, state := 0, size := 64, image := some (List.replicate 0x10000 0xa5),
      filename := "sdx.rom", raw := 1 }
  CARTRIDGE_piggyback :=
    { type := 5, state := 0x10000, size := 32, image := some (List.replicate 0x8000 0x5a),
      filename := "ast.rom", raw := 1 }
  active_cart := .main
  Atari800_machine_type := .Atari800_MACHINE_XLXE
  Atari800_builtin_basic := true
  Atari800_disable_basic := true
  BINLOAD_loading_basic := false
  MEMORY_have_basic := true
  AF80_enabled := false
  BIT3_enabled := false
  RTIME_enabled := false
  IDE_enabled := false
  ops := []
  MEMORY_ram_size := 64
  CARTRIDGE_autoreboot := 1
  written := []

/-- A raw image file of `n` kilobytes, every byte 0xea. -/
def rawFile (n : Nat) : List Nat := List.replicate (n * 1024) 0xea

/-- A headered file for `demoEnv`: magic `CART`, type code 1, checksum field
0x001d4000 (the byte sum of the payload), four reserved bytes, and a payload
of 8 KB. -/
def cartFile : List Nat :=
  [0x43, 0x41, 0x52, 0x54, 0, 0, 0, 1, 0, 0x1d, 0x40, 0, 0, 0, 0, 0] ++ rawFile 8

/-- The same file with a checksum field of zero. -/
def cartFileBadSum : List Nat :=
  [0x43, 0x41, 0x52, 0x54, 0, 0, 0, 1, 0, 0, 0, 0, 0, 0, 0, 0] ++ rawFile 8

/-! ## Notions used by the statements about slots and accesses -/

/-- The initial state word as the specification lists it: 1 for OSS_034M_16,
0x7f for ATMAX_OLD_1024, 0x10000 for AST_32, 254 for MEGA_4096 and 0 for
every other type. -/
def initial_state (k : Kind) : Int :=
  if k = CARTRIDGE_OSS_034M_16 then 1
  else if k = CARTRIDGE_ATMAX_OLD_1024 then 0x7f
  else if k = CARTRIDGE_AST_32 then 0x10000
  else if k = CARTRIDGE_MEGA_4096 then 254
  else 0

/-- A slot without the contents of its image: what is left says whether an
image is there, and gives type, state, size, file name and format. -/
def shape (c : CARTRIDGE_image_t) : CARTRIDGE_image_t :=
  { c with image := c.image.map (fun _ => []) }

/-- Two worlds with the same two slots, up to the contents of the images, and
the same active cartridge. -/
def sameCarts (A B : World) : Prop :=
  shape A.CARTRIDGE_main = shape B.CARTRIDGE_main ∧
  shape A.CARTRIDGE_piggyback = shape B.CARTRIDGE_piggyback ∧
  A.active_cart = B.active_cart

/-- A call into the machine that, as far as the slots go, either leaves them
alone or runs `CARTRIDGE_ColdStart` once. -/
def restarts (E : Env) (f : World → World) : Prop :=
  ∀ W, sameCarts (f W) W ∨ ∃ V, sameCarts V W ∧ sameCarts (f W) (CARTRIDGE_ColdStart E V)

/-- What is assumed of `atari.c`, which is not among the sources: setting the
machine type leaves the slots and the active cartridge alone, and
`Atari800_InitialiseMachine` and `Atari800_Coldstart` do so too or reach
`CARTRIDGE_ColdStart`. -/
def MachineCalls (E : Env) : Prop :=
  (∀ m W, sameCarts (E.Atari800_SetMachineType m W) W) ∧
  restarts E E.Atari800_InitialiseMachine ∧
  restarts E E.Atari800_Coldstart

/-- An instance with the three OSS 16KB types under the type codes 1
(OSS_034M_16), 2 (OSS_043M_16) and 3 (OSS_M091_16), and an ULTRACART_32 under
code 4; the rest is as in `demoEnv`. -/
def ossEnv : Env :=
  { demoEnv with
    kind := fun t =>
      if t = 1 then CARTRIDGE_OSS_034M_16
      else if t = 2 then CARTRIDGE_OSS_043M_16
      else if t = 3 then CARTRIDGE_OSS_M091_16
      else if t = 4 then CARTRIDGE_ULTRACART_32
      else other
    CARTRIDGE_TYPE_COUNT := 5
    kb := fun t => if t = 1 ∨ t = 2 ∨ t = 3 then 16 else if t = 4 then 32 else 0 }

/-- A world for `ossEnv`: a cartridge of type code `t` in state `s` with an
image of `n` KB in the first slot, which is active, and nothing behind it. -/
def ossWorld (t s : Int) (n : Nat) : World :=
  { demoWorld with
    CARTRIDGE_main :=
      { type := t, state := s, size := n, image := some (rawFile n), filename := "oss.rom",
        raw := 1 }
    CARTRIDGE_piggyback := emptySlot }

/-- The accesses the specification lists as ignored, for an address in page
`$D5`: EXP_64 outside `$D57x`, DIAMOND_64 outside `$D5Dx`, SDX_64 and
ATRAX_SDX_64 outside `$D5Ex`, SDX_128 and ATRAX_SDX_128 outside `$D5Ex-$D5Fx`,
ATMAX_128 outside `$D50x-$D51x`, and every access to a type without switching
in page `$D5`: the plain ROM types, the right-slot types, the Bounty Bob and
5200 types, and every type code that is not a named type, `CARTRIDGE_NONE`
among them. -/
def ignored (k : Kind) (addr : Nat) : Bool :=
  match k with
  | CARTRIDGE_EXP_64 => !decide (0xd570 ≤ addr ∧ addr ≤ 0xd57f)
  | CARTRIDGE_DIAMOND_64 => !decide (0xd5d0 ≤ addr ∧ addr ≤ 0xd5df)
  | CARTRIDGE_SDX_64 | CARTRIDGE_ATRAX_SDX_64 => !decide (0xd5e0 ≤ addr ∧ addr ≤ 0xd5ef)
  | CARTRIDGE_SDX_128 | CARTRIDGE_ATRAX_SDX_128 => !decide (0xd5e0 ≤ addr ∧ addr ≤ 0xd5ff)
  | CARTRIDGE_ATMAX_128 => !decide (0xd500 ≤ addr ∧ addr ≤ 0xd51f)
  | CARTRIDGE_STD_8 | CARTRIDGE_STD_16 | CARTRIDGE_STD_2 | CARTRIDGE_STD_4
  | CARTRIDGE_RIGHT_8 | CARTRIDGE_RIGHT_4 | CARTRIDGE_LOW_BANK_8 | CARTRIDGE_BBSB_40
  | CARTRIDGE_5200_32 | CARTRIDGE_5200_EE_16 | CARTRIDGE_5200_40 | CARTRIDGE_5200_NS_16
  | CARTRIDGE_5200_8 | CARTRIDGE_5200_4 | CARTRIDGE_5200_SUPER_64 | CARTRIDGE_5200_SUPER_128
  | CARTRIDGE_5200_SUPER_256 | CARTRIDGE_5200_SUPER_512 | other => true
  | _ => false

/-- The world with the state word of slot `c` set to `n`. -/
def World.setState (W : World) (c : Slot) (n : Int) : World :=
  W.setCart c { W.cart c with state := n }

/-- Modelled from the spec: the window mapper's `copy_into_window(range,
source_bytes)` and `disable_window(range)`, which are `MEMORY_CopyFromCart`,
`MEMORY_dFillMem`, `MEMORY_Cart809fDisable` and `MEMORY_CartA0bfDisable` of
`memory.h`, not among the sources. One call changes where the byte mapped at
`addr` comes from: a copy whose range holds `addr` makes it byte `addr - addr1`
of the source, a fill or a disabled window over `addr` makes it no byte of a
cartridge, every other call leaves it. -/
def window_step (addr : Nat) (cur : Option (Ptr × Nat)) (op : MemOp) : Option (Ptr × Nat) :=
  match op with
  | .CopyFromCart addr1 addr2 src =>
    if addr1 ≤ addr ∧ addr ≤ addr2 then some (src, addr - addr1) else cur
  | .dFillMem a _ length => if a ≤ addr ∧ addr < a + length then none else cur
  | .Cart809fDisable => if 0x8000 ≤ addr ∧ addr ≤ 0x9fff then none else cur
  | .CartA0bfDisable => if 0xa000 ≤ addr ∧ addr ≤ 0xbfff then none else cur
  | _ => cur

/-- Where the byte mapped at `addr` comes from after the calls `ops` to the
memory module, oldest first: a pointer and an index from it, or `none` when
no cartridge byte is mapped there. -/
def mapped_source (ops : List MemOp) (addr : Nat) : Option (Ptr × Nat) :=
  ops.foldl (window_step addr) none

/-- The common end of `GetByte`'s first half and of `PutByte`: nothing when
the access was not handled, `commit_state` on the new state otherwise. -/
def commit_result (E : Env) (c : Slot) (old : Int) (r : Option Int × World) : World :=
  match r with
  | (some n, W1) => commit_state E c old n W1
  | (none, W1) => W1

/-- One access to page `$D5` that is not a peek: a read or a write. -/
inductive D5Access
  | read (addr : Nat)
  | write (addr : Nat) (byte : Nat)
  deriving DecidableEq, Repr

/-- The world after one access to page `$D5`. -/
def D5Access.run (E : Env) (a : D5Access) (W : World) : World :=
  match a with
  | .read addr => (CARTRIDGE_GetByte E addr false W).2
  | .write addr byte => CARTRIDGE_PutByte E addr byte W

/-- The world after a sequence of accesses to page `$D5`, first to last. -/
def run_accesses (E : Env) (l : List D5Access) (W : World) : World :=
  l.foldl (fun V a => a.run E V) W

/-- How one step may move the active cartridge: the type of the first slot
stays; behind a passthrough cartridge the selection follows the pattern
`(state & 0x0c) == 0x08` of the first slot, or stays while the pattern does;
behind any other cartridge it stays. -/
def SelStep (E : Env) (W V : World) : Prop :=
  V.CARTRIDGE_main.type = W.CARTRIDGE_main.type ∧
  if CartIsPassthrough E W.CARTRIDGE_main.type = true then
    (V.active_cart = W.active_cart ∧
      (band V.CARTRIDGE_main.state 0x0c = 0x08 ↔ band W.CARTRIDGE_main.state 0x0c = 0x08)) ∨
    (V.active_cart = .piggyback ∧ band V.CARTRIDGE_main.state 0x0c = 0x08) ∨
    (V.active_cart = .main ∧ band V.CARTRIDGE_main.state 0x0c ≠ 0x08)
  else V.active_cart = W.active_cart

/-- The piggyback slot is active only behind a passthrough cartridge whose
state shows the pattern `(state & 0x0c) == 0x08`. -/
def PiggybackSelected (E : Env) (W : World) : Prop :=
  W.active_cart = .piggyback →
    CartIsPassthrough E W.CARTRIDGE_main.type = true ∧ band W.CARTRIDGE_main.state 0x0c = 0x08

/-- The globals of `cartridge.c` as they are initialised, for `demoEnv`: two
empty slots, the first one active, automatic reboot on. -/
def initWorld : World :=
  { demoWorld with CARTRIDGE_main := emptySlot, CARTRIDGE_piggyback := emptySlot }

/-- The worlds reached from `W0` by the slot operations: insertion and removal
in either slot, cold start, reads and writes of page `$D5`, setting the type
of the piggyback slot, and setting the type of the first slot while it is the
active one. -/
inductive Reachable (E : Env) (W0 : World) : World → Prop
  | start : Reachable E W0 W0
  | insert {W : World} (filename : String) (file : Option (List Nat)) :
    Reachable E W0 W → Reachable E W0 (CARTRIDGE_Insert E filename file W).2
  | insert_second {W : World} (filename : String) (file : Option (List Nat)) :
    Reachable E W0 W → Reachable E W0 (CARTRIDGE_Insert_Second E filename file W).2
  | remove {W : World} : Reachable E W0 W → Reachable E W0 (CARTRIDGE_Remove E W)
  | remove_second {W : World} :
    Reachable E W0 W → Reachable E W0 (CARTRIDGE_Remove_Second E W)
  | cold_start {W : World} : Reachable E W0 W → Reachable E W0 (CARTRIDGE_ColdStart E W)
  | read {W : World} (addr : Nat) (no_side_effects : Bool) :
    Reachable E W0 W → Reachable E W0 (CARTRIDGE_GetByte E addr no_side_effects W).2
  | write {W : World} (addr byte : Nat) :
    Reachable E W0 W → Reachable E W0 (CARTRIDGE_PutByte E addr byte W)
  | set_type_second {W : World} (type : Int) :
    Reachable E W0 W → Reachable E W0 (CARTRIDGE_SetType E .piggyback type W)
  | set_type {W : World} (type : Int) :
    Reachable E W0 W → W.active_cart = .main →
    Reachable E W0 (CARTRIDGE_SetType E .main type W)

/-- The world after a raw file of 64 KB has been inserted into the first slot
of `initWorld`: `demoEnv` has two types of that size, so the type is left
unknown (code -1). -/
def sdxInserted : World :=
  { initWorld with
    CARTRIDGE_main :=
      { type := -1, state := 0, size := 64, image := some (rawFile 64), filename := "sdx.rom",
        raw := 1 } }

/-- The invariant of a slot: the image is absent exactly when the type is
`CARTRIDGE_NONE`. -/
def ImageIffType (E : Env) (c : CARTRIDGE_image_t) : Prop :=
  c.image = none ↔ c.type = E.CARTRIDGE_NONE

/-! ## Notions used by the statements about banks, records and strings -/

/-- The mask of the value-latched types as the specification lists them; `none`
for every other type. -/
def latch_mask (k : Kind) : Option Nat :=
  match k with
  | CARTRIDGE_XEGS_32 => some 0x03
  | CARTRIDGE_XEGS_07_64 => some 0x07
  | CARTRIDGE_XEGS_128 | CARTRIDGE_XEGS_8F_64 => some 0x0f
  | CARTRIDGE_XEGS_256 => some 0x1f
  | CARTRIDGE_XEGS_512 => some 0x3f
  | CARTRIDGE_XEGS_1024 => some 0x7f
  | CARTRIDGE_MEGA_16 => some 0x80
  | CARTRIDGE_MEGA_32 => some 0x81
  | CARTRIDGE_MEGA_64 | CARTRIDGE_SWXEGS_32 => some 0x83
  | CARTRIDGE_MEGA_128 | CARTRIDGE_SWXEGS_64 => some 0x87
  | CARTRIDGE_MEGA_256 | CARTRIDGE_SWXEGS_128 | CARTRIDGE_ATRAX_DEC_128
  | CARTRIDGE_ATRAX_128 => some 0x8f
  | CARTRIDGE_MEGA_512 | CARTRIDGE_SWXEGS_256 => some 0x9f
  | CARTRIDGE_MEGA_1024 | CARTRIDGE_SWXEGS_512 => some 0xbf
  | CARTRIDGE_MEGA_2048 | CARTRIDGE_SWXEGS_1024 => some 0xff
  | _ => none

/-- The four types whose state can be read back: SIC_128, SIC_256, SIC_512 and
MEGA_4096. -/
def reads_back (k : Kind) : Bool :=
  match k with
  | CARTRIDGE_SIC_128 | CARTRIDGE_SIC_256 | CARTRIDGE_SIC_512 | CARTRIDGE_MEGA_4096 => true
  | _ => false

/-- An instance with a SIC_128 under type code 1, a MEGA_4096 under code 2, a
BBSB_40 under code 3 and an XEGS_32 under code 4; the rest is as in
`demoEnv`. -/
def bankEnv : Env :=
  { demoEnv with
    kind := fun t =>
      if t = 1 then CARTRIDGE_SIC_128
      else if t = 2 then CARTRIDGE_MEGA_4096
      else if t = 3 then CARTRIDGE_BBSB_40
      else if t = 4 then CARTRIDGE_XEGS_32
      else other
    CARTRIDGE_TYPE_COUNT := 5
    kb := fun t =>
      if t = 1 then 128 else if t = 2 then 4096 else if t = 3 then 40
      else if t = 4 then 32 else 0 }

/-- The byte mapped at `addr` after the calls recorded in `W`, read through
`mapped_source` from the image as it is in `W`; `none` when no cartridge byte
is mapped there or the source lies outside the image. -/
def mapped_byte (W : World) (addr : Nat) : Option Nat :=
  match mapped_source W.ops addr with
  | some (.image s offset, i) => imageByte (W.cart s) (offset + (i : Int))
  | _ => none

/-- The record that `CARTRIDGE_StateSave` writes, in the specification's words: the
type code of the first slot, negated when a piggyback cartridge is present;
file name, state and raw flag of the first slot when its type is not
`CARTRIDGE_NONE`; type code, file name, state and raw flag of the piggyback slot
when a piggyback cartridge is present. -/
def saved_record (E : Env) (main piggyback : CARTRIDGE_image_t) : List SaveItem :=
  [SaveItem.INT (if piggyback.type ≠ E.CARTRIDGE_NONE then -main.type else main.type)] ++
  (if main.type ≠ E.CARTRIDGE_NONE then
    [SaveItem.FNAME main.filename, SaveItem.INT main.state, SaveItem.INT main.raw]
   else []) ++
  (if piggyback.type ≠ E.CARTRIDGE_NONE then
    [SaveItem.INT piggyback.type, SaveItem.FNAME piggyback.filename,
     SaveItem.INT piggyback.state, SaveItem.INT piggyback.raw]
   else [])

/-- A decimal digit. -/
def isDigit (c : Char) : Prop := '0' ≤ c ∧ c ≤ '9'

/-- The number that a string of decimal digits denotes. -/
def decimal_value (l : List Char) : Nat :=
  l.foldl (fun v c => 10 * v + (c.toNat - '0'.toNat)) 0

/-- The pattern with each percent sign doubled, in the specification's words. -/
def double_percents : List Char → List Char
  | [] => []
  | c :: l => if c = '%' then '%' :: '%' :: double_percents l else c :: double_percents l

/-- The format that stands for a run of `k` hashes, in the specification's
words: a percent sign, a zero, the digit `k` and the letter d. -/
def format_hashes (k : Nat) : List Char := ['%', '0', Char.ofNat ('0'.toNat + k), 'd']

/-- A piece of a pattern with no hash in it, and no terminator. -/
def plain (l : List Char) : Prop := '#' ∉ l ∧ NUL ∉ l

/-- What one access to slot `c` may do to the world `W` to give `X`: first,
only for a passthrough cartridge in the first slot, `MapActiveCart` may run
once on a new choice of the active cartridge; then the state of `c` is
stored at most once, and if it is stored `SwitchBank` is run at most once,
with the old state as its argument. -/
def OneStep (E : Env) (c : Slot) (W X : World) : Prop :=
  ∃ W1 : World, ∃ n : Int,
    (W1 = W ∨
      (c = .main ∧ CartIsPassthrough E (W.cart c).type = true ∧
        ∃ a : Slot, W1 = MapActiveCart E { W with active_cart := a })) ∧
    (X = W1 ∨
      (n ≠ (W.cart c).state ∧
        (X = W1.setState c n ∨ X = SwitchBank E (W.cart c).state (W1.setState c n))))

/-- The world of `demoWorld` after a read of `$D5E8`, which selects the piggyback
slot. -/
def piggybackWorld : World := (GetByte demoEnv .main 0xd5e8 false demoWorld).2

/-! ## Notions used by the statements about registers, wiring and bank copies -/

/-- The types whose switching in page `$D5` is decided by `access_D5`, as the
specification lists them: the OSS types, DB_32, WILL_32 and WILL_64, EXP_64,
DIAMOND_64, the SDX types, PHOENIX_8, BLIZZARD_4, BLIZZARD_16 and BLIZZARD_32,
ATMAX_128, ATMAX_OLD_1024, ATMAX_NEW_1024, MEGAMAX_2048, TURBOSOFT_64 and
TURBOSOFT_128, ULTRACART_32, ADAWLIAH_32 and ADAWLIAH_64. -/
def switched_by_access (k : Kind) : Bool :=
  match k with
  | CARTRIDGE_OSS_034M_16 | CARTRIDGE_OSS_043M_16 | CARTRIDGE_OSS_M091_16 | CARTRIDGE_OSS_8
  | CARTRIDGE_DB_32 | CARTRIDGE_WILL_32 | CARTRIDGE_WILL_64 | CARTRIDGE_EXP_64
  | CARTRIDGE_DIAMOND_64 | CARTRIDGE_SDX_64 | CARTRIDGE_SDX_128 | CARTRIDGE_ATRAX_SDX_64
  | CARTRIDGE_ATRAX_SDX_128 | CARTRIDGE_PHOENIX_8 | CARTRIDGE_BLIZZARD_4
  | CARTRIDGE_BLIZZARD_16 | CARTRIDGE_BLIZZARD_32 | CARTRIDGE_ATMAX_128
  | CARTRIDGE_ATMAX_OLD_1024 | CARTRIDGE_ATMAX_NEW_1024 | CARTRIDGE_MEGAMAX_2048
  | CARTRIDGE_TURBOSOFT_64 | CARTRIDGE_TURBOSOFT_128 | CARTRIDGE_ULTRACART_32
  | CARTRIDGE_ADAWLIAH_32 | CARTRIDGE_ADAWLIAH_64 => true
  | _ => false

/-- The Ram-Cart types with a register lock and the mask of the value they
latch, as the specification lists them: 0x1f for RAMCART_64, 0x3f for
RAMCART_128 and DOUBLE_RAMCART_256. -/
def ram_lock_mask (k : Kind) : Option Nat :=
  match k with
  | CARTRIDGE_RAMCART_64 => some 0x1f
  | CARTRIDGE_RAMCART_128 | CARTRIDGE_DOUBLE_RAMCART_256 => some 0x3f
  | _ => none

/-- The three THECART types. -/
def isTheCart (k : Kind) : Bool :=
  match k with
  | CARTRIDGE_THECART_128M | CARTRIDGE_THECART_32M | CARTRIDGE_THECART_64M => true
  | _ => false

/-- The number made from `i` by sending its bit `k` to bit `σ[k]`, for every `k`
below the length of `σ`. -/
def permute_bits (σ : List Nat) (i : Nat) : Nat :=
  (List.range σ.length).foldl
    (fun acc k => if i.testBit k then acc ||| 2 ^ σ.getD k 0 else acc) 0

/-- The EPROM address line that each address line of the cartridge port goes
to, as the comments in the table `cross_maps` give it (`A0 <-> A5` and so on). -/
def addr_lines (j : Nat) : List Nat :=
  if j = 0 then [5, 6, 7, 12, 0, 1, 2, 3, 4, 8, 10, 11, 9, 13, 14, 15, 16]
  else [6, 7, 12, 15, 14, 13, 8, 5, 4, 3, 0, 1, 2, 9, 11, 10, 16]

/-- The data line of the cartridge port that each data line of the EPROM goes
to, as the comments in the table `cross_maps` give it (`D4 <-> Q0` and so on). -/
def data_lines (j : Nat) : List Nat :=
  if j = 0 then [4, 5, 2, 7, 3, 0, 1, 6] else [1, 3, 7, 6, 0, 2, 5, 4]

/-- The wiring `σ` read the other way round. -/
def invert (σ : List Nat) : List Nat :=
  (List.range σ.length).map (fun q => σ.indexOf q)

/-- Modelled from the spec: the size in KB that each bank-switched ROM type
mapped through `set_bank_809F`, `set_bank_80BF`, `set_bank_A0BF`, `set_bank_SDX_128`,
`set_bank_SIC`, `set_bank_MEGA_4096` or `set_bank_XEGS_8F_64` declares in the table
`CARTRIDGES`, which is not among the sources; `none` for every other type. -/
def banked_kb (k : Kind) : Option Int :=
  match k with
  | CARTRIDGE_MEGA_16 => some 16
  | CARTRIDGE_DB_32 | CARTRIDGE_XEGS_32 | CARTRIDGE_SWXEGS_32 | CARTRIDGE_WILL_32
  | CARTRIDGE_MEGA_32 | CARTRIDGE_ULTRACART_32 | CARTRIDGE_BLIZZARD_32
  | CARTRIDGE_ADAWLIAH_32 => some 32
  | CARTRIDGE_XEGS_07_64 | CARTRIDGE_SWXEGS_64 | CARTRIDGE_XEGS_8F_64 | CARTRIDGE_WILL_64
  | CARTRIDGE_EXP_64 | CARTRIDGE_DIAMOND_64 | CARTRIDGE_SDX_64 | CARTRIDGE_ATRAX_SDX_64
  | CARTRIDGE_ADAWLIAH_64 | CARTRIDGE_TURBOSOFT_64 | CARTRIDGE_MEGA_64 => some 64
  | CARTRIDGE_XEGS_128 | CARTRIDGE_SWXEGS_128 | CARTRIDGE_ATRAX_DEC_128 | CARTRIDGE_ATRAX_128
  | CARTRIDGE_ATMAX_128 | CARTRIDGE_TURBOSOFT_128 | CARTRIDGE_MEGA_128 | CARTRIDGE_SDX_128
  | CARTRIDGE_ATRAX_SDX_128 | CARTRIDGE_SIC_128 => some 128
  | CARTRIDGE_XEGS_256 | CARTRIDGE_SWXEGS_256 | CARTRIDGE_MEGA_256
  | CARTRIDGE_SIC_256 => some 256
  | CARTRIDGE_XEGS_512 | CARTRIDGE_SWXEGS_512 | CARTRIDGE_MEGA_512
  | CARTRIDGE_SIC_512 => some 512
  | CARTRIDGE_XEGS_1024 | CARTRIDGE_SWXEGS_1024 | CARTRIDGE_ATMAX_OLD_1024
  | CARTRIDGE_ATMAX_NEW_1024 | CARTRIDGE_MEGA_1024 => some 1024
  | CARTRIDGE_MEGA_2048 | CARTRIDGE_MEGAMAX_2048 => some 2048
  | CARTRIDGE_MEGA_4096 => some 4096
  | CARTRIDGE_THECART_32M => some 32768
  | CARTRIDGE_THECART_64M => some 65536
  | CARTRIDGE_THECART_128M => some 131072
  | _ => none

/-- The mask `M` that the accesses apply to what they store as the state of a
type, with the number `p` of low bits that select the bank, for the types
whose mapping relies on that mask: the value-latched types, DB_32
(`addr & 0x03`), WILL_32 (`addr & 0x0b`), TURBOSOFT_64 (`addr & 0x17`) and MEGA_4096
(the byte written). -/
def state_mask (k : Kind) : Option (Nat × Nat) :=
  match latch_mask k with
  | some m => some (m, 7)
  | none =>
    match k with
    | CARTRIDGE_DB_32 => some (0x03, 7)
    | CARTRIDGE_WILL_32 => some (0x0b, 3)
    | CARTRIDGE_TURBOSOFT_64 => some (0x17, 4)
    | CARTRIDGE_MEGA_4096 => some (0xff, 8)
    | _ => none

/-- The state `s` is one that the mask of the type lets through: it is between
0 and the mask, and so are its `p` low bits against those of the mask. Types
without such a mask allow every state. -/
def bank_state (k : Kind) (s : Int) : Prop :=
  match state_mask k with
  | some (M, p) => 0 ≤ s ∧ s ≤ (M : Int) ∧ s % 2 ^ p ≤ ((M % 2 ^ p : Nat) : Int)
  | none => True

/-- A call that copies from an image copies from the image of slot `c` and
reads `addr2 + 1 - addr1` bytes from `offset` on, 0x2000 or 0x4000 of them, all
among the first `len` bytes of that image; any other call reads nothing from
an image. -/
def copy_inside (c : Slot) (len : Int) (op : MemOp) : Prop :=
  match op with
  | .CopyFromCart addr1 addr2 (.image s offset) =>
    s = c ∧ 0 ≤ offset ∧ offset + ((addr2 : Int) + 1 - (addr1 : Int)) ≤ len ∧
      ((addr2 : Int) + 1 - (addr1 : Int) = 0x2000 ∨ (addr2 : Int) + 1 - (addr1 : Int) = 0x4000)
  | _ => True

/-- An instance with a BLIZZARD_32 under type code 1, a RAMCART_64 under code 2,
a DOUBLE_RAMCART_256 under code 3, a 5200_SUPER_64 under code 4, a WILL_32
under code 5 and an SWXEGS_32 under code 6; the rest is as in `demoEnv`. -/
def ramEnv : Env :=
  { demoEnv with
    kind := fun t =>
      if t = 1 then CARTRIDGE_BLIZZARD_32
      else if t = 2 then CARTRIDGE_RAMCART_64
      else if t = 3 then CARTRIDGE_DOUBLE_RAMCART_256
      else if t = 4 then CARTRIDGE_5200_SUPER_64
      else if t = 5 then CARTRIDGE_WILL_32
      else if t = 6 then CARTRIDGE_SWXEGS_32
      else other
    CARTRIDGE_TYPE_COUNT := 7
    kb := fun t =>
      if t = 1 then 32 else if t = 2 then 64 else if t = 3 then 256 else if t = 4 then 64
      else if t = 5 then 32 else if t = 6 then 32 else 0 }

/-- A world for `bankEnv`: a MEGA_4096 cartridge (type code 2) in state 0x6c in the
first slot, a SIC_128 cartridge (type code 1) in state 0x35 behind it, the first
slot active, no other `$D5xx` device. Both types return their state to a read
of `$D500`. -/
def bothWorld : World :=
  { demoWorld with
    CARTRIDGE_main :=
      { type := 2, state := 0x6c, size := 4096, image := some (rawFile 4096),
        filename := "mega.rom", raw := 1 }
    CARTRIDGE_piggyback :=
      { type := 1, state := 0x35, size := 128, image := some (rawFile 128),
        filename := "sic.rom", raw := 1 } }

/-- The calls logged in `V` are those logged in `W` followed by calls of which
each one that copies from an image copies from the image of the cartridge
active in `W` and reads inside its first `len` bytes. -/
def adds_inside (len : Int) (W V : World) : Prop :=
  ∃ added : List MemOp, V.ops = W.ops ++ added ∧
    ∀ op ∈ added, copy_inside W.active_cart len op

/-! ## Frame lemmas: what the mapping step leaves alone -/

/-- What a `$D5xx` access to a cartridge can depend on: its type, its state
and, for the one type whose read returns image bytes, its image. -/
def view (E : Env) (c : CARTRIDGE_image_t) : CARTRIDGE_image_t :=
  { type := c.type, state := c.state, size := 0,
    image := if E.kind c.type = CARTRIDGE_AST_32 then c.image else none,
    filename := "", raw := 0 }

@[simp]
theorem cart_emit (W : World) (op : MemOp) (s : Slot) :
    (W.emit op).cart s = W.cart s := by
  cases s <;> rfl

@[simp]
theorem active_cart_emit (W : World) (op : MemOp) :
    (W.emit op).active_cart = W.active_cart := rfl

@[simp]
theorem active_emit (W : World) (op : MemOp) :
    (W.emit op).active = W.active := by
  simp [World.active]

@[simp]
theorem cart_emits (l : List MemOp) (W : World) (s : Slot) :
    (emits W l).cart s = W.cart s := by
  induction l generalizing W with
  | nil => rfl
  | cons op l ih => simp [emits, List.foldl] at ih ⊢; rw [ih]; simp

@[simp]
theorem active_cart_emits (l : List MemOp) (W : World) :
    (emits W l).active_cart = W.active_cart := by
  induction l generalizing W with
  | nil => rfl
  | cons op l ih => simp [emits, List.foldl] at ih ⊢; rw [ih]; simp

@[simp]
theorem active_emits (l : List MemOp) (W : World) :
    (emits W l).active = W.active := by
  simp [World.active]

@[simp]
theorem cart_setCart_same (W : World) (s : Slot) (c : CARTRIDGE_image_t) :
    (W.setCart s c).cart s = c := by
  cases s <;> rfl

theorem cart_setCart_ne (W : World) (s t : Slot) (c : CARTRIDGE_image_t) (h : t ≠ s) :
    (W.setCart s c).cart t = W.cart t := by
  cases s <;> cases t <;> first | rfl | exact absurd rfl h

@[simp]
theorem active_cart_setCart (W : World) (s : Slot) (c : CARTRIDGE_image_t) :
    (W.setCart s c).active_cart = W.active_cart := by
  cases s <;> rfl

@[simp]
theorem active_cart_CopyToCart (E : Env) (a1 a2 : Nat) (off : Int) (W : World) :
    (MEMORY_CopyToCart E a1 a2 off W).active_cart = W.active_cart := by
  simp [MEMORY_CopyToCart]

@[simp]
theorem type_CopyToCart (E : Env) (a1 a2 : Nat) (off : Int) (W : World) (s : Slot) :
    ((MEMORY_CopyToCart E a1 a2 off W).cart s).type = (W.cart s).type := by
  by_cases h : s = W.active_cart
  · subst h; simp [MEMORY_CopyToCart, World.active]
  · simp [MEMORY_CopyToCart, cart_setCart_ne _ _ _ _ h]

@[simp]
theorem state_CopyToCart (E : Env) (a1 a2 : Nat) (off : Int) (W : World) (s : Slot) :
    ((MEMORY_CopyToCart E a1 a2 off W).cart s).state = (W.cart s).state := by
  by_cases h : s = W.active_cart
  · subst h; simp [MEMORY_CopyToCart, World.active]
  · simp [MEMORY_CopyToCart, cart_setCart_ne _ _ _ _ h]

theorem view_CopyToCart (E : Env) (a1 a2 : Nat) (off : Int) (W : World) (s : Slot)
    (h : E.kind W.active.type ≠ CARTRIDGE_AST_32) :
    view E ((MEMORY_CopyToCart E a1 a2 off W).cart s) = view E (W.cart s) := by
  by_cases hs : s = W.active_cart
  · subst hs
    simp only [World.active] at h
    simp [MEMORY_CopyToCart, World.active, view, h]
  · simp [MEMORY_CopyToCart, cart_setCart_ne _ _ _ _ hs]

@[simp]
theorem active_type_CopyToCart (E : Env) (a1 a2 : Nat) (off : Int) (W : World) :
    (MEMORY_CopyToCart E a1 a2 off W).active.type = W.active.type := by
  simp [World.active]

@[simp]
theorem active_state_CopyToCart (E : Env) (a1 a2 : Nat) (off : Int) (W : World) :
    (MEMORY_CopyToCart E a1 a2 off W).active.state = W.active.state := by
  simp [World.active]

theorem view_RAMCART_writeback (E : Env) (mask old : Int) (W : World) (s : Slot)
    (h : E.kind W.active.type ≠ CARTRIDGE_AST_32) :
    view E ((RAMCART_writeback E mask old W).cart s) = view E (W.cart s) := by
  unfold RAMCART_writeback
  split_ifs <;> simp [view_CopyToCart, h]

@[simp]
theorem active_cart_RAMCART_writeback (E : Env) (mask old : Int) (W : World) :
    (RAMCART_writeback E mask old W).active_cart = W.active_cart := by
  unfold RAMCART_writeback
  split_ifs <;> simp

@[simp]
theorem type_RAMCART_writeback (E : Env) (mask old : Int) (W : World) (s : Slot) :
    ((RAMCART_writeback E mask old W).cart s).type = (W.cart s).type := by
  unfold RAMCART_writeback
  split_ifs <;> simp

@[simp]
theorem state_RAMCART_writeback (E : Env) (mask old : Int) (W : World) (s : Slot) :
    ((RAMCART_writeback E mask old W).cart s).state = (W.cart s).state := by
  unfold RAMCART_writeback
  split_ifs <;> simp

@[simp]
theorem cart_RAMCART_map809f (E : Env) (mask : Int) (W : World) (s : Slot) :
    (RAMCART_map809f E mask W).cart s = W.cart s := by
  unfold RAMCART_map809f
  try simp only []
  split_ifs <;> simp

@[simp]
theorem active_cart_RAMCART_map809f (E : Env) (mask : Int) (W : World) :
    (RAMCART_map809f E mask W).active_cart = W.active_cart := by
  unfold RAMCART_map809f
  try simp only []
  split_ifs <;> simp

@[simp]
theorem cart_RAMCART_mapA0bf (E : Env) (mask : Int) (W : World) (s : Slot) :
    (RAMCART_mapA0bf E mask W).cart s = W.cart s := by
  unfold RAMCART_mapA0bf
  try simp only []
  split_ifs <;> simp

@[simp]
theorem active_cart_RAMCART_mapA0bf (E : Env) (mask : Int) (W : World) :
    (RAMCART_mapA0bf E mask W).active_cart = W.active_cart := by
  unfold RAMCART_mapA0bf
  try simp only []
  split_ifs <;> simp

theorem view_set_bank_RAMCART (E : Env) (mask old : Int) (W : World) (s : Slot)
    (h : E.kind W.active.type ≠ CARTRIDGE_AST_32) :
    view E ((set_bank_RAMCART E mask old W).cart s) = view E (W.cart s) := by
  simp [set_bank_RAMCART, view_RAMCART_writeback, h]

theorem view_set_bank_SIDICAR (E : Env) (mask old : Int) (W : World) (s : Slot)
    (h : E.kind W.active.type ≠ CARTRIDGE_AST_32) :
    view E ((set_bank_SIDICAR E mask old W).cart s) = view E (W.cart s) := by
  unfold set_bank_SIDICAR
  simp only []
  split_ifs <;> simp [view_CopyToCart, h]

@[simp]
theorem cart_set_bank_809F (main old : Int) (W : World) (s : Slot) :
    (set_bank_809F main old W).cart s = W.cart s := by
  unfold set_bank_809F
  try simp only []
  split_ifs <;> simp

@[simp]
theorem active_cart_set_bank_809F (main old : Int) (W : World) :
    (set_bank_809F main old W).active_cart = W.active_cart := by
  unfold set_bank_809F
  try simp only []
  split_ifs <;> simp

@[simp]
theorem cart_set_bank_XEGS_8F_64 (W : World) (s : Slot) :
    (set_bank_XEGS_8F_64 W).cart s = W.cart s := by
  unfold set_bank_XEGS_8F_64
  try simp only []
  split_ifs <;> simp

@[simp]
theorem active_cart_set_bank_XEGS_8F_64 (W : World) :
    (set_bank_XEGS_8F_64 W).active_cart = W.active_cart := by
  unfold set_bank_XEGS_8F_64
  try simp only []
  split_ifs <;> simp

@[simp]
theorem cart_set_bank_A0AF (main old : Int) (W : World) (s : Slot) :
    (set_bank_A0AF main old W).cart s = W.cart s := by
  unfold set_bank_A0AF
  try simp only []
  split_ifs <;> simp

@[simp]
theorem active_cart_set_bank_A0AF (main old : Int) (W : World) :
    (set_bank_A0AF main old W).active_cart = W.active_cart := by
  unfold set_bank_A0AF
  try simp only []
  split_ifs <;> simp

@[simp]
theorem cart_set_bank_A0BF (dm bm : Int) (W : World) (s : Slot) :
    (set_bank_A0BF dm bm W).cart s = W.cart s := by
  unfold set_bank_A0BF
  try simp only []
  split_ifs <;> simp

@[simp]
theorem active_cart_set_bank_A0BF (dm bm : Int) (W : World) :
    (set_bank_A0BF dm bm W).active_cart = W.active_cart := by
  unfold set_bank_A0BF
  try simp only []
  split_ifs <;> simp

@[simp]
theorem cart_set_bank_80BF (W : World) (s : Slot) :
    (set_bank_80BF W).cart s = W.cart s := by
  unfold set_bank_80BF
  try simp only []
  split_ifs <;> simp

@[simp]
theorem active_cart_set_bank_80BF (W : World) :
    (set_bank_80BF W).active_cart = W.active_cart := by
  unfold set_bank_80BF
  try simp only []
  split_ifs <;> simp

@[simp]
theorem cart_set_bank_5200_SUPER (W : World) (s : Slot) :
    (set_bank_5200_SUPER W).cart s = W.cart s := by
  unfold set_bank_5200_SUPER
  simp

@[simp]
theorem active_cart_set_bank_5200_SUPER (W : World) :
    (set_bank_5200_SUPER W).active_cart = W.active_cart := by
  unfold set_bank_5200_SUPER
  simp

@[simp]
theorem cart_set_bank_SDX_128 (W : World) (s : Slot) :
    (set_bank_SDX_128 W).cart s = W.cart s := by
  unfold set_bank_SDX_128
  try simp only []
  split_ifs <;> simp

@[simp]
theorem active_cart_set_bank_SDX_128 (W : World) :
    (set_bank_SDX_128 W).active_cart = W.active_cart := by
  unfold set_bank_SDX_128
  try simp only []
  split_ifs <;> simp

@[simp]
theorem cart_set_bank_SIC (n : Int) (W : World) (s : Slot) :
    (set_bank_SIC n W).cart s = W.cart s := by
  unfold set_bank_SIC
  try simp only []
  split_ifs <;> simp

@[simp]
theorem active_cart_set_bank_SIC (n : Int) (W : World) :
    (set_bank_SIC n W).active_cart = W.active_cart := by
  unfold set_bank_SIC
  try simp only []
  split_ifs <;> simp

@[simp]
theorem cart_set_bank_MEGA_4096 (W : World) (s : Slot) :
    (set_bank_MEGA_4096 W).cart s = W.cart s := by
  unfold set_bank_MEGA_4096
  try simp only []
  split_ifs <;> simp

@[simp]
theorem active_cart_set_bank_MEGA_4096 (W : World) :
    (set_bank_MEGA_4096 W).active_cart = W.active_cart := by
  unfold set_bank_MEGA_4096
  try simp only []
  split_ifs <;> simp

@[simp]
theorem cart_mapXEGS (main : Int) (W : World) (s : Slot) :
    (mapXEGS main W).cart s = W.cart s := by
  unfold mapXEGS
  try simp only []
  split_ifs <;> simp

@[simp]
theorem active_cart_mapXEGS (main : Int) (W : World) :
    (mapXEGS main W).active_cart = W.active_cart := by
  unfold mapXEGS
  try simp only []
  split_ifs <;> simp

@[simp]
theorem cart_set_bank_SIDICAR_active_cart (E : Env) (mask old : Int) (W : World) :
    (set_bank_SIDICAR E mask old W).active_cart = W.active_cart := by
  unfold set_bank_SIDICAR
  try simp only []
  split_ifs <;> simp

@[simp]
theorem active_cart_set_bank_RAMCART (E : Env) (mask old : Int) (W : World) :
    (set_bank_RAMCART E mask old W).active_cart = W.active_cart := by
  simp [set_bank_RAMCART]

/-- The mapping step leaves `active_cart` alone. -/
theorem active_cart_SwitchBank (E : Env) (old : Int) (W : World) :
    (SwitchBank E old W).active_cart = W.active_cart := by
  unfold SwitchBank
  cases hk : E.kind W.active.type <;> dsimp only <;> first | rfl | (split_ifs <;> simp) | simp

/-- The mapping step changes no cartridge's type or state, and no image that a
`$D5xx` read can return. -/
theorem view_SwitchBank (E : Env) (old : Int) (W : World) (s : Slot) :
    view E ((SwitchBank E old W).cart s) = view E (W.cart s) := by
  unfold SwitchBank
  cases hk : E.kind W.active.type <;> dsimp only <;> first
    | rfl
    | (rw [view_set_bank_RAMCART]; simp [hk])
    | (rw [view_set_bank_SIDICAR]; simp [hk])
    | (split_ifs <;> simp)
    | simp

theorem view_MapActiveCart5200 (E : Env) (W : World) (s : Slot) :
    view E ((MapActiveCart5200 E W).cart s) = view E (W.cart s) := by
  unfold MapActiveCart5200
  cases hk : E.kind W.active.type <;> simp [hk] <;> split_ifs <;> simp

theorem active_cart_MapActiveCart5200 (E : Env) (W : World) :
    (MapActiveCart5200 E W).active_cart = W.active_cart := by
  unfold MapActiveCart5200
  cases hk : E.kind W.active.type <;> simp [hk] <;> split_ifs <;> simp

theorem view_MapActiveCartComputer (E : Env) (W : World) (s : Slot) :
    view E ((MapActiveCartComputer E W).cart s) = view E (W.cart s) := by
  unfold MapActiveCartComputer
  cases hk : E.kind W.active.type <;> simp [hk, view_SwitchBank] <;> split_ifs <;>
    simp [view_SwitchBank]

theorem active_cart_MapActiveCartComputer (E : Env) (W : World) :
    (MapActiveCartComputer E W).active_cart = W.active_cart := by
  unfold MapActiveCartComputer
  cases hk : E.kind W.active.type <;> simp [hk, active_cart_SwitchBank] <;> split_ifs <;>
    simp [active_cart_SwitchBank]

/-- Mapping the active cartridge changes no cartridge's type or state, and no
image that a `$D5xx` read can return. -/
theorem view_MapActiveCart (E : Env) (W : World) (s : Slot) :
    view E ((MapActiveCart E W).cart s) = view E (W.cart s) := by
  unfold MapActiveCart
  split_ifs
  · exact view_MapActiveCart5200 E W s
  · exact view_MapActiveCartComputer E W s

theorem view_type_eq (E : Env) {c c' : CARTRIDGE_image_t} (h : view E c = view E c') :
    c.type = c'.type := by
  have h1 := congrArg CARTRIDGE_image_t.type h
  exact h1

theorem view_state_eq (E : Env) {c c' : CARTRIDGE_image_t} (h : view E c = view E c') :
    c.state = c'.state := by
  have h1 := congrArg CARTRIDGE_image_t.state h
  exact h1

theorem view_image_eq (E : Env) {c c' : CARTRIDGE_image_t} (h : view E c = view E c')
    (hk : E.kind c.type = CARTRIDGE_AST_32) : c.image = c'.image := by
  have ht := view_type_eq E h
  have hi := congrArg CARTRIDGE_image_t.image h
  simpa [view, hk, ← ht] using hi

theorem view_switchPiggyback (E : Env) (c : Slot) (old new : Int) (W : World) (s : Slot) :
    view E ((switchPiggyback E c old new W).cart s) = view E (W.cart s) := by
  unfold switchPiggyback
  split_ifs <;> first | rfl | (rw [view_MapActiveCart]; cases s <;> rfl)

/-- The world `access_D5` leaves behind has every cartridge's type and state
as before. -/
theorem view_access_D5 (E : Env) (c : Slot) (addr : Nat) (W : World) (s : Slot) :
    view E ((access_D5 E c addr W).2.cart s) = view E (W.cart s) := by
  unfold access_D5
  cases hk : E.kind (W.cart c).type <;> simp only [] <;> first
    | rfl
    | (split_ifs <;> first | rfl | exact view_switchPiggyback E c _ _ W s)

/-- The state `access_D5` computes depends on the type and state of the
accessed cartridge only. -/
theorem access_D5_fst_congr (E : Env) (c c' : Slot) (addr : Nat) (W W' : World)
    (h : view E (W.cart c) = view E (W'.cart c')) :
    (access_D5 E c addr W).1 = (access_D5 E c' addr W').1 := by
  have ht : (W.cart c).type = (W'.cart c').type := view_type_eq E h
  have hs : (W.cart c).state = (W'.cart c').state := view_state_eq E h
  unfold access_D5
  rw [ht, hs]
  cases hk : E.kind (W'.cart c').type <;> simp only [] <;> first
    | rfl
    | (split_ifs <;> rfl)

/-- The byte a read returns depends on the view of the cartridge only. -/
theorem GetByte_value_congr (E : Env) (c c' : CARTRIDGE_image_t) (addr : Nat)
    (h : view E c = view E c') : GetByte_value E c addr = GetByte_value E c' addr := by
  have ht := view_type_eq E h
  have hs := view_state_eq E h
  unfold GetByte_value
  rw [← ht, ← hs]
  cases hk : E.kind c.type <;> simp only []
  rw [imageByte, imageByte, view_image_eq E h hk]

theorem view_setState (E : Env) (c c' : CARTRIDGE_image_t) (n : Int)
    (h : view E c = view E c') :
    view E { c with state := n } = view E { c' with state := n } := by
  have ht := view_type_eq E h
  have hi := congrArg CARTRIDGE_image_t.image h
  simp only [view] at hi ⊢
  rw [ht] at hi ⊢
  rw [hi]

/-- The accessed cartridge after the switching half of a read: its state is
the one `access_D5` computed, nothing else that a read can return has
changed. -/
theorem view_GetByte_switch_self (E : Env) (c : Slot) (addr : Nat) (nse : Bool) (W : World) :
    view E ((GetByte_switch E c addr nse W).cart c) =
      view E (if nse then W.cart c else
        match (access_D5 E c addr W).1 with
        | some n => { W.cart c with state := n }
        | none => W.cart c) := by
  unfold GetByte_switch
  cases nse
  · have h2 := view_access_D5 E c addr W c
    rcases hacc : access_D5 E c addr W with ⟨r, W1⟩
    rw [hacc] at h2
    simp only at h2
    cases r with
    | none => simpa using h2
    | some n =>
      simp only [Bool.false_eq_true, if_false]
      split_ifs with h1 h3
      · rw [view_SwitchBank, cart_setCart_same]; exact view_setState E _ _ n h2
      · rw [cart_setCart_same]; exact view_setState E _ _ n h2
      · have hn : n = (W.cart c).state := by simpa using h1
        rw [h2, hn]
  · simp

/-- A read of one slot changes nothing in the other slot that a read of the
other slot can depend on. -/
theorem view_GetByte_switch_other (E : Env) (c s : Slot) (hs : s ≠ c) (addr : Nat)
    (nse : Bool) (W : World) :
    view E ((GetByte_switch E c addr nse W).cart s) = view E (W.cart s) := by
  unfold GetByte_switch
  cases nse
  · have h2 := view_access_D5 E c addr W s
    rcases hacc : access_D5 E c addr W with ⟨r, W1⟩
    rw [hacc] at h2
    simp only at h2
    cases r with
    | none => simpa using h2
    | some n =>
      simp only [Bool.false_eq_true, if_false]
      split_ifs with h1 h3
      · rw [view_SwitchBank, cart_setCart_ne _ _ _ _ hs]; exact h2
      · rw [cart_setCart_ne _ _ _ _ hs]; exact h2
      · exact h2
  · simp

/-- The byte a read of slot `s` returns is the same after a read of the other
slot `c` as before it. -/
theorem GetByte_after_other (E : Env) (c s : Slot) (hs : s ≠ c) (addr : Nat) (nse : Bool)
    (W : World) :
    (GetByte E s addr nse (GetByte E c addr nse W).2).1 = (GetByte E s addr nse W).1 := by
  simp only [GetByte]
  apply GetByte_value_congr
  rw [view_GetByte_switch_self, view_GetByte_switch_self]
  have hv := view_GetByte_switch_other E c s hs addr nse W
  have ha := access_D5_fst_congr E s s addr _ _ hv
  cases nse
  · simp only [Bool.false_eq_true, if_false]
    rw [ha]
    cases (access_D5 E s addr W).1 with
    | none => exact hv
    | some n => exact view_setState E _ _ n hv
  · simpa using hv

/-! ## Reads of page `$D5` -/

/-- C1. A read with the no-side-effects flag set leaves the whole world as it
was, for every cartridge type in either slot, every address and every state:
the state words of both slots, the active-cartridge selection and the list of
calls made to the memory module are unchanged. This holds for a read of a
single slot (`GetByte`), for `CARTRIDGE_GetByte`, and for the Bounty Bob and
5200 Super Cart window reads. -/
theorem peek_changes_nothing (E : Env) (addr : Nat) (W : World) :
    (∀ s : Slot, (GetByte E s addr true W).2 = W) ∧
    (CARTRIDGE_GetByte E addr true W).2 = W ∧
    (CARTRIDGE_BountyBob1GetByte E addr true W).2 = W ∧
    (CARTRIDGE_BountyBob2GetByte E addr true W).2 = W ∧
    (CARTRIDGE_5200SuperCartGetByte E addr true W).2 = W := by
  have hG : ∀ (s : Slot) (V : World), (GetByte E s addr true V).2 = V := by
    intro s V
    simp [GetByte, GetByte_switch]
  refine ⟨fun s => hG s W, ?_, rfl, rfl, rfl⟩
  unfold CARTRIDGE_GetByte
  split_ifs <;> rfl

theorem CARTRIDGE_GetByte_andBytes (E : Env) (addr : Nat) (nse : Bool) (W : World)
    (hAF80 : W.AF80_enabled = false) (hBIT3 : W.BIT3_enabled = false)
    (hRTIME : ¬ (W.RTIME_enabled = true ∧ (addr = 0xd5b8 ∨ addr = 0xd5b9)))
    (hIDE : ¬ (W.IDE_enabled = true ∧ addr ≤ 0xd50f)) :
    (CARTRIDGE_GetByte E addr nse W).1 =
      andBytes (GetByte E .main addr nse W).1 (GetByte E .piggyback addr nse W).1 := by
  unfold CARTRIDGE_GetByte
  rw [if_neg (by simp [hAF80]), if_neg (by simp [hBIT3]), if_neg hRTIME, if_neg hIDE]
  split_ifs
  · simp only [GetByte_after_other E .piggyback .main (by decide) addr nse W]
  · simp only [GetByte_after_other E .main .piggyback (by decide) addr nse W]

/-- C2. When no other device answers the address and `GetByte` returns the byte
`a` for the first slot alone and the byte `b` for the piggyback slot alone,
both taken in the world before the read, `CARTRIDGE_GetByte` returns the bitwise
AND of `a` and `b`, the number whose bit `i` is set exactly when bit `i` is
set in both, whichever operand of the `&` is evaluated first. When one of the
two reads falls outside its image, so does the result. -/
theorem read_is_and_of_both_slots (E : Env) (addr : Nat) (nse : Bool) (W : World)
    (hAF80 : W.AF80_enabled = false) (hBIT3 : W.BIT3_enabled = false)
    (hRTIME : ¬ (W.RTIME_enabled = true ∧ (addr = 0xd5b8 ∨ addr = 0xd5b9)))
    (hIDE : ¬ (W.IDE_enabled = true ∧ addr ≤ 0xd50f)) :
    (∀ a b : Nat, (GetByte E .main addr nse W).1 = some a →
      (GetByte E .piggyback addr nse W).1 = some b →
      (CARTRIDGE_GetByte E addr nse W).1 = some (a &&& b) ∧
      ∀ c, (CARTRIDGE_GetByte E addr nse W).1 = some c →
        ∀ i, c.testBit i = true ↔ a.testBit i = true ∧ b.testBit i = true) ∧
    ((GetByte E .main addr nse W).1 = none ∨ (GetByte E .piggyback addr nse W).1 = none →
      (CARTRIDGE_GetByte E addr nse W).1 = none) := by
  have h := CARTRIDGE_GetByte_andBytes E addr nse W hAF80 hBIT3 hRTIME hIDE
  refine ⟨fun a b ha hb => ?_, fun hn => ?_⟩
  · have hr : (CARTRIDGE_GetByte E addr nse W).1 = some (a &&& b) := by
      rw [h, ha, hb]
      rfl
    refine ⟨hr, fun c hc i => ?_⟩
    rw [hr] at hc
    cases hc
    rw [Nat.testBit_and, Bool.and_eq_true]
  · rw [h]
    rcases hn with hn | hn
    · rw [hn]
      rfl
    · rw [hn]
      cases (GetByte E .main addr nse W).1 <;> rfl

/-- Witness for C2: a MEGA_4096 cartridge in state 0x6c with a SIC_128 cartridge
in state 0x35 behind it, read at `$D500`: the slots alone return 0x6c and 0x35,
the read of both returns 0x24. -/
theorem read_is_and_of_both_slots_witness :
    (GetByte bankEnv .main 0xd500 false bothWorld).1 = some 0x6c ∧
    (GetByte bankEnv .piggyback 0xd500 false bothWorld).1 = some 0x35 ∧
    (CARTRIDGE_GetByte bankEnv 0xd500 false bothWorld).1 = some 0x24 :=
  ⟨by decide, by decide,
   ((read_is_and_of_both_slots bankEnv 0xd500 false bothWorld rfl rfl (by decide)
      (by decide)).1 0x6c 0x35 (by decide) (by decide)).1⟩

theorem rawFile_length (n : Nat) : (rawFile n).length = n * 1024 :=
  List.length_replicate _ _

/-! ## Arithmetic of the C operators on small non-negative values -/

theorem bits_natCast (n : Nat) (h : n < 4294967296) : bits (n : Int) = n := by
  unfold bits
  omega

theorem ofBits_of_lt (n : Nat) (h : n < 2147483648) : ofBits n = (n : Int) := by
  unfold ofBits
  have h1 : n % 4294967296 = n := Nat.mod_eq_of_lt (by omega)
  rw [h1, if_pos h]

theorem bits_ofBits (n : Nat) : bits (ofBits n) = n % 4294967296 := by
  unfold bits ofBits
  split_ifs <;> omega

theorem ofBits_range (n : Nat) : -2147483648 ≤ ofBits n ∧ ofBits n < 2147483648 := by
  unfold ofBits
  split_ifs <;> omega

theorem ofBits_bits (x : Int) (h1 : -2147483648 ≤ x) (h2 : x < 2147483648) :
    ofBits (bits x) = x := by
  unfold bits ofBits
  split_ifs <;> omega

theorem band_natCast (a b : Nat) (ha : a < 4294967296) (hb : b < 2147483648) :
    band (a : Int) (b : Int) = ((a &&& b : Nat) : Int) := by
  unfold band
  rw [bits_natCast a ha, bits_natCast b (by omega)]
  exact ofBits_of_lt _ (lt_of_le_of_lt Nat.and_le_right hb)

theorem bor_natCast (a b : Nat) (ha : a < 2147483648) (hb : b < 2147483648) :
    bor (a : Int) (b : Int) = ((a ||| b : Nat) : Int) := by
  unfold bor
  rw [bits_natCast a (by omega), bits_natCast b (by omega)]
  exact ofBits_of_lt _ (Nat.or_lt_two_pow (n := 31) ha hb)

theorem shr_natCast (a k : Nat) : shr (a : Int) k = ((a / 2 ^ k : Nat) : Int) := by
  unfold shr
  push_cast
  rfl

/-- The value of `Util_flen` is the length itself for a file that fits a C `int`. -/
theorem Util_flen_eq (data : List Nat) (h : data.length < 2147483648) :
    Util_flen data = (data.length : Int) :=
  ofBits_of_lt _ h

theorem band_0x3ff (n : Nat) (h : n < 2147483648) :
    band (n : Int) 0x3ff = ((n % 1024 : Nat) : Int) := by
  have := band_natCast n 0x3ff (by omega) (by norm_num)
  simp only [Nat.cast_ofNat] at this
  rw [this]
  have h2 : n &&& 1023 = n % 1024 := Nat.and_pow_two_sub_one_eq_mod n 10
  rw [h2]

/-! ## The size table scan of `CARTRIDGE_ReadImage` -/

/-- No entry of the scanned range has the size: the scan runs to its end and
leaves `cart->type` alone. -/
theorem find_type_no_match (E : Env) (len : Int) (n : Nat) (start ct : Int)
    (h : ∀ u : Int, start ≤ u → u < start + n → E.kb u ≠ len) :
    find_type E len n start ct = (false, ct) := by
  induction n generalizing start with
  | zero => rfl
  | succ n ih =>
    have h0 : E.kb start ≠ len := h start le_rfl (by push_cast; omega)
    rw [find_type, if_neg h0]
    exact ih (start + 1) (fun u h1 h2 => h u (by omega) (by push_cast; omega))

/-- A type is already recorded and another entry of the scanned range has the
size: the scan stops with `CARTRIDGE_UNKNOWN`. -/
theorem find_type_second_match (E : Env) (len : Int) (n : Nat) (start ct : Int)
    (hct : ct ≠ E.CARTRIDGE_NONE) (t : Int) (h1 : start ≤ t) (h2 : t < start + n)
    (ht : E.kb t = len) :
    find_type E len n start ct = (true, E.CARTRIDGE_UNKNOWN) := by
  induction n generalizing start with
  | zero => simp at h2; omega
  | succ n ih =>
    rw [find_type]
    by_cases h0 : E.kb start = len
    · rw [if_pos h0, if_neg hct]
    · rw [if_neg h0]
      have hne : start ≠ t := fun e => h0 (e ▸ ht)
      exact ih (start + 1) (by omega) (by push_cast at h2 ⊢; omega)

/-- Exactly one entry `t` of the scanned range has the size: the scan runs to
its end with `cart->type = t`. -/
theorem find_type_unique (E : Env) (len : Int) (n : Nat) (start : Int) (t : Int)
    (hN : t ≠ E.CARTRIDGE_NONE) (h1 : start ≤ t) (h2 : t < start + n) (ht : E.kb t = len)
    (hu : ∀ u : Int, start ≤ u → u < start + n → E.kb u = len → u = t) :
    find_type E len n start E.CARTRIDGE_NONE = (false, t) := by
  induction n generalizing start with
  | zero => simp at h2; omega
  | succ n ih =>
    rw [find_type]
    by_cases h0 : E.kb start = len
    · have hst : start = t := hu start le_rfl (by push_cast; omega) h0
      subst hst
      rw [if_pos h0, if_pos rfl]
      apply find_type_no_match
      intro u h3 h4 h5
      have := hu u (by omega) (by push_cast; omega) h5
      omega
    · rw [if_neg h0]
      have hne : start ≠ t := fun e => h0 (e ▸ ht)
      exact ih (start + 1) (by omega) (by push_cast at h2 ⊢; omega)
        (fun u h3 h4 h5 => hu u (by omega) (by push_cast; omega) h5)

/-- Two different entries of the scanned range have the size: the scan stops
with `CARTRIDGE_UNKNOWN`. -/
theorem find_type_two_matches (E : Env) (len : Int) (n : Nat) (start : Int)
    (hN : ∀ u : Int, start ≤ u → u ≠ E.CARTRIDGE_NONE) (t1 t2 : Int) (h12 : t1 < t2)
    (h1 : start ≤ t1) (h2 : t2 < start + n) (ht1 : E.kb t1 = len) (ht2 : E.kb t2 = len) :
    find_type E len n start E.CARTRIDGE_NONE = (true, E.CARTRIDGE_UNKNOWN) := by
  induction n generalizing start with
  | zero => simp at h2; omega
  | succ n ih =>
    rw [find_type]
    by_cases h0 : E.kb start = len
    · rw [if_pos h0, if_pos rfl]
      exact find_type_second_match E len n (start + 1) start (hN start le_rfl) t2
        (by omega) (by push_cast at h2 ⊢; omega) ht2
    · rw [if_neg h0]
      have hne : start ≠ t1 := fun e => h0 (e ▸ ht1)
      exact ih (start + 1) (fun u hu => hN u (by omega)) (by omega)
        (by push_cast at h2 ⊢; omega)

/-! ## Reading an image file -/

/-- The raw branch of `CARTRIDGE_ReadImage` for a file of whole kilobytes
that fits a C `int`: the whole file is loaded and the size table decides. -/
theorem ReadImage_raw (E : Env) (fn : String) (data : List Nat) (cart : CARTRIDGE_image_t)
    (hlen : data.length < 2147483648) (hmul : data.length % 1024 = 0) :
    CARTRIDGE_ReadImage E fn (some data) cart =
      match find_type E ((data.length / 1024 : Nat) : Int)
          (E.CARTRIDGE_TYPE_COUNT - 1).toNat 1 E.CARTRIDGE_NONE with
      | (true, t) =>
        (((data.length / 1024 : Nat) : Int),
          { type := t, state := cart.state, size := ((data.length / 1024 : Nat) : Int),
            image := some data, filename := fn, raw := TRUE })
      | (false, t) =>
        if t ≠ E.CARTRIDGE_NONE then
          (0, { type := t, state := cart.state, size := ((data.length / 1024 : Nat) : Int),
                image := some data, filename := fn, raw := TRUE })
        else
          (E.CARTRIDGE_BAD_FORMAT,
            { type := t, state := cart.state, size := ((data.length / 1024 : Nat) : Int),
              image := none, filename := fn, raw := TRUE }) := by
  have hb : bits (data.length : Int) = data.length := bits_natCast _ (by omega)
  have hs : shr (data.length : Int) 10 = ((data.length / 1024 : Nat) : Int) := by
    rw [shr_natCast]; norm_num
  simp only [CARTRIDGE_ReadImage, Util_flen_eq data hlen, band_0x3ff _ hlen, hmul, hb,
    List.take_length, lt_irrefl, if_false, hs, Nat.cast_zero, if_true]

/-- C3. A file of whole kilobytes whose size in KB is the `kb` field of exactly
one table entry `t` with `1 ≤ t < CARTRIDGE_TYPE_COUNT`: `CARTRIDGE_ReadImage`
returns 0 with `cart.type = t`, `cart.size` the size in KB, `cart.raw = TRUE`
and `cart.image` the bytes of the file (`cart.state` is not touched and
`cart.filename` is the file name). `CARTRIDGE_NONE` is the code 0 and the file
fits a C `int`. -/
theorem ReadImage_unique_size (E : Env) (fn : String) (data : List Nat)
    (cart : CARTRIDGE_image_t) (t : Int)
    (hNONE : E.CARTRIDGE_NONE = 0)
    (hlen : data.length < 2147483648) (hmul : data.length % 1024 = 0)
    (ht1 : 1 ≤ t) (ht2 : t < E.CARTRIDGE_TYPE_COUNT)
    (hkb : E.kb t = ((data.length / 1024 : Nat) : Int))
    (huniq : ∀ u : Int, 1 ≤ u → u < E.CARTRIDGE_TYPE_COUNT →
      E.kb u = ((data.length / 1024 : Nat) : Int) → u = t) :
    CARTRIDGE_ReadImage E fn (some data) cart =
      (0, { type := t, state := cart.state, size := ((data.length / 1024 : Nat) : Int),
            image := some data, filename := fn, raw := TRUE }) := by
  have hcount : (1 : Int) + ((E.CARTRIDGE_TYPE_COUNT - 1).toNat : Int) =
      E.CARTRIDGE_TYPE_COUNT := by omega
  have hf := find_type_unique E ((data.length / 1024 : Nat) : Int)
    (E.CARTRIDGE_TYPE_COUNT - 1).toNat 1 t (by omega) ht1 (by omega) hkb
    (fun u h1 h2 h3 => huniq u h1 (by omega) h3)
  rw [ReadImage_raw E fn data cart hlen hmul, hf]
  have hne : t ≠ E.CARTRIDGE_NONE := by omega
  simp only [hne, ne_eq, not_false_eq_true, if_true]

/-- Witness for C3: with the table of `demoEnv` a file of 8 KB is read as
type 1, the only entry of that size. -/
theorem ReadImage_unique_size_witness :
    CARTRIDGE_ReadImage demoEnv "a.rom" (some (rawFile 8)) emptySlot =
      (0, { type := 1, state := emptySlot.state,
            size := (((rawFile 8).length / 1024 : Nat) : Int),
            image := some (rawFile 8), filename := "a.rom", raw := TRUE }) :=
  ReadImage_unique_size demoEnv "a.rom" (rawFile 8) emptySlot 1 rfl
    (by rw [rawFile_length]; decide) (by rw [rawFile_length]) (by decide) (by decide)
    (by rw [rawFile_length]; rfl)
    (by
      intro u h1 h2 h3
      rw [rawFile_length] at h3
      simp only [demoEnv] at h2 h3
      norm_num at h3
      split_ifs at h3 <;> omega)

/-- C4. A file of whole kilobytes whose size in KB is the `kb` field of two
different table entries: `CARTRIDGE_ReadImage` chooses neither. It returns the
size in KB, which is positive, sets `cart.type` to `CARTRIDGE_UNKNOWN` and
keeps the loaded bytes in `cart.image`, with `cart.size` that size.
`CARTRIDGE_NONE` is the code 0, every table entry from 1 on has a positive
size, and the file fits a C `int`. -/
theorem ReadImage_ambiguous_size (E : Env) (fn : String) (data : List Nat)
    (cart : CARTRIDGE_image_t) (t1 t2 : Int)
    (hNONE : E.CARTRIDGE_NONE = 0)
    (hpos : ∀ u : Int, 1 ≤ u → u < E.CARTRIDGE_TYPE_COUNT → 0 < E.kb u)
    (hlen : data.length < 2147483648) (hmul : data.length % 1024 = 0)
    (h1 : 1 ≤ t1) (h12 : t1 < t2) (h2 : t2 < E.CARTRIDGE_TYPE_COUNT)
    (hkb1 : E.kb t1 = ((data.length / 1024 : Nat) : Int))
    (hkb2 : E.kb t2 = ((data.length / 1024 : Nat) : Int)) :
    CARTRIDGE_ReadImage E fn (some data) cart =
      (((data.length / 1024 : Nat) : Int),
        { type := E.CARTRIDGE_UNKNOWN, state := cart.state,
          size := ((data.length / 1024 : Nat) : Int),
          image := some data, filename := fn, raw := TRUE }) ∧
    0 < (CARTRIDGE_ReadImage E fn (some data) cart).1 := by
  have hf := find_type_two_matches E ((data.length / 1024 : Nat) : Int)
    (E.CARTRIDGE_TYPE_COUNT - 1).toNat 1 (fun u hu => by omega) t1 t2 h12 h1 (by omega)
    hkb1 hkb2
  have hres : CARTRIDGE_ReadImage E fn (some data) cart =
      (((data.length / 1024 : Nat) : Int),
        { type := E.CARTRIDGE_UNKNOWN, state := cart.state,
          size := ((data.length / 1024 : Nat) : Int),
          image := some data, filename := fn, raw := TRUE }) := by
    rw [ReadImage_raw E fn data cart hlen hmul, hf]
  refine ⟨hres, ?_⟩
  rw [hres]
  have := hpos t1 h1 (by omega)
  rw [hkb1] at this
  exact this

/-- Witness for C4: with the table of `demoEnv` a file of 16 KB matches the
entries 2 and 3. -/
theorem ReadImage_ambiguous_size_witness :
    CARTRIDGE_ReadImage demoEnv "b.rom" (some (rawFile 16)) emptySlot =
      ((((rawFile 16).length / 1024 : Nat) : Int),
        { type := demoEnv.CARTRIDGE_UNKNOWN, state := emptySlot.state,
          size := (((rawFile 16).length / 1024 : Nat) : Int),
          image := some (rawFile 16), filename := "b.rom", raw := TRUE }) ∧
    0 < (CARTRIDGE_ReadImage demoEnv "b.rom" (some (rawFile 16)) emptySlot).1 :=
  ReadImage_ambiguous_size demoEnv "b.rom" (rawFile 16) emptySlot 2 3 rfl
    (by
      intro u h1 h2
      simp only [demoEnv] at h2 ⊢
      split_ifs <;> omega)
    (by rw [rawFile_length]; decide) (by rw [rawFile_length]) (by decide) (by decide)
    (by decide) (by rw [rawFile_length]; rfl) (by rw [rawFile_length]; rfl)

/-- C5. A file of whole kilobytes (the empty file included) whose size in KB
is the `kb` field of no table entry from 1 on: `CARTRIDGE_ReadImage` returns
`CARTRIDGE_BAD_FORMAT`, and on return `cart.image` is `NULL` and `cart.type`
is `CARTRIDGE_NONE`. The file fits a C `int`. -/
theorem ReadImage_unknown_size (E : Env) (fn : String) (data : List Nat)
    (cart : CARTRIDGE_image_t)
    (hlen : data.length < 2147483648) (hmul : data.length % 1024 = 0)
    (hno : ∀ u : Int, 1 ≤ u → u < E.CARTRIDGE_TYPE_COUNT →
      E.kb u ≠ ((data.length / 1024 : Nat) : Int)) :
    (CARTRIDGE_ReadImage E fn (some data) cart).1 = E.CARTRIDGE_BAD_FORMAT ∧
    (CARTRIDGE_ReadImage E fn (some data) cart).2.image = none ∧
    (CARTRIDGE_ReadImage E fn (some data) cart).2.type = E.CARTRIDGE_NONE := by
  have hf := find_type_no_match E ((data.length / 1024 : Nat) : Int)
    (E.CARTRIDGE_TYPE_COUNT - 1).toNat 1 E.CARTRIDGE_NONE
    (fun u h1 h2 => hno u h1 (by omega))
  rw [ReadImage_raw E fn data cart hlen hmul, hf]
  simp

/-- Witness for C5: the empty file, with the table of `demoEnv`. -/
theorem ReadImage_unknown_size_witness :
    (CARTRIDGE_ReadImage demoEnv "c.rom" (some []) emptySlot).1 = -2 ∧
    (CARTRIDGE_ReadImage demoEnv "c.rom" (some []) emptySlot).2.image = none ∧
    (CARTRIDGE_ReadImage demoEnv "c.rom" (some []) emptySlot).2.type = 0 :=
  ReadImage_unknown_size demoEnv "c.rom" [] emptySlot (by simp) (by simp)
    (by
      intro u h1 h2
      simp only [demoEnv] at h2 ⊢
      split_ifs <;> first | omega | simp)

theorem shl_10 (x : Int) (h0 : 0 ≤ x) (h1 : x * 1024 < 2147483648) :
    shl x 10 = x * 1024 := by
  obtain ⟨n, rfl⟩ := Int.eq_ofNat_of_zero_le h0
  have hn : n * 1024 < 2147483648 := by exact_mod_cast h1
  unfold shl
  rw [bits_natCast n (by omega), Nat.shiftLeft_eq, ofBits_of_lt _ (by norm_num; omega)]
  push_cast
  norm_num

theorem size_shl_10 (size : Int) (n : Nat) (hn : (n : Int) = size * 1024)
    (hfit : n < 2147483648) : bits (shl size 10) = n := by
  rw [shl_10 size (by omega) (by omega), ← hn, bits_natCast n (by omega)]

theorem take16_getD (data : List Nat) (i : Nat) (hi : i < 16) :
    (data.take 16).getD i 0 = data.getD i 0 := by
  simp [List.getD_eq_getElem?_getD, List.getElem?_take, hi]

/-- The headered branch of `CARTRIDGE_ReadImage` for a file that is not of
whole kilobytes and fits a C `int`: the tests on the 16-byte header, read
off the file itself. -/
theorem ReadImage_headered (E : Env) (fn : String) (data : List Nat)
    (cart : CARTRIDGE_image_t)
    (hlen : data.length < 2147483648) (hmul : data.length % 1024 ≠ 0) :
    CARTRIDGE_ReadImage E fn (some data) cart =
      if data.length < 16 then
        (E.CARTRIDGE_BAD_FORMAT, { cart with filename := fn, raw := TRUE })
      else if data.getD 0 0 = 0x43 ∧ data.getD 1 0 = 0x41 ∧ data.getD 2 0 = 0x52 ∧
          data.getD 3 0 = 0x54 then
        if be32 (data.getD 4 0) (data.getD 5 0) (data.getD 6 0) (data.getD 7 0) ≥ 1 ∧
            be32 (data.getD 4 0) (data.getD 5 0) (data.getD 6 0) (data.getD 7 0) <
              E.CARTRIDGE_TYPE_COUNT then
          if ((data.drop 16).take (bits (shl (E.kb (be32 (data.getD 4 0) (data.getD 5 0)
              (data.getD 6 0) (data.getD 7 0))) 10))).length <
              bits (shl (E.kb (be32 (data.getD 4 0) (data.getD 5 0)
                (data.getD 6 0) (data.getD 7 0))) 10) then
            (E.CARTRIDGE_TOO_FEW_DATA,
              { type := cart.type, state := cart.state,
                size := E.kb (be32 (data.getD 4 0) (data.getD 5 0) (data.getD 6 0)
                  (data.getD 7 0)),
                image := none, filename := fn, raw := FALSE })
          else
            (if be32 (data.getD 8 0) (data.getD 9 0) (data.getD 10 0) (data.getD 11 0) =
                E.CARTRIDGE_Checksum ((data.drop 16).take (bits (shl (E.kb (be32
                  (data.getD 4 0) (data.getD 5 0) (data.getD 6 0) (data.getD 7 0))) 10)))
              then 0 else E.CARTRIDGE_BAD_CHECKSUM,
              { type := be32 (data.getD 4 0) (data.getD 5 0) (data.getD 6 0) (data.getD 7 0),
                state := cart.state,
                size := E.kb (be32 (data.getD 4 0) (data.getD 5 0) (data.getD 6 0)
                  (data.getD 7 0)),
                image := some ((data.drop 16).take (bits (shl (E.kb (be32 (data.getD 4 0)
                  (data.getD 5 0) (data.getD 6 0) (data.getD 7 0))) 10))),
                filename := fn, raw := FALSE })
        else (E.CARTRIDGE_BAD_FORMAT, { cart with filename := fn, raw := TRUE })
      else (E.CARTRIDGE_BAD_FORMAT, { cart with filename := fn, raw := TRUE }) := by
  have hm : ¬ (((data.length % 1024 : Nat) : Int) = 0) := by exact_mod_cast hmul
  have h16 : (data.take 16).length < 16 ↔ data.length < 16 := by
    rw [List.length_take]; omega
  simp only [CARTRIDGE_ReadImage, Util_flen_eq data hlen, band_0x3ff _ hlen, hm, if_false,
    h16, take16_getD data 0 (by decide), take16_getD data 1 (by decide),
    take16_getD data 2 (by decide), take16_getD data 3 (by decide),
    take16_getD data 4 (by decide), take16_getD data 5 (by decide),
    take16_getD data 6 (by decide), take16_getD data 7 (by decide),
    take16_getD data 8 (by decide), take16_getD data 9 (by decide),
    take16_getD data 10 (by decide), take16_getD data 11 (by decide)]

/-- C6. A file that is not of whole kilobytes, starts with `CART`, carries a
type code `t` with `1 ≤ t < CARTRIDGE_TYPE_COUNT` and has at least
`kb(t) * 1024` bytes after the header: `CARTRIDGE_ReadImage` returns 0 when
the big-endian checksum field equals `CARTRIDGE_Checksum` of the first
`kb(t) * 1024` payload bytes and `CARTRIDGE_BAD_CHECKSUM` otherwise, and in
both cases `cart.type = t`, `cart.size = kb(t)`, `cart.raw = FALSE` and
`cart.image` is those payload bytes. The file fits a C `int` and `kb(t)` is
not negative. -/
theorem ReadImage_headered_checksum (E : Env) (fn : String) (data : List Nat)
    (cart : CARTRIDGE_image_t) (t : Int)
    (hlen : data.length < 2147483648) (hmul : data.length % 1024 ≠ 0)
    (hmagic : data.getD 0 0 = 0x43 ∧ data.getD 1 0 = 0x41 ∧ data.getD 2 0 = 0x52 ∧
      data.getD 3 0 = 0x54)
    (htype : be32 (data.getD 4 0) (data.getD 5 0) (data.getD 6 0) (data.getD 7 0) = t)
    (ht1 : 1 ≤ t) (ht2 : t < E.CARTRIDGE_TYPE_COUNT)
    (hkb : 0 ≤ E.kb t) (hpay : E.kb t * 1024 + 16 ≤ (data.length : Int)) :
    CARTRIDGE_ReadImage E fn (some data) cart =
      (if be32 (data.getD 8 0) (data.getD 9 0) (data.getD 10 0) (data.getD 11 0) =
          E.CARTRIDGE_Checksum ((data.drop 16).take (E.kb t * 1024).toNat)
        then 0 else E.CARTRIDGE_BAD_CHECKSUM,
        { type := t, state := cart.state, size := E.kb t,
          image := some ((data.drop 16).take (E.kb t * 1024).toNat),
          filename := fn, raw := FALSE }) := by
  have h16 : ¬ data.length < 16 := by omega
  have hsh : shl (E.kb t) 10 = E.kb t * 1024 := shl_10 _ hkb (by omega)
  have hbits : bits (E.kb t * 1024) = (E.kb t * 1024).toNat := by
    unfold bits; omega
  have hfew : ¬ ((data.drop 16).take (E.kb t * 1024).toNat).length <
      (E.kb t * 1024).toNat := by
    rw [List.length_take, List.length_drop]; omega
  rw [ReadImage_headered E fn data cart hlen hmul, if_neg h16, if_pos hmagic, htype,
    if_pos ⟨ht1, ht2⟩, hsh, hbits, if_neg hfew]

theorem rawFile_sum (n : Nat) : (rawFile n).sum = n * 1024 * 0xea := by
  simp [rawFile, List.sum_replicate]

theorem demo_payload (hdr : List Nat) (h : hdr.length = 16) :
    ((hdr ++ rawFile 8).drop 16).take (demoEnv.kb 1 * 1024).toNat = rawFile 8 := by
  rw [List.drop_left' h]
  apply List.take_of_length_le
  rw [rawFile_length]
  decide

/-- Witness for C6: the 8 KB payload of `cartFile` sums to 0x1d4000, the value
of its checksum field, so the file is accepted; with a checksum field of zero
the same file is read with `CARTRIDGE_BAD_CHECKSUM`, and the type, size and
raw flag are set all the same. -/
theorem ReadImage_headered_checksum_witness :
    CARTRIDGE_ReadImage demoEnv "d.car" (some cartFile) emptySlot =
      (0, { type := 1, state := 0, size := 8, image := some (rawFile 8),
            filename := "d.car", raw := FALSE }) ∧
    CARTRIDGE_ReadImage demoEnv "d.car" (some cartFileBadSum) emptySlot =
      (-3, { type := 1, state := 0, size := 8, image := some (rawFile 8),
             filename := "d.car", raw := FALSE }) := by
  have hl1 : cartFile.length = 8208 := by
    rw [cartFile, List.length_append, rawFile_length]; rfl
  have hl2 : cartFileBadSum.length = 8208 := by
    rw [cartFileBadSum, List.length_append, rawFile_length]; rfl
  have g1 : ∀ i : Nat, i < 16 → cartFile.getD i 0 =
      [0x43, 0x41, 0x52, 0x54, 0, 0, 0, 1, 0, 0x1d, 0x40, 0, 0, 0, 0, 0].getD i 0 :=
    fun i hi => List.getD_append _ _ _ _ hi
  have g2 : ∀ i : Nat, i < 16 → cartFileBadSum.getD i 0 =
      [0x43, 0x41, 0x52, 0x54, 0, 0, 0, 1, 0, 0, 0, 0, 0, 0, 0, 0].getD i 0 :=
    fun i hi => List.getD_append _ _ _ _ hi
  have h1 := ReadImage_headered_checksum demoEnv "d.car" cartFile emptySlot 1
    (by rw [hl1]; decide) (by rw [hl1]; decide)
    (by
      rw [g1 0 (by decide), g1 1 (by decide), g1 2 (by decide), g1 3 (by decide)]
      decide)
    (by
      rw [g1 4 (by decide), g1 5 (by decide), g1 6 (by decide), g1 7 (by decide)]
      decide)
    (by decide) (by decide) (by decide) (by rw [hl1]; decide)
  have h2 := ReadImage_headered_checksum demoEnv "d.car" cartFileBadSum emptySlot 1
    (by rw [hl2]; decide) (by rw [hl2]; decide)
    (by
      rw [g2 0 (by decide), g2 1 (by decide), g2 2 (by decide), g2 3 (by decide)]
      decide)
    (by
      rw [g2 4 (by decide), g2 5 (by decide), g2 6 (by decide), g2 7 (by decide)]
      decide)
    (by decide) (by decide) (by decide) (by rw [hl2]; decide)
  have hsum : demoEnv.CARTRIDGE_Checksum (rawFile 8) = 0x1d4000 := by
    simp only [demoEnv]
    rw [rawFile_sum, ofBits_of_lt _ (by norm_num)]
    norm_num
  rw [g1 8 (by decide), g1 9 (by decide), g1 10 (by decide), g1 11 (by decide)] at h1
  rw [g2 8 (by decide), g2 9 (by decide), g2 10 (by decide), g2 11 (by decide)] at h2
  rw [cartFile, demo_payload
    [0x43, 0x41, 0x52, 0x54, 0, 0, 0, 1, 0, 0x1d, 0x40, 0, 0, 0, 0, 0] rfl, hsum] at h1
  rw [cartFileBadSum, demo_payload
    [0x43, 0x41, 0x52, 0x54, 0, 0, 0, 1, 0, 0, 0, 0, 0, 0, 0, 0] rfl, hsum] at h2
  exact ⟨h1, h2⟩

/-- C7. A file that is not of whole kilobytes and is shorter than 16 bytes, or
does not start with `CART`, or carries a big-endian type code outside
`1 ≤ t < CARTRIDGE_TYPE_COUNT`: `CARTRIDGE_ReadImage` returns
`CARTRIDGE_BAD_FORMAT`; no image is allocated (`cart.image` is the pointer it
was) and `cart.type`, `cart.size` and `cart.state` are unchanged; only the
file name and the raw flag, set before the format is looked at, differ. The
file fits a C `int`. -/
theorem ReadImage_bad_header (E : Env) (fn : String) (data : List Nat)
    (cart : CARTRIDGE_image_t)
    (hlen : data.length < 2147483648) (hmul : data.length % 1024 ≠ 0)
    (hbad : data.length < 16 ∨
      ¬ (data.getD 0 0 = 0x43 ∧ data.getD 1 0 = 0x41 ∧ data.getD 2 0 = 0x52 ∧
        data.getD 3 0 = 0x54) ∨
      ¬ (1 ≤ be32 (data.getD 4 0) (data.getD 5 0) (data.getD 6 0) (data.getD 7 0) ∧
        be32 (data.getD 4 0) (data.getD 5 0) (data.getD 6 0) (data.getD 7 0) <
          E.CARTRIDGE_TYPE_COUNT)) :
    CARTRIDGE_ReadImage E fn (some data) cart =
      (E.CARTRIDGE_BAD_FORMAT,
        { type := cart.type, state := cart.state, size := cart.size, image := cart.image,
          filename := fn, raw := TRUE }) := by
  rw [ReadImage_headered E fn data cart hlen hmul]
  by_cases h16 : data.length < 16
  · rw [if_pos h16]
  · rw [if_neg h16]
    by_cases hm : data.getD 0 0 = 0x43 ∧ data.getD 1 0 = 0x41 ∧ data.getD 2 0 = 0x52 ∧
        data.getD 3 0 = 0x54
    · rw [if_pos hm]
      have ht : ¬ (be32 (data.getD 4 0) (data.getD 5 0) (data.getD 6 0) (data.getD 7 0) ≥ 1 ∧
          be32 (data.getD 4 0) (data.getD 5 0) (data.getD 6 0) (data.getD 7 0) <
            E.CARTRIDGE_TYPE_COUNT) := by
        rcases hbad with h | h | h
        · exact absurd h h16
        · exact absurd hm h
        · exact h
      rw [if_neg ht]
    · rw [if_neg hm]

/-- Witness for C7: a file of 20 bytes that starts with `CART` and carries the
type code 9, one past the last entry of the table of `demoEnv`. -/
theorem ReadImage_bad_header_witness :
    CARTRIDGE_ReadImage demoEnv "e.car"
        (some [0x43, 0x41, 0x52, 0x54, 0, 0, 0, 9, 0, 0, 0, 0, 0, 0, 0, 0, 1, 2, 3, 4])
        demoWorld.CARTRIDGE_main =
      (-2, { type := 4, state := 0, size := 64, image := some (List.replicate 0x10000 0xa5),
             filename := "e.car", raw := TRUE }) :=
  ReadImage_bad_header demoEnv "e.car"
    [0x43, 0x41, 0x52, 0x54, 0, 0, 0, 9, 0, 0, 0, 0, 0, 0, 0, 0, 1, 2, 3, 4]
    demoWorld.CARTRIDGE_main (by decide) (by decide) (Or.inr (Or.inr (by decide)))

/-! ## Writing an image file and reading it back -/

/-- The C expression that assembles a 32-bit value from four bytes gives the
integer with those bytes, most significant first. -/
theorem be32_eq (b0 b1 b2 b3 : Nat) (h0 : b0 < 256) (h1 : b1 < 256) (h2 : b2 < 256)
    (h3 : b3 < 256) :
    be32 b0 b1 b2 b3 = ofBits (16777216 * b0 + 65536 * b1 + 256 * b2 + b3) := by
  have e1 : 256 * b2 + b3 = 256 * b2 ||| b3 := Nat.mul_add_lt_is_or (i := 8) h3 b2
  have e2 : 65536 * b1 + (256 * b2 + b3) = 65536 * b1 ||| (256 * b2 + b3) :=
    Nat.mul_add_lt_is_or (i := 16) (by omega) b1
  have e3 : 16777216 * b0 + (65536 * b1 + (256 * b2 + b3)) =
      16777216 * b0 ||| (65536 * b1 + (256 * b2 + b3)) :=
    Nat.mul_add_lt_is_or (i := 24) (by omega) b0
  have s0 : b0 <<< 24 = 16777216 * b0 := by rw [Nat.shiftLeft_eq]; omega
  have s1 : b1 <<< 16 = 65536 * b1 := by rw [Nat.shiftLeft_eq]; omega
  have s2 : b2 <<< 8 = 256 * b2 := by rw [Nat.shiftLeft_eq]; omega
  have m1 : (16777216 * b0 ||| 65536 * b1) % 4294967296 = 16777216 * b0 ||| 65536 * b1 :=
    Nat.mod_eq_of_lt (Nat.or_lt_two_pow (n := 32) (by omega) (by omega))
  have m2 : (16777216 * b0 ||| 65536 * b1 ||| 256 * b2) % 4294967296 =
      16777216 * b0 ||| 65536 * b1 ||| 256 * b2 :=
    Nat.mod_eq_of_lt (Nat.or_lt_two_pow (n := 32)
      (Nat.or_lt_two_pow (n := 32) (by omega) (by omega)) (by omega))
  have hsum : 16777216 * b0 + 65536 * b1 + 256 * b2 + b3 =
      16777216 * b0 + (65536 * b1 + (256 * b2 + b3)) := by omega
  unfold be32 bor shl
  rw [bits_natCast b0 (by omega), bits_natCast b1 (by omega), bits_natCast b2 (by omega),
    bits_natCast b3 (by omega), s0, s1, s2]
  simp only [bits_ofBits, Nat.mod_eq_of_lt (show 16777216 * b0 < 4294967296 by omega),
    Nat.mod_eq_of_lt (show 65536 * b1 < 4294967296 by omega),
    Nat.mod_eq_of_lt (show 256 * b2 < 4294967296 by omega), m1, m2]
  rw [Nat.or_assoc, Nat.or_assoc, ← e1, ← e2, ← e3, hsum]

/-- The header bytes the writer stores for an `int` decode to that `int`. -/
theorem be32_toUBYTE (c : Int) (h1 : -2147483648 ≤ c) (h2 : c < 2147483648) :
    be32 (toUBYTE (shr c 24)) (toUBYTE (shr c 16)) (toUBYTE (shr c 8)) (toUBYTE c) = c := by
  have hb : ∀ x : Int, toUBYTE x < 256 := fun x => by unfold toUBYTE; omega
  rw [be32_eq _ _ _ _ (hb _) (hb _) (hb _) (hb _)]
  have : 16777216 * toUBYTE (shr c 24) + 65536 * toUBYTE (shr c 16) +
      256 * toUBYTE (shr c 8) + toUBYTE c = bits c := by
    unfold toUBYTE shr bits
    norm_num
    omega
  rw [this, ofBits_bits c h1 h2]

/-- The type byte the writer stores decodes to the type code when that is
below 256. -/
theorem be32_type (t : Int) (h1 : 0 ≤ t) (h2 : t < 256) : be32 0 0 0 (toUBYTE t) = t := by
  have hb : toUBYTE t < 256 := by unfold toUBYTE; omega
  rw [be32_eq 0 0 0 _ (by decide) (by decide) (by decide) hb,
    ofBits_of_lt _ (by omega)]
  unfold toUBYTE
  omega

/-- The bytes `CARTRIDGE_WriteImage` writes in headered mode for a buffer of
exactly `size` bytes: the 16 header bytes and then the buffer. -/
theorem WriteImage_headered (E : Env) (opened : Bool) (type : Int) (buffer : List Nat)
    (value : Nat) :
    (CARTRIDGE_WriteImage E opened type (some buffer) (buffer.length : Int) 0 value).2 =
      [0x43, 0x41, 0x52, 0x54, 0, 0, 0, toUBYTE type,
        toUBYTE (shr (E.CARTRIDGE_Checksum buffer) 24),
        toUBYTE (shr (E.CARTRIDGE_Checksum buffer) 16),
        toUBYTE (shr (E.CARTRIDGE_Checksum buffer) 8),
        toUBYTE (E.CARTRIDGE_Checksum buffer), 0, 0, 0, 0] ++ buffer := by
  simp [CARTRIDGE_WriteImage]

/-- C8. Round trip: for a type `t` with `1 ≤ t < CARTRIDGE_TYPE_COUNT` and a
buffer of exactly `kb(t) * 1024` bytes, the file `CARTRIDGE_WriteImage` writes
in headered mode is read back by `CARTRIDGE_ReadImage` with result 0,
`cart.type = t`, `cart.size = kb(t)`, `cart.raw = FALSE` and `cart.image`
equal to the buffer. The table has at most 256 entries, `CARTRIDGE_Checksum`
returns a C `int`, and the file fits a C `int`. -/
theorem write_read_roundtrip (E : Env) (fn : String) (cart : CARTRIDGE_image_t) (t : Int)
    (buffer : List Nat) (opened : Bool) (value : Nat)
    (hcount : E.CARTRIDGE_TYPE_COUNT ≤ 256)
    (hsum : ∀ l, -2147483648 ≤ E.CARTRIDGE_Checksum l ∧ E.CARTRIDGE_Checksum l < 2147483648)
    (ht1 : 1 ≤ t) (ht2 : t < E.CARTRIDGE_TYPE_COUNT)
    (hbuf : (buffer.length : Int) = E.kb t * 1024)
    (hlen : buffer.length + 16 < 2147483648) :
    CARTRIDGE_ReadImage E fn
        (some (CARTRIDGE_WriteImage E opened t (some buffer) (E.kb t * 1024) 0 value).2) cart =
      (0, { type := t, state := cart.state, size := E.kb t, image := some buffer,
            filename := fn, raw := FALSE }) := by
  rw [← hbuf, WriteImage_headered]
  generalize hh : [0x43, 0x41, 0x52, 0x54, 0, 0, 0, toUBYTE t,
    toUBYTE (shr (E.CARTRIDGE_Checksum buffer) 24),
    toUBYTE (shr (E.CARTRIDGE_Checksum buffer) 16),
    toUBYTE (shr (E.CARTRIDGE_Checksum buffer) 8),
    toUBYTE (E.CARTRIDGE_Checksum buffer), 0, 0, 0, 0] = hdr
  have hl : hdr.length = 16 := by rw [← hh]; rfl
  have g : ∀ i : Nat, i < 16 → (hdr ++ buffer).getD i 0 = hdr.getD i 0 :=
    fun i hi => List.getD_append _ _ _ _ (by omega)
  have hlen2 : (hdr ++ buffer).length = buffer.length + 16 := by
    rw [List.length_append, hl]; omega
  have hpay : ((hdr ++ buffer).drop 16).take buffer.length = buffer := by
    rw [List.drop_left' hl]
    exact List.take_of_length_le le_rfl
  have hm : (hdr ++ buffer).getD 0 0 = 0x43 ∧ (hdr ++ buffer).getD 1 0 = 0x41 ∧
      (hdr ++ buffer).getD 2 0 = 0x52 ∧ (hdr ++ buffer).getD 3 0 = 0x54 := by
    rw [g 0 (by decide), g 1 (by decide), g 2 (by decide), g 3 (by decide), ← hh]
    exact ⟨rfl, rfl, rfl, rfl⟩
  have hty : be32 ((hdr ++ buffer).getD 4 0) ((hdr ++ buffer).getD 5 0)
      ((hdr ++ buffer).getD 6 0) ((hdr ++ buffer).getD 7 0) = t := by
    rw [g 4 (by decide), g 5 (by decide), g 6 (by decide), g 7 (by decide), ← hh]
    exact be32_type t (by omega) (by omega)
  have hck : be32 ((hdr ++ buffer).getD 8 0) ((hdr ++ buffer).getD 9 0)
      ((hdr ++ buffer).getD 10 0) ((hdr ++ buffer).getD 11 0) =
      E.CARTRIDGE_Checksum buffer := by
    rw [g 8 (by decide), g 9 (by decide), g 10 (by decide), g 11 (by decide), ← hh]
    exact be32_toUBYTE _ (hsum buffer).1 (hsum buffer).2
  have hsh : bits (shl (E.kb t) 10) = buffer.length :=
    size_shl_10 (E.kb t) buffer.length hbuf (by omega)
  rw [ReadImage_headered E fn (hdr ++ buffer) cart (by omega) (by omega),
    if_neg (by omega), if_pos hm, hty, if_pos ⟨ht1, ht2⟩, hsh, hpay,
    if_neg (lt_irrefl _), hck, if_pos rfl]

/-- Witness for C8: an 8 KB buffer written as type 1 of `demoEnv`. -/
theorem write_read_roundtrip_witness :
    CARTRIDGE_ReadImage demoEnv "f.car"
        (some (CARTRIDGE_WriteImage demoEnv true 1 (some (rawFile 8)) (demoEnv.kb 1 * 1024)
          0 0xff).2) emptySlot =
      (0, { type := 1, state := emptySlot.state, size := demoEnv.kb 1,
            image := some (rawFile 8), filename := "f.car", raw := FALSE }) :=
  write_read_roundtrip demoEnv "f.car" emptySlot 1 (rawFile 8) true 0xff (by decide)
    (fun l => ofBits_range l.sum) (by decide) (by decide)
    (by rw [rawFile_length]; rfl) (by rw [rawFile_length]; decide)

/-- The big-endian bytes of an integer, computed as the writer computes the
checksum bytes. -/
theorem bigEndian32_eq (x : Int) :
    bigEndian32 x = [toUBYTE (shr x 24), toUBYTE (shr x 16), toUBYTE (shr x 8), toUBYTE x] := by
  unfold bigEndian32 toUBYTE shr bits
  norm_num
  refine ⟨?_, ?_, ?_, ?_⟩ <;> omega

/-- For a type code that fits one byte the big-endian encoding is three zero
bytes and the code. -/
theorem bigEndian32_type (t : Int) (h1 : 0 ≤ t) (h2 : t < 256) :
    bigEndian32 t = [0, 0, 0, toUBYTE t] := by
  unfold bigEndian32 toUBYTE bits
  norm_num
  refine ⟨?_, ?_, ?_, ?_⟩ <;> omega

/-- C9. For every type code, one from 0 on and below `CARTRIDGE_TYPE_COUNT`, a count
of at most 256, every buffer, size, fill byte and mode, the bytes `CARTRIDGE_WriteImage`
writes are the specified ones: in headered mode `CART`, the type code and the
checksum of the image bytes as 4-byte big-endian integers (checksum 0 without
a buffer), four zero bytes, then the `size` image bytes, or `size` fill bytes
without a buffer; in raw mode the image or fill bytes alone. The return value
is 0. -/
theorem WriteImage_layout (E : Env) (opened : Bool) (type : Int)
    (image : Option (List Nat)) (size : Int) (raw : Int) (value : Nat)
    (hcount : E.CARTRIDGE_TYPE_COUNT ≤ 256)
    (h1 : 0 ≤ type) (h2 : type < E.CARTRIDGE_TYPE_COUNT) :
    CARTRIDGE_WriteImage E opened type image size raw value =
      (0, WriteImage_spec E type image size raw value) := by
  have h3 : type < 256 := lt_of_lt_of_le h2 hcount
  unfold CARTRIDGE_WriteImage WriteImage_spec
  by_cases hr : raw = 0
  · cases image <;> simp [hr, bigEndian32_type type h1 h3, bigEndian32_eq]
  · cases image <;> simp [hr]

/-- Witness for C9: type 1 of `demoEnv`, no buffer, three fill bytes 0xff. -/
theorem WriteImage_layout_witness :
    CARTRIDGE_WriteImage demoEnv true 1 none 3 0 0xff =
      (0, [0x43, 0x41, 0x52, 0x54, 0, 0, 0, 1, 0, 0, 0, 0, 0, 0, 0, 0, 0xff, 0xff, 0xff]) :=
  WriteImage_layout demoEnv true 1 none 3 0 0xff (by decide) (by decide) (by decide)

/-! ## Decoding the Atrax images -/

theorem and_two_pow_ne_zero (i k : Nat) : i &&& 2 ^ k ≠ 0 ↔ i.testBit k = true := by
  constructor
  · intro h
    by_contra hb
    apply h
    apply Nat.eq_of_testBit_eq
    intro j
    rw [Nat.testBit_and, Nat.testBit_two_pow, Nat.zero_testBit]
    by_cases hkj : k = j
    · subst hkj; simp [hb]
    · simp [hkj]
  · intro hb h
    have : (i &&& 2 ^ k).testBit k = true := by
      rw [Nat.testBit_and, Nat.testBit_two_pow_self, hb]; rfl
    rw [h, Nat.zero_testBit] at this
    exact Bool.noConfusion this

/-- One term `c ? v : 0` of the C expression, OR-ed onto what is there. -/
theorem or_sel (acc i k v : Nat) :
    acc ||| sel (i &&& 2 ^ k) v = if i.testBit k then acc ||| v else acc := by
  unfold sel
  by_cases hb : i.testBit k = true
  · rw [if_pos ((and_two_pow_ne_zero i k).2 hb), if_pos hb]
  · rw [if_neg (fun h => hb ((and_two_pow_ne_zero i k).1 h)), if_neg hb, Nat.or_zero]

/-- The C expression for `rom_addr` is the OR over the set bits of `i`. -/
theorem rom_addr_eq (map : cross_map_t) (i : Nat) : rom_addr map i = physical_addr map i := by
  have hf : (fun acc k => if i.testBit k then acc ||| map.addr.getD k 0 else acc) =
      (fun acc k => acc ||| sel (i &&& 2 ^ k) (map.addr.getD k 0)) :=
    funext (fun acc => funext (fun k => (or_sel acc i k _).symm))
  unfold physical_addr
  rw [hf]
  simp only [List.range_succ, List.range_zero, List.nil_append, List.cons_append,
    List.foldl_cons, List.foldl_nil, Nat.zero_or, Nat.reducePow]
  rfl

/-- The C expression for the decoded byte is the OR over the set bits of the
byte read. -/
theorem decode_byte_eq (map : cross_map_t) (b : Nat) :
    decode_byte map b = physical_data map b := by
  have hf : (fun acc k => if b.testBit k then acc ||| map.data.getD k 0 else acc) =
      (fun acc k => acc ||| sel (b &&& 2 ^ k) (map.data.getD k 0)) :=
    funext (fun acc => funext (fun k => (or_sel acc b k _).symm))
  unfold physical_data
  rw [hf]
  simp only [List.range_succ, List.range_zero, List.nil_append, List.cons_append,
    List.foldl_cons, List.foldl_nil, Nat.zero_or, Nat.reducePow]
  rfl

/-- The loop of `PreprocessCart` produces the decoded image. -/
theorem decode_image_decoded (map : cross_map_t) (image : List Nat) :
    DecodedImage map image (decode_image map image image.length) := by
  unfold DecodedImage decode_image
  refine ⟨by rw [List.length_map, List.length_range], fun i b hi hb => ?_⟩
  rw [List.getElem?_map, List.getElem?_range hi, Option.map_some', decode_byte_eq, rom_addr_eq,
    List.getD_eq_getElem?_getD, hb]
  rfl

/-- C10. For a cartridge whose image has `size * 1024` bytes: if its type is
ATRAX_128, `PreprocessCart` replaces the image by the image decoded through
cross map 0, and if its type is ATRAX_SDX_64 or ATRAX_SDX_128, by the image
decoded through cross map 1: byte `i` of the new image is `D(old_image[A(i)])`,
with `A(i)` the OR of `map.addr[k]` over the set bits `k` of `i` and `D(b)` the
OR of `map.data[k]` over the set bits `k` of `b`; nothing else of the
cartridge changes. For every other type `PreprocessCart` leaves the
cartridge, and so its image, as it is. -/
theorem PreprocessCart_decodes (E : Env) (cart : CARTRIDGE_image_t) (old_image : List Nat)
    (himg : cart.image = some old_image)
    (hsize : (old_image.length : Int) = cart.size * 1024)
    (hfit : old_image.length < 2147483648) :
    (E.kind cart.type = CARTRIDGE_ATRAX_128 →
      ∃ new_image : List Nat,
        PreprocessCart E cart = { cart with image := some new_image } ∧
        DecodedImage (cross_maps 0) old_image new_image) ∧
    (E.kind cart.type = CARTRIDGE_ATRAX_SDX_64 ∨ E.kind cart.type = CARTRIDGE_ATRAX_SDX_128 →
      ∃ new_image : List Nat,
        PreprocessCart E cart = { cart with image := some new_image } ∧
        DecodedImage (cross_maps 1) old_image new_image) ∧
    (E.kind cart.type ≠ CARTRIDGE_ATRAX_128 → E.kind cart.type ≠ CARTRIDGE_ATRAX_SDX_64 →
      E.kind cart.type ≠ CARTRIDGE_ATRAX_SDX_128 → PreprocessCart E cart = cart) := by
  have hn := size_shl_10 cart.size old_image.length hsize hfit
  refine ⟨fun hk => ?_, fun hk => ?_, fun h1 h2 h3 => ?_⟩
  · refine ⟨decode_image (cross_maps 0) old_image old_image.length, ?_,
      decode_image_decoded _ _⟩
    unfold PreprocessCart
    rw [hn, himg, hk]
    rfl
  · refine ⟨decode_image (cross_maps 1) old_image old_image.length, ?_,
      decode_image_decoded _ _⟩
    unfold PreprocessCart
    rw [hn, himg]
    rcases hk with hk | hk <;> rw [hk] <;> rfl
  · unfold PreprocessCart
    cases hk : E.kind cart.type <;>
      first
      | rfl
      | exact absurd hk h1
      | exact absurd hk h2
      | exact absurd hk h3

/-- Witness for C10: a 1 KB image of type code 6 of `demoEnv` (ATRAX_128) is
decoded through cross map 0, and one of type code 1 (STD_8) is left alone. -/
theorem PreprocessCart_decodes_witness :
    (∃ new_image : List Nat,
      PreprocessCart demoEnv
          { type := 6, state := 0, size := 1, image := some (rawFile 1),
            filename := "g.rom", raw := 1 } =
        { type := 6, state := 0, size := 1, image := some new_image,
          filename := "g.rom", raw := 1 } ∧
      DecodedImage (cross_maps 0) (rawFile 1) new_image) ∧
    PreprocessCart demoEnv
        { type := 1, state := 0, size := 1, image := some (rawFile 1),
          filename := "g.rom", raw := 1 } =
      { type := 1, state := 0, size := 1, image := some (rawFile 1),
        filename := "g.rom", raw := 1 } :=
  ⟨(PreprocessCart_decodes demoEnv
      { type := 6, state := 0, size := 1, image := some (rawFile 1), filename := "g.rom",
        raw := 1 }
      (rawFile 1) rfl (by rw [rawFile_length]; rfl) (by rw [rawFile_length]; decide)).1
      (by decide),
   (PreprocessCart_decodes demoEnv
      { type := 1, state := 0, size := 1, image := some (rawFile 1), filename := "g.rom",
        raw := 1 }
      (rawFile 1) rfl (by rw [rawFile_length]; rfl) (by rw [rawFile_length]; decide)).2.2
      (by decide) (by decide) (by decide)⟩

/-! ## Frame lemmas for the slot operations -/

theorem active_cart_MapActiveCart (E : Env) (W : World) :
    (MapActiveCart E W).active_cart = W.active_cart := by
  unfold MapActiveCart
  split_ifs
  · exact active_cart_MapActiveCart5200 E W
  · exact active_cart_MapActiveCartComputer E W

theorem shape_type_eq {c c' : CARTRIDGE_image_t} (h : shape c = shape c') :
    c.type = c'.type := by
  have h1 := congrArg CARTRIDGE_image_t.type h
  exact h1

theorem shape_state_eq {c c' : CARTRIDGE_image_t} (h : shape c = shape c') :
    c.state = c'.state := by
  have h1 := congrArg CARTRIDGE_image_t.state h
  exact h1

theorem shape_image_none {c c' : CARTRIDGE_image_t} (h : shape c = shape c') :
    c.image = none ↔ c'.image = none := by
  have h1 := congrArg CARTRIDGE_image_t.image h
  simp only [shape] at h1
  cases hc : c.image <;> cases hc' : c'.image <;> simp [hc, hc'] at h1 ⊢

theorem shape_CopyToCart (E : Env) (a1 a2 : Nat) (off : Int) (W : World) (s : Slot) :
    shape ((MEMORY_CopyToCart E a1 a2 off W).cart s) = shape (W.cart s) := by
  by_cases hs : s = W.active_cart
  · subst hs
    simp [MEMORY_CopyToCart, World.active, shape]
    rfl
  · simp [MEMORY_CopyToCart, cart_setCart_ne _ _ _ _ hs]

theorem shape_RAMCART_writeback (E : Env) (mask old : Int) (W : World) (s : Slot) :
    shape ((RAMCART_writeback E mask old W).cart s) = shape (W.cart s) := by
  unfold RAMCART_writeback
  split_ifs <;> simp [shape_CopyToCart]

theorem shape_set_bank_RAMCART (E : Env) (mask old : Int) (W : World) (s : Slot) :
    shape ((set_bank_RAMCART E mask old W).cart s) = shape (W.cart s) := by
  simp [set_bank_RAMCART, shape_RAMCART_writeback]

theorem shape_set_bank_SIDICAR (E : Env) (mask old : Int) (W : World) (s : Slot) :
    shape ((set_bank_SIDICAR E mask old W).cart s) = shape (W.cart s) := by
  unfold set_bank_SIDICAR
  simp only []
  split_ifs <;> simp [shape_CopyToCart]

/-- The mapping step keeps every slot as it is, up to the contents of its
image. -/
theorem shape_SwitchBank (E : Env) (old : Int) (W : World) (s : Slot) :
    shape ((SwitchBank E old W).cart s) = shape (W.cart s) := by
  unfold SwitchBank
  cases hk : E.kind W.active.type <;> dsimp only <;> first
    | rfl
    | (rw [shape_set_bank_RAMCART])
    | (rw [shape_set_bank_SIDICAR])
    | (split_ifs <;> simp)
    | simp

theorem shape_MapActiveCart5200 (E : Env) (W : World) (s : Slot) :
    shape ((MapActiveCart5200 E W).cart s) = shape (W.cart s) := by
  unfold MapActiveCart5200
  cases hk : E.kind W.active.type <;> simp [hk] <;> split_ifs <;> simp

theorem shape_MapActiveCartComputer (E : Env) (W : World) (s : Slot) :
    shape ((MapActiveCartComputer E W).cart s) = shape (W.cart s) := by
  unfold MapActiveCartComputer
  cases hk : E.kind W.active.type <;> simp [hk, shape_SwitchBank] <;> split_ifs <;>
    simp [shape_SwitchBank]

/-- Mapping the active cartridge keeps every slot as it is, up to the contents
of its image. -/
theorem shape_MapActiveCart (E : Env) (W : World) (s : Slot) :
    shape ((MapActiveCart E W).cart s) = shape (W.cart s) := by
  unfold MapActiveCart
  split_ifs
  · exact shape_MapActiveCart5200 E W s
  · exact shape_MapActiveCartComputer E W s

theorem sameCarts_refl (W : World) : sameCarts W W := ⟨rfl, rfl, rfl⟩

theorem sameCarts_trans {A B C : World} (h1 : sameCarts A B) (h2 : sameCarts B C) :
    sameCarts A C :=
  ⟨h1.1.trans h2.1, h1.2.1.trans h2.2.1, h1.2.2.trans h2.2.2⟩

theorem sameCarts_cart {A B : World} (h : sameCarts A B) (s : Slot) :
    shape (A.cart s) = shape (B.cart s) := by
  cases s
  · exact h.1
  · exact h.2.1

theorem sameCarts_of_cart {A B : World} (h : ∀ s, shape (A.cart s) = shape (B.cart s))
    (ha : A.active_cart = B.active_cart) : sameCarts A B :=
  ⟨h .main, h .piggyback, ha⟩

theorem sameCarts_MapActiveCart (E : Env) (W : World) : sameCarts (MapActiveCart E W) W :=
  sameCarts_of_cart (shape_MapActiveCart E W) (active_cart_MapActiveCart E W)

/-- The state word `ResetCartState` stores is the listed initial value. -/
theorem ResetCartState_eq (E : Env) (c : Slot) (W : World) :
    ResetCartState E c W =
      W.setCart c { W.cart c with state := initial_state (E.kind (W.cart c).type) } := by
  unfold ResetCartState
  cases hk : E.kind (W.cart c).type <;> simp [initial_state]

theorem active_cart_ResetCartState (E : Env) (c : Slot) (W : World) :
    (ResetCartState E c W).active_cart = W.active_cart := by
  rw [ResetCartState_eq]; simp

theorem cart_ResetCartState_same (E : Env) (c : Slot) (W : World) :
    (ResetCartState E c W).cart c =
      { W.cart c with state := initial_state (E.kind (W.cart c).type) } := by
  rw [ResetCartState_eq]; simp

theorem cart_ResetCartState_ne (E : Env) (c s : Slot) (h : s ≠ c) (W : World) :
    (ResetCartState E c W).cart s = W.cart s := by
  rw [ResetCartState_eq]; exact cart_setCart_ne _ _ _ _ h

/-- After a cold start the first slot is active and each slot has its type
and the initial state of that type. -/
theorem ColdStart_carts (E : Env) (W : World) :
    (CARTRIDGE_ColdStart E W).active_cart = .main ∧
    ∀ s, shape ((CARTRIDGE_ColdStart E W).cart s) =
      shape { W.cart s with state := initial_state (E.kind (W.cart s).type) } := by
  unfold CARTRIDGE_ColdStart
  refine ⟨?_, ?_⟩
  · simp only [active_cart_MapActiveCart, active_cart_ResetCartState]
  · intro s
    simp only [shape_MapActiveCart]
    cases s
    · rw [cart_ResetCartState_ne _ _ _ (by decide), cart_ResetCartState_same]
      rfl
    · rw [cart_ResetCartState_same, cart_ResetCartState_ne _ _ _ (by decide)]
      rfl

theorem shape_setState (c c' : CARTRIDGE_image_t) (n : Int) (h : shape c = shape c') :
    shape { c with state := n } = shape { c' with state := n } := by
  have h1 := congrArg (fun x : CARTRIDGE_image_t => { x with state := n }) h
  exact h1

theorem PreprocessCart_type (E : Env) (c : CARTRIDGE_image_t) :
    (PreprocessCart E c).type = c.type := by
  unfold PreprocessCart
  cases hk : E.kind c.type <;> rfl

theorem PreprocessCart_state (E : Env) (c : CARTRIDGE_image_t) :
    (PreprocessCart E c).state = c.state := by
  unfold PreprocessCart
  cases hk : E.kind c.type <;> rfl

/-- Decoding keeps an image that is there. -/
theorem PreprocessCart_image_some (E : Env) (c : CARTRIDGE_image_t) (h : c.image ≠ none) :
    (PreprocessCart E c).image ≠ none := by
  unfold PreprocessCart
  cases hk : E.kind c.type <;> simp [h]

/-- Only the three Atrax types are decoded. -/
theorem PreprocessCart_other (E : Env) (c : CARTRIDGE_image_t)
    (h1 : E.kind c.type ≠ CARTRIDGE_ATRAX_128) (h2 : E.kind c.type ≠ CARTRIDGE_ATRAX_SDX_64)
    (h3 : E.kind c.type ≠ CARTRIDGE_ATRAX_SDX_128) : PreprocessCart E c = c := by
  unfold PreprocessCart
  cases hk : E.kind c.type <;> simp_all

theorem sameCarts_ram (W : World) (n : Int) : sameCarts { W with MEMORY_ram_size := n } W :=
  ⟨rfl, rfl, rfl⟩

/-- The machine switch of `InitCartridge` leaves the slots alone or cold
starts them. -/
theorem InitCartridge_machine_restarts (E : Env) (hE : MachineCalls E) :
    restarts E (InitCartridge_machine E) := by
  intro W
  have key : ∀ m n, sameCarts (E.Atari800_InitialiseMachine
        { E.Atari800_SetMachineType m W with MEMORY_ram_size := n }) W ∨
      ∃ V, sameCarts V W ∧ sameCarts (E.Atari800_InitialiseMachine
        { E.Atari800_SetMachineType m W with MEMORY_ram_size := n })
        (CARTRIDGE_ColdStart E V) := by
    intro m n
    have h0 : sameCarts { E.Atari800_SetMachineType m W with MEMORY_ram_size := n } W :=
      sameCarts_trans (sameCarts_ram _ n) (hE.1 m W)
    rcases hE.2.1 { E.Atari800_SetMachineType m W with MEMORY_ram_size := n } with h | ⟨V, hV, h⟩
    · exact Or.inl (sameCarts_trans h h0)
    · exact Or.inr ⟨V, sameCarts_trans hV h0, h⟩
  unfold InitCartridge_machine
  simp only []
  split_ifs
  · exact key _ _
  · exact key _ _
  · exact Or.inl (sameCarts_refl W)

/-- What a call that leaves the slots alone or cold starts them does to one
slot: type and presence of the image stay, the state stays or is reset. -/
theorem restarts_cart (E : Env) (f : World → World) (hf : restarts E f) (W : World)
    (s : Slot) :
    shape ((f W).cart s) = shape (W.cart s) ∨
    shape ((f W).cart s) =
      shape { W.cart s with state := initial_state (E.kind (W.cart s).type) } := by
  rcases hf W with h | ⟨V, hV, h⟩
  · exact Or.inl (sameCarts_cart h s)
  · right
    rw [sameCarts_cart h s, (ColdStart_carts E V).2 s]
    have hs := sameCarts_cart hV s
    rw [shape_type_eq hs]
    exact shape_setState _ _ _ hs

theorem restarts_active (E : Env) (f : World → World) (hf : restarts E f) (W : World) :
    (f W).active_cart = W.active_cart ∨ (f W).active_cart = .main := by
  rcases hf W with h | ⟨V, _, h⟩
  · exact Or.inl h.2.2
  · exact Or.inr (h.2.2.trans (ColdStart_carts E V).1)

/-- The accessed slot after `InitCartridge`: decoded, with the initial state of
its type. -/
theorem InitCartridge_same (E : Env) (hE : MachineCalls E) (c : Slot) (W : World) :
    shape ((InitCartridge E c W).cart c) =
      shape { PreprocessCart E (W.cart c) with
        state := initial_state (E.kind (W.cart c).type) } := by
  have h2 : (ResetCartState E c (W.setCart c (PreprocessCart E (W.cart c)))).cart c =
      { PreprocessCart E (W.cart c) with
        state := initial_state (E.kind (W.cart c).type) } := by
    rw [cart_ResetCartState_same, cart_setCart_same, PreprocessCart_type]
  have h3 : shape ((if c = .main then
      InitCartridge_machine E (ResetCartState E c (W.setCart c (PreprocessCart E (W.cart c))))
      else ResetCartState E c (W.setCart c (PreprocessCart E (W.cart c)))).cart c) =
      shape { PreprocessCart E (W.cart c) with
        state := initial_state (E.kind (W.cart c).type) } := by
    split_ifs with hc
    · rcases restarts_cart E _ (InitCartridge_machine_restarts E hE)
        (ResetCartState E c (W.setCart c (PreprocessCart E (W.cart c)))) c with h | h
      · rw [h, h2]
      · rw [h, h2]
        simp only [PreprocessCart_type]
    · rw [h2]
  unfold InitCartridge
  simp only []
  split_ifs with h1 h4
  · rw [shape_MapActiveCart]; simpa [h1] using h3
  · simpa [h1] using h3
  · rw [shape_MapActiveCart]; simpa [h1] using h3
  · simpa [h1] using h3

/-- The other slot after `InitCartridge`: as before, or with its state reset
when the machine was restarted. -/
theorem InitCartridge_other (E : Env) (hE : MachineCalls E) (c s : Slot) (hs : s ≠ c)
    (W : World) :
    shape ((InitCartridge E c W).cart s) = shape (W.cart s) ∨
    shape ((InitCartridge E c W).cart s) =
      shape { W.cart s with state := initial_state (E.kind (W.cart s).type) } := by
  have h2 : (ResetCartState E c (W.setCart c (PreprocessCart E (W.cart c)))).cart s =
      W.cart s := by
    rw [cart_ResetCartState_ne _ _ _ hs, cart_setCart_ne _ _ _ _ hs]
  have h3 := restarts_cart E _ (InitCartridge_machine_restarts E hE)
    (ResetCartState E c (W.setCart c (PreprocessCart E (W.cart c)))) s
  rw [h2] at h3
  unfold InitCartridge
  simp only []
  split_ifs with h1 h4
  · rw [shape_MapActiveCart]; exact h3
  · exact h3
  · rw [shape_MapActiveCart, h2]; exact Or.inl rfl
  · rw [h2]; exact Or.inl rfl

theorem InitCartridge_piggyback_eq (E : Env) (W : World) :
    InitCartridge E .piggyback W =
      if Slot.piggyback = (ResetCartState E .piggyback
          (W.setCart .piggyback (PreprocessCart E (W.cart .piggyback)))).active_cart then
        MapActiveCart E (ResetCartState E .piggyback
          (W.setCart .piggyback (PreprocessCart E (W.cart .piggyback))))
      else ResetCartState E .piggyback
        (W.setCart .piggyback (PreprocessCart E (W.cart .piggyback))) := rfl

theorem InitCartridge_main_eq (E : Env) (W : World) :
    InitCartridge E .main W =
      if Slot.main = (InitCartridge_machine E (ResetCartState E .main
          (W.setCart .main (PreprocessCart E (W.cart .main))))).active_cart then
        MapActiveCart E (InitCartridge_machine E (ResetCartState E .main
          (W.setCart .main (PreprocessCart E (W.cart .main)))))
      else InitCartridge_machine E (ResetCartState E .main
        (W.setCart .main (PreprocessCart E (W.cart .main)))) := rfl

/-- The slot behind is not touched by `InitCartridge` of the piggyback slot. -/
theorem InitCartridge_piggyback_main (E : Env) (W : World) :
    shape ((InitCartridge E .piggyback W).cart .main) = shape (W.cart .main) ∧
    (InitCartridge E .piggyback W).active_cart = W.active_cart := by
  have h2 : (ResetCartState E .piggyback
      (W.setCart .piggyback (PreprocessCart E (W.cart .piggyback)))).cart .main =
      W.cart .main := by
    rw [cart_ResetCartState_ne _ _ _ (by decide), cart_setCart_ne _ _ _ _ (by decide)]
  rw [InitCartridge_piggyback_eq]
  split_ifs with h1
  · simp only [shape_MapActiveCart, active_cart_MapActiveCart, active_cart_ResetCartState,
      active_cart_setCart, h2, and_self]
  · simp only [active_cart_ResetCartState, active_cart_setCart, h2, and_self]

theorem InitCartridge_active (E : Env) (hE : MachineCalls E) (c : Slot) (W : World) :
    (InitCartridge E c W).active_cart = W.active_cart ∨
    (InitCartridge E c W).active_cart = .main := by
  cases c
  · have h3 := restarts_active E _ (InitCartridge_machine_restarts E hE)
      (ResetCartState E .main (W.setCart .main (PreprocessCart E (W.cart .main))))
    simp only [active_cart_ResetCartState, active_cart_setCart] at h3
    rw [InitCartridge_main_eq]
    split_ifs with h1
    · rw [active_cart_MapActiveCart]; exact h3
    · exact h3
  · exact Or.inl (InitCartridge_piggyback_main E W).2

theorem demoEnv_calls : MachineCalls demoEnv :=
  ⟨fun _ _ => ⟨rfl, rfl, rfl⟩, fun _ => Or.inl ⟨rfl, rfl, rfl⟩, fun _ => Or.inl ⟨rfl, rfl, rfl⟩⟩

/-! ## Cold start and reset -/

/-- C11. `CARTRIDGE_ColdStart` makes the first slot the active cartridge and
leaves each of the two slots with its type and with the initial state of that
type: 1 for OSS_034M_16, 0x7f for ATMAX_OLD_1024, 0x10000 for AST_32, 254 for
MEGA_4096 and 0 for every other type. `InitCartridge` leaves the slot it is
run on with its type and the same initial state, provided the calls into the
machine leave the slots alone or cold start them. -/
theorem ColdStart_resets_state (E : Env) (hE : MachineCalls E) (W : World) :
    (CARTRIDGE_ColdStart E W).active_cart = .main ∧
    (∀ s, ((CARTRIDGE_ColdStart E W).cart s).type = (W.cart s).type ∧
      ((CARTRIDGE_ColdStart E W).cart s).state = initial_state (E.kind (W.cart s).type)) ∧
    (∀ c, ((InitCartridge E c W).cart c).type = (W.cart c).type ∧
      ((InitCartridge E c W).cart c).state = initial_state (E.kind (W.cart c).type)) := by
  refine ⟨(ColdStart_carts E W).1, fun s => ?_, fun c => ?_⟩
  · have h := (ColdStart_carts E W).2 s
    have ht := shape_type_eq h
    have hs := shape_state_eq h
    exact ⟨ht, hs⟩
  · have h := InitCartridge_same E hE c W
    have ht := shape_type_eq h
    have hs := shape_state_eq h
    exact ⟨ht.trans (PreprocessCart_type E _), hs⟩

/-- Witness for C11: in `demoWorld` a cold start leaves the SDX cartridge of
the first slot in state 0 and the AST cartridge behind it in state 0x10000,
and so does `InitCartridge`. -/
theorem ColdStart_resets_state_witness :
    (CARTRIDGE_ColdStart demoEnv demoWorld).active_cart = .main ∧
    (CARTRIDGE_ColdStart demoEnv demoWorld).CARTRIDGE_main.state = 0 ∧
    (CARTRIDGE_ColdStart demoEnv demoWorld).CARTRIDGE_piggyback.state = 0x10000 ∧
    (InitCartridge demoEnv .main demoWorld).CARTRIDGE_main.state = 0 ∧
    (InitCartridge demoEnv .piggyback demoWorld).CARTRIDGE_piggyback.state = 0x10000 :=
  ⟨(ColdStart_resets_state demoEnv demoEnv_calls demoWorld).1,
   ((ColdStart_resets_state demoEnv demoEnv_calls demoWorld).2.1 .main).2,
   ((ColdStart_resets_state demoEnv demoEnv_calls demoWorld).2.1 .piggyback).2,
   ((ColdStart_resets_state demoEnv demoEnv_calls demoWorld).2.2 .main).2,
   ((ColdStart_resets_state demoEnv demoEnv_calls demoWorld).2.2 .piggyback).2⟩

/-! ## Accesses to page `$D5`, slot by slot -/

theorem GetByte_switch_eq (E : Env) (c : Slot) (addr : Nat) (W : World) :
    GetByte_switch E c addr false W =
      match access_D5 E c addr W with
      | (some n, W1) => commit_state E c (W.cart c).state n W1
      | (none, W1) => W1 := rfl

theorem and_of_low_nibble (addr n m : Nat) (h : addr &&& 0x0f = n) (hm : 0x0f &&& m = m) :
    addr &&& m = n &&& m := by
  rw [← h, Nat.and_assoc, hm]

set_option maxRecDepth 100000 in
/-- The bits of an address inside page `$D5` that the range tests look at. -/
theorem page_D5_bits (addr : Nat) (h1 : 0xd500 ≤ addr) (h2 : addr ≤ 0xd5ff) :
    (addr &&& 0xf0 = 0x70 ↔ 0xd570 ≤ addr ∧ addr ≤ 0xd57f) ∧
    (addr &&& 0xf0 = 0xd0 ↔ 0xd5d0 ≤ addr ∧ addr ≤ 0xd5df) ∧
    (addr &&& 0xf0 = 0xe0 ↔ 0xd5e0 ≤ addr ∧ addr ≤ 0xd5ef) ∧
    (addr &&& 0xe0 = 0xe0 ↔ 0xd5e0 ≤ addr ∧ addr ≤ 0xd5ff) ∧
    (addr &&& 0xe0 = 0 ↔ 0xd500 ≤ addr ∧ addr ≤ 0xd51f) := by
  have key : ∀ k, k < 256 →
      (((0xd500 + k) &&& 0xf0 = 0x70 ↔ 0xd570 ≤ 0xd500 + k ∧ 0xd500 + k ≤ 0xd57f) ∧
      ((0xd500 + k) &&& 0xf0 = 0xd0 ↔ 0xd5d0 ≤ 0xd500 + k ∧ 0xd500 + k ≤ 0xd5df) ∧
      ((0xd500 + k) &&& 0xf0 = 0xe0 ↔ 0xd5e0 ≤ 0xd500 + k ∧ 0xd500 + k ≤ 0xd5ef) ∧
      ((0xd500 + k) &&& 0xe0 = 0xe0 ↔ 0xd5e0 ≤ 0xd500 + k ∧ 0xd500 + k ≤ 0xd5ff) ∧
      ((0xd500 + k) &&& 0xe0 = 0 ↔ 0xd500 ≤ 0xd500 + k ∧ 0xd500 + k ≤ 0xd51f)) := by
    decide
  have h := key (addr - 0xd500) (by omega)
  have e : 0xd500 + (addr - 0xd500) = addr := by omega
  rw [e] at h
  exact h

theorem access_D5_ignored (E : Env) (c : Slot) (addr : Nat) (W : World)
    (h1 : 0xd500 ≤ addr) (h2 : addr ≤ 0xd5ff)
    (h : ignored (E.kind (W.cart c).type) addr = true) :
    access_D5 E c addr W = (none, W) := by
  rcases page_D5_bits addr h1 h2 with ⟨b1, b2, b3, b4, b5⟩
  unfold access_D5
  cases hk : E.kind (W.cart c).type <;> rw [hk] at h <;>
    simp only [ignored, Bool.not_eq_true', decide_eq_false_iff_not, Bool.false_eq_true] at h <;>
    simp only [] <;> first
    | rfl
    | (rw [if_pos]; intro e; exact h (b1.1 e))
    | (rw [if_pos]; intro e; exact h (b2.1 e))
    | (rw [if_pos]; intro e; exact h (b3.1 e))
    | (rw [if_pos]; intro e; exact h (b4.1 e))
    | (rw [if_pos]; intro e; exact h (b5.1 e))

theorem PutByte_state_ignored (E : Env) (c : Slot) (addr byte : Nat) (W : World)
    (h1 : 0xd500 ≤ addr) (h2 : addr ≤ 0xd5ff)
    (h : ignored (E.kind (W.cart c).type) addr = true) :
    PutByte_state E c addr byte W = (none, W) := by
  have hacc := access_D5_ignored E c addr W h1 h2 h
  unfold PutByte_state
  cases hk : E.kind (W.cart c).type <;> rw [hk] at h <;>
    simp only [ignored, Bool.false_eq_true] at h <;> simp only [] <;> exact hacc

theorem GetByte_value_ignored (E : Env) (c : CARTRIDGE_image_t) (addr : Nat)
    (h : ignored (E.kind c.type) addr = true) :
    GetByte_value E c addr = some 0xff := by
  unfold GetByte_value
  cases hk : E.kind c.type <;> rw [hk] at h <;>
    simp only [ignored, Bool.false_eq_true] at h

/-! ## Ignored accesses -/

/-- C20. An ignored access changes nothing. For an address in page `$D5` and a
slot whose type ignores it (EXP_64 outside `$D57x`, DIAMOND_64 outside
`$D5Dx`, SDX_64 and ATRAX_SDX_64 outside `$D5Ex`, SDX_128 and ATRAX_SDX_128
outside `$D5Ex-$D5Fx`, ATMAX_128 outside `$D50x-$D51x`, or a type without
switching in page `$D5`, such as the empty slot, STD_8, STD_16, BBSB_40 and
the 5200 types), `access_D5` returns FALSE, a read that is not a peek returns
0xFF and a write returns, each leaving the whole world as it was: the state
of the slot, the active cartridge and the list of calls to the memory
module. -/
theorem ignored_access_changes_nothing (E : Env) (c : Slot) (addr byte : Nat) (W : World)
    (h1 : 0xd500 ≤ addr) (h2 : addr ≤ 0xd5ff)
    (h : ignored (E.kind (W.cart c).type) addr = true) :
    access_D5 E c addr W = (none, W) ∧
    GetByte E c addr false W = (some 0xff, W) ∧
    PutByte E c addr byte W = W := by
  have hacc := access_D5_ignored E c addr W h1 h2 h
  have hput := PutByte_state_ignored E c addr byte W h1 h2 h
  refine ⟨hacc, ?_, ?_⟩
  · have hsw : GetByte_switch E c addr false W = W := by
      rw [GetByte_switch_eq, hacc]
    unfold GetByte
    simp only [hsw]
    rw [GetByte_value_ignored E (W.cart c) addr h]
  · unfold PutByte
    simp only [hput]

/-- Witness for C20: the SDX 64KB cartridge of `demoWorld` ignores a read and a
write of `$D510`. -/
theorem ignored_access_changes_nothing_witness :
    access_D5 demoEnv .main 0xd510 demoWorld = (none, demoWorld) ∧
    GetByte demoEnv .main 0xd510 false demoWorld = (some 0xff, demoWorld) ∧
    PutByte demoEnv .main 0xd510 0x55 demoWorld = demoWorld :=
  ignored_access_changes_nothing demoEnv .main 0xd510 0x55 demoWorld (by decide) (by decide)
    (by decide)

/-! ## The OSS 16KB cartridges -/

/-- The state `commit_state` leaves in the accessed slot is the new one. -/
theorem commit_state_eq (E : Env) (c : Slot) (old n : Int) (W : World) :
    commit_state E c old n W =
      if n = old then W
      else if c = W.active_cart then
        SwitchBank E old (W.setState c n)
      else W.setState c n := by
  unfold commit_state World.setState
  by_cases h : n = old
  · simp [h]
  · simp [h]

/-- The bank switch of an OSS 16KB cartridge that has just been given state
`n` in place of `old`. -/
theorem SwitchBank_OSS (E : Env) (c : Slot) (old n main : Int) (W : World)
    (hc : c = W.active_cart)
    (hk : (E.kind (W.cart c).type = CARTRIDGE_OSS_034M_16 ∧ main = 0x3000) ∨
      (E.kind (W.cart c).type = CARTRIDGE_OSS_043M_16 ∧ main = 0x3000) ∨
      (E.kind (W.cart c).type = CARTRIDGE_OSS_M091_16 ∧ main = 0)) :
    SwitchBank E old (W.setState c n) =
      set_bank_A0AF main old (W.setState c n) := by
  have ha : (W.setState c n).active.type = (W.cart c).type := by
    simp [World.active, World.setState, ← hc]
  unfold SwitchBank
  rw [ha]
  rcases hk with ⟨h, hm⟩ | ⟨h, hm⟩ | ⟨h, hm⟩ <;> rw [h, hm]

/-- A page `$D5` access to an OSS 16KB cartridge for which `access_D5` gives
state `n`, as a read that is not a peek and as a write. -/
theorem OSS_access (E : Env) (c : Slot) (addr byte : Nat) (W : World) (n main : Int)
    (hk : (E.kind (W.cart c).type = CARTRIDGE_OSS_034M_16 ∧ main = 0x3000) ∨
      (E.kind (W.cart c).type = CARTRIDGE_OSS_043M_16 ∧ main = 0x3000) ∨
      (E.kind (W.cart c).type = CARTRIDGE_OSS_M091_16 ∧ main = 0))
    (hacc : access_D5 E c addr W = (some n, W)) :
    (GetByte E c addr false W).2 =
      (if n = (W.cart c).state then W
       else if c = W.active_cart then set_bank_A0AF main (W.cart c).state (W.setState c n)
       else W.setState c n) ∧
    PutByte E c addr byte W =
      (if n = (W.cart c).state then W
       else if c = W.active_cart then set_bank_A0AF main (W.cart c).state (W.setState c n)
       else W.setState c n) := by
  have hput : PutByte_state E c addr byte W = (some n, W) := by
    rw [← hacc]
    unfold PutByte_state
    rcases hk with ⟨h, _⟩ | ⟨h, _⟩ | ⟨h, _⟩ <;> rw [h]
  have hc := commit_state_eq E c (W.cart c).state n W
  have hs : ∀ hact : c = W.active_cart,
      SwitchBank E (W.cart c).state (W.setState c n) =
        set_bank_A0AF main (W.cart c).state (W.setState c n) :=
    fun hact => SwitchBank_OSS E c _ n main W hact hk
  have hfin : commit_state E c (W.cart c).state n W =
      (if n = (W.cart c).state then W
       else if c = W.active_cart then set_bank_A0AF main (W.cart c).state (W.setState c n)
       else W.setState c n) := by
    rw [hc]
    split_ifs with h1 h2
    · rfl
    · exact hs h2
    · rfl
  refine ⟨?_, ?_⟩
  · show GetByte_switch E c addr false W = _
    rw [GetByte_switch_eq, hacc]
    exact hfin
  · unfold PutByte
    rw [hput]
    exact hfin

theorem active_setState (W : World) (c : Slot) (n : Int) (hc : c = W.active_cart) :
    (W.setState c n).active.state = n := by
  simp [World.active, World.setState, ← hc]

theorem cart_setState_same (W : World) (c : Slot) (n : Int) :
    ((W.setState c n).cart c).state = n := by
  simp [World.setState]

/-- The bank switch of a disabled OSS cartridge: one call, no copy. -/
theorem set_bank_A0AF_disabled (main old : Int) (V : World) (h : V.active.state < 0) :
    set_bank_A0AF main old V = V.emit .CartA0bfDisable := by
  unfold set_bank_A0AF
  rw [if_pos h]

/-- The bank switch of an OSS cartridge in a bank state: the bank is copied to
`$A000-$AFFF`, and the fixed block to `$B000-$BFFF` if the cartridge was
disabled before. -/
theorem set_bank_A0AF_bank (main old : Int) (V : World) (h0 : 0 ≤ V.active.state)
    (hff : V.active.state ≠ 0xff) :
    set_bank_A0AF main old V =
      emits V ([.CartA0bfEnable,
        .CopyFromCart 0xa000 0xafff (.image V.active_cart (V.active.state * 0x1000))] ++
        if old < 0 then [.CopyFromCart 0xb000 0xbfff (.image V.active_cart main)] else []) := by
  unfold set_bank_A0AF
  rw [if_neg (by omega)]
  simp only [active_emit, if_neg hff]
  split_ifs <;> rfl

theorem ops_emits (l : List MemOp) (W : World) : (emits W l).ops = W.ops ++ l := by
  induction l generalizing W with
  | nil => simp [emits]
  | cons op l ih =>
    have h : emits W (op :: l) = emits (W.emit op) l := rfl
    rw [h, ih]
    simp [World.emit]

theorem ops_setState (W : World) (c : Slot) (n : Int) : (W.setState c n).ops = W.ops := by
  cases c <;> rfl

theorem active_cart_setState (W : World) (c : Slot) (n : Int) :
    (W.setState c n).active_cart = W.active_cart := by
  cases c <;> rfl

theorem mapped_source_append (ops l : List MemOp) (addr : Nat) :
    mapped_source (ops ++ l) addr = l.foldl (window_step addr) (mapped_source ops addr) := by
  unfold mapped_source
  rw [List.foldl_append]

/-- The state `access_D5` computes for the three OSS 16KB types, by the low
nibble of the address: `n8` for 0x08, `n37` for 0x03 and 0x07, `n0` for
0x00. -/
theorem access_D5_OSS (E : Env) (c : Slot) (addr : Nat) (W : World) (n0 n37 : Int)
    (hk : (E.kind (W.cart c).type = CARTRIDGE_OSS_034M_16 ∧ n0 = 0 ∧ n37 = 1) ∨
      (E.kind (W.cart c).type = CARTRIDGE_OSS_043M_16 ∧ n0 = 0 ∧ n37 = 2) ∨
      (E.kind (W.cart c).type = CARTRIDGE_OSS_M091_16 ∧ n0 = 1 ∧ n37 = 3)) :
    (addr &&& 0x0f = 0x08 → access_D5 E c addr W = (some (-1), W)) ∧
    (addr &&& 0x0f = 0x03 ∨ addr &&& 0x0f = 0x07 → access_D5 E c addr W = (some n37, W)) ∧
    (addr &&& 0x0f = 0x00 → access_D5 E c addr W = (some n0, W)) := by
  refine ⟨fun ha => ?_, fun ha => ?_, fun ha => ?_⟩
  · have h8 : addr &&& 8 = 8 := and_of_low_nibble addr 8 8 ha (by decide)
    have h9 : addr &&& 9 = 8 := and_of_low_nibble addr 8 9 ha (by decide)
    unfold access_D5
    rcases hk with ⟨h, _, _⟩ | ⟨h, _, _⟩ | ⟨h, _, _⟩ <;> rw [h] <;>
      simp [ossBank, h8, h9]
  · have h8 : addr &&& 8 = 0 := by
      rcases ha with ha | ha
      · exact and_of_low_nibble addr 3 8 ha (by decide)
      · exact and_of_low_nibble addr 7 8 ha (by decide)
    have h9 : addr &&& 9 = 1 := by
      rcases ha with ha | ha
      · exact and_of_low_nibble addr 3 9 ha (by decide)
      · exact and_of_low_nibble addr 7 9 ha (by decide)
    have h7 : addr &&& 7 = 3 ∨ addr &&& 7 = 7 := by
      rcases ha with ha | ha
      · exact Or.inl (and_of_low_nibble addr 3 7 ha (by decide))
      · exact Or.inr (and_of_low_nibble addr 7 7 ha (by decide))
    unfold access_D5
    rcases hk with ⟨h, _, hn⟩ | ⟨h, _, hn⟩ | ⟨h, _, hn⟩ <;> rw [h, hn] <;>
      rcases h7 with h7 | h7 <;> simp [ossBank, h8, h9, h7]
  · have h8 : addr &&& 8 = 0 := and_of_low_nibble addr 0 8 ha (by decide)
    have h9 : addr &&& 9 = 0 := and_of_low_nibble addr 0 9 ha (by decide)
    have h7 : addr &&& 7 = 0 := and_of_low_nibble addr 0 7 ha (by decide)
    unfold access_D5
    rcases hk with ⟨h, hn, _⟩ | ⟨h, hn, _⟩ | ⟨h, hn, _⟩ <;> rw [h, hn] <;>
      simp [ossBank, h8, h9, h7]

/-- C16. For a cartridge of one of the three OSS 16KB types in any state, a
read that is not a peek and a write to an address of page `$D5` with low
nibble 0x08 leave the state at -1; if the state was not -1 already and the
cartridge is the active one, the only call to the memory module is
`MEMORY_CartA0bfDisable`, so no byte is copied. The bank switch of an active
OSS cartridge in state -1 is that one call. -/
theorem OSS_nibble_8_disables (E : Env) (c : Slot) (addr byte : Nat) (W : World)
    (hk : E.kind (W.cart c).type = CARTRIDGE_OSS_034M_16 ∨
      E.kind (W.cart c).type = CARTRIDGE_OSS_043M_16 ∨
      E.kind (W.cart c).type = CARTRIDGE_OSS_M091_16)
    (ha : addr &&& 0x0f = 0x08) :
    (GetByte E c addr false W).2 =
      (if (W.cart c).state = -1 then W
       else if c = W.active_cart then (W.setState c (-1)).emit .CartA0bfDisable
       else W.setState c (-1)) ∧
    PutByte E c addr byte W =
      (if (W.cart c).state = -1 then W
       else if c = W.active_cart then (W.setState c (-1)).emit .CartA0bfDisable
       else W.setState c (-1)) ∧
    ((PutByte E c addr byte W).cart c).state = -1 ∧
    (∀ (old : Int) (V : World),
      (E.kind V.active.type = CARTRIDGE_OSS_034M_16 ∨
        E.kind V.active.type = CARTRIDGE_OSS_043M_16 ∨
        E.kind V.active.type = CARTRIDGE_OSS_M091_16) →
      V.active.state = -1 → SwitchBank E old V = V.emit .CartA0bfDisable) := by
  have hacc : access_D5 E c addr W = (some (-1), W) := by
    rcases hk with h | h | h
    · exact (access_D5_OSS E c addr W 0 1 (Or.inl ⟨h, rfl, rfl⟩)).1 ha
    · exact (access_D5_OSS E c addr W 0 2 (Or.inr (Or.inl ⟨h, rfl, rfl⟩))).1 ha
    · exact (access_D5_OSS E c addr W 1 3 (Or.inr (Or.inr ⟨h, rfl, rfl⟩))).1 ha
  have hX : ∀ main : Int,
      (if (-1 : Int) = (W.cart c).state then W
       else if c = W.active_cart then set_bank_A0AF main (W.cart c).state (W.setState c (-1))
       else W.setState c (-1)) =
      (if (W.cart c).state = -1 then W
       else if c = W.active_cart then (W.setState c (-1)).emit .CartA0bfDisable
       else W.setState c (-1)) := by
    intro main
    by_cases h1 : (W.cart c).state = -1
    · rw [if_pos h1.symm, if_pos h1]
    · rw [if_neg (fun e => h1 e.symm), if_neg h1]
      split_ifs with h2
      · apply set_bank_A0AF_disabled
        rw [active_setState W c (-1) h2]
        decide
      · rfl
  have hmain : ∃ main : Int,
      (E.kind (W.cart c).type = CARTRIDGE_OSS_034M_16 ∧ main = 0x3000) ∨
      (E.kind (W.cart c).type = CARTRIDGE_OSS_043M_16 ∧ main = 0x3000) ∨
      (E.kind (W.cart c).type = CARTRIDGE_OSS_M091_16 ∧ main = 0) := by
    rcases hk with h | h | h
    · exact ⟨0x3000, Or.inl ⟨h, rfl⟩⟩
    · exact ⟨0x3000, Or.inr (Or.inl ⟨h, rfl⟩)⟩
    · exact ⟨0, Or.inr (Or.inr ⟨h, rfl⟩)⟩
  obtain ⟨main, hm⟩ := hmain
  have h := OSS_access E c addr byte W (-1) main hm hacc
  rw [hX main] at h
  refine ⟨h.1, h.2, ?_, ?_⟩
  · rw [h.2]
    split_ifs with h1 h2
    · exact h1
    · rw [cart_emit]; exact cart_setState_same W c (-1)
    · exact cart_setState_same W c (-1)
  · intro old V hV hs
    unfold SwitchBank
    rcases hV with h | h | h <;> rw [h] <;> simp only [] <;>
      exact set_bank_A0AF_disabled _ old V (by rw [hs]; decide)

/-- Witness for C16: an OSS_034M_16 cartridge in state 1, active in the first
slot, is disabled by a read of `$D508`. -/
theorem OSS_nibble_8_disables_witness :
    (GetByte ossEnv .main 0xd508 false (ossWorld 1 1 16)).2 =
      ((ossWorld 1 1 16).setState .main (-1)).emit .CartA0bfDisable :=
  (OSS_nibble_8_disables ossEnv .main 0xd508 0 (ossWorld 1 1 16) (Or.inl rfl)
    (by decide)).1

/-- A page `$D5` access that puts an OSS 16KB cartridge into the bank state
`n`: if the state changes and the cartridge is active, bank `n` is copied to
`$A000-$AFFF`, and the fixed block to `$B000-$BFFF` if the cartridge was
disabled before. -/
theorem OSS_bank_access (E : Env) (c : Slot) (addr byte : Nat) (W : World) (n main : Int)
    (hk : (E.kind (W.cart c).type = CARTRIDGE_OSS_034M_16 ∧ main = 0x3000) ∨
      (E.kind (W.cart c).type = CARTRIDGE_OSS_043M_16 ∧ main = 0x3000) ∨
      (E.kind (W.cart c).type = CARTRIDGE_OSS_M091_16 ∧ main = 0))
    (hacc : access_D5 E c addr W = (some n, W)) (h0 : 0 ≤ n) (hff : n ≠ 0xff) :
    (GetByte E c addr false W).2 =
      (if n = (W.cart c).state then W
       else if c = W.active_cart then
        emits (W.setState c n) ([.CartA0bfEnable,
          .CopyFromCart 0xa000 0xafff (.image c (n * 0x1000))] ++
          if (W.cart c).state < 0 then [.CopyFromCart 0xb000 0xbfff (.image c main)] else [])
       else W.setState c n) ∧
    PutByte E c addr byte W =
      (if n = (W.cart c).state then W
       else if c = W.active_cart then
        emits (W.setState c n) ([.CartA0bfEnable,
          .CopyFromCart 0xa000 0xafff (.image c (n * 0x1000))] ++
          if (W.cart c).state < 0 then [.CopyFromCart 0xb000 0xbfff (.image c main)] else [])
       else W.setState c n) := by
  have h := OSS_access E c addr byte W n main hk hacc
  have hX : (if n = (W.cart c).state then W
       else if c = W.active_cart then set_bank_A0AF main (W.cart c).state (W.setState c n)
       else W.setState c n) =
      (if n = (W.cart c).state then W
       else if c = W.active_cart then
        emits (W.setState c n) ([.CartA0bfEnable,
          .CopyFromCart 0xa000 0xafff (.image c (n * 0x1000))] ++
          if (W.cart c).state < 0 then [.CopyFromCart 0xb000 0xbfff (.image c main)] else [])
       else W.setState c n) := by
    by_cases h1 : n = (W.cart c).state
    · rw [if_pos h1, if_pos h1]
    · rw [if_neg h1, if_neg h1]
      by_cases h2 : c = W.active_cart
      · rw [if_pos h2, if_pos h2]
        have hs := active_setState W c n h2
        rw [set_bank_A0AF_bank main _ _ (by rw [hs]; exact h0) (by rw [hs]; exact hff), hs,
          active_cart_setState, ← h2]
      · rw [if_neg h2, if_neg h2]
  rw [hX] at h
  exact h

/-- C17 fails for OSS_043M_16: a read of `$D503` puts the cartridge (type code
2 of `ossEnv`, state 0, active) into state 2, not 1, and the block copied to
`$A000-$AFFF` is the one at image offset 0x2000. -/
theorem OSS_043M_nibble_3_selects_bank_2 :
    ((GetByte ossEnv .main 0xd503 false (ossWorld 2 0 16)).2.cart .main).state = 2 ∧
    (GetByte ossEnv .main 0xd503 false (ossWorld 2 0 16)).2.ops =
      [.CartA0bfEnable, .CopyFromCart 0xa000 0xafff (.image .main 0x2000)] := by
  have h := (OSS_bank_access ossEnv .main 0xd503 0 (ossWorld 2 0 16) 2 0x3000
    (Or.inr (Or.inl ⟨rfl, rfl⟩)) rfl (by decide) (by decide)).1
  rw [h]
  exact ⟨rfl, rfl⟩

/-- C17, amended. For a cartridge of one of the three OSS 16KB types, a read
that is not a peek and a write to an address of page `$D5` with low nibble
0x03 or 0x07 select bank `n`, where `n` is 1 for OSS_034M_16, 2 for
OSS_043M_16 and 3 for OSS_M091_16: the state becomes `n`, and if this changes
the state of the active cartridge the block of 4 KB at image offset
`n * 0x1000` is copied to `$A000-$AFFF` (after it the fixed block to
`$B000-$BFFF`, if the cartridge was disabled before). -/
theorem OSS_nibble_3_7_bank (E : Env) (c : Slot) (addr byte : Nat) (W : World) (n main : Int)
    (hk : (E.kind (W.cart c).type = CARTRIDGE_OSS_034M_16 ∧ n = 1 ∧ main = 0x3000) ∨
      (E.kind (W.cart c).type = CARTRIDGE_OSS_043M_16 ∧ n = 2 ∧ main = 0x3000) ∨
      (E.kind (W.cart c).type = CARTRIDGE_OSS_M091_16 ∧ n = 3 ∧ main = 0))
    (ha : addr &&& 0x0f = 0x03 ∨ addr &&& 0x0f = 0x07) :
    (GetByte E c addr false W).2 =
      (if n = (W.cart c).state then W
       else if c = W.active_cart then
        emits (W.setState c n) ([.CartA0bfEnable,
          .CopyFromCart 0xa000 0xafff (.image c (n * 0x1000))] ++
          if (W.cart c).state < 0 then [.CopyFromCart 0xb000 0xbfff (.image c main)] else [])
       else W.setState c n) ∧
    PutByte E c addr byte W =
      (if n = (W.cart c).state then W
       else if c = W.active_cart then
        emits (W.setState c n) ([.CartA0bfEnable,
          .CopyFromCart 0xa000 0xafff (.image c (n * 0x1000))] ++
          if (W.cart c).state < 0 then [.CopyFromCart 0xb000 0xbfff (.image c main)] else [])
       else W.setState c n) ∧
    ((PutByte E c addr byte W).cart c).state = n := by
  have hacc : access_D5 E c addr W = (some n, W) := by
    rcases hk with ⟨h, hn, _⟩ | ⟨h, hn, _⟩ | ⟨h, hn, _⟩
    · exact (access_D5_OSS E c addr W 0 n (Or.inl ⟨h, rfl, hn⟩)).2.1 ha
    · exact (access_D5_OSS E c addr W 0 n (Or.inr (Or.inl ⟨h, rfl, hn⟩))).2.1 ha
    · exact (access_D5_OSS E c addr W 1 n (Or.inr (Or.inr ⟨h, rfl, hn⟩))).2.1 ha
  have hn : 0 ≤ n ∧ n ≠ 0xff := by
    rcases hk with ⟨_, hn, _⟩ | ⟨_, hn, _⟩ | ⟨_, hn, _⟩ <;> rw [hn] <;> decide
  have hk2 : (E.kind (W.cart c).type = CARTRIDGE_OSS_034M_16 ∧ main = 0x3000) ∨
      (E.kind (W.cart c).type = CARTRIDGE_OSS_043M_16 ∧ main = 0x3000) ∨
      (E.kind (W.cart c).type = CARTRIDGE_OSS_M091_16 ∧ main = 0) := by
    rcases hk with ⟨h, _, hm⟩ | ⟨h, _, hm⟩ | ⟨h, _, hm⟩
    · exact Or.inl ⟨h, hm⟩
    · exact Or.inr (Or.inl ⟨h, hm⟩)
    · exact Or.inr (Or.inr ⟨h, hm⟩)
  have h := OSS_bank_access E c addr byte W n main hk2 hacc hn.1 hn.2
  refine ⟨h.1, h.2, ?_⟩
  rw [h.2]
  split_ifs with h1 h2 h3
  · exact h1.symm
  · rw [cart_emits]; exact cart_setState_same W c n
  · rw [cart_emits]; exact cart_setState_same W c n
  · exact cart_setState_same W c n

/-- Witness for C17: a write to `$D507` puts the OSS_M091_16 cartridge of
`ossEnv` (type code 3, state 1, active) into state 3 and copies the block at
image offset 0x3000. -/
theorem OSS_nibble_3_7_bank_witness :
    PutByte ossEnv .main 0xd507 0 (ossWorld 3 1 16) =
      emits ((ossWorld 3 1 16).setState .main 3)
        [.CartA0bfEnable, .CopyFromCart 0xa000 0xafff (.image .main 0x3000)] :=
  (OSS_nibble_3_7_bank ossEnv .main 0xd507 0 (ossWorld 3 1 16) 3 0
    (Or.inr (Or.inr ⟨rfl, rfl, rfl⟩)) (Or.inr (by decide))).2.1

/-- What is mapped into `$A000-$BFFF` after the calls of an OSS bank switch
that copies the block at `off` to `$A000-$AFFF`. -/
theorem mapped_source_OSS_bank (ops : List MemOp) (p : Ptr) (q : Option Ptr) (a : Nat) :
    (0xa000 ≤ a → a ≤ 0xafff →
      mapped_source (ops ++ ([.CartA0bfEnable, .CopyFromCart 0xa000 0xafff p] ++
        match q with
        | some r => [.CopyFromCart 0xb000 0xbfff r]
        | none => [])) a = some (p, a - 0xa000)) ∧
    (0xb000 ≤ a → a ≤ 0xbfff →
      mapped_source (ops ++ ([.CartA0bfEnable, .CopyFromCart 0xa000 0xafff p] ++
        match q with
        | some r => [.CopyFromCart 0xb000 0xbfff r]
        | none => [])) a =
        match q with
        | some r => some (r, a - 0xb000)
        | none => mapped_source ops a) := by
  refine ⟨fun h1 h2 => ?_, fun h1 h2 => ?_⟩
  · rw [mapped_source_append]
    cases q with
    | none => simp [window_step, h1, h2]
    | some r =>
      have h3 : ¬ (0xb000 ≤ a ∧ a ≤ 0xbfff) := by omega
      simp [window_step, h1, h2, h3]
  · rw [mapped_source_append]
    have h3 : ¬ (0xa000 ≤ a ∧ a ≤ 0xafff) := by omega
    cases q with
    | none => simp [window_step, h3]
    | some r => simp [window_step, h1, h2, h3]

/-- C18 fails for OSS_034M_16: after a cold start and a read of `$D500` the
cartridge (type code 1 of `ossEnv`, active) is in state 0, the bytes mapped at
`$B000-$BFFF` are those of the image from offset 0x3000 on, and the block
`image[0 .. 0x0FFF]` is mapped at `$A000-$AFFF`. -/
theorem OSS_034M_nibble_0_maps_A000 :
    ((GetByte ossEnv .main 0xd500 false
      (CARTRIDGE_ColdStart ossEnv (ossWorld 1 1 16))).2.cart .main).state = 0 ∧
    mapped_source (GetByte ossEnv .main 0xd500 false
      (CARTRIDGE_ColdStart ossEnv (ossWorld 1 1 16))).2.ops 0xb000 =
        some (.image .main 0x3000, 0) ∧
    mapped_source (GetByte ossEnv .main 0xd500 false
      (CARTRIDGE_ColdStart ossEnv (ossWorld 1 1 16))).2.ops 0xa000 =
        some (.image .main 0, 0) := by
  decide

theorem ops_emit (W : World) (op : MemOp) : (W.emit op).ops = W.ops ++ [op] := rfl

/-- Mapping an active OSS 16KB cartridge that is not disabled puts the fixed
block of the image at `$B000-$BFFF`. -/
theorem MapActiveCart_OSS_fixed (E : Env) (W : World) (main : Int)
    (hk : (E.kind W.active.type = CARTRIDGE_OSS_034M_16 ∧ main = 0x3000) ∨
      (E.kind W.active.type = CARTRIDGE_OSS_043M_16 ∧ main = 0x3000) ∨
      (E.kind W.active.type = CARTRIDGE_OSS_M091_16 ∧ main = 0))
    (hm : W.Atari800_machine_type ≠ .Atari800_MACHINE_5200) (h0 : 0 ≤ W.active.state)
    (a : Nat) (h1 : 0xb000 ≤ a) (h2 : a ≤ 0xbfff) :
    mapped_source (MapActiveCart E W).ops a = some (.image W.active_cart main, a - 0xb000) := by
  have h3 : ¬ (0xa000 ≤ a ∧ a ≤ 0xafff) := by omega
  have h4 : ¬ (0x8000 ≤ a ∧ a ≤ 0x9fff) := by omega
  have h5 : ¬ (0xa000 ≤ a ∧ a < 0xa000 + 0x1000) := by omega
  have hs : ¬ (W.active.state < 0) := by omega
  have key : mapped_source
      (set_bank_A0AF main W.active.state
        (emits (W.emit .Cart809fDisable)
          [.CartA0bfEnable, .CopyFromCart 0xb000 0xbfff (W.img main)])).ops a =
      some (.image W.active_cart main, a - 0xb000) := by
    unfold set_bank_A0AF
    simp only [active_emits, active_emit, if_neg hs]
    split_ifs <;>
      simp [ops_emit, ops_emits, mapped_source, window_step, World.img, h1, h2, h3, h4, h5]
  unfold MapActiveCart
  rw [if_neg hm]
  unfold MapActiveCartComputer
  rcases hk with ⟨h, hmn⟩ | ⟨h, hmn⟩ | ⟨h, hmn⟩ <;> rw [h] <;>
    simp only [active_emit, ge_iff_le, h0, if_true, active_emits] <;>
    unfold SwitchBank <;>
    simp only [active_emit, active_emits, h] <;>
    rw [← hmn] <;> exact key

/-- C18, amended. For a cartridge of one of the three OSS 16KB types, a read
that is not a peek and a write to an address of page `$D5` with low nibble
0x00 select bank `n`, where `n` is 0 for OSS_034M_16 and OSS_043M_16 and 1 for
OSS_M091_16. If this changes the state of the active cartridge, the bytes
mapped at `$A000-$AFFF` afterwards are `image[n * 0x1000 ..]`, and
`$B000-$BFFF` is mapped as before the access, or to the fixed block if the
cartridge was disabled. The fixed block, which `MapActiveCart` puts at
`$B000-$BFFF`, starts at image offset 0x3000 for OSS_034M_16 and OSS_043M_16
and at offset 0 for OSS_M091_16: only for the last one are the bytes at
`$B000-$BFFF` those of `image[0 .. 0x0FFF]`. -/
theorem OSS_nibble_0_bank (E : Env) (c : Slot) (addr byte : Nat) (W : World) (n main : Int)
    (hk : (E.kind (W.cart c).type = CARTRIDGE_OSS_034M_16 ∧ n = 0 ∧ main = 0x3000) ∨
      (E.kind (W.cart c).type = CARTRIDGE_OSS_043M_16 ∧ n = 0 ∧ main = 0x3000) ∨
      (E.kind (W.cart c).type = CARTRIDGE_OSS_M091_16 ∧ n = 1 ∧ main = 0))
    (ha : addr &&& 0x0f = 0x00) :
    (GetByte E c addr false W).2 = PutByte E c addr byte W ∧
    ((PutByte E c addr byte W).cart c).state = n ∧
    (c = W.active_cart → (W.cart c).state ≠ n →
      (∀ a, 0xa000 ≤ a → a ≤ 0xafff →
        mapped_source (PutByte E c addr byte W).ops a =
          some (.image c (n * 0x1000), a - 0xa000)) ∧
      (∀ a, 0xb000 ≤ a → a ≤ 0xbfff →
        mapped_source (PutByte E c addr byte W).ops a =
          if (W.cart c).state < 0 then some (.image c main, a - 0xb000)
          else mapped_source W.ops a)) ∧
    (c = W.active_cart → W.Atari800_machine_type ≠ .Atari800_MACHINE_5200 →
      0 ≤ (W.cart c).state →
      ∀ a, 0xb000 ≤ a → a ≤ 0xbfff →
        mapped_source (MapActiveCart E W).ops a = some (.image c main, a - 0xb000)) := by
  have hacc : access_D5 E c addr W = (some n, W) := by
    rcases hk with ⟨h, hn, _⟩ | ⟨h, hn, _⟩ | ⟨h, hn, _⟩
    · exact (access_D5_OSS E c addr W n 1 (Or.inl ⟨h, hn, rfl⟩)).2.2 ha
    · exact (access_D5_OSS E c addr W n 2 (Or.inr (Or.inl ⟨h, hn, rfl⟩))).2.2 ha
    · exact (access_D5_OSS E c addr W n 3 (Or.inr (Or.inr ⟨h, hn, rfl⟩))).2.2 ha
  have hn : 0 ≤ n ∧ n ≠ 0xff := by
    rcases hk with ⟨_, hn, _⟩ | ⟨_, hn, _⟩ | ⟨_, hn, _⟩ <;> rw [hn] <;> decide
  have hk2 : (E.kind (W.cart c).type = CARTRIDGE_OSS_034M_16 ∧ main = 0x3000) ∨
      (E.kind (W.cart c).type = CARTRIDGE_OSS_043M_16 ∧ main = 0x3000) ∨
      (E.kind (W.cart c).type = CARTRIDGE_OSS_M091_16 ∧ main = 0) := by
    rcases hk with ⟨h, _, hm⟩ | ⟨h, _, hm⟩ | ⟨h, _, hm⟩
    · exact Or.inl ⟨h, hm⟩
    · exact Or.inr (Or.inl ⟨h, hm⟩)
    · exact Or.inr (Or.inr ⟨h, hm⟩)
  have h := OSS_bank_access E c addr byte W n main hk2 hacc hn.1 hn.2
  refine ⟨h.1.trans h.2.symm, ?_, ?_, ?_⟩
  · rw [h.2]
    split_ifs with h1 h2 h3
    · exact h1.symm
    · rw [cart_emits]; exact cart_setState_same W c n
    · rw [cart_emits]; exact cart_setState_same W c n
    · exact cart_setState_same W c n
  · intro hc hne
    rw [h.2, if_neg (fun e => hne e.symm), if_pos hc, ops_emits, ops_setState]
    by_cases hs : (W.cart c).state < 0
    · simp only [if_pos hs]
      exact ⟨fun a h1 h2 => (mapped_source_OSS_bank W.ops _ (some _) a).1 h1 h2,
        fun a h1 h2 => (mapped_source_OSS_bank W.ops _ (some _) a).2 h1 h2⟩
    · simp only [if_neg hs]
      exact ⟨fun a h1 h2 => (mapped_source_OSS_bank W.ops _ none a).1 h1 h2,
        fun a h1 h2 => (mapped_source_OSS_bank W.ops _ none a).2 h1 h2⟩
  · intro hc hm h0 a h1 h2
    have hact : W.active = W.cart c := by rw [hc]; rfl
    rw [hc]
    exact MapActiveCart_OSS_fixed E W main (by rw [hact]; exact hk2) hm (by rw [hact]; exact h0)
      a h1 h2

/-- Witness for C18: for the OSS_M091_16 cartridge of `ossEnv` (type code 3,
state 3, active) a write to `$D500` selects bank 1 and maps it at `$A000`. -/
theorem OSS_nibble_0_bank_witness :
    ((PutByte ossEnv .main 0xd500 0 (ossWorld 3 3 16)).cart .main).state = 1 ∧
    mapped_source (PutByte ossEnv .main 0xd500 0 (ossWorld 3 3 16)).ops 0xa000 =
      some (.image .main (1 * 0x1000), 0xa000 - 0xa000) ∧
    mapped_source (MapActiveCart ossEnv (ossWorld 3 3 16)).ops 0xb000 =
      some (.image .main 0, 0xb000 - 0xb000) :=
  ⟨(OSS_nibble_0_bank ossEnv .main 0xd500 0 (ossWorld 3 3 16) 1 0
      (Or.inr (Or.inr ⟨rfl, rfl, rfl⟩)) (by decide)).2.1,
   ((OSS_nibble_0_bank ossEnv .main 0xd500 0 (ossWorld 3 3 16) 1 0
      (Or.inr (Or.inr ⟨rfl, rfl, rfl⟩)) (by decide)).2.2.1 rfl (by decide)).1 0xa000
      (by decide) (by decide),
   (OSS_nibble_0_bank ossEnv .main 0xd500 0 (ossWorld 3 3 16) 1 0
      (Or.inr (Or.inr ⟨rfl, rfl, rfl⟩)) (by decide)).2.2.2 rfl (by decide) (by decide) 0xb000
      (by decide) (by decide)⟩

/-! ## The ULTRACART 32KB cartridge -/

theorem shape_setState_cart (W : World) (c : Slot) (n : Int) :
    shape ((W.setState c n).cart c) = shape { W.cart c with state := n } := by
  simp [World.setState]

/-- Any page `$D5` access to an ULTRACART_32 cartridge, as a read that is not
a peek and as a write: the state goes from `s` to `(s + 1) % 5` in C. -/
theorem ULTRACART_access (E : Env) (c : Slot) (addr byte : Nat) (W : World)
    (hk : E.kind (W.cart c).type = CARTRIDGE_ULTRACART_32) :
    (GetByte E c addr false W).2 =
      commit_state E c (W.cart c).state (Int.tmod ((W.cart c).state + 1) 5) W ∧
    PutByte E c addr byte W =
      commit_state E c (W.cart c).state (Int.tmod ((W.cart c).state + 1) 5) W := by
  have hacc : access_D5 E c addr W = (some (Int.tmod ((W.cart c).state + 1) 5), W) := by
    unfold access_D5
    rw [hk]
  have hput : PutByte_state E c addr byte W =
      (some (Int.tmod ((W.cart c).state + 1) 5), W) := by
    rw [← hacc]
    unfold PutByte_state
    rw [hk]
  refine ⟨?_, ?_⟩
  · show GetByte_switch E c addr false W = _
    rw [GetByte_switch_eq, hacc]
  · unfold PutByte
    rw [hput]

/-- The slot after `commit_state`: its state is the new one, the rest of it is
as before up to the contents of the image. -/
theorem shape_commit_state (E : Env) (c : Slot) (n : Int) (W : World) :
    shape ((commit_state E c (W.cart c).state n W).cart c) =
      shape { W.cart c with state := n } := by
  rw [commit_state_eq]
  split_ifs with h1 h2
  · rw [h1]
  · rw [shape_SwitchBank]; exact shape_setState_cart W c n
  · exact shape_setState_cart W c n

theorem ULTRACART_step (E : Env) (c : Slot) (addr byte : Nat) (W : World)
    (hk : E.kind (W.cart c).type = CARTRIDGE_ULTRACART_32)
    (h0 : 0 ≤ (W.cart c).state) (h4 : (W.cart c).state ≤ 4) :
    E.kind ((PutByte E c addr byte W).cart c).type = CARTRIDGE_ULTRACART_32 ∧
    ((PutByte E c addr byte W).cart c).state = ((W.cart c).state + 1) % 5 ∧
    ((GetByte E c addr false W).2.cart c).state = ((W.cart c).state + 1) % 5 := by
  have h := ULTRACART_access E c addr byte W hk
  have hs := shape_commit_state E c (Int.tmod ((W.cart c).state + 1) 5) W
  have ht := shape_type_eq hs
  have hst := shape_state_eq hs
  have hmod : Int.tmod ((W.cart c).state + 1) 5 = ((W.cart c).state + 1) % 5 :=
    Int.tmod_eq_emod (by omega) (by decide)
  rw [h.1, h.2]
  refine ⟨?_, ?_, ?_⟩
  · rw [ht]; exact hk
  · rw [hst]; exact hmod
  · rw [hst]; exact hmod

/-- The state of an ULTRACART_32 cartridge after a run of writes. -/
theorem ULTRACART_writes (E : Env) (c : Slot) (l : List (Nat × Nat)) (W : World)
    (hk : E.kind (W.cart c).type = CARTRIDGE_ULTRACART_32)
    (h0 : 0 ≤ (W.cart c).state) (h4 : (W.cart c).state ≤ 4) :
    ((l.foldl (fun V p => PutByte E c p.1 p.2 V) W).cart c).state =
      ((W.cart c).state + l.length) % 5 := by
  induction l generalizing W with
  | nil => simp; omega
  | cons p l ih =>
    have hstep := ULTRACART_step E c p.1 p.2 W hk h0 h4
    rw [List.foldl_cons, ih _ hstep.1 (by rw [hstep.2.1]; omega) (by rw [hstep.2.1]; omega),
      hstep.2.1]
    simp only [List.length_cons, Nat.cast_add, Nat.cast_one]
    omega

/-- C19. For an ULTRACART_32 cartridge in a state `s` from 0 to 4, every read
that is not a peek and every write to page `$D5` leaves the state at
`(s + 1) mod 5`, which is again from 0 to 4; five writes in a row, to whatever
addresses, leave the state at `s`; and the bank switch of the active cartridge
disables `$A000-$BFFF` in state 4 and maps bank `s` of 8 KB otherwise. -/
theorem ULTRACART_cycle (E : Env) (c : Slot) (W : World)
    (hk : E.kind (W.cart c).type = CARTRIDGE_ULTRACART_32)
    (h0 : 0 ≤ (W.cart c).state) (h4 : (W.cart c).state ≤ 4) :
    (∀ addr, ((GetByte E c addr false W).2.cart c).state = ((W.cart c).state + 1) % 5) ∧
    (∀ addr byte, ((PutByte E c addr byte W).cart c).state = ((W.cart c).state + 1) % 5) ∧
    (0 ≤ ((W.cart c).state + 1) % 5 ∧ ((W.cart c).state + 1) % 5 ≤ 4) ∧
    (∀ l : List (Nat × Nat), l.length = 5 →
      ((l.foldl (fun V p => PutByte E c p.1 p.2 V) W).cart c).state = (W.cart c).state) ∧
    (c = W.active_cart → ∀ old, SwitchBank E old W =
      if (W.cart c).state = 4 then W.emit .CartA0bfDisable
      else (W.emit .CartA0bfEnable).emit
        (.CopyFromCart 0xa000 0xbfff (.image c ((W.cart c).state * 0x2000)))) := by
  refine ⟨fun addr => (ULTRACART_step E c addr 0 W hk h0 h4).2.2,
    fun addr byte => (ULTRACART_step E c addr byte W hk h0 h4).2.1,
    ⟨by omega, by omega⟩, fun l hl => ?_, fun hc old => ?_⟩
  · rw [ULTRACART_writes E c l W hk h0 h4, hl]
    omega
  · have hact : W.active = W.cart c := by rw [hc]; rfl
    unfold SwitchBank
    rw [hact, hk]
    simp only []
    unfold set_bank_A0BF World.img
    rw [hact, ← hc]
    have e0 : band 0 4 = 0 ∧ band 0 3 = 0 := by decide
    have e1 : band 1 4 = 0 ∧ band 1 3 = 1 := by decide
    have e2 : band 2 4 = 0 ∧ band 2 3 = 2 := by decide
    have e3 : band 3 4 = 0 ∧ band 3 3 = 3 := by decide
    have e4 : band 4 4 = 4 := by decide
    generalize (W.cart c).state = s at h0 h4 ⊢
    interval_cases s <;> simp [e0.1, e0.2, e1.1, e1.2, e2.1, e2.2, e3.1, e3.2, e4]

/-- Witness for C19: for the ULTRACART_32 cartridge of `ossEnv` (type code 4)
in state 4 a write gives state 0, five writes give state 4 again, and the
bank switch in state 4 disables the window. -/
theorem ULTRACART_cycle_witness :
    ((PutByte ossEnv .main 0xd500 0 (ossWorld 4 4 32)).cart .main).state = (4 + 1) % 5 ∧
    (([(0xd500, 0), (0xd5ff, 1), (0xd510, 2), (0xd500, 3), (0xd500, 4)].foldl
      (fun V p => PutByte ossEnv .main p.1 p.2 V) (ossWorld 4 4 32)).cart .main).state = 4 ∧
    SwitchBank ossEnv 3 (ossWorld 4 4 32) = (ossWorld 4 4 32).emit .CartA0bfDisable :=
  ⟨(ULTRACART_cycle ossEnv .main (ossWorld 4 4 32) rfl (by decide) (by decide)).2.1 0xd500 0,
   (ULTRACART_cycle ossEnv .main (ossWorld 4 4 32) rfl (by decide) (by decide)).2.2.2.1
     [(0xd500, 0), (0xd5ff, 1), (0xd510, 2), (0xd500, 3), (0xd500, 4)] rfl,
   (ULTRACART_cycle ossEnv .main (ossWorld 4 4 32) rfl (by decide) (by decide)).2.2.2.2 rfl 3⟩

/-! ## The passthrough cartridges and the piggyback slot -/

theorem active_cart_switchPiggyback (E : Env) (c : Slot) (old new : Int) (W : World) :
    (switchPiggyback E c old new W).active_cart =
      if c = .main then
        if band old 0x0c = 0x08 then
          if band new 0x0c ≠ 0x08 then .main else W.active_cart
        else if band new 0x0c = 0x08 then .piggyback
        else W.active_cart
      else W.active_cart := by
  unfold switchPiggyback
  split_ifs <;> first | rfl | rw [active_cart_MapActiveCart]

/-- The two shapes of what `access_D5` returns: for a type that is not a
passthrough type the world is untouched; for a passthrough type the access is
ignored or the piggyback switch has run on the new state. -/
theorem access_D5_form (E : Env) (c : Slot) (addr : Nat) (W : World) :
    (CartIsPassthrough E (W.cart c).type = false ∧ (access_D5 E c addr W).2 = W) ∨
    (CartIsPassthrough E (W.cart c).type = true ∧
      (access_D5 E c addr W = (none, W) ∨
        ∃ n, access_D5 E c addr W = (some n, switchPiggyback E c (W.cart c).state n W))) := by
  unfold access_D5 CartIsPassthrough
  cases hk : E.kind (W.cart c).type <;> dsimp only <;> first
    | exact Or.inl ⟨rfl, rfl⟩
    | (left; refine ⟨rfl, ?_⟩; split_ifs <;> rfl)
    | (right; refine ⟨rfl, ?_⟩; split_ifs <;> first | exact Or.inl rfl | exact Or.inr ⟨_, rfl⟩)

theorem PutByte_state_form (E : Env) (c : Slot) (addr byte : Nat) (W : World) :
    (CartIsPassthrough E (W.cart c).type = false ∧ (PutByte_state E c addr byte W).2 = W) ∨
    (CartIsPassthrough E (W.cart c).type = true ∧
      (PutByte_state E c addr byte W = (none, W) ∨
        ∃ n, PutByte_state E c addr byte W =
          (some n, switchPiggyback E c (W.cart c).state n W))) := by
  have h := access_D5_form E c addr W
  have hp : ∀ k, E.kind (W.cart c).type = k → k ≠ CARTRIDGE_SDX_64 → k ≠ CARTRIDGE_SDX_128 →
      k ≠ CARTRIDGE_ATRAX_SDX_64 → k ≠ CARTRIDGE_ATRAX_SDX_128 →
      CartIsPassthrough E (W.cart c).type = false := by
    intro k hk h1 h2 h3 h4
    unfold CartIsPassthrough
    rw [hk]
    cases k <;> first
      | rfl
      | exact absurd rfl h1
      | exact absurd rfl h2
      | exact absurd rfl h3
      | exact absurd rfl h4
  unfold PutByte_state
  cases hk : E.kind (W.cart c).type <;> dsimp only <;> first
    | exact h
    | exact Or.inl ⟨hp _ hk (by decide) (by decide) (by decide) (by decide), rfl⟩
    | (left; refine ⟨hp _ hk (by decide) (by decide) (by decide) (by decide), ?_⟩
       split_ifs <;> rfl)

theorem active_cart_commit_state (E : Env) (c : Slot) (old n : Int) (W : World) :
    (commit_state E c old n W).active_cart = W.active_cart := by
  rw [commit_state_eq]
  split_ifs
  · rfl
  · rw [active_cart_SwitchBank, active_cart_setState]
  · rw [active_cart_setState]

theorem shape_commit_state_ne (E : Env) (c s : Slot) (hs : s ≠ c) (old n : Int) (W : World) :
    shape ((commit_state E c old n W).cart s) = shape (W.cart s) := by
  rw [commit_state_eq]
  split_ifs
  · rfl
  · rw [shape_SwitchBank, World.setState, cart_setCart_ne _ _ _ _ hs]
  · rw [World.setState, cart_setCart_ne _ _ _ _ hs]

theorem shape_switchPiggyback (E : Env) (c : Slot) (old new : Int) (W : World) (s : Slot) :
    shape ((switchPiggyback E c old new W).cart s) = shape (W.cart s) := by
  unfold switchPiggyback
  split_ifs <;> first | rfl | (rw [shape_MapActiveCart]; cases s <;> rfl)

theorem SelStep_same (E : Env) (W V : World)
    (hm : shape V.CARTRIDGE_main = shape W.CARTRIDGE_main)
    (ha : V.active_cart = W.active_cart) : SelStep E W V := by
  have ht : V.CARTRIDGE_main.type = W.CARTRIDGE_main.type := shape_type_eq hm
  have hs : V.CARTRIDGE_main.state = W.CARTRIDGE_main.state := shape_state_eq hm
  refine ⟨ht, ?_⟩
  split_ifs
  · exact Or.inl ⟨ha, by rw [hs]⟩
  · exact ha

/-- Whatever `access_D5` or the first half of `PutByte` returns, storing the
new state moves the active cartridge only as `SelStep` allows. -/
theorem SelStep_of_form (E : Env) (c : Slot) (W : World) (r : Option Int × World)
    (hr : (CartIsPassthrough E (W.cart c).type = false ∧ r.2 = W) ∨
      (CartIsPassthrough E (W.cart c).type = true ∧
        (r = (none, W) ∨ ∃ n, r = (some n, switchPiggyback E c (W.cart c).state n W)))) :
    SelStep E W (commit_result E c (W.cart c).state r) := by
  unfold commit_result
  cases c with
  | piggyback =>
    have h2 : r.2 = W := by
      rcases hr with ⟨_, h⟩ | ⟨_, h | ⟨n, h⟩⟩
      · exact h
      · rw [h]
      · rw [h]; rfl
    rcases r with ⟨r1, W1⟩
    simp only at h2
    subst h2
    cases r1 with
    | none => exact SelStep_same E _ _ rfl rfl
    | some n =>
      exact SelStep_same E _ _ (shape_commit_state_ne E .piggyback .main (by decide) _ n W1)
        (active_cart_commit_state E _ _ n W1)
  | main =>
    rcases hr with ⟨hp, h2⟩ | ⟨hp, h | ⟨n, h⟩⟩
    · rcases r with ⟨r1, W1⟩
      simp only at h2
      subst h2
      have hp2 : ¬ CartIsPassthrough E W1.CARTRIDGE_main.type = true := by
        have : W1.cart .main = W1.CARTRIDGE_main := rfl
        rw [← this, hp]; decide
      cases r1 with
      | none => exact SelStep_same E _ _ rfl rfl
      | some n =>
        refine ⟨?_, ?_⟩
        · have h5 := shape_type_eq (shape_commit_state E .main n W1)
          exact h5
        · rw [if_neg hp2]
          exact active_cart_commit_state E _ _ n W1
    · rw [h]
      exact SelStep_same E _ _ rfl rfl
    · rw [h]
      simp only []
      have hsw := shape_switchPiggyback E .main (W.cart .main).state n W .main
      have hold : ((switchPiggyback E .main (W.cart .main).state n W).cart .main).state =
          (W.cart .main).state := shape_state_eq hsw
      have hc := shape_commit_state E .main n (switchPiggyback E .main (W.cart .main).state n W)
      rw [hold] at hc
      have hty : (commit_state E .main (W.cart .main).state n
          (switchPiggyback E .main (W.cart .main).state n W)).CARTRIDGE_main.type =
          W.CARTRIDGE_main.type := by
        have h5 := shape_type_eq hc
        have h6 := shape_type_eq hsw
        exact h5.trans h6
      have hst : (commit_state E .main (W.cart .main).state n
          (switchPiggyback E .main (W.cart .main).state n W)).CARTRIDGE_main.state = n :=
        shape_state_eq hc
      have hac := active_cart_commit_state E .main (W.cart .main).state n
        (switchPiggyback E .main (W.cart .main).state n W)
      rw [active_cart_switchPiggyback] at hac
      have hp2 : CartIsPassthrough E W.CARTRIDGE_main.type = true := hp
      refine ⟨hty, ?_⟩
      rw [if_pos hp2, hst, hac]
      have hw : (W.cart .main).state = W.CARTRIDGE_main.state := rfl
      rw [hw]
      simp only [if_true]
      by_cases h1 : band W.CARTRIDGE_main.state 0x0c = 0x08 <;>
        by_cases h3 : band n 0x0c = 0x08 <;> simp [h1, h3]

theorem SelStep_GetByte_switch (E : Env) (c : Slot) (addr : Nat) (nse : Bool) (W : World) :
    SelStep E W (GetByte_switch E c addr nse W) := by
  cases nse
  · exact SelStep_of_form E c W _ (access_D5_form E c addr W)
  · exact SelStep_same E _ _ rfl rfl

theorem SelStep_PutByte (E : Env) (c : Slot) (addr byte : Nat) (W : World) :
    SelStep E W (PutByte E c addr byte W) := by
  exact SelStep_of_form E c W _ (PutByte_state_form E c addr byte W)

theorem Slot_ne_piggyback {s : Slot} (h : ¬ s = .piggyback) : s = .main := by
  cases s
  · rfl
  · exact absurd rfl h

/-- Behind a passthrough cartridge a step keeps the active cartridge in line
with the pattern of the first slot's state. -/
theorem iff_of_SelStep (E : Env) (W V : World) (h : SelStep E W V)
    (hp : CartIsPassthrough E W.CARTRIDGE_main.type = true)
    (hK : W.active_cart = .piggyback ↔ band W.CARTRIDGE_main.state 0x0c = 0x08) :
    CartIsPassthrough E V.CARTRIDGE_main.type = true ∧
    (V.active_cart = .piggyback ↔ band V.CARTRIDGE_main.state 0x0c = 0x08) := by
  obtain ⟨ht, hs⟩ := h
  rw [if_pos hp] at hs
  refine ⟨by rw [ht]; exact hp, ?_⟩
  rcases hs with ⟨ha, hb⟩ | ⟨ha, hb⟩ | ⟨ha, hb⟩
  · rw [ha, hb]; exact hK
  · exact ⟨fun _ => hb, fun _ => ha⟩
  · refine ⟨fun e => ?_, fun e => absurd e hb⟩
    rw [ha] at e
    exact absurd e (by decide)

/-- A step keeps the piggyback slot from being active unless selected. -/
theorem PiggybackSelected_of_SelStep (E : Env) (W V : World) (h : SelStep E W V)
    (hJ : PiggybackSelected E W) : PiggybackSelected E V := by
  obtain ⟨ht, hs⟩ := h
  intro hV
  by_cases hp : CartIsPassthrough E W.CARTRIDGE_main.type = true
  · rw [if_pos hp] at hs
    refine ⟨by rw [ht]; exact hp, ?_⟩
    rcases hs with ⟨ha, hb⟩ | ⟨_, hb⟩ | ⟨ha, _⟩
    · rw [hb]
      exact (hJ (ha ▸ hV)).2
    · exact hb
    · rw [ha] at hV
      exact absurd hV (by decide)
  · rw [if_neg hp] at hs
    exact absurd (hJ (hs ▸ hV)).1 hp

theorem SelStep_GetByte (E : Env) (c : Slot) (addr : Nat) (nse : Bool) (W : World) :
    SelStep E W (GetByte E c addr nse W).2 :=
  SelStep_GetByte_switch E c addr nse W

/-- Every property that the steps of the two slots keep is kept by
`CARTRIDGE_GetByte` and `CARTRIDGE_PutByte`. -/
theorem D5_access_keeps (E : Env) (P : World → Prop)
    (hP : ∀ W V, SelStep E W V → P W → P V) (W : World) (hW : P W) :
    (∀ addr nse, P (CARTRIDGE_GetByte E addr nse W).2) ∧
    (∀ addr byte, P (CARTRIDGE_PutByte E addr byte W)) := by
  refine ⟨fun addr nse => ?_, fun addr byte => ?_⟩
  · unfold CARTRIDGE_GetByte
    split_ifs
    · exact hW
    · exact hW
    · exact hW
    · exact hW
    · exact hP _ _ (SelStep_GetByte E .main addr nse _)
        (hP _ _ (SelStep_GetByte E .piggyback addr nse W) hW)
    · exact hP _ _ (SelStep_GetByte E .piggyback addr nse _)
        (hP _ _ (SelStep_GetByte E .main addr nse W) hW)
  · unfold CARTRIDGE_PutByte
    split_ifs
    · exact hW
    · exact hP _ _ (SelStep_PutByte E .piggyback addr byte _)
        (hP _ _ (SelStep_PutByte E .main addr byte W) hW)

theorem run_accesses_keeps (E : Env) (P : World → Prop)
    (hP : ∀ W V, SelStep E W V → P W → P V) (l : List D5Access) (W : World) (hW : P W) :
    P (run_accesses E l W) := by
  induction l generalizing W with
  | nil => exact hW
  | cons a l ih =>
    have h : run_accesses E (a :: l) W = run_accesses E l (a.run E W) := rfl
    rw [h]
    apply ih
    cases a with
    | read addr => exact (D5_access_keeps E P hP W hW).1 addr false
    | write addr byte => exact (D5_access_keeps E P hP W hW).2 addr byte

/-- C12. With a passthrough cartridge (SDX_64, ATRAX_SDX_64, SDX_128 or
ATRAX_SDX_128) in the first slot, after a cold start followed by any sequence
of reads that are not peeks and of writes to page `$D5`, the active cartridge
is the piggyback slot if and only if `(state & 0x0c) == 0x08` holds for the
state of the first slot. -/
theorem piggyback_active_iff_pattern (E : Env) (W : World) (l : List D5Access)
    (hp : CartIsPassthrough E W.CARTRIDGE_main.type = true) :
    (run_accesses E l (CARTRIDGE_ColdStart E W)).active_cart = .piggyback ↔
      band (run_accesses E l (CARTRIDGE_ColdStart E W)).CARTRIDGE_main.state 0x0c = 0x08 := by
  have hcs := ColdStart_carts E W
  have h0 := hcs.2 .main
  have ht : (CARTRIDGE_ColdStart E W).CARTRIDGE_main.type = W.CARTRIDGE_main.type := by
    have h5 := shape_type_eq h0
    exact h5
  have hs : (CARTRIDGE_ColdStart E W).CARTRIDGE_main.state =
      initial_state (E.kind W.CARTRIDGE_main.type) := by
    have h5 := shape_state_eq h0
    exact h5
  have hi : initial_state (E.kind W.CARTRIDGE_main.type) = 0 := by
    unfold CartIsPassthrough at hp
    cases hk : E.kind W.CARTRIDGE_main.type <;> rw [hk] at hp <;>
      first
      | rfl
      | exact absurd hp (by decide)
  have hstart : CartIsPassthrough E (CARTRIDGE_ColdStart E W).CARTRIDGE_main.type = true ∧
      ((CARTRIDGE_ColdStart E W).active_cart = .piggyback ↔
        band (CARTRIDGE_ColdStart E W).CARTRIDGE_main.state 0x0c = 0x08) := by
    refine ⟨by rw [ht]; exact hp, ?_⟩
    rw [hcs.1, hs, hi]
    decide
  exact (run_accesses_keeps E
    (fun V => CartIsPassthrough E V.CARTRIDGE_main.type = true ∧
      (V.active_cart = .piggyback ↔ band V.CARTRIDGE_main.state 0x0c = 0x08))
    (fun A B hAB hA => iff_of_SelStep E A B hAB hA.1 hA.2) l _ hstart).2

/-- Witness for C12: the SDX 64KB cartridge of `demoWorld`, cold started, then
written at `$D5E8` and read at `$D5E0`. -/
theorem piggyback_active_iff_pattern_witness :
    (run_accesses demoEnv [.write 0xd5e8 0, .read 0xd5e0]
      (CARTRIDGE_ColdStart demoEnv demoWorld)).active_cart = .piggyback ↔
      band (run_accesses demoEnv [.write 0xd5e8 0, .read 0xd5e0]
        (CARTRIDGE_ColdStart demoEnv demoWorld)).CARTRIDGE_main.state 0x0c = 0x08 :=
  piggyback_active_iff_pattern demoEnv demoWorld [.write 0xd5e8 0, .read 0xd5e0] rfl

/-! ## Frame lemmas for insertion and removal -/

theorem cart_written (W : World) (l : List (String × List Nat)) (s : Slot) :
    ({ W with written := l } : World).cart s = W.cart s := by
  cases s <;> rfl

theorem active_cart_RemoveCart_image (E : Env) (c : Slot) (W : World) :
    (RemoveCart_image E c W).active_cart = W.active_cart := by
  unfold RemoveCart_image
  simp only []
  cases hi : (W.cart c).image
  · rfl
  · simp only []
    split_ifs <;> simp

theorem cart_RemoveCart_image_ne (E : Env) (c s : Slot) (hs : s ≠ c) (W : World) :
    (RemoveCart_image E c W).cart s = W.cart s := by
  unfold RemoveCart_image
  simp only []
  cases hi : (W.cart c).image
  · rfl
  · simp only []
    split_ifs <;> simp [cart_setCart_ne _ _ _ _ hs, cart_written]

theorem cart_RemoveCart_image_same (E : Env) (c : Slot) (W : World) :
    (RemoveCart_image E c W).cart c = { W.cart c with image := none } := by
  unfold RemoveCart_image
  simp only []
  cases hi : (W.cart c).image
  · simp only []
    rw [← hi]
  · simp only []
    split_ifs <;> simp

theorem active_cart_RemoveCart (E : Env) (c : Slot) (W : World) :
    (RemoveCart E c W).active_cart = W.active_cart := by
  unfold RemoveCart
  simp only []
  split_ifs <;>
    simp [active_cart_MapActiveCart, active_cart_RemoveCart_image]

/-- The slot that `RemoveCart` is not run on stays as it is, up to the
contents of its image. -/
theorem shape_RemoveCart_ne (E : Env) (c s : Slot) (hs : s ≠ c) (W : World) :
    shape ((RemoveCart E c W).cart s) = shape (W.cart s) := by
  unfold RemoveCart
  simp only []
  split_ifs <;>
    simp [shape_MapActiveCart, cart_setCart_ne _ _ _ _ hs, cart_RemoveCart_image_ne _ _ _ hs]

/-- The slot that `RemoveCart` is run on ends without image and with type
`CARTRIDGE_NONE`, the rest of it as before. -/
theorem shape_RemoveCart_same (E : Env) (c : Slot) (W : World) :
    shape ((RemoveCart E c W).cart c) =
      shape { W.cart c with image := none, type := E.CARTRIDGE_NONE } := by
  unfold RemoveCart
  simp only []
  split_ifs with h1 h2
  · rw [shape_MapActiveCart, cart_setCart_same, cart_RemoveCart_image_same]
  · rw [cart_setCart_same, cart_RemoveCart_image_same]
  · rw [cart_RemoveCart_image_same] at h1 ⊢
    simp only [ne_eq, not_not] at h1
    simp only [shape, ← h1]

theorem RemoveCart_same (E : Env) (c : Slot) (W : World) :
    ((RemoveCart E c W).cart c).image = none ∧
    ((RemoveCart E c W).cart c).type = E.CARTRIDGE_NONE := by
  have h := shape_RemoveCart_same E c W
  have h1 := shape_type_eq h
  have h2 := (shape_image_none h).2 rfl
  exact ⟨h2, h1⟩

theorem Remove_active_cart (E : Env) (W : World) :
    (CARTRIDGE_Remove E W).active_cart = .main := by
  unfold CARTRIDGE_Remove CARTRIDGE_Remove_Second
  simp only [active_cart_RemoveCart]

/-- After `CARTRIDGE_Remove` both slots are empty. -/
theorem Remove_carts (E : Env) (W : World) (s : Slot) :
    ((CARTRIDGE_Remove E W).cart s).image = none ∧
    ((CARTRIDGE_Remove E W).cart s).type = E.CARTRIDGE_NONE := by
  unfold CARTRIDGE_Remove CARTRIDGE_Remove_Second
  simp only []
  cases s
  · exact RemoveCart_same E .main _
  · have h := shape_RemoveCart_ne E .main .piggyback (by decide)
      (RemoveCart E .piggyback { W with active_cart := .main })
    have h2 := RemoveCart_same E .piggyback { W with active_cart := .main }
    have h3 := shape_type_eq h
    have h4 := (shape_image_none h).2 h2.1
    exact ⟨h4, h3.trans h2.2⟩

theorem InsertCartridge_active (E : Env) (hE : MachineCalls E) (fn : String)
    (file : Option (List Nat)) (c : Slot) (W : World) :
    (InsertCartridge E fn file c W).2.active_cart = W.active_cart ∨
    (InsertCartridge E fn file c W).2.active_cart = .main := by
  unfold InsertCartridge
  simp only []
  split_ifs
  · have h := InitCartridge_active E hE c (W.setCart c (CARTRIDGE_ReadImage E fn file (W.cart c)).2)
    simpa using h
  · left; simp

theorem Insert_active_cart (E : Env) (hE : MachineCalls E) (fn : String)
    (file : Option (List Nat)) (W : World) :
    (CARTRIDGE_Insert E fn file W).2.active_cart = .main := by
  unfold CARTRIDGE_Insert
  rcases InsertCartridge_active E hE fn file .main (CARTRIDGE_Remove E W) with h | h
  · rw [h]; exact Remove_active_cart E W
  · exact h

/-- Inserting into the piggyback slot leaves the first slot and the active
cartridge alone. -/
theorem InsertCartridge_piggyback_main (E : Env) (fn : String) (file : Option (List Nat))
    (W : World) :
    shape ((InsertCartridge E fn file .piggyback W).2.cart .main) = shape (W.cart .main) ∧
    (InsertCartridge E fn file .piggyback W).2.active_cart = W.active_cart := by
  unfold InsertCartridge
  simp only []
  split_ifs
  · have h := InitCartridge_piggyback_main E
      (W.setCart .piggyback (CARTRIDGE_ReadImage E fn file (W.cart .piggyback)).2)
    simp only [active_cart_setCart] at h
    rw [cart_setCart_ne _ _ _ _ (by decide)] at h
    exact h
  · simp only [active_cart_setCart, and_true]
    rw [cart_setCart_ne _ _ _ _ (by decide)]

theorem Insert_Second_main (E : Env) (fn : String) (file : Option (List Nat)) (W : World) :
    shape ((CARTRIDGE_Insert_Second E fn file W).2.cart .main) = shape (W.cart .main) ∧
    (CARTRIDGE_Insert_Second E fn file W).2.active_cart = W.active_cart := by
  unfold CARTRIDGE_Insert_Second CARTRIDGE_Remove_Second
  have h := InsertCartridge_piggyback_main E fn file (RemoveCart E .piggyback W)
  rw [shape_RemoveCart_ne E .piggyback .main (by decide), active_cart_RemoveCart] at h
  exact h

theorem SetType_piggyback_main (E : Env) (type : Int) (W : World) :
    shape ((CARTRIDGE_SetType E .piggyback type W).cart .main) = shape (W.cart .main) ∧
    (CARTRIDGE_SetType E .piggyback type W).active_cart = W.active_cart := by
  unfold CARTRIDGE_SetType
  simp only []
  split_ifs
  · have h := InitCartridge_piggyback_main E (RemoveCart E .piggyback
      (W.setCart .piggyback { W.cart .piggyback with type := type }))
    rw [shape_RemoveCart_ne E .piggyback .main (by decide), active_cart_RemoveCart,
      cart_setCart_ne _ _ _ _ (by decide), active_cart_setCart] at h
    exact h
  · have h := InitCartridge_piggyback_main E
      (W.setCart .piggyback { W.cart .piggyback with type := type })
    rw [cart_setCart_ne _ _ _ _ (by decide), active_cart_setCart] at h
    exact h

theorem SetType_active (E : Env) (hE : MachineCalls E) (c : Slot) (type : Int) (W : World) :
    (CARTRIDGE_SetType E c type W).active_cart = W.active_cart ∨
    (CARTRIDGE_SetType E c type W).active_cart = .main := by
  unfold CARTRIDGE_SetType
  simp only []
  split_ifs
  · have h := InitCartridge_active E hE c (RemoveCart E c
      (W.setCart c { W.cart c with type := type }))
    rw [active_cart_RemoveCart, active_cart_setCart] at h
    exact h
  · have h := InitCartridge_active E hE c (W.setCart c { W.cart c with type := type })
    rw [active_cart_setCart] at h
    exact h

theorem PiggybackSelected_of_main (E : Env) (W : World) (h : W.active_cart = .main) :
    PiggybackSelected E W := by
  intro h2
  rw [h] at h2
  exact absurd h2 (by decide)

theorem PiggybackSelected_of_same (E : Env) (W V : World)
    (hm : shape (V.cart .main) = shape (W.cart .main)) (ha : V.active_cart = W.active_cart)
    (hW : PiggybackSelected E W) : PiggybackSelected E V := by
  have ht : V.CARTRIDGE_main.type = W.CARTRIDGE_main.type := shape_type_eq hm
  have hs : V.CARTRIDGE_main.state = W.CARTRIDGE_main.state := shape_state_eq hm
  intro h
  rw [ht, hs]
  exact hW (ha ▸ h)

/-- Every reachable world has the piggyback slot active only when selected. -/
theorem Reachable_selected (E : Env) (hE : MachineCalls E) (W0 W : World)
    (h0 : W0.active_cart = .main) (hr : Reachable E W0 W) : PiggybackSelected E W := by
  induction hr with
  | start => exact PiggybackSelected_of_main E W0 h0
  | insert fn file _ _ => exact PiggybackSelected_of_main E _ (Insert_active_cart E hE fn file _)
  | insert_second fn file _ ih =>
    exact PiggybackSelected_of_same E _ _ (Insert_Second_main E fn file _).1
      (Insert_Second_main E fn file _).2 ih
  | remove _ _ => exact PiggybackSelected_of_main E _ (Remove_active_cart E _)
  | @remove_second V _ ih =>
    exact PiggybackSelected_of_same E _ _ (shape_RemoveCart_ne E .piggyback .main (by decide) V)
      (active_cart_RemoveCart E .piggyback V) ih
  | cold_start _ _ => exact PiggybackSelected_of_main E _ (ColdStart_carts E _).1
  | @read V addr nse _ ih =>
    exact (D5_access_keeps E (PiggybackSelected E)
      (fun A B hAB hA => PiggybackSelected_of_SelStep E A B hAB hA) V ih).1 addr nse
  | @write V addr byte _ ih =>
    exact (D5_access_keeps E (PiggybackSelected E)
      (fun A B hAB hA => PiggybackSelected_of_SelStep E A B hAB hA) V ih).2 addr byte
  | set_type_second type _ ih =>
    exact PiggybackSelected_of_same E _ _ (SetType_piggyback_main E type _).1
      (SetType_piggyback_main E type _).2 ih
  | @set_type V type _ hact _ =>
    rcases SetType_active E hE .main type V with h | h
    · exact PiggybackSelected_of_main E _ (h.trans hact)
    · exact PiggybackSelected_of_main E _ h

/-- Inserting a raw file of 64 KB into `initWorld`: two types of `demoEnv` have
that size, so the call returns 64 and leaves the type to the caller. -/
theorem Insert_sdx :
    CARTRIDGE_Insert demoEnv "sdx.rom" (some (rawFile 64)) initWorld = (64, sdxInserted) := by
  have hR : CARTRIDGE_Remove demoEnv initWorld = initWorld := rfl
  have hf : find_type demoEnv 64 8 1 0 = (true, -1) := by decide
  unfold CARTRIDGE_Insert InsertCartridge
  rw [hR]
  have hc : initWorld.cart .main = emptySlot := rfl
  rw [hc, ReadImage_raw demoEnv "sdx.rom" (rawFile 64) emptySlot
    (by rw [rawFile_length]; decide) (by rw [rawFile_length])]
  have hl : (((rawFile 64).length / 1024 : Nat) : Int) = 64 := by
    rw [rawFile_length]; decide
  rw [hl]
  have hcount : (demoEnv.CARTRIDGE_TYPE_COUNT - 1).toNat = 8 := by decide
  have hnone : demoEnv.CARTRIDGE_NONE = 0 := rfl
  rw [hcount, hnone, hf]
  rfl

/-! ## Which cartridge is active -/

/-- C13 fails: from the initial state insert a raw SDX image of 64 KB, set its
type to SDX_64 (type code 4 of `demoEnv`) and read `$D5E8`. The piggyback slot
is still empty, yet it is the active cartridge. -/
theorem piggyback_active_while_empty :
    Reachable demoEnv initWorld
      (CARTRIDGE_GetByte demoEnv 0xd5e8 false (CARTRIDGE_SetType demoEnv .main 4
        (CARTRIDGE_Insert demoEnv "sdx.rom" (some (rawFile 64)) initWorld).2)).2 ∧
    (CARTRIDGE_GetByte demoEnv 0xd5e8 false (CARTRIDGE_SetType demoEnv .main 4
      (CARTRIDGE_Insert demoEnv "sdx.rom" (some (rawFile 64)) initWorld).2)).2.CARTRIDGE_piggyback.type
        = demoEnv.CARTRIDGE_NONE ∧
    (CARTRIDGE_GetByte demoEnv 0xd5e8 false (CARTRIDGE_SetType demoEnv .main 4
      (CARTRIDGE_Insert demoEnv "sdx.rom" (some (rawFile 64)) initWorld).2)).2.active_cart
        = .piggyback := by
  refine ⟨?_, ?_, ?_⟩
  · exact .read 0xd5e8 false (.set_type 4 (.insert "sdx.rom" (some (rawFile 64)) .start)
      (Insert_active_cart demoEnv demoEnv_calls _ _ _))
  · rw [Insert_sdx]; decide
  · rw [Insert_sdx]; decide

/-- C13, amended. In every world reached from one with the first slot active
by insertion and removal in either slot, cold start, reads and writes of page
`$D5`, setting the type of the piggyback slot and setting the type of the
first slot while it is active, the piggyback slot is the active cartridge only
if the first slot holds a passthrough cartridge whose state shows the pattern
`(state & 0x0c) == 0x08`, whether or not a piggyback cartridge is present. In
particular the first slot is active whenever its type is not a passthrough
type. The calls into the machine are assumed to leave the slots alone or to
cold start them. -/
theorem piggyback_active_only_if_selected (E : Env) (hE : MachineCalls E) (W0 W : World)
    (h0 : W0.active_cart = .main) (hr : Reachable E W0 W) :
    (W.active_cart = .piggyback →
      CartIsPassthrough E W.CARTRIDGE_main.type = true ∧
      band W.CARTRIDGE_main.state 0x0c = 0x08) ∧
    (CartIsPassthrough E W.CARTRIDGE_main.type = false → W.active_cart = .main) := by
  have h := Reachable_selected E hE W0 W h0 hr
  refine ⟨h, fun hp => ?_⟩
  by_cases ha : W.active_cart = .piggyback
  · have h1 := (h ha).1
    rw [hp] at h1
    exact absurd h1 (by decide)
  · exact Slot_ne_piggyback ha

/-- Witness for C13: the world of the counterexample is one of those reached,
and there the first slot holds an SDX_64 cartridge in state 8. -/
theorem piggyback_active_only_if_selected_witness :
    CartIsPassthrough demoEnv
      (CARTRIDGE_GetByte demoEnv 0xd5e8 false (CARTRIDGE_SetType demoEnv .main 4
        (CARTRIDGE_Insert demoEnv "sdx.rom" (some (rawFile 64)) initWorld).2)).2.CARTRIDGE_main.type
        = true ∧
    band (CARTRIDGE_GetByte demoEnv 0xd5e8 false (CARTRIDGE_SetType demoEnv .main 4
      (CARTRIDGE_Insert demoEnv "sdx.rom" (some (rawFile 64)) initWorld).2)).2.CARTRIDGE_main.state
        0x0c = 0x08 :=
  (piggyback_active_only_if_selected demoEnv demoEnv_calls initWorld _ rfl
    (.read 0xd5e8 false (.set_type 4 (.insert "sdx.rom" (some (rawFile 64)) .start)
      (Insert_active_cart demoEnv demoEnv_calls _ _ _)))).1
    (by rw [Insert_sdx]; decide)

/-! ## Image and type of a slot -/

theorem ImageIffType_of_shape (E : Env) {c c' : CARTRIDGE_image_t} (h : shape c = shape c')
    (hc : ImageIffType E c') : ImageIffType E c := by
  unfold ImageIffType at hc ⊢
  rw [shape_image_none h, shape_type_eq h]
  exact hc

theorem ImageIffType_empty (E : Env) {c : CARTRIDGE_image_t} (h1 : c.image = none)
    (h2 : c.type = E.CARTRIDGE_NONE) : ImageIffType E c :=
  ⟨fun _ => h2, fun _ => h1⟩

theorem ImageIffType_full (E : Env) {c : CARTRIDGE_image_t} (h1 : c.image ≠ none)
    (h2 : c.type ≠ E.CARTRIDGE_NONE) : ImageIffType E c :=
  ⟨fun e => absurd e h1, fun e => absurd e h2⟩

/-- When the size table scan is left early, the type is left unknown. -/
theorem find_type_true (E : Env) (len : Int) (n : Nat) (type ct t : Int)
    (h : find_type E len n type ct = (true, t)) : t = E.CARTRIDGE_UNKNOWN := by
  induction n generalizing type ct with
  | zero => simp [find_type] at h
  | succ n ih =>
    unfold find_type at h
    split_ifs at h with h1 h2
    · exact ih _ _ h
    · simp at h; exact h.symm
    · exact ih _ _ h

/-- Reading a file into an empty slot leaves it with an image exactly when it
leaves it with a type. -/
theorem ReadImage_ImageIffType (E : Env) (hNONE : E.CARTRIDGE_NONE = 0)
    (hU : E.CARTRIDGE_UNKNOWN ≠ E.CARTRIDGE_NONE) (fn : String) (file : Option (List Nat))
    (c : CARTRIDGE_image_t) (h1 : c.image = none) (h2 : c.type = E.CARTRIDGE_NONE) :
    ImageIffType E (CARTRIDGE_ReadImage E fn file c).2 := by
  unfold CARTRIDGE_ReadImage
  cases file with
  | none => exact ImageIffType_empty E h1 h2
  | some data =>
    simp only []
    split_ifs with a1 a2 a3 a4 a5 a6
    · exact ImageIffType_empty E rfl h2
    · rcases hf : find_type E (shr (Util_flen data) 10) (E.CARTRIDGE_TYPE_COUNT - 1).toNat 1
        E.CARTRIDGE_NONE with ⟨b, t⟩
      cases b with
      | true =>
        simp only []
        have ht := find_type_true E _ _ _ _ _ hf
        exact ImageIffType_full E (by simp) (by simpa [ht] using hU)
      | false =>
        simp only []
        split_ifs with a7
        · exact ImageIffType_full E (by simp) (by simpa using a7)
        · exact ImageIffType_empty E rfl (by simpa using a7)
    · exact ImageIffType_empty E h1 h2
    · exact ImageIffType_empty E rfl h2
    · refine ImageIffType_full E (by simp) ?_
      simp only [hNONE]
      omega
    · refine ImageIffType_full E (by simp) ?_
      simp only [hNONE]
      omega
    · exact ImageIffType_empty E h1 h2
    · exact ImageIffType_empty E h1 h2

theorem ImageIffType_setState (E : Env) (c : CARTRIDGE_image_t) (n : Int)
    (h : ImageIffType E c) : ImageIffType E { c with state := n } := h

/-- Decoding keeps the invariant of a slot, the empty type not being one of
the decoded ones. -/
theorem PreprocessCart_ImageIffType (E : Env) (hk : E.kind E.CARTRIDGE_NONE = other)
    (c : CARTRIDGE_image_t) (h : ImageIffType E c) : ImageIffType E (PreprocessCart E c) := by
  by_cases hi : c.image = none
  · have ht := h.1 hi
    have hk2 : E.kind c.type = other := by rw [ht]; exact hk
    rw [PreprocessCart_other E c (by rw [hk2]; decide) (by rw [hk2]; decide)
      (by rw [hk2]; decide)]
    exact h
  · refine ImageIffType_full E (PreprocessCart_image_some E c hi) ?_
    rw [PreprocessCart_type]
    exact fun e => hi (h.2 e)

/-- The invariant of both slots is kept by `InitCartridge`. -/
theorem InitCartridge_ImageIffType (E : Env) (hE : MachineCalls E)
    (hk : E.kind E.CARTRIDGE_NONE = other) (c : Slot) (W : World)
    (h : ∀ s, ImageIffType E (W.cart s)) (s : Slot) :
    ImageIffType E ((InitCartridge E c W).cart s) := by
  by_cases hs : s = c
  · subst hs
    exact ImageIffType_of_shape E (InitCartridge_same E hE s W)
      (ImageIffType_setState E _ _ (PreprocessCart_ImageIffType E hk _ (h s)))
  · rcases InitCartridge_other E hE c s hs W with h1 | h1
    · exact ImageIffType_of_shape E h1 (h s)
    · exact ImageIffType_of_shape E h1 (ImageIffType_setState E _ _ (h s))

/-- Inserting into an empty slot keeps the invariant of both slots. -/
theorem InsertCartridge_ImageIffType (E : Env) (hE : MachineCalls E)
    (hNONE : E.CARTRIDGE_NONE = 0) (hU : E.CARTRIDGE_UNKNOWN ≠ E.CARTRIDGE_NONE)
    (hk : E.kind E.CARTRIDGE_NONE = other) (fn : String) (file : Option (List Nat)) (c : Slot)
    (W : World) (h1 : (W.cart c).image = none) (h2 : (W.cart c).type = E.CARTRIDGE_NONE)
    (h : ∀ s, ImageIffType E (W.cart s)) (s : Slot) :
    ImageIffType E ((InsertCartridge E fn file c W).2.cart s) := by
  have hr := ReadImage_ImageIffType E hNONE hU fn file (W.cart c) h1 h2
  have h3 : ∀ t, ImageIffType E
      ((W.setCart c (CARTRIDGE_ReadImage E fn file (W.cart c)).2).cart t) := by
    intro t
    by_cases ht : t = c
    · subst ht
      rw [cart_setCart_same]
      exact hr
    · rw [cart_setCart_ne _ _ _ _ ht]
      exact h t
  unfold InsertCartridge
  simp only []
  split_ifs
  · exact InitCartridge_ImageIffType E hE hk c _ h3 s
  · exact h3 s

theorem Remove_Second_carts (E : Env) (W : World) :
    shape ((CARTRIDGE_Remove_Second E W).cart .main) = shape (W.cart .main) ∧
    ((CARTRIDGE_Remove_Second E W).cart .piggyback).image = none ∧
    ((CARTRIDGE_Remove_Second E W).cart .piggyback).type = E.CARTRIDGE_NONE :=
  ⟨shape_RemoveCart_ne E .piggyback .main (by decide) W, RemoveCart_same E .piggyback W⟩

theorem Remove_Second_ImageIffType (E : Env) (W : World)
    (h : ImageIffType E W.CARTRIDGE_main) (s : Slot) :
    ImageIffType E ((CARTRIDGE_Remove_Second E W).cart s) := by
  have h1 := Remove_Second_carts E W
  cases s
  · exact ImageIffType_of_shape E h1.1 h
  · exact ImageIffType_empty E h1.2.1 h1.2.2

/-- The invariant of both slots is kept by `CARTRIDGE_SetType` when it is given
the empty type or a slot with an image. -/
theorem SetType_ImageIffType (E : Env) (hE : MachineCalls E)
    (hk : E.kind E.CARTRIDGE_NONE = other) (c : Slot) (type : Int) (W : World)
    (h : ∀ s, ImageIffType E (W.cart s))
    (ht : type = E.CARTRIDGE_NONE ∨ (W.cart c).image ≠ none) (s : Slot) :
    ImageIffType E ((CARTRIDGE_SetType E c type W).cart s) := by
  unfold CARTRIDGE_SetType
  simp only []
  split_ifs with h1
  · apply InitCartridge_ImageIffType E hE hk
    intro t
    by_cases htc : t = c
    · subst htc
      have h5 := RemoveCart_same E t (W.setCart t { W.cart t with type := type })
      exact ImageIffType_empty E h5.1 h5.2
    · refine ImageIffType_of_shape E (shape_RemoveCart_ne E c t htc _) ?_
      rw [cart_setCart_ne _ _ _ _ htc]
      exact h t
  · apply InitCartridge_ImageIffType E hE hk
    intro t
    by_cases htc : t = c
    · subst htc
      rw [cart_setCart_same]
      rcases ht with ht | ht
      · exact absurd ht h1
      · exact ImageIffType_full E ht h1
    · rw [cart_setCart_ne _ _ _ _ htc]
      exact h t

/-- C14 fails for `CARTRIDGE_ReadConfig`: the key `CARTRIDGE_FILENAME` read into the
initial state leaves the first slot with the unknown type (code -1 of
`demoEnv`) and without an image. -/
theorem ReadConfig_type_without_image :
    (CARTRIDGE_ReadConfig demoEnv "CARTRIDGE_FILENAME" "game.rom" initWorld).1 = TRUE ∧
    (CARTRIDGE_ReadConfig demoEnv "CARTRIDGE_FILENAME" "game.rom"
      initWorld).2.CARTRIDGE_main.image = none ∧
    (CARTRIDGE_ReadConfig demoEnv "CARTRIDGE_FILENAME" "game.rom"
      initWorld).2.CARTRIDGE_main.type = demoEnv.CARTRIDGE_UNKNOWN ∧
    demoEnv.CARTRIDGE_UNKNOWN ≠ demoEnv.CARTRIDGE_NONE := by
  decide

/-- C14, amended. After `CARTRIDGE_Insert` and after `CARTRIDGE_Remove` each slot
has no image exactly if its type is `CARTRIDGE_NONE`; `CARTRIDGE_Insert_Second` and
`CARTRIDGE_Remove_Second` establish this for the piggyback slot and keep it for
the first slot; `CARTRIDGE_SetType` keeps it for both slots when it is given
`CARTRIDGE_NONE` or a slot that holds an image. This is under the header facts
that `CARTRIDGE_NONE` is 0, differs from `CARTRIDGE_UNKNOWN` and is none of the named
types, and with calls into the machine that leave the slots alone or cold
start them. `CARTRIDGE_ReadConfig`, which stores a type or a file name for a later
insertion, is not among these operations. -/
theorem image_absent_iff_type_none (E : Env) (hE : MachineCalls E)
    (hNONE : E.CARTRIDGE_NONE = 0) (hU : E.CARTRIDGE_UNKNOWN ≠ E.CARTRIDGE_NONE)
    (hk : E.kind E.CARTRIDGE_NONE = other) (W : World) :
    (∀ fn file s, ImageIffType E ((CARTRIDGE_Insert E fn file W).2.cart s)) ∧
    (∀ s, ImageIffType E ((CARTRIDGE_Remove E W).cart s)) ∧
    (ImageIffType E W.CARTRIDGE_main →
      ∀ fn file s, ImageIffType E ((CARTRIDGE_Insert_Second E fn file W).2.cart s)) ∧
    (ImageIffType E W.CARTRIDGE_main →
      ∀ s, ImageIffType E ((CARTRIDGE_Remove_Second E W).cart s)) ∧
    (∀ c type, (∀ s, ImageIffType E (W.cart s)) →
      (type = E.CARTRIDGE_NONE ∨ (W.cart c).image ≠ none) →
      ∀ s, ImageIffType E ((CARTRIDGE_SetType E c type W).cart s)) := by
  have hrem : ∀ s, ImageIffType E ((CARTRIDGE_Remove E W).cart s) :=
    fun s => ImageIffType_empty E (Remove_carts E W s).1 (Remove_carts E W s).2
  refine ⟨fun fn file s => ?_, hrem, fun h fn file s => ?_,
    fun h s => Remove_Second_ImageIffType E W h s,
    fun c type h ht s => SetType_ImageIffType E hE hk c type W h ht s⟩
  · exact InsertCartridge_ImageIffType E hE hNONE hU hk fn file .main _
      (Remove_carts E W .main).1 (Remove_carts E W .main).2 hrem s
  · have h1 := Remove_Second_carts E W
    exact InsertCartridge_ImageIffType E hE hNONE hU hk fn file .piggyback _ h1.2.1 h1.2.2
      (Remove_Second_ImageIffType E W h) s

/-- Witness for C14: after the raw file of 64 KB is inserted into `initWorld`
the first slot has an image and a type, and the piggyback slot has neither. -/
theorem image_absent_iff_type_none_witness :
    ImageIffType demoEnv
      ((CARTRIDGE_Insert demoEnv "sdx.rom" (some (rawFile 64)) initWorld).2.cart .main) ∧
    ImageIffType demoEnv
      ((CARTRIDGE_Insert demoEnv "sdx.rom" (some (rawFile 64)) initWorld).2.cart .piggyback) ∧
    ImageIffType demoEnv ((CARTRIDGE_SetType demoEnv .main 4 sdxInserted).cart .main) :=
  ⟨(image_absent_iff_type_none demoEnv demoEnv_calls rfl (by decide) rfl initWorld).1
      "sdx.rom" (some (rawFile 64)) .main,
   (image_absent_iff_type_none demoEnv demoEnv_calls rfl (by decide) rfl initWorld).1
      "sdx.rom" (some (rawFile 64)) .piggyback,
   (image_absent_iff_type_none demoEnv demoEnv_calls rfl (by decide) rfl sdxInserted).2.2.2.2
      .main 4
      (fun s => by
        cases s
        · exact ImageIffType_full demoEnv (by simp [sdxInserted, World.cart]) (by decide)
        · exact ImageIffType_empty demoEnv rfl rfl)
      (Or.inr (by simp [sdxInserted, World.cart])) .main⟩

/-! ## Failed insertion -/

/-- C15. `InsertCartridge` leaves the type of the slot as it was when the file
cannot be opened and when a file that is not of whole kilobytes has no valid
header: run on the first slot of `demoWorld`, which holds type code 4, it
returns `CARTRIDGE_CANT_OPEN` for a missing file and `CARTRIDGE_BAD_FORMAT` for a file
of 17 zero bytes, and the type is still 4, not `CARTRIDGE_NONE`. -/
theorem InsertCartridge_failure_keeps_type :
    (InsertCartridge demoEnv "missing.rom" none .main demoWorld).1 =
      demoEnv.CARTRIDGE_CANT_OPEN ∧
    (InsertCartridge demoEnv "missing.rom" none .main demoWorld).2.CARTRIDGE_main.type = 4 ∧
    (InsertCartridge demoEnv "bad.car" (some (List.replicate 17 0)) .main demoWorld).1 =
      demoEnv.CARTRIDGE_BAD_FORMAT ∧
    (InsertCartridge demoEnv "bad.car" (some (List.replicate 17 0)) .main
      demoWorld).2.CARTRIDGE_main.type = 4 ∧
    (4 : Int) ≠ demoEnv.CARTRIDGE_NONE := by
  decide

/-! ## Writes that latch a value -/

theorem PutByte_of_state (E : Env) (c : Slot) (addr byte : Nat) (W : World) (n : Int)
    (h : PutByte_state E c addr byte W = (some n, W)) :
    PutByte E c addr byte W = commit_state E c (W.cart c).state n W := by
  unfold PutByte
  rw [h]

theorem state_commit_state (E : Env) (c : Slot) (n : Int) (W : World) :
    ((commit_state E c (W.cart c).state n W).cart c).state = n ∧
    ((commit_state E c (W.cart c).state n W).cart c).type = (W.cart c).type := by
  have h := shape_commit_state E c n W
  have h1 := shape_state_eq h
  have h2 := shape_type_eq h
  exact ⟨h1, h2⟩

theorem GetByte_unhandled (E : Env) (c : Slot) (addr : Nat) (nse : Bool) (W : World)
    (h : access_D5 E c addr W = (none, W)) :
    GetByte E c addr nse W = (GetByte_value E (W.cart c) addr, W) := by
  have hsw : GetByte_switch E c addr nse W = W := by
    cases nse
    · rw [GetByte_switch_eq, h]
    · rfl
  unfold GetByte
  simp only [hsw]

/-- What `PutByte` computes for a value-latched type, and what a read does. -/
theorem latch_access (E : Env) (c : Slot) (addr byte : Nat) (W : World) (m : Nat)
    (hm : latch_mask (E.kind (W.cart c).type) = some m) (hb : byte < 256) :
    PutByte_state E c addr byte W = (some ((byte &&& m : Nat) : Int), W) ∧
    access_D5 E c addr W = (none, W) ∧
    GetByte_value E (W.cart c) addr = some 0xff := by
  have hff : byte &&& 0xff = byte := by
    have h := Nat.and_pow_two_sub_one_eq_mod byte 8
    simp only [Nat.reducePow, Nat.add_one_sub_one] at h
    rw [show (255 : Nat) = 256 - 1 from rfl, h]
    exact Nat.mod_eq_of_lt hb
  unfold PutByte_state access_D5 GetByte_value
  cases hk : E.kind (W.cart c).type <;> rw [hk] at hm <;>
    simp only [latch_mask, Option.some.injEq] at hm <;>
    first
    | (subst hm; exact ⟨rfl, rfl, rfl⟩)
    | (subst hm; rw [hff]; exact ⟨rfl, rfl, rfl⟩)
    | cases hm

/-- C29. For a value-latched type with mask `m` (0x03 for XEGS_32, 0x07 for
XEGS_07_64, 0x0f for XEGS_128 and XEGS_8F_64, 0x1f for XEGS_256, 0x3f for
XEGS_512, 0x7f for XEGS_1024, 0x80 for MEGA_16, 0x81 for MEGA_32, 0x83 for
MEGA_64 and SWXEGS_32, 0x87 for MEGA_128 and SWXEGS_64, 0x8f for MEGA_256,
SWXEGS_128, ATRAX_DEC_128 and ATRAX_128, 0x9f for MEGA_512 and SWXEGS_256,
0xbf for MEGA_1024 and SWXEGS_512, 0xff for MEGA_2048 and SWXEGS_1024) a
write of the byte `b` to any address leaves the state at `b & m`, whatever
the state was, and a read, peek or not, of any address returns 0xFF and
changes nothing. -/
theorem latched_write_sets_state (E : Env) (c : Slot) (addr byte : Nat) (W : World) (m : Nat)
    (hm : latch_mask (E.kind (W.cart c).type) = some m) (hb : byte < 256) :
    ((PutByte E c addr byte W).cart c).state = ((byte &&& m : Nat) : Int) ∧
    ∀ nse, GetByte E c addr nse W = (some 0xff, W) := by
  have h := latch_access E c addr byte W m hm hb
  refine ⟨?_, fun nse => ?_⟩
  · rw [PutByte_of_state E c addr byte W _ h.1]
    exact (state_commit_state E c _ W).1
  · rw [GetByte_unhandled E c addr nse W h.2.1, h.2.2]

/-- Witness for C29: the ATRAX_128 cartridge of `demoEnv` (type code 6) in state
5 is put into state 0x5a & 0x8f by a write of 0x5a to `$D5C3`. -/
theorem latched_write_sets_state_witness :
    ((PutByte demoEnv .main 0xd5c3 0x5a (ossWorld 6 5 128)).cart .main).state =
      ((0x5a &&& 0x8f : Nat) : Int) ∧
    GetByte demoEnv .main 0xd5c3 false (ossWorld 6 5 128) = (some 0xff, ossWorld 6 5 128) :=
  ⟨(latched_write_sets_state demoEnv .main 0xd5c3 0x5a (ossWorld 6 5 128) 0x8f rfl
      (by decide)).1,
   (latched_write_sets_state demoEnv .main 0xd5c3 0x5a (ossWorld 6 5 128) 0x8f rfl
      (by decide)).2 false⟩

/-! ## Reading the state back -/

/-- What `PutByte` and a read compute for the four types whose state can be
read back. -/
theorem reads_back_access (E : Env) (c : Slot) (addr byte : Nat) (W : World)
    (hk : reads_back (E.kind (W.cart c).type) = true) :
    PutByte_state E c addr byte W =
      (some (if addr &&& 0xe0 = 0x00 then (byte : Int) else (W.cart c).state), W) ∧
    access_D5 E c addr W = (none, W) ∧
    GetByte_value E (W.cart c) addr =
      (if addr &&& 0xe0 = 0x00 then some (toUBYTE (W.cart c).state) else some 0xff) := by
  unfold PutByte_state access_D5 GetByte_value
  cases h : E.kind (W.cart c).type <;> rw [h] at hk <;>
    simp only [reads_back, Bool.false_eq_true] at hk <;>
    (refine ⟨?_, rfl, rfl⟩; dsimp only; split_ifs <;> rfl)

/-- C30. For SIC_128, SIC_256, SIC_512 and MEGA_4096: after a write of the byte
`b` to an address with `(addr & 0xE0) == 0`, a read of any address with
`(addr & 0xE0) == 0` returns `b`; a write to any other address changes
nothing; and a read of any other address returns 0xFF. -/
theorem state_read_back (E : Env) (c : Slot) (addr addr2 byte : Nat) (W : World)
    (hk : reads_back (E.kind (W.cart c).type) = true) (hb : byte < 256) :
    (addr &&& 0xe0 = 0x00 → addr2 &&& 0xe0 = 0x00 →
      ∀ nse, (GetByte E c addr2 nse (PutByte E c addr byte W)).1 = some byte) ∧
    (addr &&& 0xe0 ≠ 0x00 → PutByte E c addr byte W = W) ∧
    (addr2 &&& 0xe0 ≠ 0x00 → ∀ nse, (GetByte E c addr2 nse W).1 = some 0xff) := by
  have h := reads_back_access E c addr byte W hk
  refine ⟨fun ha ha2 nse => ?_, fun ha => ?_, fun ha2 nse => ?_⟩
  · have hp := PutByte_of_state E c addr byte W _ h.1
    rw [if_pos ha] at hp
    have hs := state_commit_state E c (byte : Int) W
    rw [← hp] at hs
    have hk2 : reads_back (E.kind ((PutByte E c addr byte W).cart c).type) = true := by
      rw [hs.2]; exact hk
    have h2 := reads_back_access E c addr2 0 (PutByte E c addr byte W) hk2
    rw [GetByte_unhandled E c addr2 nse _ h2.2.1, h2.2.2, if_pos ha2, hs.1]
    simp only [toUBYTE]
    congr 1
    omega
  · have hp := PutByte_of_state E c addr byte W _ h.1
    rw [if_neg ha] at hp
    rw [hp, commit_state_eq, if_pos rfl]
  · have h2 := reads_back_access E c addr2 0 W hk
    rw [GetByte_unhandled E c addr2 nse W h2.2.1, h2.2.2, if_neg ha2]

/-- Witness for C30: the SIC_128 cartridge of `bankEnv` (type code 1) returns at
`$D51F` the byte 0x25 written to `$D500`. -/
theorem state_read_back_witness :
    (GetByte bankEnv .main 0xd51f false
      (PutByte bankEnv .main 0xd500 0x25 (ossWorld 1 0 128))).1 = some 0x25 ∧
    PutByte bankEnv .main 0xd520 0x25 (ossWorld 1 0 128) = ossWorld 1 0 128 ∧
    (GetByte bankEnv .main 0xd520 false (ossWorld 1 0 128)).1 = some 0xff :=
  ⟨(state_read_back bankEnv .main 0xd500 0xd51f 0x25 (ossWorld 1 0 128) rfl (by decide)).1
      (by decide) (by decide) false,
   (state_read_back bankEnv .main 0xd520 0xd520 0x25 (ossWorld 1 0 128) rfl (by decide)).2.1
      (by decide),
   (state_read_back bankEnv .main 0xd520 0xd520 0x25 (ossWorld 1 0 128) rfl (by decide)).2.2
      (by decide) false⟩

/-! ## Bounty Bob paging -/

/-- The arithmetic of the two Bounty Bob selections on a state of four bits. -/
theorem BountyBob_bits (s : Int) (k : Nat) (h0 : 0 ≤ s) (h15 : s ≤ 15) (hk : k ≤ 3) :
    (bor (band s 0x0c) (k : Int) = s ↔ band s 0x03 = (k : Int)) ∧
    band (bor (band s 0x0c) (k : Int)) 0x03 = (k : Int) ∧
    band (bor (band s 0x0c) (k : Int)) 0x0c = band s 0x0c ∧
    (bor (band s 0x03) ((k <<< 2 : Nat) : Int) = s ↔ band s 0x0c = ((k <<< 2 : Nat) : Int)) ∧
    band (bor (band s 0x03) ((k <<< 2 : Nat) : Int)) 0x0c = ((k <<< 2 : Nat) : Int) ∧
    band (bor (band s 0x03) ((k <<< 2 : Nat) : Int)) 0x03 = band s 0x03 ∧
    (0 ≤ bor (band s 0x0c) (k : Int) ∧ bor (band s 0x0c) (k : Int) ≤ 15) ∧
    (0 ≤ bor (band s 0x03) ((k <<< 2 : Nat) : Int) ∧
      bor (band s 0x03) ((k <<< 2 : Nat) : Int) ≤ 15) := by
  interval_cases s <;> interval_cases k <;> decide

theorem BountyBob_commute_bits (s : Int) (k k2 : Nat) (h0 : 0 ≤ s) (h15 : s ≤ 15)
    (hk : k ≤ 3) (hk2 : k2 ≤ 3) :
    bor (band (bor (band s 0x0c) (k : Int)) 0x03) ((k2 <<< 2 : Nat) : Int) =
      bor (band (bor (band s 0x03) ((k2 <<< 2 : Nat) : Int)) 0x0c) (k : Int) := by
  interval_cases s <;> interval_cases k <;> interval_cases k2 <;> decide

theorem active_setActiveState (n : Int) (W : World) :
    (setActiveState n W).active.state = n ∧
    (setActiveState n W).active_cart = W.active_cart := by
  unfold setActiveState
  refine ⟨?_, active_cart_setCart _ _ _⟩
  simp [World.active]

/-- An access through `access_BountyBob1` at low byte `0xF6 + k`. -/
theorem access_BountyBob1_eq (addr k : Nat) (W : World) (hk : k ≤ 3)
    (ha : addr &&& 0x00ff = 0xf6 + k) (h0 : 0 ≤ W.active.state) (h15 : W.active.state ≤ 15) :
    access_BountyBob1 addr W =
      (if band W.active.state 0x03 = (k : Int) then W
       else setActiveState (bor (band W.active.state 0x0c) (k : Int))
        (W.emit (.CopyFromCart (addr &&& 0xf000) ((addr &&& 0xf000) + 0x0fff)
          (.image W.active_cart ((k : Int) * 0x1000))))) ∧
    (access_BountyBob1 addr W).active.state = bor (band W.active.state 0x0c) (k : Int) ∧
    (access_BountyBob1 addr W).active_cart = W.active_cart := by
  have hb := BountyBob_bits W.active.state k h0 h15 hk
  have hr : 0xf6 ≤ addr &&& 0x00ff ∧ addr &&& 0x00ff ≤ 0xf9 := by omega
  have hsub : (addr &&& 0x00ff) - 0xf6 = k := by omega
  have heq : access_BountyBob1 addr W =
      (if band W.active.state 0x03 = (k : Int) then W
       else setActiveState (bor (band W.active.state 0x0c) (k : Int))
        (W.emit (.CopyFromCart (addr &&& 0xf000) ((addr &&& 0xf000) + 0x0fff)
          (.image W.active_cart ((k : Int) * 0x1000))))) := by
    unfold access_BountyBob1
    simp only [hr, and_self, if_true, hsub]
    by_cases h : band W.active.state 0x03 = (k : Int)
    · rw [if_pos h, if_neg (not_not.mpr (hb.1.2 h))]
    · rw [if_neg h, if_pos (fun e => h (hb.1.1 e))]
      rfl
  refine ⟨heq, ?_, ?_⟩
  · rw [heq]
    split_ifs with h
    · exact (hb.1.2 h).symm
    · exact (active_setActiveState _ _).1
  · rw [heq]
    split_ifs with h
    · rfl
    · exact (active_setActiveState _ _).2

/-- An access through `access_BountyBob2` at low byte `0xF6 + k`. -/
theorem access_BountyBob2_eq (addr k : Nat) (W : World) (hk : k ≤ 3)
    (ha : addr &&& 0x00ff = 0xf6 + k) (h0 : 0 ≤ W.active.state) (h15 : W.active.state ≤ 15) :
    access_BountyBob2 addr W =
      (if band W.active.state 0x0c = ((k <<< 2 : Nat) : Int) then W
       else setActiveState (bor (band W.active.state 0x03) ((k <<< 2 : Nat) : Int))
        (W.emit (.CopyFromCart (addr &&& 0xf000) ((addr &&& 0xf000) + 0x0fff)
          (.image W.active_cart (0x4000 + (k : Int) * 0x1000))))) ∧
    (access_BountyBob2 addr W).active.state =
      bor (band W.active.state 0x03) ((k <<< 2 : Nat) : Int) ∧
    (access_BountyBob2 addr W).active_cart = W.active_cart := by
  have hb := BountyBob_bits W.active.state k h0 h15 hk
  have hr : 0xf6 ≤ addr &&& 0x00ff ∧ addr &&& 0x00ff ≤ 0xf9 := by omega
  have hsub : (addr &&& 0x00ff) - 0xf6 = k := by omega
  have heq : access_BountyBob2 addr W =
      (if band W.active.state 0x0c = ((k <<< 2 : Nat) : Int) then W
       else setActiveState (bor (band W.active.state 0x03) ((k <<< 2 : Nat) : Int))
        (W.emit (.CopyFromCart (addr &&& 0xf000) ((addr &&& 0xf000) + 0x0fff)
          (.image W.active_cart (0x4000 + (k : Int) * 0x1000))))) := by
    unfold access_BountyBob2
    simp only [hr, and_self, if_true, hsub]
    by_cases h : band W.active.state 0x0c = ((k <<< 2 : Nat) : Int)
    · rw [if_pos h, if_neg (not_not.mpr (hb.2.2.2.1.2 h))]
    · rw [if_neg h, if_pos (fun e => h (hb.2.2.2.1.1 e))]
      rfl
  refine ⟨heq, ?_, ?_⟩
  · rw [heq]
    split_ifs with h
    · exact (hb.2.2.2.1.2 h).symm
    · exact (active_setActiveState _ _).1
  · rw [heq]
    split_ifs with h
    · rfl
    · exact (active_setActiveState _ _).2

/-- C21. Bounty Bob paging, for a state from 0 to 15 of the active cartridge
and an address with low byte `0xF6 + k`, `k` from 0 to 3. Through
`access_BountyBob1` bits 0-1 of the state become `k` and bits 2-3 stay; when
this changes the state, the block `image[k * 0x1000 ..]` is copied to the 4 KB
window at `addr & 0xF000`. Through `access_BountyBob2` bits 2-3 become `k` and
bits 0-1 stay; the block copied is `image[0x4000 + k * 0x1000 ..]`. An access
with a low byte outside `0xF6..0xF9` changes nothing. One access of each kind
leave the same state in either order. -/
theorem BountyBob_paging (addr k : Nat) (W : World) (hk : k ≤ 3)
    (ha : addr &&& 0x00ff = 0xf6 + k) (h0 : 0 ≤ W.active.state) (h15 : W.active.state ≤ 15) :
    (access_BountyBob1 addr W =
      (if band W.active.state 0x03 = (k : Int) then W
       else setActiveState (bor (band W.active.state 0x0c) (k : Int))
        (W.emit (.CopyFromCart (addr &&& 0xf000) ((addr &&& 0xf000) + 0x0fff)
          (.image W.active_cart ((k : Int) * 0x1000))))) ∧
      band (access_BountyBob1 addr W).active.state 0x03 = (k : Int) ∧
      band (access_BountyBob1 addr W).active.state 0x0c = band W.active.state 0x0c) ∧
    (access_BountyBob2 addr W =
      (if band W.active.state 0x0c = ((k <<< 2 : Nat) : Int) then W
       else setActiveState (bor (band W.active.state 0x03) ((k <<< 2 : Nat) : Int))
        (W.emit (.CopyFromCart (addr &&& 0xf000) ((addr &&& 0xf000) + 0x0fff)
          (.image W.active_cart (0x4000 + (k : Int) * 0x1000))))) ∧
      band (access_BountyBob2 addr W).active.state 0x0c = ((k <<< 2 : Nat) : Int) ∧
      band (access_BountyBob2 addr W).active.state 0x03 = band W.active.state 0x03) ∧
    (∀ a, ¬ (0xf6 ≤ a &&& 0x00ff ∧ a &&& 0x00ff ≤ 0xf9) →
      access_BountyBob1 a W = W ∧ access_BountyBob2 a W = W) ∧
    (∀ addr2 k2, k2 ≤ 3 → addr2 &&& 0x00ff = 0xf6 + k2 →
      (access_BountyBob2 addr2 (access_BountyBob1 addr W)).active.state =
        (access_BountyBob1 addr (access_BountyBob2 addr2 W)).active.state) := by
  have hb := BountyBob_bits W.active.state k h0 h15 hk
  have h1 := access_BountyBob1_eq addr k W hk ha h0 h15
  have h2 := access_BountyBob2_eq addr k W hk ha h0 h15
  refine ⟨⟨h1.1, ?_, ?_⟩, ⟨h2.1, ?_, ?_⟩, fun a hn => ?_, fun addr2 k2 hk2 ha2 => ?_⟩
  · rw [h1.2.1]; exact hb.2.1
  · rw [h1.2.1]; exact hb.2.2.1
  · rw [h2.2.1]; exact hb.2.2.2.2.1
  · rw [h2.2.1]; exact hb.2.2.2.2.2.1
  · unfold access_BountyBob1 access_BountyBob2
    simp only [hn, if_false, and_self]
  · have hb2 := BountyBob_bits W.active.state k2 h0 h15 hk2
    have g2 := access_BountyBob2_eq addr2 k2 W hk2 ha2 h0 h15
    have g12 := access_BountyBob2_eq addr2 k2 (access_BountyBob1 addr W) hk2 ha2
      (by rw [h1.2.1]; exact hb.2.2.2.2.2.2.1.1) (by rw [h1.2.1]; exact hb.2.2.2.2.2.2.1.2)
    have g21 := access_BountyBob1_eq addr k (access_BountyBob2 addr2 W) hk ha
      (by rw [g2.2.1]; exact hb2.2.2.2.2.2.2.2.1) (by rw [g2.2.1]; exact hb2.2.2.2.2.2.2.2.2)
    rw [g12.2.1, g21.2.1, h1.2.1, g2.2.1]
    exact BountyBob_commute_bits W.active.state k k2 h0 h15 hk hk2

/-- Witness for C21: the BBSB_40 cartridge of `bankEnv` (type code 3) in state 5
is put into state 6 by a read of `$8FF8` and into state 9 by one of `$9FF8`. -/
theorem BountyBob_paging_witness :
    access_BountyBob1 0x8ff8 (ossWorld 3 5 40) =
      setActiveState 6 ((ossWorld 3 5 40).emit
        (.CopyFromCart 0x8000 0x8fff (.image .main 0x2000))) ∧
    access_BountyBob2 0x9ff8 (ossWorld 3 5 40) =
      setActiveState 9 ((ossWorld 3 5 40).emit
        (.CopyFromCart 0x9000 0x9fff (.image .main 0x6000))) :=
  ⟨(BountyBob_paging 0x8ff8 2 (ossWorld 3 5 40) (by decide) (by decide) (by decide)
      (by decide)).1.1,
   (BountyBob_paging 0x9ff8 2 (ossWorld 3 5 40) (by decide) (by decide) (by decide)
      (by decide)).2.1.1⟩

/-! ## Mapping a plain 8 KB cartridge -/

/-- C22. On a machine that is not a 5200, mapping an active STD_8 cartridge
makes three calls to the memory module: `$8000-$9FFF` is disabled,
`$A000-$BFFF` is enabled, and `image[0 .. 0x1FFF]` is copied to `$A000-$BFFF`.
So for every `j < 0x2000` the byte mapped at `$A000 + j` is `image[j]`, and
the byte at `$A000` is `image[0]`. -/
theorem STD_8_mapping (E : Env) (W : World)
    (hk : E.kind W.active.type = CARTRIDGE_STD_8)
    (hm : W.Atari800_machine_type ≠ .Atari800_MACHINE_5200) :
    MapActiveCart E W =
      emits W [.Cart809fDisable, .CartA0bfEnable,
        .CopyFromCart 0xa000 0xbfff (.image W.active_cart 0)] ∧
    (∀ j, j < 0x2000 →
      mapped_source (MapActiveCart E W).ops (0xa000 + j) = some (.image W.active_cart 0, j) ∧
      mapped_byte (MapActiveCart E W) (0xa000 + j) = imageByte W.active (j : Int)) := by
  have heq : MapActiveCart E W =
      emits W [.Cart809fDisable, .CartA0bfEnable,
        .CopyFromCart 0xa000 0xbfff (.image W.active_cart 0)] := by
    unfold MapActiveCart
    rw [if_neg hm]
    unfold MapActiveCartComputer
    rw [hk]
    simp only []
    unfold SwitchBank
    rw [active_emits, hk]
    rfl
  refine ⟨heq, fun j hj => ?_⟩
  have hsrc : mapped_source (MapActiveCart E W).ops (0xa000 + j) =
      some (.image W.active_cart 0, j) := by
    rw [heq, ops_emits, mapped_source_append]
    have h1 : ¬ (0x8000 ≤ 0xa000 + j ∧ 0xa000 + j ≤ 0x9fff) := by omega
    have h2 : 0xa000 ≤ 0xa000 + j ∧ 0xa000 + j ≤ 0xbfff := by omega
    simp [window_step, h1, h2]
  refine ⟨hsrc, ?_⟩
  unfold mapped_byte
  rw [hsrc]
  simp only [heq, cart_emits, zero_add]
  rfl

/-- Witness for C22: in `demoEnv` (type code 1 is STD_8) the byte mapped at
`$A000` is `image[0]`. -/
theorem STD_8_mapping_witness :
    mapped_byte (MapActiveCart demoEnv (ossWorld 1 0 8)) (0xa000 + 0) =
      imageByte (ossWorld 1 0 8).active ((0 : Nat) : Int) :=
  ((STD_8_mapping demoEnv (ossWorld 1 0 8) rfl (by decide)).2 0 (by decide)).2

/-! ## The saved state -/

/-- C23. `CARTRIDGE_StateSave` writes, in this order and nothing else: the type code
of the first slot, negated exactly when the type of the piggyback slot is not
`CARTRIDGE_NONE`; then, when the type of the first slot is not `CARTRIDGE_NONE`, its
file name, state and raw flag; then, when a piggyback cartridge is present,
the type code, file name, state and raw flag of the piggyback slot. The type
code of the first slot is taken to be an `int` other than the least one. -/
theorem StateSave_record (E : Env) (W : World)
    (h1 : -2147483648 < W.CARTRIDGE_main.type) (h2 : W.CARTRIDGE_main.type < 2147483648) :
    CARTRIDGE_StateSave E W = saved_record E W.CARTRIDGE_main W.CARTRIDGE_piggyback := by
  have hneg : ofBits (bits (-W.CARTRIDGE_main.type)) = -W.CARTRIDGE_main.type :=
    ofBits_bits _ (by omega) (by omega)
  unfold CARTRIDGE_StateSave saved_record
  simp only [hneg]
  split_ifs <;> rfl

/-- Witness for C23: `demoWorld`, with type codes 4 and 5 in the two slots. -/
theorem StateSave_record_witness :
    CARTRIDGE_StateSave demoEnv demoWorld =
      [.INT (-4), .FNAME "sdx.rom", .INT 0, .INT 1,
       .INT 5, .FNAME "ast.rom", .INT 0x10000, .INT 1] :=
  StateSave_record demoEnv demoWorld (by decide) (by decide)

/-! ## Failure to write an image file -/

/-- C24. `CARTRIDGE_WriteImage` returns 0 whether or not the file could be opened,
and hands the same bytes to `fwrite` in both cases: the test is `fp != NULL`
on the address of a local variable, and the result of `f_open` is not looked
at. The value -1 is never returned. -/
theorem WriteImage_never_fails (E : Env) (opened : Bool) (type : Int)
    (image : Option (List Nat)) (size raw : Int) (value : Nat) :
    (CARTRIDGE_WriteImage E opened type image size raw value).1 = 0 ∧
    CARTRIDGE_WriteImage E false type image size raw value =
      CARTRIDGE_WriteImage E true type image size raw value := by
  unfold CARTRIDGE_WriteImage
  simp

/-! ## Comparing strings without case -/

/-- C25. The function `stricmp` of `util.h` returns 0 for the unequal strings "a"
and "b", and 1 for "b" and "a": the test for the smaller character compares
`c2` with itself. So `Util_striendswith` finds that "x.aaa" ends with ".bbb". -/
theorem stricmp_misses_smaller :
    stricmp "a" "b" = 0 ∧ stricmp "b" "a" = 1 ∧
    ("a".data.map tolower ≠ "b".data.map tolower) ∧
    Util_striendswith "x.aaa" ".bbb" = 1 := by
  decide

/-! ## Scanning decimal numbers -/

theorem isDigit_toNat (c : Char) (h : isDigit c) : 48 ≤ c.toNat ∧ c.toNat ≤ 57 := by
  obtain ⟨h1, h2⟩ := h
  have e1 : ('0' : Char).toNat = 48 := rfl
  have e2 : ('9' : Char).toNat = 57 := rfl
  have g1 : ('0' : Char).toNat ≤ c.toNat := h1
  have g2 : c.toNat ≤ ('9' : Char).toNat := h2
  omega

theorem isDigit_ne_NUL (c : Char) (h : isDigit c) : c ≠ Char.ofNat 0 := by
  intro e
  have h1 := (isDigit_toNat c h).1
  rw [e] at h1
  exact absurd h1 (by decide)

theorem foldl_digits_ge (l : List Char) (v : Nat) :
    v ≤ l.foldl (fun v c => 10 * v + (c.toNat - '0'.toNat)) v := by
  induction l generalizing v with
  | nil => exact Nat.le_refl v
  | cons c l ih =>
    have h := ih (10 * v + (c.toNat - '0'.toNat))
    simp only [List.foldl_cons]
    omega

/-- The loop of `Util_sscandec` on digits whose value fits an `int`. -/
theorem sscandec_loop_digits (l : List Char) (v : Nat) (hd : ∀ c ∈ l, isDigit c)
    (hv : l.foldl (fun v c => 10 * v + (c.toNat - '0'.toNat)) v < 2147483648) :
    Util_sscandec_loop l (v : Int) =
      ((l.foldl (fun v c => 10 * v + (c.toNat - '0'.toNat)) v : Nat) : Int) := by
  induction l generalizing v with
  | nil => rfl
  | cons c l ih =>
    have hc := hd c (List.mem_cons_self c l)
    have hn := isDigit_toNat c hc
    have e0 : ('0' : Char).toNat = 48 := rfl
    simp only [List.foldl_cons] at hv ⊢
    have hge := foldl_digits_ge l (10 * v + (c.toNat - '0'.toNat))
    have hstep : ofBits (bits (10 * (v : Int) + (c.toNat : Int) - (('0' : Char).toNat : Int))) =
        ((10 * v + (c.toNat - '0'.toNat) : Nat) : Int) := by
      rw [ofBits_bits _ (by omega) (by omega)]
      omega
    have hc2 : '0' ≤ c ∧ c ≤ '9' := hc
    unfold Util_sscandec_loop
    rw [if_pos hc2, hstep]
    exact ih _ (fun d hd2 => hd d (List.mem_cons_of_mem c hd2)) hv

/-- The loop of `Util_sscandec` on characters one of which is no digit. -/
theorem sscandec_loop_reject (l : List Char) (r : Int) (h0 : Char.ofNat 0 ∉ l)
    (hx : ∃ c ∈ l, ¬ isDigit c) : Util_sscandec_loop l r = -1 := by
  induction l generalizing r with
  | nil =>
    obtain ⟨c, hc, _⟩ := hx
    exact absurd hc (List.not_mem_nil c)
  | cons c l ih =>
    unfold Util_sscandec_loop
    by_cases hc : '0' ≤ c ∧ c ≤ '9'
    · rw [if_pos hc]
      apply ih
      · exact fun h => h0 (List.mem_cons_of_mem c h)
      · obtain ⟨d, hd, hnd⟩ := hx
        rcases List.mem_cons.mp hd with e | e
        · exact absurd (e ▸ hc) hnd
        · exact ⟨d, e, hnd⟩
    · have hz : ¬ c = Char.ofNat 0 := fun e => h0 (by rw [← e]; exact List.mem_cons_self c l)
      rw [if_neg hc, if_neg hz]

theorem sscandec_digits (l : List Char) (hne : l ≠ []) (hd : ∀ c ∈ l, isDigit c)
    (hv : decimal_value l < 2147483648) :
    Util_sscandec (some (String.mk l)) = (decimal_value l : Int) := by
  unfold Util_sscandec
  cases l with
  | nil => exact absurd rfl hne
  | cons c l =>
    simp only []
    rw [if_neg (isDigit_ne_NUL c (hd c (List.mem_cons_self c l)))]
    exact sscandec_loop_digits (c :: l) 0 hd hv

theorem sscandec_reject (l : List Char) (h0 : Char.ofNat 0 ∉ l)
    (hx : l = [] ∨ ∃ c ∈ l, ¬ isDigit c) : Util_sscandec (some (String.mk l)) = -1 := by
  unfold Util_sscandec
  cases l with
  | nil => rfl
  | cons c l =>
    simp only []
    have hz : ¬ c = Char.ofNat 0 := fun e => h0 (by rw [← e]; exact List.mem_cons_self c l)
    rw [if_neg hz]
    rcases hx with hx | hx
    · exact absurd hx (by simp)
    · exact sscandec_loop_reject (c :: l) 0 h0 hx

theorem isDigit_not_sign (c : Char) (h : isDigit c) : c ≠ '-' ∧ c ≠ '+' := by
  have h1 := (isDigit_toNat c h).1
  refine ⟨fun e => ?_, fun e => ?_⟩
  · rw [e] at h1; exact absurd h1 (by decide)
  · rw [e] at h1; exact absurd h1 (by decide)

/-- The function `Util_sscansdec` on a string with a sign in front. -/
theorem sscansdec_signed (l : List Char) (d : Int) (sign : Char)
    (hs : sign = '-' ∨ sign = '+') :
    Util_sscansdec (some (String.mk (sign :: l))) (some d) =
      if Util_sscandec (some (String.mk l)) = -1 then (FALSE, some (-1))
      else if sign = '-' then
        (TRUE, some (ofBits (bits (-Util_sscandec (some (String.mk l))))))
      else (TRUE, some (Util_sscandec (some (String.mk l)))) := by
  unfold Util_sscansdec
  rcases hs with hs | hs <;> subst hs <;> simp only [List.head?_cons, List.tail_cons] <;>
    simp only [Option.some.injEq, true_or, or_true, if_true] <;>
    split_ifs <;> simp_all

/-- The function `Util_sscansdec` on a string without a sign in front. -/
theorem sscansdec_unsigned (l : List Char) (d : Int)
    (hs : l.head? ≠ some '-' ∧ l.head? ≠ some '+') :
    Util_sscansdec (some (String.mk l)) (some d) =
      if Util_sscandec (some (String.mk l)) = -1 then (FALSE, some (-1))
      else (TRUE, some (Util_sscandec (some (String.mk l)))) := by
  unfold Util_sscansdec
  simp only [hs.1, hs.2, or_self, if_false]
  split_ifs with h1 <;> simp_all

/-- C26. The function `Util_sscandec` returns -1 for the `NULL` pointer, for the
empty string and for every string with a character that is no decimal digit;
for a string of one or more decimal digits whose value is below `2^31` it
returns that value, leading zeros allowed. `Util_sscansdec` stores the value
for such a string, the value again with a `+` in front and its negative with
a `-` in front, returning TRUE; it returns FALSE when what follows the sign
is empty or has a character that is no digit. A C string has no NUL inside,
and `int` arithmetic wraps. -/
theorem sscandec_scans (l : List Char) (h0 : Char.ofNat 0 ∉ l) :
    Util_sscandec none = -1 ∧
    Util_sscandec (some "") = -1 ∧
    ((∃ c ∈ l, ¬ isDigit c) → Util_sscandec (some (String.mk l)) = -1) ∧
    (l ≠ [] → (∀ c ∈ l, isDigit c) → decimal_value l < 2147483648 →
      Util_sscandec (some (String.mk l)) = (decimal_value l : Int) ∧
      ∀ d : Int,
        Util_sscansdec (some (String.mk l)) (some d) = (TRUE, some (decimal_value l : Int)) ∧
        Util_sscansdec (some (String.mk ('+' :: l))) (some d) =
          (TRUE, some (decimal_value l : Int)) ∧
        Util_sscansdec (some (String.mk ('-' :: l))) (some d) =
          (TRUE, some (-(decimal_value l : Int)))) ∧
    ((l = [] ∨ ∃ c ∈ l, ¬ isDigit c) → ∀ d : Int,
      (Util_sscansdec (some (String.mk ('+' :: l))) (some d)).1 = FALSE ∧
      (Util_sscansdec (some (String.mk ('-' :: l))) (some d)).1 = FALSE ∧
      (l.head? ≠ some '-' ∧ l.head? ≠ some '+' →
        (Util_sscansdec (some (String.mk l)) (some d)).1 = FALSE)) := by
  refine ⟨rfl, rfl, fun hx => sscandec_reject l h0 (Or.inr hx), fun hne hd hv => ?_,
    fun hx d => ?_⟩
  · have hval := sscandec_digits l hne hd hv
    have hnz : ¬ ((decimal_value l : Int) = -1) := by omega
    refine ⟨hval, fun d => ⟨?_, ?_, ?_⟩⟩
    · have hh : l.head? ≠ some '-' ∧ l.head? ≠ some '+' := by
        cases l with
        | nil => exact absurd rfl hne
        | cons c l =>
          have hc := isDigit_not_sign c (hd c (List.mem_cons_self c l))
          simp only [List.head?_cons, ne_eq, Option.some.injEq]
          exact hc
      rw [sscansdec_unsigned l d hh, hval, if_neg hnz]
    · rw [sscansdec_signed l d '+' (Or.inr rfl), hval, if_neg hnz, if_neg (by decide)]
    · rw [sscansdec_signed l d '-' (Or.inl rfl), hval, if_neg hnz, if_pos rfl,
        ofBits_bits _ (by omega) (by omega)]
  · have hrej := sscandec_reject l h0 hx
    refine ⟨?_, ?_, fun hh => ?_⟩
    · rw [sscansdec_signed l d '+' (Or.inr rfl), hrej, if_pos rfl]
    · rw [sscansdec_signed l d '-' (Or.inl rfl), hrej, if_pos rfl]
    · rw [sscansdec_unsigned l d hh, hrej, if_pos rfl]

/-- Witness for C26: the string "0042" scans as 42, "-0042" as -42, and "4x" is
refused. -/
theorem sscandec_scans_witness :
    Util_sscandec (some (String.mk ['0', '0', '4', '2'])) =
      (decimal_value ['0', '0', '4', '2'] : Int) ∧
    Util_sscansdec (some (String.mk ('-' :: ['0', '0', '4', '2']))) (some 7) =
      (TRUE, some (-(decimal_value ['0', '0', '4', '2'] : Int))) ∧
    Util_sscandec (some (String.mk ['4', 'x'])) = -1 :=
  ⟨((sscandec_scans ['0', '0', '4', '2'] (by decide)).2.2.2.1 (by decide)
      (by unfold isDigit; decide) (by decide)).1,
   (((sscandec_scans ['0', '0', '4', '2'] (by decide)).2.2.2.1 (by decide)
      (by unfold isDigit; decide) (by decide)).2 7).2.2,
   (sscandec_scans ['4', 'x'] (by decide)).2.2.1 ⟨'x', by decide, by unfold isDigit; decide⟩⟩

/-! ## One access, one transition -/

theorem switchPiggyback_cases (E : Env) (c : Slot) (old new : Int) (W : World) :
    switchPiggyback E c old new W = W ∨
    (c = .main ∧ ∃ a : Slot,
      switchPiggyback E c old new W = MapActiveCart E { W with active_cart := a }) := by
  unfold switchPiggyback
  split_ifs with h1 h2 h3 h4
  · exact Or.inr ⟨h1, .main, rfl⟩
  · exact Or.inl rfl
  · exact Or.inr ⟨h1, .piggyback, rfl⟩
  · exact Or.inl rfl
  · exact Or.inl rfl

theorem OneStep_commit (E : Env) (c : Slot) (W W1 : World) (n : Int)
    (h1 : W1 = W ∨
      (c = .main ∧ CartIsPassthrough E (W.cart c).type = true ∧
        ∃ a : Slot, W1 = MapActiveCart E { W with active_cart := a })) :
    OneStep E c W (commit_state E c (W.cart c).state n W1) := by
  refine ⟨W1, n, h1, ?_⟩
  rw [commit_state_eq]
  split_ifs with h2 h3
  · exact Or.inl rfl
  · exact Or.inr ⟨h2, Or.inr rfl⟩
  · exact Or.inr ⟨h2, Or.inl rfl⟩

theorem OneStep_of_form (E : Env) (c : Slot) (W : World) (r : Option Int × World)
    (hr : (CartIsPassthrough E (W.cart c).type = false ∧ r.2 = W) ∨
      (CartIsPassthrough E (W.cart c).type = true ∧
        (r = (none, W) ∨ ∃ n, r = (some n, switchPiggyback E c (W.cart c).state n W)))) :
    OneStep E c W (commit_result E c (W.cart c).state r) := by
  unfold commit_result
  rcases hr with ⟨_, h2⟩ | ⟨hp, h | ⟨n, h⟩⟩
  · rcases r with ⟨r1, W1⟩
    simp only at h2
    subst h2
    cases r1 with
    | none => exact ⟨W1, 0, Or.inl rfl, Or.inl rfl⟩
    | some n => exact OneStep_commit E c W1 W1 n (Or.inl rfl)
  · rw [h]
    exact ⟨W, 0, Or.inl rfl, Or.inl rfl⟩
  · rw [h]
    simp only []
    apply OneStep_commit
    rcases switchPiggyback_cases E c (W.cart c).state n W with h3 | ⟨h3, a, h4⟩
    · exact Or.inl h3
    · exact Or.inr ⟨h3, hp, a, h4⟩

/-- C28 fails for the way back from the piggyback slot: with the SDX_64
cartridge of `demoWorld` in state 8 and the piggyback slot active, one read of
`$D5E0` runs `SwitchBank` twice, first inside `MapActiveCart` while the state is
still 8, which disables `$A000-$BFFF`, then with the new state 7, which
enables it and copies bank 7. -/
theorem access_maps_twice :
    piggybackWorld.active_cart = .piggyback ∧
    piggybackWorld.CARTRIDGE_main.state = 8 ∧
    MapActiveCart demoEnv { piggybackWorld with active_cart := .main } =
      SwitchBank demoEnv 8
        (({ piggybackWorld with active_cart := .main } : World).emit .Cart809fDisable) ∧
    (GetByte demoEnv .main 0xd5e0 false piggybackWorld).2 =
      SwitchBank demoEnv 8
        ((MapActiveCart demoEnv { piggybackWorld with active_cart := .main }).setState
          .main 7) ∧
    (GetByte demoEnv .main 0xd5e0 false piggybackWorld).2.ops =
      piggybackWorld.ops ++
        [.Cart809fDisable, .CartA0bfDisable, .CartA0bfEnable,
         .CopyFromCart 0xa000 0xbfff (.image .main (7 * 0x2000))] := by
  refine ⟨by decide, by decide, rfl, rfl, by decide⟩

/-- C28, amended. One access to one slot, a read that is not a peek or a write,
stores the state of that slot at most once and then runs `SwitchBank` at most
once, with the old state as argument. Before that, and only for a passthrough
cartridge in the first slot, `MapActiveCart` may run once when the access
changes which cartridge is active; it maps the newly active cartridge with
the state not yet stored. -/
theorem one_access_one_transition (E : Env) (c : Slot) (addr byte : Nat) (W : World) :
    OneStep E c W (GetByte E c addr false W).2 ∧ OneStep E c W (PutByte E c addr byte W) :=
  ⟨OneStep_of_form E c W _ (access_D5_form E c addr W),
   OneStep_of_form E c W _ (PutByte_state_form E c addr byte W)⟩

/-! ## File name patterns -/

theorem double_percents_length (l : List Char) : l.length ≤ (double_percents l).length := by
  induction l with
  | nil => simp [double_percents]
  | cons c l ih =>
    unfold double_percents
    split_ifs <;> simp <;> omega

theorem parse_hashes_loop_succ (bufsize : Int) (n : Nat) (p out : List Char) (w : Nat)
    (m : Int) :
    parse_hashes_loop bufsize (n + 1) p out w m =
      if (out.length : Int) < bufsize - 9 then
        if p.head? = some '#' then
          if w > '0'.toNat then some (0, out)
          else
            parse_hashes_loop bufsize n (count_hashes p m w).1
              (out ++ ['%', '0', Char.ofNat (count_hashes p m w).2.2, 'd'])
              (count_hashes p m w).2.2 (count_hashes p m w).2.1
        else
          match p with
          | [] => some (m, out ++ [NUL])
          | c :: rest =>
            if c = NUL then some (m, (if c = '%' then out ++ ['%'] else out) ++ [c])
            else
              parse_hashes_loop bufsize n rest ((if c = '%' then out ++ ['%'] else out) ++ [c])
                w m
      else some (0, out) := by
  cases p <;> rfl

theorem parse_hashes_end (bufsize : Int) (n : Nat) (out : List Char) (w : Nat) (m : Int)
    (h : (out.length : Int) < bufsize - 9) :
    parse_hashes_loop bufsize (n + 1) [] out w m = some (m, out ++ [NUL]) := by
  simp [parse_hashes_loop, h]

theorem parse_hashes_char (bufsize : Int) (n : Nat) (c : Char) (rest out : List Char)
    (w : Nat) (m : Int) (h : (out.length : Int) < bufsize - 9) (h1 : c ≠ '#')
    (h2 : c ≠ NUL) :
    parse_hashes_loop bufsize (n + 1) (c :: rest) out w m =
      parse_hashes_loop bufsize n rest (out ++ double_percents [c]) w m := by
  have h3 : ¬ (c :: rest).head? = some '#' := by simpa using h1
  rw [parse_hashes_loop_succ, if_pos h, if_neg h3]
  simp only [if_neg h2]
  by_cases hc : c = '%'
  · subst hc
    simp [double_percents]
  · simp [double_percents, hc]

theorem parse_hashes_plain (bufsize : Int) (rest : List Char) (w : Nat) (m : Int) :
    ∀ (pre : List Char) (n : Nat) (out : List Char), plain pre →
      ((out ++ double_percents pre).length : Int) ≤ bufsize - 9 →
      parse_hashes_loop bufsize (n + pre.length) (pre ++ rest) out w m =
        parse_hashes_loop bufsize n rest (out ++ double_percents pre) w m := by
  intro pre
  induction pre with
  | nil => intro n out _ _; simp [double_percents]
  | cons c pre ih =>
    intro n out hp hb
    have hc1 : c ≠ '#' := fun e => hp.1 (by rw [← e]; exact List.mem_cons_self c pre)
    have hc2 : c ≠ NUL := fun e => hp.2 (by rw [← e]; exact List.mem_cons_self c pre)
    have hp2 : plain pre :=
      ⟨fun h => hp.1 (List.mem_cons_of_mem c h), fun h => hp.2 (List.mem_cons_of_mem c h)⟩
    have hd : double_percents (c :: pre) = double_percents [c] ++ double_percents pre := by
      simp only [double_percents]
      split_ifs <;> simp
    have hl : 1 ≤ (double_percents [c]).length := double_percents_length [c]
    rw [hd] at hb
    simp only [List.length_append] at hb
    have hb1 : (out.length : Int) < bufsize - 9 := by omega
    show parse_hashes_loop bufsize ((n + pre.length) + 1) (c :: (pre ++ rest)) out w m = _
    rw [parse_hashes_char bufsize _ c _ out w m hb1 hc1 hc2, ih n _ hp2, hd,
      List.append_assoc]
    simp only [List.length_append]
    omega

theorem count_hashes_run (q : List Char) :
    ∀ (j : Nat) (m : Int) (w : Nat), 0 ≤ m → m * 10 ^ (j + 1) < 2147483648 →
      w + (j + 1) ≤ 57 → (w + (j + 1) = 57 ∨ q.head? ≠ some '#') →
      count_hashes (List.replicate (j + 1) '#' ++ q) m w = (q, m * 10 ^ (j + 1), w + (j + 1)) := by
  intro j
  induction j with
  | zero =>
    intro m w h0 h1 h2 h3
    have h4 : ¬ (w + 1 < '9'.toNat ∧ q.head? = some '#') := by
      have h5 : '9'.toNat = 57 := by decide
      rw [h5]
      rcases h3 with h3 | h3
      · omega
      · exact fun h => h3 h.2
    have h6 : ofBits (bits (m * 10)) = m * 10 := ofBits_bits _ (by omega) (by omega)
    show count_hashes ('#' :: q) m w = _
    rw [count_hashes]
    simp only [if_neg h4, h6]
    simp
  | succ j ih =>
    intro m w h0 h1 h2 h3
    have h5 : '9'.toNat = 57 := by decide
    have hpos : (0 : Int) < 10 ^ (j + 1) := by positivity
    have h7 : m * 10 ^ (j + 1 + 1) = (m * 10) * 10 ^ (j + 1) := by ring
    have h8 : m * 10 ≤ (m * 10) * 10 ^ (j + 1) := by nlinarith
    have h6 : ofBits (bits (m * 10)) = m * 10 := ofBits_bits _ (by omega) (by omega)
    have h4 : w + 1 < '9'.toNat ∧
        (List.replicate (j + 1) '#' ++ q).head? = some '#' := by
      rw [h5]
      exact ⟨by omega, by simp [List.replicate_succ]⟩
    show count_hashes ('#' :: (List.replicate (j + 1) '#' ++ q)) m w = _
    rw [count_hashes]
    simp only [if_pos h4, h6]
    rw [ih (m * 10) (w + 1) (by omega) (by omega) (by omega) (by
      rcases h3 with h3 | h3
      · exact Or.inl (by omega)
      · exact Or.inr h3), h7]
    simp only [Prod.mk.injEq, true_and]
    omega

theorem parse_hashes_run (bufsize : Int) (n k : Nat) (q out : List Char)
    (h : (out.length : Int) < bufsize - 9) (hk1 : 1 ≤ k) (hk9 : k ≤ 9)
    (hq : k = 9 ∨ q.head? ≠ some '#') :
    parse_hashes_loop bufsize (n + 1) (List.replicate k '#' ++ q) out '0'.toNat 1 =
      parse_hashes_loop bufsize n q (out ++ format_hashes k) ('0'.toNat + k) (10 ^ k) := by
  obtain ⟨j, rfl⟩ : ∃ j, k = j + 1 := ⟨k - 1, by omega⟩
  have h5 : '0'.toNat = 48 := by decide
  have hpow : (10 : Int) ^ (j + 1) ≤ 10 ^ 9 := pow_le_pow_right₀ (by norm_num) hk9
  have hc := count_hashes_run q j 1 48 (by norm_num) (by
    rw [one_mul]
    have : (10 : Int) ^ 9 < 2147483648 := by norm_num
    omega) (by omega) (by
    rcases hq with hq | hq
    · exact Or.inl (by omega)
    · exact Or.inr hq)
  have hh : (List.replicate (j + 1) '#' ++ q).head? = some '#' := by
    simp [List.replicate_succ]
  rw [parse_hashes_loop_succ, if_pos h, if_pos hh, h5, if_neg (by omega), hc, one_mul]
  rfl

theorem parse_hashes_second_run (bufsize : Int) (tail : List Char) (w : Nat) (m : Int)
    (hw : '0'.toNat < w) :
    ∀ (mid : List Char) (n : Nat) (out : List Char), NUL ∉ mid → mid.length < n →
      ∃ o, parse_hashes_loop bufsize n (mid ++ '#' :: tail) out w m = some (0, o) := by
  intro mid
  induction mid with
  | nil =>
    intro n out _ hn
    obtain ⟨n, rfl⟩ : ∃ j, n = j + 1 := ⟨n - 1, by simp at hn; omega⟩
    simp only [List.nil_append]
    rw [parse_hashes_loop_succ]
    by_cases h1 : (out.length : Int) < bufsize - 9
    · have hh : ('#' :: tail).head? = some '#' := rfl
      rw [if_pos h1, if_pos hh, if_pos hw]
      exact ⟨out, rfl⟩
    · rw [if_neg h1]
      exact ⟨out, rfl⟩
  | cons c mid ih =>
    intro n out hm hn
    obtain ⟨n, rfl⟩ : ∃ j, n = j + 1 := ⟨n - 1, by simp at hn; omega⟩
    have hc2 : c ≠ NUL := fun e => hm (by rw [← e]; exact List.mem_cons_self c mid)
    have hm2 : NUL ∉ mid := fun h => hm (List.mem_cons_of_mem c h)
    have hn2 : mid.length < n := by simp at hn; omega
    show ∃ o, parse_hashes_loop bufsize (n + 1) (c :: (mid ++ '#' :: tail)) out w m = _
    rw [parse_hashes_loop_succ]
    by_cases h1 : (out.length : Int) < bufsize - 9
    · rw [if_pos h1]
      by_cases h2 : (c :: (mid ++ '#' :: tail)).head? = some '#'
      · rw [if_pos h2, if_pos hw]
        exact ⟨out, rfl⟩
      · rw [if_neg h2]
        simp only [if_neg hc2]
        exact ih n _ hm2 hn2
    · rw [if_neg h1]
      exact ⟨out, rfl⟩

theorem parse_hashes_plain_zero (bufsize : Int) (rest : List Char) (w : Nat) (m : Int)
    (n : Nat)
    (hrest : ∀ out, ∃ o, parse_hashes_loop bufsize n rest out w m = some (0, o)) :
    ∀ (pre : List Char) (out : List Char), plain pre →
      ∃ o, parse_hashes_loop bufsize (n + pre.length) (pre ++ rest) out w m = some (0, o) := by
  intro pre
  induction pre with
  | nil => intro out _; exact hrest out
  | cons c pre ih =>
    intro out hp
    have hc1 : c ≠ '#' := fun e => hp.1 (by rw [← e]; exact List.mem_cons_self c pre)
    have hc2 : c ≠ NUL := fun e => hp.2 (by rw [← e]; exact List.mem_cons_self c pre)
    have hp2 : plain pre :=
      ⟨fun h => hp.1 (List.mem_cons_of_mem c h), fun h => hp.2 (List.mem_cons_of_mem c h)⟩
    show ∃ o, parse_hashes_loop bufsize ((n + pre.length) + 1) (c :: (pre ++ rest)) out w m = _
    by_cases h : (out.length : Int) < bufsize - 9
    · rw [parse_hashes_char bufsize _ c _ out w m h hc1 hc2]
      exact ih _ hp2
    · rw [parse_hashes_loop_succ, if_neg h]
      exact ⟨out, rfl⟩

theorem parse_hashes_long_run (bufsize : Int) (n k : Nat) (tail out : List Char)
    (hk : 9 < k) :
    ∃ o, parse_hashes_loop bufsize (n + 2) (List.replicate k '#' ++ tail) out '0'.toNat 1 =
      some (0, o) := by
  obtain ⟨e, rfl⟩ : ∃ e, k = 9 + (e + 1) := ⟨k - 10, by omega⟩
  have hsplit : List.replicate (9 + (e + 1)) '#' ++ tail =
      List.replicate 9 '#' ++ ('#' :: (List.replicate e '#' ++ tail)) := by
    rw [List.replicate_add, List.replicate_succ, List.append_assoc]
    rfl
  rw [hsplit]
  by_cases h : (out.length : Int) < bufsize - 9
  · rw [parse_hashes_run bufsize (n + 1) 9 _ out h (by norm_num) (by norm_num) (Or.inl rfl)]
    exact parse_hashes_second_run bufsize _ _ _ (by decide) [] (n + 1) _ (by simp) (by simp)
  · rw [parse_hashes_loop_succ, if_neg h]
    exact ⟨out, rfl⟩

theorem parse_hashes_two_runs (bufsize : Int) (n k : Nat) (mid tail out : List Char)
    (hk : 1 ≤ k) (hmid : plain mid) (hne : mid ≠ []) (hn : mid.length + 1 < n) :
    ∃ o, parse_hashes_loop bufsize n (List.replicate k '#' ++ (mid ++ '#' :: tail)) out
      '0'.toNat 1 = some (0, o) := by
  obtain ⟨n, rfl⟩ : ∃ j, n = j + 2 := ⟨n - 2, by omega⟩
  by_cases hk9 : 9 < k
  · exact parse_hashes_long_run bufsize n k _ out hk9
  · by_cases h : (out.length : Int) < bufsize - 9
    · have hq : (mid ++ '#' :: tail).head? ≠ some '#' := by
        cases mid with
        | nil => exact absurd rfl hne
        | cons c mid =>
          have hc1 : c ≠ '#' := fun e => hmid.1 (by rw [← e]; exact List.mem_cons_self c mid)
          simpa using hc1
      rw [parse_hashes_run bufsize (n + 1) k _ out h hk (by omega) (Or.inr hq)]
      exact parse_hashes_second_run bufsize _ _ _ (by omega) mid (n + 1) _ hmid.2 (by omega)
    · rw [parse_hashes_loop_succ, if_neg h]
      exact ⟨out, rfl⟩

theorem count_hashes_length :
    ∀ (p : List Char) (c : Char) (m : Int) (w : Nat),
      (count_hashes (c :: p) m w).1.length ≤ p.length := by
  intro p
  induction p with
  | nil =>
    intro c m w
    simp [count_hashes]
  | cons d p ih =>
    intro c m w
    rw [count_hashes]
    split_ifs
    · exact le_trans (ih d _ _) (by simp)
    · exact le_refl _

/-- The loop of `parse_hashes` ends within the fuel that `parse_hashes` gives
it: every turn moves `p` forward. -/
theorem parse_hashes_loop_total (bufsize : Int) :
    ∀ (n : Nat) (p out : List Char) (w : Nat) (m : Int), p.length < n →
      ∃ r, parse_hashes_loop bufsize n p out w m = some r := by
  intro n
  induction n with
  | zero => intro p out w m h; omega
  | succ n ih =>
    intro p out w m h
    rw [parse_hashes_loop_succ]
    by_cases h1 : (out.length : Int) < bufsize - 9
    · rw [if_pos h1]
      cases p with
      | nil => exact ⟨_, rfl⟩
      | cons c p =>
        simp only [List.length_cons] at h
        by_cases h2 : (c :: p).head? = some '#'
        · rw [if_pos h2]
          by_cases h3 : w > '0'.toNat
          · rw [if_pos h3]
            exact ⟨_, rfl⟩
          · rw [if_neg h3]
            apply ih
            have := count_hashes_length p c m w
            omega
        · rw [if_neg h2]
          simp only []
          by_cases h3 : c = NUL
          · rw [if_pos h3]
            exact ⟨_, rfl⟩
          · rw [if_neg h3]
            exact ih _ _ _ _ (by omega)
    · rw [if_neg h1]
      exact ⟨_, rfl⟩

theorem parse_hashes_total (p : String) (bufsize : Int) :
    ∃ r, parse_hashes p bufsize = some r :=
  parse_hashes_loop_total bufsize _ _ _ _ _ (by omega)

/-- C27 fails when "fits the buffer" is read as the converted pattern with its
terminator fitting in `bufsize` bytes: the loop asks for nine more free bytes
at the start of every turn, the one that stores the terminator too. "abc"
with a buffer of 10 bytes, and "a#" with a buffer of 12 bytes, whose
converted form takes 6 bytes, both give 0. -/
theorem parse_hashes_needs_spare_room :
    parse_hashes "abc" 10 = some (0, ['a']) ∧
    ((double_percents "abc".data).length : Int) + 1 ≤ 10 ∧
    parse_hashes "a#" 12 = some (0, ['a', '%', '0', '1', 'd']) ∧
    ((double_percents ['a'] ++ format_hashes 1).length : Int) + 1 ≤ 12 := by
  decide

/-- C27, amended. Let `pre`, `mid` and `post` have no hash in them. When the
converted pattern is shorter than `bufsize - 9`, `parse_hashes` returns 1 for
`pre` and `10 ^ k` for `pre`, a run of `k` hashes with `1 ≤ k ≤ 9`, and `post`,
and writes the pattern with each percent sign doubled and the run replaced by
"%0kd", followed by the terminator. A run of more than 9 hashes, or a second
run of hashes after `mid`, gives 0 whatever follows and whatever the size of
the buffer. -/
theorem parse_hashes_pattern (pre post mid tail : List Char) (bufsize : Int) (k k2 : Nat)
    (hpre : plain pre) (hpost : plain post) (hmid : plain mid) :
    (((double_percents pre).length : Int) < bufsize - 9 →
      parse_hashes (String.mk pre) bufsize = some (1, double_percents pre ++ [NUL])) ∧
    (1 ≤ k → k ≤ 9 →
      ((double_percents pre ++ format_hashes k ++ double_percents post).length : Int)
        < bufsize - 9 →
      parse_hashes (String.mk (pre ++ List.replicate k '#' ++ post)) bufsize =
        some (10 ^ k, double_percents pre ++ format_hashes k ++ double_percents post ++ [NUL])) ∧
    (9 < k →
      ∃ out, parse_hashes (String.mk (pre ++ List.replicate k '#' ++ tail)) bufsize =
        some (0, out)) ∧
    (1 ≤ k → 1 ≤ k2 → mid ≠ [] →
      ∃ out, parse_hashes
        (String.mk (pre ++ List.replicate k '#' ++ mid ++ List.replicate k2 '#' ++ tail))
        bufsize = some (0, out)) := by
  refine ⟨?_, ?_, ?_, ?_⟩
  · intro hb
    unfold parse_hashes
    have h1 := parse_hashes_plain bufsize [] '0'.toNat 1 pre 1 [] hpre (by
      simp only [List.nil_append]
      omega)
    simp only [List.append_nil, List.nil_append] at h1
    rw [Nat.add_comm, h1]
    exact parse_hashes_end bufsize 0 _ _ _ hb
  · intro hk1 hk9 hb
    unfold parse_hashes
    simp only [List.length_append, List.length_replicate] at hb ⊢
    have hf : (format_hashes k).length = 4 := rfl
    have hfuel : pre.length + k + post.length + 1 = (k + post.length + 1) + pre.length := by
      omega
    rw [hfuel, List.append_assoc,
      parse_hashes_plain bufsize _ '0'.toNat 1 pre _ [] hpre (by
        simp only [List.nil_append]
        push_cast at hb
        omega)]
    obtain ⟨j, rfl⟩ : ∃ j, k = j + 1 := ⟨k - 1, by omega⟩
    have hq : post.head? ≠ some '#' := by
      cases post with
      | nil => simp
      | cons c post =>
        have hc1 : c ≠ '#' := fun e => hpost.1 (by rw [← e]; exact List.mem_cons_self c post)
        simpa using hc1
    have hfuel2 : j + 1 + post.length + 1 = (j + 1 + post.length) + 1 := rfl
    rw [hfuel2, parse_hashes_run bufsize _ (j + 1) post _ (by
        simp only [List.nil_append]
        push_cast at hb
        omega) hk1 hk9 (Or.inr hq)]
    have h2 := parse_hashes_plain bufsize [] ('0'.toNat + (j + 1)) (10 ^ (j + 1)) post
      (j + 1) ([] ++ double_percents pre ++ format_hashes (j + 1)) hpost (by
        simp only [List.nil_append, List.length_append, hf]
        push_cast at hb ⊢
        rw [hf] at hb
        push_cast at hb
        omega)
    simp only [List.append_nil, List.nil_append] at h2 ⊢
    rw [h2]
    exact parse_hashes_end bufsize j _ _ _ (by
      simp only [List.length_append, hf]
      rw [hf] at hb
      push_cast at hb ⊢
      omega)
  · intro hk
    unfold parse_hashes
    have hfuel : (String.mk (pre ++ List.replicate k '#' ++ tail)).data.length + 1 =
        (k + tail.length - 1 + 2) + pre.length := by
      simp only [List.length_append, List.length_replicate]
      omega
    rw [hfuel]
    simp only [List.append_assoc]
    exact parse_hashes_plain_zero bufsize _ _ _ _
      (fun out => parse_hashes_long_run bufsize _ k tail out hk) pre [] hpre
  · intro hk1 hk2 hne
    unfold parse_hashes
    obtain ⟨j, rfl⟩ : ∃ j, k2 = j + 1 := ⟨k2 - 1, by omega⟩
    have hfuel : (String.mk
        (pre ++ List.replicate k '#' ++ mid ++ List.replicate (j + 1) '#' ++ tail)).data.length
        + 1 = (k + mid.length + (j + 1) + tail.length + 1) + pre.length := by
      simp only [List.length_append, List.length_replicate]
      omega
    rw [hfuel]
    have hsplit : pre ++ List.replicate k '#' ++ mid ++ List.replicate (j + 1) '#' ++ tail =
        pre ++ (List.replicate k '#' ++ (mid ++ '#' :: (List.replicate j '#' ++ tail))) := by
      simp [List.replicate_succ]
    simp only [hsplit]
    exact parse_hashes_plain_zero bufsize _ _ _ _
      (fun out => parse_hashes_two_runs bufsize _ k mid _ out hk1 hmid hne (by omega))
      pre [] hpre

theorem parse_hashes_pattern_witness :
    parse_hashes "foo%bar" 64 = some (1, "foo%%bar".data ++ [NUL]) ∧
    parse_hashes "foo%bar##.ext" 64 = some (100, "foo%%bar%02d.ext".data ++ [NUL]) ∧
    (∃ out, parse_hashes "foo%bar##########.ext" 64 = some (0, out)) ∧
    (∃ out, parse_hashes "foo%bar##-#.ext" 64 = some (0, out)) :=
  ⟨(parse_hashes_pattern "foo%bar".data ".ext".data ['-'] ".ext".data 64 2 1
      ⟨by decide, by decide⟩ ⟨by decide, by decide⟩ ⟨by decide, by decide⟩).1 (by decide),
   (parse_hashes_pattern "foo%bar".data ".ext".data ['-'] ".ext".data 64 2 1
      ⟨by decide, by decide⟩ ⟨by decide, by decide⟩ ⟨by decide, by decide⟩).2.1 (by decide) (by decide) (by decide),
   (parse_hashes_pattern "foo%bar".data ".ext".data ['-'] ".ext".data 64 10 1
      ⟨by decide, by decide⟩ ⟨by decide, by decide⟩ ⟨by decide, by decide⟩).2.2.1 (by decide),
   (parse_hashes_pattern "foo%bar".data ".ext".data ['-'] ".ext".data 64 2 1
      ⟨by decide, by decide⟩ ⟨by decide, by decide⟩ ⟨by decide, by decide⟩).2.2.2 (by decide) (by decide) (by decide)⟩

/-! ## Masks and shifts as division and remainder -/

theorem bits_lt (x : Int) : bits x < 4294967296 := by
  unfold bits
  omega

/-- The C expression `x & m` for a non-negative constant `m` is the AND of the bit pattern
of `x` with `m`. -/
theorem band_const (x : Int) (m : Nat) (hm : m < 2147483648) :
    band x (m : Int) = ((bits x &&& m : Nat) : Int) := by
  unfold band
  rw [bits_natCast m (by omega)]
  exact ofBits_of_lt _ (lt_of_le_of_lt Nat.and_le_right hm)

theorem band_const_range (x : Int) (m : Nat) (hm : m < 2147483648) :
    0 ≤ band x (m : Int) ∧ band x (m : Int) ≤ (m : Int) := by
  rw [band_const x m hm]
  exact ⟨Int.natCast_nonneg _, by exact_mod_cast Nat.and_le_right⟩

theorem shl_natCast (a k : Nat) (h : a * 2 ^ k < 2147483648) :
    shl (a : Int) k = ((a * 2 ^ k : Nat) : Int) := by
  unfold shl
  have ha : a < 4294967296 := by
    have : 1 ≤ 2 ^ k := Nat.one_le_two_pow
    nlinarith
  rw [bits_natCast a ha, Nat.shiftLeft_eq]
  exact ofBits_of_lt _ h

/-- A mask of `w` ones from bit `k` on picks the digits `k .. k + w - 1`. -/
theorem and_mask (n k w : Nat) :
    n &&& ((2 ^ w - 1) * 2 ^ k) = n / 2 ^ k % 2 ^ w * 2 ^ k := by
  apply Nat.eq_of_testBit_eq
  intro i
  rw [Nat.testBit_and, Nat.mul_comm (2 ^ w - 1), Nat.mul_comm _ (2 ^ k),
    Nat.testBit_mul_pow_two, Nat.testBit_mul_pow_two, Nat.testBit_two_pow_sub_one,
    Nat.testBit_mod_two_pow, ← Nat.shiftRight_eq_div_pow, Nat.testBit_shiftRight]
  by_cases h : k ≤ i
  · have h2 : k + (i - k) = i := by omega
    simp only [h, h2, decide_True, Bool.true_and]
    exact Bool.and_comm _ _
  · simp [h]

/-- Two numbers, one a multiple of `2 ^ k` and one below it, are OR-ed by adding them. -/
theorem or_add (a b k : Nat) (ha : a % 2 ^ k = 0) (hb : b < 2 ^ k) : a ||| b = a + b := by
  have h := Nat.mul_add_lt_is_or hb (a / 2 ^ k)
  have h2 : 2 ^ k * (a / 2 ^ k) = a := by
    have := Nat.div_add_mod a (2 ^ k)
    omega
  rw [h2] at h
  exact h.symm

/-- The C expression `x & M` for a mask `M` of `w` ones from bit `k` on. -/
theorem band_field (x : Int) (k w : Nat) (M : Int)
    (hM : M = (((2 ^ w - 1) * 2 ^ k : Nat) : Int)) (hm : (2 ^ w - 1) * 2 ^ k < 2147483648) :
    band x M = ((bits x / 2 ^ k % 2 ^ w * 2 ^ k : Nat) : Int) := by
  rw [hM, band_const x _ hm, and_mask]

/-- The C expression `x & M` for a mask `M` of `w` low ones. -/
theorem band_low (x : Int) (w : Nat) (M : Int)
    (hM : M = ((2 ^ w - 1 : Nat) : Int)) (hm : 2 ^ w - 1 < 2147483648) :
    band x M = ((bits x % 2 ^ w : Nat) : Int) := by
  rw [hM, band_const x _ hm, Nat.and_pow_two_sub_one_eq_mod]

theorem bor_add (a b k : Nat) (ha : a % 2 ^ k = 0) (hb : b < 2 ^ k) (hs : a + b < 2147483648) :
    bor (a : Int) (b : Int) = ((a + b : Nat) : Int) := by
  rw [bor_natCast a b (by omega) (by omega), or_add a b k ha hb]

theorem bor_add_low (a b k : Nat) (ha : a < 2 ^ k) (hb : b % 2 ^ k = 0)
    (hs : a + b < 2147483648) :
    bor (a : Int) (b : Int) = ((a + b : Nat) : Int) := by
  rw [bor_natCast a b (by omega) (by omega), Nat.or_comm, or_add b a k hb ha, Nat.add_comm]

theorem toUBYTE_natCast (n : Nat) (h : n < 256) : toUBYTE (n : Int) = n := by
  unfold toUBYTE
  omega

theorem bits_bnot (n : Nat) (h : n < 4294967296) :
    bits (bnot (n : Int)) = 4294967295 - n := by
  unfold bits bnot
  omega

/-! ## One slot under the accesses to both -/

theorem shape_access_other (E : Env) (c s : Slot) (hs : s ≠ c) (W : World)
    (r : Option Int × World)
    (hr : (CartIsPassthrough E (W.cart c).type = false ∧ r.2 = W) ∨
      (CartIsPassthrough E (W.cart c).type = true ∧
        (r = (none, W) ∨ ∃ n, r = (some n, switchPiggyback E c (W.cart c).state n W)))) :
    shape ((commit_result E c (W.cart c).state r).cart s) = shape (W.cart s) := by
  unfold commit_result
  rcases hr with ⟨_, h2⟩ | ⟨_, h | ⟨n, h⟩⟩
  · rcases r with ⟨r1, W1⟩
    simp only at h2
    subst h2
    cases r1 with
    | none => rfl
    | some n => exact shape_commit_state_ne E c s hs _ n W1
  · rw [h]
  · rw [h]
    simp only []
    rw [shape_commit_state_ne E c s hs, shape_switchPiggyback]

theorem GetByte_snd_eq (E : Env) (c : Slot) (addr : Nat) (W : World) :
    (GetByte E c addr false W).2 =
      commit_result E c (W.cart c).state (access_D5 E c addr W) := by
  show GetByte_switch E c addr false W = _
  rw [GetByte_switch_eq]
  rfl

theorem GetByte_peek (E : Env) (c : Slot) (addr : Nat) (W : World) :
    (GetByte E c addr true W).2 = W := rfl

theorem PutByte_eq (E : Env) (c : Slot) (addr byte : Nat) (W : World) :
    PutByte E c addr byte W =
      commit_result E c (W.cart c).state (PutByte_state E c addr byte W) := rfl

theorem shape_GetByte_other (E : Env) (c s : Slot) (hs : s ≠ c) (addr : Nat) (nse : Bool)
    (W : World) : shape ((GetByte E c addr nse W).2.cart s) = shape (W.cart s) := by
  cases nse
  · rw [GetByte_snd_eq]
    exact shape_access_other E c s hs W _ (access_D5_form E c addr W)
  · rw [GetByte_peek]

theorem shape_PutByte_other (E : Env) (c s : Slot) (hs : s ≠ c) (addr byte : Nat)
    (W : World) : shape ((PutByte E c addr byte W).cart s) = shape (W.cart s) := by
  rw [PutByte_eq]
  exact shape_access_other E c s hs W _ (PutByte_state_form E c addr byte W)

/-- A property of slot `c` that looks at its shape only and is kept by the reads
and writes of that slot is kept by `CARTRIDGE_GetByte` and `CARTRIDGE_PutByte`, which go
through both slots. The bytes written may be restricted by `B`. -/
theorem slot_access_keeps (E : Env) (c : Slot) (Q : CARTRIDGE_image_t → Prop) (B : Nat → Prop)
    (hQ : ∀ x y, shape x = shape y → Q x → Q y)
    (hG : ∀ W addr nse, Q (W.cart c) → Q ((GetByte E c addr nse W).2.cart c))
    (hP : ∀ W addr byte, B byte → Q (W.cart c) → Q ((PutByte E c addr byte W).cart c))
    (W : World) (hW : Q (W.cart c)) :
    (∀ addr nse, Q ((CARTRIDGE_GetByte E addr nse W).2.cart c)) ∧
    (∀ addr byte, B byte → Q ((CARTRIDGE_PutByte E addr byte W).cart c)) := by
  have hGo : ∀ (s : Slot) (V : World) addr nse, s ≠ c → Q (V.cart c) →
      Q ((GetByte E s addr nse V).2.cart c) := fun s V addr nse hs hV =>
    hQ _ _ (shape_GetByte_other E s c (fun e => hs e.symm) addr nse V).symm hV
  have hPo : ∀ (s : Slot) (V : World) addr byte, s ≠ c → Q (V.cart c) →
      Q ((PutByte E s addr byte V).cart c) := fun s V addr byte hs hV =>
    hQ _ _ (shape_PutByte_other E s c (fun e => hs e.symm) addr byte V).symm hV
  have hGa : ∀ (s : Slot) (V : World) addr nse, Q (V.cart c) →
      Q ((GetByte E s addr nse V).2.cart c) := fun s V addr nse hV => by
    by_cases hs : s = c
    · subst hs; exact hG V addr nse hV
    · exact hGo s V addr nse hs hV
  have hPa : ∀ (s : Slot) (V : World) addr byte, B byte → Q (V.cart c) →
      Q ((PutByte E s addr byte V).cart c) := fun s V addr byte hb hV => by
    by_cases hs : s = c
    · subst hs; exact hP V addr byte hb hV
    · exact hPo s V addr byte hs hV
  refine ⟨fun addr nse => ?_, fun addr byte hb => ?_⟩
  · unfold CARTRIDGE_GetByte
    split_ifs
    · exact hW
    · exact hW
    · exact hW
    · exact hW
    · exact hGa _ _ _ _ (hGa _ _ _ _ hW)
    · exact hGa _ _ _ _ (hGa _ _ _ _ hW)
  · unfold CARTRIDGE_PutByte
    split_ifs
    · exact hW
    · exact hPa _ _ _ _ hb (hPa _ _ _ _ hb hW)

theorem slot_run_keeps (E : Env) (c : Slot) (Q : CARTRIDGE_image_t → Prop) (B : Nat → Prop)
    (hQ : ∀ x y, shape x = shape y → Q x → Q y)
    (hG : ∀ W addr nse, Q (W.cart c) → Q ((GetByte E c addr nse W).2.cart c))
    (hP : ∀ W addr byte, B byte → Q (W.cart c) → Q ((PutByte E c addr byte W).cart c))
    (l : List D5Access) (hl : ∀ addr byte, D5Access.write addr byte ∈ l → B byte)
    (W : World) (hW : Q (W.cart c)) :
    Q ((run_accesses E l W).cart c) := by
  induction l generalizing W with
  | nil => exact hW
  | cons a l ih =>
    have h : run_accesses E (a :: l) W = run_accesses E l (a.run E W) := rfl
    rw [h]
    apply ih (fun addr byte hm => hl addr byte (List.mem_cons_of_mem _ hm))
    cases a with
    | read addr => exact (slot_access_keeps E c Q B hQ hG hP W hW).1 addr false
    | write addr byte =>
      exact (slot_access_keeps E c Q B hQ hG hP W hW).2 addr byte
        (hl addr byte (List.mem_cons_self _ _))

/-! ## Writes that act as reads -/

theorem PutByte_state_default (E : Env) (c : Slot) (addr byte : Nat) (W : World)
    (hk : switched_by_access (E.kind (W.cart c).type) = true) :
    PutByte_state E c addr byte W = access_D5 E c addr W := by
  unfold PutByte_state
  cases hkind : E.kind (W.cart c).type <;> rw [hkind] at hk <;>
    first
    | rfl
    | exact absurd hk (by decide)

/-- C39. For every type whose switching in page `$D5` is decided by `access_D5`
(the OSS types, DB_32, WILL_32 and WILL_64, EXP_64, DIAMOND_64, the SDX
types, PHOENIX_8, the BLIZZARD types, ATMAX_128, ATMAX_OLD_1024, ATMAX_NEW_1024,
MEGAMAX_2048, the TURBOSOFT types, ULTRACART_32, the ADAWLIAH types), every
address, every byte and every prior world, a write of the byte to the
address leaves the same world as a read of the address that is not a peek:
the same state of the slot and the same active cartridge. -/
theorem write_acts_as_read (E : Env) (c : Slot) (addr byte : Nat) (W : World)
    (hk : switched_by_access (E.kind (W.cart c).type) = true) :
    PutByte E c addr byte W = (GetByte E c addr false W).2 ∧
    ((PutByte E c addr byte W).cart c).state = ((GetByte E c addr false W).2.cart c).state ∧
    (PutByte E c addr byte W).active_cart = (GetByte E c addr false W).2.active_cart := by
  have h : PutByte E c addr byte W = (GetByte E c addr false W).2 := by
    rw [PutByte_eq, GetByte_snd_eq, PutByte_state_default E c addr byte W hk]
  exact ⟨h, by rw [h], by rw [h]⟩

/-- Witness for C39: on the SDX 64KB cartridge of `demoWorld` a write of 0x5a to
`$D5E8` selects the piggyback slot as a read of `$D5E8` does. -/
theorem write_acts_as_read_witness :
    PutByte demoEnv .main 0xd5e8 0x5a demoWorld = (GetByte demoEnv .main 0xd5e8 false demoWorld).2 ∧
    (PutByte demoEnv .main 0xd5e8 0x5a demoWorld).active_cart = .piggyback :=
  ⟨(write_acts_as_read demoEnv .main 0xd5e8 0x5a demoWorld rfl).1, by decide⟩

/-! ## The BLIZZARD 32KB cartridge -/

theorem BLIZZARD_32_access (E : Env) (c : Slot) (addr byte : Nat) (W : World)
    (hk : E.kind (W.cart c).type = CARTRIDGE_BLIZZARD_32) :
    access_D5 E c addr W =
      (if (W.cart c).state < 4 then (some ((W.cart c).state + 1), W) else (none, W)) ∧
    PutByte_state E c addr byte W = access_D5 E c addr W := by
  refine ⟨?_, PutByte_state_default E c addr byte W (by rw [hk]; rfl)⟩
  unfold access_D5
  rw [hk]

theorem BLIZZARD_32_step (E : Env) (c : Slot) (addr byte : Nat) (W : World)
    (hk : E.kind (W.cart c).type = CARTRIDGE_BLIZZARD_32) :
    ((W.cart c).state < 4 →
      (GetByte E c addr false W).2 =
        commit_state E c (W.cart c).state ((W.cart c).state + 1) W ∧
      PutByte E c addr byte W = commit_state E c (W.cart c).state ((W.cart c).state + 1) W) ∧
    (4 ≤ (W.cart c).state →
      (GetByte E c addr false W).2 = W ∧ PutByte E c addr byte W = W) := by
  have h := BLIZZARD_32_access E c addr byte W hk
  refine ⟨fun h4 => ?_, fun h4 => ?_⟩
  · rw [PutByte_eq, GetByte_snd_eq, h.2, h.1, if_pos h4]
    exact ⟨rfl, rfl⟩
  · rw [PutByte_eq, GetByte_snd_eq, h.2, h.1, if_neg (by omega)]
    exact ⟨rfl, rfl⟩

/-- One access to a BLIZZARD_32 cartridge with a state up to 4 keeps the type and
leaves a state that is not smaller and is 4 at most. -/
theorem BLIZZARD_32_keeps (E : Env) (c : Slot) (s0 : Int) (W : World)
    (hW : E.kind (W.cart c).type = CARTRIDGE_BLIZZARD_32 ∧ s0 ≤ (W.cart c).state ∧
      (W.cart c).state ≤ 4) :
    (∀ addr nse,
      E.kind ((GetByte E c addr nse W).2.cart c).type = CARTRIDGE_BLIZZARD_32 ∧
      s0 ≤ ((GetByte E c addr nse W).2.cart c).state ∧
      ((GetByte E c addr nse W).2.cart c).state ≤ 4) ∧
    (∀ addr byte,
      E.kind ((PutByte E c addr byte W).cart c).type = CARTRIDGE_BLIZZARD_32 ∧
      s0 ≤ ((PutByte E c addr byte W).cart c).state ∧
      ((PutByte E c addr byte W).cart c).state ≤ 4) := by
  obtain ⟨hk, h0, h4⟩ := hW
  have hcs := state_commit_state E c ((W.cart c).state + 1) W
  refine ⟨fun addr nse => ?_, fun addr byte => ?_⟩
  · cases nse
    · by_cases hlt : (W.cart c).state < 4
      · rw [((BLIZZARD_32_step E c addr 0 W hk).1 hlt).1, hcs.1, hcs.2]
        exact ⟨hk, by omega, by omega⟩
      · rw [((BLIZZARD_32_step E c addr 0 W hk).2 (by omega)).1]
        exact ⟨hk, h0, h4⟩
    · rw [GetByte_peek]
      exact ⟨hk, h0, h4⟩
  · by_cases hlt : (W.cart c).state < 4
    · rw [((BLIZZARD_32_step E c addr byte W hk).1 hlt).2, hcs.1, hcs.2]
      exact ⟨hk, by omega, by omega⟩
    · rw [((BLIZZARD_32_step E c addr byte W hk).2 (by omega)).2]
      exact ⟨hk, h0, h4⟩

theorem BLIZZARD_32_run (E : Env) (c : Slot) (s0 : Int) (l : List D5Access) (W : World)
    (hW : E.kind (W.cart c).type = CARTRIDGE_BLIZZARD_32 ∧ s0 ≤ (W.cart c).state ∧
      (W.cart c).state ≤ 4) :
    E.kind ((run_accesses E l W).cart c).type = CARTRIDGE_BLIZZARD_32 ∧
    s0 ≤ ((run_accesses E l W).cart c).state ∧ ((run_accesses E l W).cart c).state ≤ 4 :=
  slot_run_keeps E c
    (fun x => E.kind x.type = CARTRIDGE_BLIZZARD_32 ∧ s0 ≤ x.state ∧ x.state ≤ 4)
    (fun _ => True)
    (fun x y h hx => by
      have ht := shape_type_eq h
      have hs := shape_state_eq h
      show E.kind y.type = CARTRIDGE_BLIZZARD_32 ∧ s0 ≤ y.state ∧ y.state ≤ 4
      rw [← ht, ← hs]
      exact hx)
    (fun V addr nse hV => (BLIZZARD_32_keeps E c s0 V hV).1 addr nse)
    (fun V addr byte _ hV => (BLIZZARD_32_keeps E c s0 V hV).2 addr byte)
    l (fun _ _ _ => trivial) W hW

theorem run_accesses_append (E : Env) (l1 l2 : List D5Access) (W : World) :
    run_accesses E (l1 ++ l2) W = run_accesses E l2 (run_accesses E l1 W) := by
  unfold run_accesses
  rw [List.foldl_append]

/-- C31. For a BLIZZARD_32 cartridge: an access (a read that is not a peek, or a
write) in a state below 4 stores that state plus 1; in a state of 4 or more
`access_D5` returns FALSE and the access leaves the world as it is. A cold
start stores 0. From a state up to 4, so from the cold-start state, the state
never goes down along a sequence of accesses to page `$D5` and never exceeds
4, so a state of 4 stays. In state 4 the bank switch disables `$A000-$BFFF`. -/
theorem BLIZZARD_32_clamps (E : Env) (c : Slot) (W : World)
    (hk : E.kind (W.cart c).type = CARTRIDGE_BLIZZARD_32) :
    ((W.cart c).state < 4 → ∀ addr byte,
      ((GetByte E c addr false W).2.cart c).state = (W.cart c).state + 1 ∧
      ((PutByte E c addr byte W).cart c).state = (W.cart c).state + 1) ∧
    (4 ≤ (W.cart c).state → ∀ addr byte,
      access_D5 E c addr W = (none, W) ∧
      (GetByte E c addr false W).2 = W ∧ PutByte E c addr byte W = W) ∧
    ((CARTRIDGE_ColdStart E W).cart c).state = 0 ∧
    ((W.cart c).state ≤ 4 → ∀ l1 l2 : List D5Access,
      ((run_accesses E l1 W).cart c).state ≤ ((run_accesses E (l1 ++ l2) W).cart c).state ∧
      ((run_accesses E (l1 ++ l2) W).cart c).state ≤ 4) ∧
    ((W.cart c).state = 4 → c = W.active_cart →
      ∀ old, SwitchBank E old W = W.emit .CartA0bfDisable) := by
  have hcs := state_commit_state E c ((W.cart c).state + 1) W
  refine ⟨fun h4 addr byte => ?_, fun h4 addr byte => ?_, ?_, fun h4 l1 l2 => ?_,
    fun h4 hc old => ?_⟩
  · rw [((BLIZZARD_32_step E c addr byte W hk).1 h4).1,
      ((BLIZZARD_32_step E c addr byte W hk).1 h4).2]
    exact ⟨hcs.1, hcs.1⟩
  · refine ⟨?_, (BLIZZARD_32_step E c addr byte W hk).2 h4⟩
    rw [(BLIZZARD_32_access E c addr byte W hk).1, if_neg (by omega)]
  · have h := (ColdStart_carts E W).2 c
    have hs := shape_state_eq h
    rw [hs, hk]
    rfl
  · have h1 := BLIZZARD_32_run E c (W.cart c).state l1 W ⟨hk, le_refl _, h4⟩
    have h2 := BLIZZARD_32_run E c ((run_accesses E l1 W).cart c).state l2
      (run_accesses E l1 W) ⟨h1.1, le_refl _, h1.2.2⟩
    rw [run_accesses_append]
    exact ⟨h2.2.1, h2.2.2⟩
  · have ha : W.active = W.cart c := by rw [hc]; rfl
    unfold SwitchBank
    rw [ha, hk]
    simp only []
    unfold set_bank_A0BF
    rw [ha, h4]
    rfl

/-- Witness for C31: the BLIZZARD_32 cartridge of `ramEnv` (type code 1) goes from
state 3 to state 4 by a read of `$D500`, and a write in state 4 changes
nothing. -/
theorem BLIZZARD_32_clamps_witness :
    ((GetByte ramEnv .main 0xd500 false (ossWorld 1 3 32)).2.cart .main).state = 3 + 1 ∧
    PutByte ramEnv .main 0xd500 0 (ossWorld 1 4 32) = ossWorld 1 4 32 :=
  ⟨((BLIZZARD_32_clamps ramEnv .main (ossWorld 1 3 32) rfl).1 (by decide) 0xd500 0).1,
   ((BLIZZARD_32_clamps ramEnv .main (ossWorld 1 4 32) rfl).2.1 (by decide) 0xd500 0).2.2⟩

/-! ## The register lock of the Ram-Cart types -/

theorem byte_and_lt (b m : Nat) : b &&& m ≤ m := Nat.and_le_right

/-- The word `(old & 0x7f000) | v` for a value `v` below 0x1000. -/
theorem ram_word (old : Int) (v : Nat) (hv : v < 4096) :
    bor (band old 0x7f000) (v : Int) =
      ((bits old / 2 ^ 12 % 2 ^ 7 * 2 ^ 12 + v : Nat) : Int) := by
  rw [band_field old 12 7 0x7f000 (by norm_num) (by norm_num),
    bor_add _ _ 12 (by omega) (by omega) (by omega)]

theorem PutByte_same (E : Env) (c : Slot) (addr byte : Nat) (W : World)
    (h : PutByte_state E c addr byte W = (some (W.cart c).state, W)) :
    PutByte E c addr byte W = W := by
  rw [PutByte_of_state E c addr byte W _ h, commit_state_eq, if_pos rfl]

theorem ram_lock_kinds (k : Kind) (m : Nat) (hm : ram_lock_mask k = some m) :
    (k = CARTRIDGE_RAMCART_64 ∧ m = 0x1f) ∨ (k = CARTRIDGE_RAMCART_128 ∧ m = 0x3f) ∨
    (k = CARTRIDGE_DOUBLE_RAMCART_256 ∧ m = 0x3f) := by
  cases k <;> simp only [ram_lock_mask, Option.some.injEq] at hm <;>
    first
    | (subst hm; decide)
    | cases hm

theorem ram_lock_access (E : Env) (c : Slot) (addr byte : Nat) (W : World) (m : Nat)
    (hm : ram_lock_mask (E.kind (W.cart c).type) = some m) :
    access_D5 E c addr W = (none, W) ∧
    (band (W.cart c).state 0x0004 = 0 →
      PutByte_state E c addr byte W =
        (some (bor (band (W.cart c).state 0x7f000) ((byte &&& m : Nat) : Int)), W)) ∧
    (band (W.cart c).state 0x0004 ≠ 0 →
      (E.kind (W.cart c).type = CARTRIDGE_DOUBLE_RAMCART_256 →
        band (W.cart c).state 0x2000 = 0) →
      PutByte_state E c addr byte W = (some (W.cart c).state, W)) := by
  rcases ram_lock_kinds _ m hm with ⟨hk, rfl⟩ | ⟨hk, rfl⟩ | ⟨hk, rfl⟩
  · refine ⟨by unfold access_D5; rw [hk], fun h0 => ?_, fun h1 _ => ?_⟩
    · unfold PutByte_state
      rw [hk]
      simp only [h0, if_true]
    · unfold PutByte_state
      rw [hk]
      simp only [h1, if_false]
  · refine ⟨by unfold access_D5; rw [hk], fun h0 => ?_, fun h1 _ => ?_⟩
    · unfold PutByte_state
      rw [hk]
      simp only [h0, if_true]
    · unfold PutByte_state
      rw [hk]
      simp only [h1, if_false]
  · refine ⟨by unfold access_D5; rw [hk], fun h0 => ?_, fun h1 h2 => ?_⟩
    · unfold PutByte_state
      rw [hk]
      simp only [h0, or_true, if_true]
    · have h3 := h2 hk
      unfold PutByte_state
      rw [hk]
      simp only [h1, h3, ne_eq, not_true_eq_false, or_self, if_false]

theorem GetByte_same (E : Env) (c : Slot) (addr : Nat) (nse : Bool) (W : World)
    (h : access_D5 E c addr W = (none, W)) : (GetByte E c addr nse W).2 = W := by
  rw [GetByte_unhandled E c addr nse W h]

/-- C32. For RAMCART_64 and RAMCART_128, and for DOUBLE_RAMCART_256 while bit 0x2000
of its state is clear: with the lock bit 0x0004 set, every write to page
`$D5` leaves the world as it is, and so does every read, so no sequence of
accesses changes the state. With the lock bit clear a write of the byte `b`
stores `(state & 0x7f000) | (b & m)`, with `m` 0x1f for RAMCART_64 and 0x3f
for the other two: the low twelve bits become `b & m` and bits 12 to 18 stay. -/
theorem ram_lock_holds (E : Env) (c : Slot) (addr byte : Nat) (W : World) (m : Nat)
    (hm : ram_lock_mask (E.kind (W.cart c).type) = some m) :
    (band (W.cart c).state 0x0004 ≠ 0 →
      (E.kind (W.cart c).type = CARTRIDGE_DOUBLE_RAMCART_256 →
        band (W.cart c).state 0x2000 = 0) →
      PutByte E c addr byte W = W ∧
      ∀ l : List D5Access, ((run_accesses E l W).cart c).state = (W.cart c).state) ∧
    (∀ nse, (GetByte E c addr nse W).2 = W) ∧
    (band (W.cart c).state 0x0004 = 0 →
      ((PutByte E c addr byte W).cart c).state =
        bor (band (W.cart c).state 0x7f000) ((byte &&& m : Nat) : Int) ∧
      band ((PutByte E c addr byte W).cart c).state 0xfff = ((byte &&& m : Nat) : Int) ∧
      band ((PutByte E c addr byte W).cart c).state 0x7f000 =
        band (W.cart c).state 0x7f000) := by
  have hm64 : m ≤ 0x3f := by
    rcases ram_lock_kinds _ m hm with ⟨_, rfl⟩ | ⟨_, rfl⟩ | ⟨_, rfl⟩ <;> decide
  refine ⟨fun h1 h2 => ⟨?_, fun l => ?_⟩, fun nse => ?_, fun h0 => ?_⟩
  · exact PutByte_same E c addr byte W ((ram_lock_access E c addr byte W m hm).2.2 h1 h2)
  · have hrun := slot_run_keeps E c
      (fun x => x.type = (W.cart c).type ∧ x.state = (W.cart c).state) (fun _ => True)
      (fun x y h hx => by
        have ht := shape_type_eq h
        have hs := shape_state_eq h
        show y.type = (W.cart c).type ∧ y.state = (W.cart c).state
        rw [← ht, ← hs]
        exact hx)
      (fun V a nse hV => by
        have hmV : ram_lock_mask (E.kind (V.cart c).type) = some m := by rw [hV.1]; exact hm
        rw [GetByte_same E c a nse V (ram_lock_access E c a 0 V m hmV).1]
        exact hV)
      (fun V a b _ hV => by
        have hmV : ram_lock_mask (E.kind (V.cart c).type) = some m := by rw [hV.1]; exact hm
        rw [PutByte_same E c a b V ((ram_lock_access E c a b V m hmV).2.2
          (by rw [hV.2]; exact h1) (by rw [hV.1, hV.2]; exact h2))]
        exact hV)
      l (fun _ _ _ => trivial) W ⟨rfl, rfl⟩
    exact hrun.2
  · exact GetByte_same E c addr nse W (ram_lock_access E c addr byte W m hm).1
  · have hp := PutByte_of_state E c addr byte W _ ((ram_lock_access E c addr byte W m hm).2.1 h0)
    have hs := (state_commit_state E c
      (bor (band (W.cart c).state 0x7f000) ((byte &&& m : Nat) : Int)) W).1
    rw [← hp] at hs
    have hv : byte &&& m < 4096 := lt_of_le_of_lt (byte_and_lt byte m) (by omega)
    have hw := ram_word (W.cart c).state (byte &&& m) hv
    have hb := bits_lt (W.cart c).state
    refine ⟨hs, ?_, ?_⟩
    · rw [hs, hw, band_low _ 12 0xfff (by norm_num) (by norm_num), bits_natCast _ (by omega)]
      omega
    · rw [hs, hw, band_field _ 12 7 0x7f000 (by norm_num) (by norm_num),
        band_field _ 12 7 0x7f000 (by norm_num) (by norm_num), bits_natCast _ (by omega)]
      omega

/-- Witness for C32: the RAMCART_64 cartridge of `ramEnv` (type code 2) with the
lock bit set ignores a write of 0x1b, and with the lock bit clear latches
it. -/
theorem ram_lock_holds_witness :
    PutByte ramEnv .main 0xd500 0x1b (ossWorld 2 0x1004 64) = ossWorld 2 0x1004 64 ∧
    ((PutByte ramEnv .main 0xd500 0x1b (ossWorld 2 0x1003 64)).cart .main).state =
      bor (band 0x1003 0x7f000) ((0x1b &&& 0x1f : Nat) : Int) :=
  ⟨((ram_lock_holds ramEnv .main 0xd500 0x1b (ossWorld 2 0x1004 64) 0x1f rfl).1
      (by decide) (by decide)).1,
   ((ram_lock_holds ramEnv .main 0xd500 0x1b (ossWorld 2 0x1003 64) 0x1f rfl).2.2
      (by decide)).1⟩

/-! ## The registers of THECART -/

theorem THECART_access (E : Env) (c : Slot) (addr byte : Nat) (W : World)
    (hk : isTheCart (E.kind (W.cart c).type) = true) :
    access_D5 E c addr W = (none, W) ∧
    PutByte_state E c addr byte W =
      (some (if addr = 0xd5a0 then bor (band (W.cart c).state 0x3f00) (byte : Int)
        else if addr = 0xd5a1 then
          bor (band (W.cart c).state 0x00ff) (shl ((byte &&& 0x3f : Nat) : Int) 8)
        else if addr = 0xd5a2 then
          bor (band (W.cart c).state 0x3fff) (shl (band (bnot (byte : Int)) 0x01) 14)
        else (W.cart c).state), W) ∧
    GetByte_value E (W.cart c) addr =
      (if addr = 0xd5a0 then some (toUBYTE (band (W.cart c).state 0x00ff))
       else if addr = 0xd5a1 then some (toUBYTE (shr (band (W.cart c).state 0x3f00) 8))
       else if addr = 0xd5a2 then
         some (toUBYTE (shr (band (bnot (W.cart c).state) 0x4000) 14))
       else some 0xff) := by
  unfold access_D5 PutByte_state GetByte_value
  cases hkind : E.kind (W.cart c).type <;> rw [hkind] at hk <;>
    first
    | exact absurd hk (by decide)
    | (refine ⟨rfl, ?_, rfl⟩
       simp only []
       split_ifs <;> rfl)

/-- The three words that the writes to `$D5A0`, `$D5A1` and `$D5A2` store. -/
theorem THECART_words (old : Int) (byte : Nat) (hb : byte < 256) :
    bor (band old 0x3f00) (byte : Int) =
      ((bits old / 2 ^ 8 % 2 ^ 6 * 2 ^ 8 + byte : Nat) : Int) ∧
    bor (band old 0x00ff) (shl ((byte &&& 0x3f : Nat) : Int) 8) =
      ((bits old % 2 ^ 8 + byte % 2 ^ 6 * 2 ^ 8 : Nat) : Int) ∧
    bor (band old 0x3fff) (shl (band (bnot (byte : Int)) 0x01) 14) =
      ((bits old % 2 ^ 14 + (1 - byte % 2) * 2 ^ 14 : Nat) : Int) := by
  have h6 : byte &&& 0x3f = byte % 2 ^ 6 := Nat.and_pow_two_sub_one_eq_mod byte 6
  refine ⟨?_, ?_, ?_⟩
  · rw [band_field old 8 6 0x3f00 (by norm_num) (by norm_num),
      bor_add _ _ 8 (by omega) (by omega) (by omega)]
  · rw [band_low old 8 0xff (by norm_num) (by norm_num), h6,
      shl_natCast _ 8 (by omega), bor_add_low _ _ 8 (by omega) (by omega) (by omega)]
  · rw [band_low old 14 0x3fff (by norm_num) (by norm_num),
      band_low (bnot (byte : Int)) 1 0x01 (by norm_num) (by norm_num),
      bits_bnot byte (by omega), shl_natCast _ 14 (by omega),
      bor_add_low _ _ 14 (by omega) (by omega) (by omega)]
    omega

/-- C33. For the THECART types and a byte `b`. A write of `b` to `$D5A0` stores
`(state & 0x3f00) | b`: bits 0-7 become `b`, bits 8-13 stay, bit 0x4000 is
clear; a read of `$D5A0` then returns `b`. A write to `$D5A1` stores
`(state & 0x00ff) | ((b & 0x3f) << 8)`: bits 8-13 become `b & 0x3f`, bits 0-7
stay, bit 0x4000 is clear; a read of `$D5A1` then returns `b & 0x3f`. A write
to `$D5A2` sets bit 0x4000 to the complement of bit 0 of `b` and keeps bits
0-13; a read of `$D5A2` then returns `b & 1`. A write to any other address
leaves the world as it is. -/
theorem THECART_registers (E : Env) (c : Slot) (byte : Nat) (W : World)
    (hk : isTheCart (E.kind (W.cart c).type) = true) (hb : byte < 256) :
    (((PutByte E c 0xd5a0 byte W).cart c).state =
        bor (band (W.cart c).state 0x3f00) (byte : Int) ∧
      band ((PutByte E c 0xd5a0 byte W).cart c).state 0x00ff = (byte : Int) ∧
      band ((PutByte E c 0xd5a0 byte W).cart c).state 0x3f00 = band (W.cart c).state 0x3f00 ∧
      band ((PutByte E c 0xd5a0 byte W).cart c).state 0x4000 = 0 ∧
      ∀ nse, (GetByte E c 0xd5a0 nse (PutByte E c 0xd5a0 byte W)).1 = some byte) ∧
    (((PutByte E c 0xd5a1 byte W).cart c).state =
        bor (band (W.cart c).state 0x00ff) (shl ((byte &&& 0x3f : Nat) : Int) 8) ∧
      shr (band ((PutByte E c 0xd5a1 byte W).cart c).state 0x3f00) 8 =
        ((byte &&& 0x3f : Nat) : Int) ∧
      band ((PutByte E c 0xd5a1 byte W).cart c).state 0x00ff = band (W.cart c).state 0x00ff ∧
      band ((PutByte E c 0xd5a1 byte W).cart c).state 0x4000 = 0 ∧
      ∀ nse, (GetByte E c 0xd5a1 nse (PutByte E c 0xd5a1 byte W)).1 = some (byte &&& 0x3f)) ∧
    (band ((PutByte E c 0xd5a2 byte W).cart c).state 0x4000 =
        (if byte &&& 1 = 0 then 0x4000 else 0) ∧
      band ((PutByte E c 0xd5a2 byte W).cart c).state 0x3fff = band (W.cart c).state 0x3fff ∧
      ∀ nse, (GetByte E c 0xd5a2 nse (PutByte E c 0xd5a2 byte W)).1 = some (byte &&& 1)) ∧
    (∀ addr, addr ≠ 0xd5a0 → addr ≠ 0xd5a1 → addr ≠ 0xd5a2 → PutByte E c addr byte W = W) := by
  have hw := THECART_words (W.cart c).state byte hb
  have hN := bits_lt (W.cart c).state
  have h6 : byte &&& 0x3f = byte % 2 ^ 6 := Nat.and_pow_two_sub_one_eq_mod byte 6
  have h1 : byte &&& 1 = byte % 2 ^ 1 := Nat.and_pow_two_sub_one_eq_mod byte 1
  have hput : ∀ addr n, PutByte_state E c addr byte W = (some n, W) →
      ((PutByte E c addr byte W).cart c).state = n ∧
      isTheCart (E.kind ((PutByte E c addr byte W).cart c).type) = true := by
    intro addr n h
    rw [PutByte_of_state E c addr byte W n h]
    have hs := state_commit_state E c n W
    exact ⟨hs.1, by rw [hs.2]; exact hk⟩
  have hread : ∀ (V : World) addr nse, isTheCart (E.kind (V.cart c).type) = true →
      (GetByte E c addr nse V).1 =
        (if addr = 0xd5a0 then some (toUBYTE (band (V.cart c).state 0x00ff))
         else if addr = 0xd5a1 then some (toUBYTE (shr (band (V.cart c).state 0x3f00) 8))
         else if addr = 0xd5a2 then
           some (toUBYTE (shr (band (bnot (V.cart c).state) 0x4000) 14))
         else some 0xff) := by
    intro V addr nse hV
    have h := THECART_access E c addr 0 V hV
    rw [GetByte_unhandled E c addr nse V h.1]
    exact h.2.2
  refine ⟨?_, ?_, ?_, fun addr n0 n1 n2 => ?_⟩
  · have h := (THECART_access E c 0xd5a0 byte W hk).2.1
    rw [if_pos rfl] at h
    obtain ⟨hs, ht⟩ := hput _ _ h
    have hlow : band ((PutByte E c 0xd5a0 byte W).cart c).state 0x00ff = (byte : Int) := by
      rw [hs, hw.1, band_low _ 8 0xff (by norm_num) (by norm_num), bits_natCast _ (by omega)]
      omega
    refine ⟨hs, hlow, ?_, ?_, fun nse => ?_⟩
    · rw [hs, hw.1, band_field _ 8 6 0x3f00 (by norm_num) (by norm_num),
        band_field _ 8 6 0x3f00 (by norm_num) (by norm_num), bits_natCast _ (by omega)]
      omega
    · rw [hs, hw.1, band_field _ 14 1 0x4000 (by norm_num) (by norm_num),
        bits_natCast _ (by omega)]
      omega
    · rw [hread _ _ nse ht, if_pos rfl, hlow, toUBYTE_natCast byte hb]
  · have h := (THECART_access E c 0xd5a1 byte W hk).2.1
    rw [if_neg (by decide), if_pos rfl] at h
    obtain ⟨hs, ht⟩ := hput _ _ h
    have hmid : shr (band ((PutByte E c 0xd5a1 byte W).cart c).state 0x3f00) 8 =
        ((byte &&& 0x3f : Nat) : Int) := by
      rw [hs, hw.2.1, band_field _ 8 6 0x3f00 (by norm_num) (by norm_num),
        bits_natCast _ (by omega), shr_natCast, h6]
      omega
    refine ⟨hs, hmid, ?_, ?_, fun nse => ?_⟩
    · rw [hs, hw.2.1, band_low _ 8 0xff (by norm_num) (by norm_num),
        band_low _ 8 0xff (by norm_num) (by norm_num), bits_natCast _ (by omega)]
      omega
    · rw [hs, hw.2.1, band_field _ 14 1 0x4000 (by norm_num) (by norm_num),
        bits_natCast _ (by omega)]
      omega
    · rw [hread _ _ nse ht, if_neg (by decide), if_pos rfl, hmid,
        toUBYTE_natCast _ (by omega)]
  · have h := (THECART_access E c 0xd5a2 byte W hk).2.1
    rw [if_neg (by decide), if_neg (by decide), if_pos rfl] at h
    obtain ⟨hs, ht⟩ := hput _ _ h
    refine ⟨?_, ?_, fun nse => ?_⟩
    · rw [hs, hw.2.2, band_field _ 14 1 0x4000 (by norm_num) (by norm_num),
        bits_natCast _ (by omega), h1]
      split_ifs <;> omega
    · rw [hs, hw.2.2, band_low _ 14 0x3fff (by norm_num) (by norm_num),
        band_low _ 14 0x3fff (by norm_num) (by norm_num), bits_natCast _ (by omega)]
      omega
    · rw [hread _ _ nse ht, if_neg (by decide), if_neg (by decide), if_pos rfl, hs, hw.2.2,
        band_field _ 14 1 0x4000 (by norm_num) (by norm_num), bits_bnot _ (by omega),
        shr_natCast, toUBYTE_natCast _ (by omega), h1, Option.some.injEq]
      omega
  · have h := (THECART_access E c addr byte W hk).2.1
    rw [if_neg n0, if_neg n1, if_neg n2] at h
    exact PutByte_same E c addr byte W h

/-- Witness for C33: the THECART_128M cartridge of `demoEnv` (type code 8) in state
0x4123 is put into state 0x015a by a write of 0x5a to `$D5A0`, which a read of
`$D5A0` returns. -/
theorem THECART_registers_witness :
    ((PutByte demoEnv .main 0xd5a0 0x5a (ossWorld 8 0x4123 128)).cart .main).state =
      bor (band 0x4123 0x3f00) 0x5a ∧
    (GetByte demoEnv .main 0xd5a0 false
      (PutByte demoEnv .main 0xd5a0 0x5a (ossWorld 8 0x4123 128))).1 = some 0x5a :=
  ⟨(THECART_registers demoEnv .main 0x5a (ossWorld 8 0x4123 128) rfl (by decide)).1.1,
   (THECART_registers demoEnv .main 0x5a (ossWorld 8 0x4123 128) rfl (by decide)).1.2.2.2.2
     false⟩

/-! ## The 5200 Super Cart -/

theorem access_5200SuperCart_state (addr : Nat) (W : World) (n : Int)
    (h : access_5200SuperCart addr W =
      if W.active.state ≠ n then set_bank_5200_SUPER (setActiveState n W) else W) :
    (access_5200SuperCart addr W).active.state = n ∧
    access_5200SuperCart addr W =
      (if n = W.active.state then W
       else (setActiveState n W).emit
        (.CopyFromCart 0x4000 0xbfff (.image W.active_cart (n * 0x8000)))) := by
  have hs := active_setActiveState n W
  by_cases hn : W.active.state = n
  · rw [h, if_neg (not_not.mpr hn), if_pos hn.symm]
    exact ⟨hn, rfl⟩
  · rw [h, if_pos hn, if_neg (fun e => hn e.symm)]
    unfold set_bank_5200_SUPER
    rw [active_emit, World.img, hs.1, hs.2]
    exact ⟨rfl, rfl⟩

theorem SuperCart_mask (S : Int) (hS : S = 64 ∨ S = 128 ∨ S = 256 ∨ S = 512) :
    ∃ m : Nat, shr S 5 - 1 = (m : Int) ∧ (m : Int) = S / 32 - 1 ∧ m < 16 ∧
      band 0x0f (m : Int) = (m : Int) := by
  rcases hS with rfl | rfl | rfl | rfl
  · exact ⟨1, by decide, by decide, by decide, by decide⟩
  · exact ⟨3, by decide, by decide, by decide, by decide⟩
  · exact ⟨7, by decide, by decide, by decide, by decide⟩
  · exact ⟨15, by decide, by decide, by decide, by decide⟩

/-- C34. For an active cartridge whose size `S` is 64, 128, 256 or 512 KB, as for
the 5200 Super Cart types, and any prior state: after an access through
`access_5200SuperCart` to an address with low byte in `0xC0..0xFF` the state
satisfies `0 <= state < S / 32`, so the bank at `state * 0x8000` of 0x8000
bytes lies inside the `S * 1024` bytes of the image; with low byte in
`0xE0..0xFF` the state is `S / 32 - 1`; with low byte below 0xC0 the access
leaves the world as it is. Whenever the access changes the state it copies
the bank at `state * 0x8000` to `$4000-$BFFF`. -/
theorem SuperCart_bank_in_image (addr : Nat) (W : World) (S : Int)
    (hS : S = 64 ∨ S = 128 ∨ S = 256 ∨ S = 512) (hsize : W.active.size = S) :
    (0xc0 ≤ addr &&& 0xff →
      0 ≤ (access_5200SuperCart addr W).active.state ∧
      (access_5200SuperCart addr W).active.state < S / 32 ∧
      0 ≤ (access_5200SuperCart addr W).active.state * 0x8000 ∧
      (access_5200SuperCart addr W).active.state * 0x8000 + 0x8000 ≤ S * 1024) ∧
    (0xe0 ≤ addr &&& 0xff → (access_5200SuperCart addr W).active.state = S / 32 - 1) ∧
    (addr &&& 0xff < 0xc0 → access_5200SuperCart addr W = W) ∧
    access_5200SuperCart addr W =
      (if (access_5200SuperCart addr W).active.state = W.active.state then W
       else (setActiveState (access_5200SuperCart addr W).active.state W).emit
        (.CopyFromCart 0x4000 0xbfff
          (.image W.active_cart ((access_5200SuperCart addr W).active.state * 0x8000)))) := by
  obtain ⟨m, hm1, hm2, hm3, hm4⟩ := SuperCart_mask S hS
  have hlow : addr &&& 0xff = addr % 2 ^ 8 := Nat.and_pow_two_sub_one_eq_mod addr 8
  have hc0 : addr &&& 0xc0 = addr / 2 ^ 6 % 2 ^ 2 * 2 ^ 6 := and_mask addr 6 2
  have h30 : addr &&& 0x30 = addr / 2 ^ 4 % 2 ^ 2 * 2 ^ 4 := and_mask addr 4 2
  have hdef : ∃ n : Int,
      (access_5200SuperCart addr W =
        if W.active.state ≠ n then set_bank_5200_SUPER (setActiveState n W) else W) ∧
      (0xc0 ≤ addr &&& 0xff → ∃ x : Int, n = band x (m : Int)) ∧
      (0xe0 ≤ addr &&& 0xff → n = band 0x0f (m : Int)) ∧
      (addr &&& 0xff < 0xc0 → n = W.active.state) := by
    by_cases h1 : addr &&& 0xc0 = 0xc0
    · by_cases h2 : addr &&& 0x30 = 0x00
      · refine ⟨band (bor (band W.active.state 0x03) ((addr &&& 0x0c : Nat) : Int)) (m : Int),
          ?_, fun _ => ⟨_, rfl⟩, fun h => ?_, fun h => ?_⟩
        · unfold access_5200SuperCart
          simp only [h1, h2, if_true, hsize, hm1]
        · omega
        · omega
      · by_cases h3 : addr &&& 0x30 = 0x10
        · refine ⟨band (bor (band W.active.state 0x0c)
            (((addr &&& 0x0c) >>> 2 : Nat) : Int)) (m : Int),
            ?_, fun _ => ⟨_, rfl⟩, fun h => ?_, fun h => ?_⟩
          · unfold access_5200SuperCart
            have h16 : ¬ ((16 : Nat) = 0) := by decide
            simp only [h1, h3, h16, if_true, if_false, hsize, hm1]
          · omega
          · omega
        · refine ⟨band 0x0f (m : Int), ?_, fun _ => ⟨_, rfl⟩, fun _ => rfl, fun h => ?_⟩
          · unfold access_5200SuperCart
            simp only [h1, h2, h3, if_true, if_false, hsize, hm1]
          · omega
    · refine ⟨W.active.state, ?_, fun h => ?_, fun h => ?_, fun _ => rfl⟩
      · unfold access_5200SuperCart
        simp only [h1, if_false]
      · omega
      · omega
  obtain ⟨n, hacc, hn1, hn2, hn3⟩ := hdef
  have hst := access_5200SuperCart_state addr W n hacc
  refine ⟨fun h => ?_, fun h => ?_, fun h => ?_, ?_⟩
  · obtain ⟨x, hx⟩ := hn1 h
    have hr := band_const_range x m (by omega)
    rw [hst.1, hx]
    refine ⟨hr.1, by omega, by omega, by omega⟩
  · rw [hst.1, hn2 h, hm4, hm2]
  · rw [hst.2, if_pos (hn3 h)]
  · rw [hst.1]
    exact hst.2

/-- Witness for C34: with a 64 KB image an access to `$BFE3` in state 0 selects
bank 1, the last one. -/
theorem SuperCart_bank_in_image_witness :
    (access_5200SuperCart 0xbfe3 (ossWorld 4 0 64)).active.state = 64 / 32 - 1 :=
  (SuperCart_bank_in_image 0xbfe3 (ossWorld 4 0 64) 64 (Or.inl rfl) rfl).2.1 (by decide)

/-! ## The AST 32KB cartridge -/

theorem AST_32_access (E : Env) (c : Slot) (addr byte : Nat) (W : World)
    (hk : E.kind (W.cart c).type = CARTRIDGE_AST_32) :
    access_D5 E c addr W = (none, W) ∧
    PutByte_state E c addr byte W = (some (band ((W.cart c).state + 0x100) 0x7fff), W) ∧
    GetByte_value E (W.cart c) addr =
      imageByte (W.cart c) (bor (band (W.cart c).state 0xff00) ((addr &&& 0xff : Nat) : Int)) := by
  unfold access_D5 PutByte_state GetByte_value
  rw [hk]
  exact ⟨rfl, rfl, rfl⟩

/-- The word `(old + 0x100) & 0x7fff`. -/
theorem AST_32_word (old : Int) :
    0 ≤ band (old + 0x100) 0x7fff ∧ band (old + 0x100) 0x7fff < 0x8000 ∧
    band (old + 0x100) 0x7fff ≠ old ∧
    (old % 0x100 = 0 → band (old + 0x100) 0x7fff % 0x100 = 0) := by
  rw [band_low (old + 0x100) 15 0x7fff (by norm_num) (by norm_num)]
  unfold bits
  refine ⟨by omega, by omega, by omega, fun h => by omega⟩

/-- The index `(state & 0xff00) | (addr & 0xff)` of a read. -/
theorem AST_32_index (s : Int) (addr : Nat)
    (hs : (0 ≤ s ∧ s < 0x8000) ∨ s = 0x10000) :
    0 ≤ bor (band s 0xff00) ((addr &&& 0xff : Nat) : Int) ∧
    bor (band s 0xff00) ((addr &&& 0xff : Nat) : Int) < 32768 := by
  have hlow : addr &&& 0xff = addr % 2 ^ 8 := Nat.and_pow_two_sub_one_eq_mod addr 8
  rw [band_field s 8 8 0xff00 (by norm_num) (by norm_num), hlow,
    bor_add _ _ 8 (by omega) (by omega) (by omega)]
  have hb : (bits s : Int) = s := by
    unfold bits
    omega
  omega

theorem AST_32_write (E : Env) (c : Slot) (addr byte : Nat) (W : World)
    (hk : E.kind (W.cart c).type = CARTRIDGE_AST_32) :
    PutByte E c addr byte W =
      (if c = W.active_cart then
        (W.setState c (band ((W.cart c).state + 0x100) 0x7fff)).emit .CartA0bfDisable
       else W.setState c (band ((W.cart c).state + 0x100) 0x7fff)) ∧
    ((PutByte E c addr byte W).cart c).state = band ((W.cart c).state + 0x100) 0x7fff ∧
    E.kind ((PutByte E c addr byte W).cart c).type = CARTRIDGE_AST_32 := by
  have hw := AST_32_word (W.cart c).state
  have hp := PutByte_of_state E c addr byte W _ (AST_32_access E c addr byte W hk).2.1
  have hs := state_commit_state E c (band ((W.cart c).state + 0x100) 0x7fff) W
  rw [← hp] at hs
  refine ⟨?_, hs.1, by rw [hs.2]; exact hk⟩
  rw [hp, commit_state_eq, if_neg hw.2.2.1]
  by_cases hc : c = W.active_cart
  · rw [if_pos hc, if_pos hc]
    have ht : (W.setState c (band ((W.cart c).state + 0x100) 0x7fff)).active.type =
        (W.cart c).type := by
      simp [World.active, World.setState, ← hc]
    have hst := active_setState W c (band ((W.cart c).state + 0x100) 0x7fff) hc
    unfold SwitchBank
    rw [ht, hk]
    simp only []
    rw [hst, if_pos (by omega)]
  · rw [if_neg hc, if_neg hc]

theorem AST_32_keeps (E : Env) (c : Slot) (W : World)
    (hW : E.kind (W.cart c).type = CARTRIDGE_AST_32 ∧
      ((W.cart c).state = 0x10000 ∨
        (0 ≤ (W.cart c).state ∧ (W.cart c).state < 0x8000 ∧ (W.cart c).state % 0x100 = 0))) :
    (∀ addr nse, (GetByte E c addr nse W).2 = W) ∧
    (∀ addr byte,
      E.kind ((PutByte E c addr byte W).cart c).type = CARTRIDGE_AST_32 ∧
      0 ≤ ((PutByte E c addr byte W).cart c).state ∧
      ((PutByte E c addr byte W).cart c).state < 0x8000 ∧
      ((PutByte E c addr byte W).cart c).state % 0x100 = 0) := by
  obtain ⟨hk, hs⟩ := hW
  have hw := AST_32_word (W.cart c).state
  refine ⟨fun addr nse => GetByte_same E c addr nse W (AST_32_access E c addr 0 W hk).1,
    fun addr byte => ?_⟩
  have h := AST_32_write E c addr byte W hk
  rw [h.2.1]
  exact ⟨h.2.2, hw.1, hw.2.1, hw.2.2.2 (by omega)⟩

/-- C40 as stated fails: an AST_32 cartridge in state 1, a state that a saved
state file can put there, is left in state 0x101 by a write to `$D500`, and
0x101 is not a multiple of 0x100. -/
theorem AST_32_low_byte_kept :
    ((CARTRIDGE_PutByte demoEnv 0xd500 0 (ossWorld 5 1 32)).cart .main).state = 0x101 ∧
    ((CARTRIDGE_PutByte demoEnv 0xd500 0 (ossWorld 5 1 32)).cart .main).state % 0x100 ≠ 0 := by
  decide

/-- C40, amended. For an AST_32 cartridge. Every write to page `$D5` stores
`(state + 0x100) & 0x7fff`, which is from 0 to 0x7fff, so below the marker
0x10000, and differs from the old state; it is a multiple of 0x100 when the
old state is one. For the active cartridge the write calls
`MEMORY_CartA0bfDisable` and nothing else. A read changes nothing. A cold start
stores 0x10000. From the cold-start state, along every sequence of accesses,
the state is 0x10000 or a multiple of 0x100 below 0x8000; once it is below
0x8000 it stays so. For such a state the index `(state & 0xff00) | (addr &
0xff)` of a read is from 0 to 32767, and with an image of 32768 bytes the
read returns a byte of the image. -/
theorem AST_32_invariants (E : Env) (c : Slot) (W : World)
    (hk : E.kind (W.cart c).type = CARTRIDGE_AST_32) :
    (∀ addr byte,
      ((PutByte E c addr byte W).cart c).state = band ((W.cart c).state + 0x100) 0x7fff ∧
      0 ≤ ((PutByte E c addr byte W).cart c).state ∧
      ((PutByte E c addr byte W).cart c).state < 0x8000 ∧
      ((PutByte E c addr byte W).cart c).state ≠ (W.cart c).state ∧
      ((W.cart c).state % 0x100 = 0 → ((PutByte E c addr byte W).cart c).state % 0x100 = 0) ∧
      (c = W.active_cart → PutByte E c addr byte W =
        (W.setState c (band ((W.cart c).state + 0x100) 0x7fff)).emit .CartA0bfDisable)) ∧
    (∀ addr nse, (GetByte E c addr nse W).2 = W) ∧
    ((CARTRIDGE_ColdStart E W).cart c).state = 0x10000 ∧
    (∀ l : List D5Access,
      ((W.cart c).state = 0x10000 ∨
          (0 ≤ (W.cart c).state ∧ (W.cart c).state < 0x8000 ∧ (W.cart c).state % 0x100 = 0) →
        ((run_accesses E l W).cart c).state = 0x10000 ∨
          (0 ≤ ((run_accesses E l W).cart c).state ∧
            ((run_accesses E l W).cart c).state < 0x8000 ∧
            ((run_accesses E l W).cart c).state % 0x100 = 0)) ∧
      (0 ≤ (W.cart c).state ∧ (W.cart c).state < 0x8000 →
        0 ≤ ((run_accesses E l W).cart c).state ∧
          ((run_accesses E l W).cart c).state < 0x8000)) ∧
    ((0 ≤ (W.cart c).state ∧ (W.cart c).state < 0x8000) ∨ (W.cart c).state = 0x10000 →
      ∀ addr,
        0 ≤ bor (band (W.cart c).state 0xff00) ((addr &&& 0xff : Nat) : Int) ∧
        bor (band (W.cart c).state 0xff00) ((addr &&& 0xff : Nat) : Int) < 32768 ∧
        ∀ buf, (W.cart c).image = some buf → buf.length = 32768 →
          ∀ nse, ∃ b, (GetByte E c addr nse W).1 = some b ∧
            buf[(bor (band (W.cart c).state 0xff00)
              ((addr &&& 0xff : Nat) : Int)).toNat]? = some b) := by
  have hw := AST_32_word (W.cart c).state
  refine ⟨fun addr byte => ?_, fun addr nse => ?_, ?_, fun l => ⟨fun hs => ?_, fun hs => ?_⟩,
    fun hs addr => ?_⟩
  · have h := AST_32_write E c addr byte W hk
    rw [h.2.1]
    refine ⟨rfl, hw.1, hw.2.1, hw.2.2.1, hw.2.2.2, fun hc => ?_⟩
    rw [h.1, if_pos hc]
  · exact GetByte_same E c addr nse W (AST_32_access E c addr 0 W hk).1
  · have h := (ColdStart_carts E W).2 c
    have hs := shape_state_eq h
    rw [hs, hk]
    rfl
  · have hrun := slot_run_keeps E c
      (fun x => E.kind x.type = CARTRIDGE_AST_32 ∧
        (x.state = 0x10000 ∨ (0 ≤ x.state ∧ x.state < 0x8000 ∧ x.state % 0x100 = 0)))
      (fun _ => True)
      (fun x y h hx => by
        have ht := shape_type_eq h
        have hst := shape_state_eq h
        show E.kind y.type = CARTRIDGE_AST_32 ∧
          (y.state = 0x10000 ∨ (0 ≤ y.state ∧ y.state < 0x8000 ∧ y.state % 0x100 = 0))
        rw [← ht, ← hst]
        exact hx)
      (fun V a nse hV => by
        rw [(AST_32_keeps E c V hV).1 a nse]
        exact hV)
      (fun V a b _ hV => ⟨((AST_32_keeps E c V hV).2 a b).1,
        Or.inr ((AST_32_keeps E c V hV).2 a b).2⟩)
      l (fun _ _ _ => trivial) W ⟨hk, hs⟩
    exact hrun.2
  · have hrun := slot_run_keeps E c
      (fun x => E.kind x.type = CARTRIDGE_AST_32 ∧ 0 ≤ x.state ∧ x.state < 0x8000)
      (fun _ => True)
      (fun x y h hx => by
        have ht := shape_type_eq h
        have hst := shape_state_eq h
        show E.kind y.type = CARTRIDGE_AST_32 ∧ 0 ≤ y.state ∧ y.state < 0x8000
        rw [← ht, ← hst]
        exact hx)
      (fun V a nse hV => by
        have hg := GetByte_same E c a nse V (AST_32_access E c a 0 V hV.1).1
        rw [hg]
        exact hV)
      (fun V a b _ hV => by
        have h := AST_32_write E c a b V hV.1
        have hw2 := AST_32_word (V.cart c).state
        show E.kind ((PutByte E c a b V).cart c).type = CARTRIDGE_AST_32 ∧
          0 ≤ ((PutByte E c a b V).cart c).state ∧ ((PutByte E c a b V).cart c).state < 0x8000
        rw [h.2.1]
        exact ⟨h.2.2, hw2.1, hw2.2.1⟩)
      l (fun _ _ _ => trivial) W ⟨hk, hs⟩
    exact hrun.2
  · have hi := AST_32_index (W.cart c).state addr hs
    refine ⟨hi.1, hi.2, fun buf hbuf hlen nse => ?_⟩
    have hacc := AST_32_access E c addr 0 W hk
    rw [GetByte_unhandled E c addr nse W hacc.1, hacc.2.2]
    unfold imageByte
    rw [hbuf]
    simp only [if_pos hi.1]
    have hlt : (bor (band (W.cart c).state 0xff00) ((addr &&& 0xff : Nat) : Int)).toNat <
        buf.length := by omega
    exact ⟨buf[(bor (band (W.cart c).state 0xff00) ((addr &&& 0xff : Nat) : Int)).toNat],
      List.getElem?_eq_getElem hlt, List.getElem?_eq_getElem hlt⟩

/-- Witness for C40: the AST cartridge behind the SDX cartridge of `demoWorld`, in
its cold-start state 0x10000, goes to state 0x100 by a write. -/
theorem AST_32_invariants_witness :
    ((PutByte demoEnv .piggyback 0xd500 0 demoWorld).cart .piggyback).state =
      band (0x10000 + 0x100) 0x7fff ∧
    band (0x10000 + 0x100) 0x7fff = 0x100 :=
  ⟨((AST_32_invariants demoEnv .piggyback demoWorld rfl).1 0xd500 0).1, by decide⟩

/-! ## The addresses of the Ram-Cart banks -/

theorem fold_testBit (i : Nat) (a : Nat → Nat) (q : Nat) :
    ∀ (l : List Nat) (acc : Nat),
      (l.foldl (fun acc k => if i.testBit k then acc ||| a k else acc) acc).testBit q =
        (acc.testBit q || l.any (fun k => i.testBit k && (a k).testBit q)) := by
  intro l
  induction l with
  | nil => intro acc; simp
  | cons k l ih =>
    intro acc
    rw [List.foldl_cons, ih, List.any_cons]
    by_cases hk : i.testBit k = true
    · simp [hk, Nat.testBit_or, Bool.or_assoc]
    · simp [hk]

/-- Bit `q` of `permute_bits σ i` is set exactly when `i` has a set bit `k` with
`σ[k] = q`. -/
theorem permute_testBit (σ : List Nat) (i q : Nat) :
    (permute_bits σ i).testBit q = true ↔
      ∃ k, k < σ.length ∧ i.testBit k = true ∧ σ.getD k 0 = q := by
  unfold permute_bits
  rw [fold_testBit i (fun k => 2 ^ σ.getD k 0) q]
  simp only [Nat.zero_testBit, Bool.false_or, List.any_eq_true, List.mem_range,
    Bool.and_eq_true, Nat.testBit_two_pow, decide_eq_true_eq]

theorem testBit_lt (i k m : Nat) (hi : i < 2 ^ m) (hk : i.testBit k = true) : k < m := by
  by_contra h
  have h2 : i < 2 ^ k := lt_of_lt_of_le hi (Nat.pow_le_pow_right (by norm_num) (by omega))
  rw [Nat.testBit_lt_two_pow h2] at hk
  exact Bool.noConfusion hk

/-- A wiring that keeps the lines below `m` below `m` keeps the numbers below
`2 ^ m` below `2 ^ m`. -/
theorem permute_lt (σ : List Nat) (i m : Nat)
    (hσ : ∀ k, k < σ.length → k < m → σ.getD k 0 < m) (hi : i < 2 ^ m) :
    permute_bits σ i < 2 ^ m := by
  apply Nat.lt_pow_two_of_testBit
  intro q hq
  by_contra hb
  rw [Bool.not_eq_false] at hb
  obtain ⟨k, hk, hik, hkq⟩ := (permute_testBit σ i q).1 hb
  have := hσ k hk (testBit_lt i k m hi hik)
  omega

/-- A wiring followed by the wiring read the other way round gives the number
back. -/
theorem permute_inverse (σ τ : List Nat) (n : Nat) (hσ : σ.length = n) (hτ : τ.length = n)
    (h1 : ∀ k, k < n → σ.getD k 0 < n ∧ τ.getD (σ.getD k 0) 0 = k) (i : Nat) (hi : i < 2 ^ n) :
    permute_bits τ (permute_bits σ i) = i := by
  apply Nat.eq_of_testBit_eq
  intro q
  rw [Bool.eq_iff_iff, permute_testBit]
  constructor
  · rintro ⟨k, _, hak, hkq⟩
    obtain ⟨k2, hk2, hik2, hk2k⟩ := (permute_testBit σ i k).1 hak
    have h := (h1 k2 (by omega)).2
    rw [hk2k, hkq] at h
    rw [h]
    exact hik2
  · intro hq
    have hqn := testBit_lt i q n hi hq
    refine ⟨σ.getD q 0, by rw [hτ]; exact (h1 q hqn).1, ?_, (h1 q hqn).2⟩
    exact (permute_testBit σ i _).2 ⟨q, by omega, hq, rfl⟩

theorem rom_addr_permute (j i : Nat) :
    rom_addr (cross_maps j) i = permute_bits (addr_lines j) i := by
  rw [rom_addr_eq]
  unfold physical_addr permute_bits cross_maps addr_lines
  by_cases hj : j = 0
  · simp only [hj, if_true]
    rfl
  · simp only [hj, if_false]
    rfl

theorem decode_byte_permute (j b : Nat) :
    decode_byte (cross_maps j) b = permute_bits (data_lines j) b := by
  rw [decode_byte_eq]
  unfold physical_data permute_bits cross_maps data_lines
  by_cases hj : j = 0
  · simp only [hj, if_true]
    rfl
  · simp only [hj, if_false]
    rfl

theorem lines_facts (j : Nat) :
    (addr_lines j).length = 17 ∧ (invert (addr_lines j)).length = 17 ∧
    (∀ k, k < 17 → (addr_lines j).getD k 0 < 17 ∧
      (invert (addr_lines j)).getD ((addr_lines j).getD k 0) 0 = k) ∧
    (∀ k, k < 17 → (invert (addr_lines j)).getD k 0 < 17 ∧
      (addr_lines j).getD ((invert (addr_lines j)).getD k 0) 0 = k) ∧
    (j ≠ 0 → (∀ k, k < 17 → k < 16 → (addr_lines j).getD k 0 < 16) ∧
      (∀ k, k < 17 → k < 16 → (invert (addr_lines j)).getD k 0 < 16)) ∧
    (data_lines j).length = 8 ∧ (invert (data_lines j)).length = 8 ∧
    (∀ k, k < 8 → (data_lines j).getD k 0 < 8 ∧
      (invert (data_lines j)).getD ((data_lines j).getD k 0) 0 = k) ∧
    (∀ k, k < 8 → (invert (data_lines j)).getD k 0 < 8 ∧
      (data_lines j).getD ((invert (data_lines j)).getD k 0) 0 = k) := by
  by_cases hj : j = 0
  · subst hj
    refine ⟨by decide, by decide, by decide, by decide, fun h => absurd rfl h, by decide,
      by decide, by decide, by decide⟩
  · have ha : addr_lines j = addr_lines 1 := by unfold addr_lines; simp [hj]
    have hd : data_lines j = data_lines 1 := by unfold data_lines; simp [hj]
    rw [ha, hd]
    refine ⟨by decide, by decide, by decide, by decide, fun _ => ⟨by decide, by decide⟩,
      by decide, by decide, by decide, by decide⟩

/-! ## The decoder reads inside the image and loses nothing -/

/-- A wiring with its inverse is a bijection of the numbers below `2 ^ m`, for
every `m` whose lines both keep below `m`. -/
theorem permute_bijOn (σ τ : List Nat) (n m : Nat) (hσ : σ.length = n) (hτ : τ.length = n)
    (h1 : ∀ k, k < n → σ.getD k 0 < n ∧ τ.getD (σ.getD k 0) 0 = k)
    (h2 : ∀ k, k < n → τ.getD k 0 < n ∧ σ.getD (τ.getD k 0) 0 = k) (hm : m ≤ n)
    (hσm : ∀ k, k < n → k < m → σ.getD k 0 < m) (hτm : ∀ k, k < n → k < m → τ.getD k 0 < m) :
    Set.BijOn (permute_bits σ) {i | i < 2 ^ m} {i | i < 2 ^ m} := by
  have hpow : 2 ^ m ≤ 2 ^ n := Nat.pow_le_pow_right (by norm_num) hm
  have hinv : Set.InvOn (permute_bits τ) (permute_bits σ) {i | i < 2 ^ m} {i | i < 2 ^ m} :=
    ⟨fun i hi => permute_inverse σ τ n hσ hτ h1 i (lt_of_lt_of_le hi hpow),
     fun a ha => permute_inverse τ σ n hτ hσ h2 a (lt_of_lt_of_le ha hpow)⟩
  exact hinv.bijOn (fun i hi => permute_lt σ i m (fun k hk hkm => hσm k (by omega) hkm) hi)
    (fun a ha => permute_lt τ a m (fun k hk hkm => hτm k (by omega) hkm) ha)

theorem rom_addr_fun (j : Nat) : rom_addr (cross_maps j) = permute_bits (addr_lines j) :=
  funext (rom_addr_permute j)

theorem decode_byte_fun (j : Nat) : decode_byte (cross_maps j) = permute_bits (data_lines j) :=
  funext (decode_byte_permute j)

theorem rom_addr_bijOn_17 (j : Nat) :
    Set.BijOn (rom_addr (cross_maps j)) {i | i < 2 ^ 17} {i | i < 2 ^ 17} := by
  have h := lines_facts j
  rw [rom_addr_fun]
  exact permute_bijOn _ _ 17 17 h.1 h.2.1 h.2.2.1 h.2.2.2.1 (le_refl _)
    (fun k hk _ => (h.2.2.1 k hk).1) (fun k hk _ => (h.2.2.2.1 k hk).1)

theorem rom_addr_bijOn_16 (j : Nat) (hj : j ≠ 0) :
    Set.BijOn (rom_addr (cross_maps j)) {i | i < 2 ^ 16} {i | i < 2 ^ 16} := by
  have h := lines_facts j
  rw [rom_addr_fun]
  exact permute_bijOn _ _ 17 16 h.1 h.2.1 h.2.2.1 h.2.2.2.1 (by norm_num)
    (h.2.2.2.2.1 hj).1 (h.2.2.2.2.1 hj).2

theorem decode_byte_bijOn (j : Nat) :
    Set.BijOn (decode_byte (cross_maps j)) {b | b < 2 ^ 8} {b | b < 2 ^ 8} := by
  have h := lines_facts j
  rw [decode_byte_fun]
  exact permute_bijOn _ _ 8 8 h.2.2.2.2.2.1 h.2.2.2.2.2.2.1 h.2.2.2.2.2.2.2.1
    h.2.2.2.2.2.2.2.2 (le_refl _)
    (fun k hk _ => (h.2.2.2.2.2.2.2.1 k hk).1) (fun k hk _ => (h.2.2.2.2.2.2.2.2 k hk).1)

/-- The sizes of the three Atrax types: the numbers below the size stay below
it under the cross map of the type. -/
theorem rom_addr_bijOn (j n : Nat) (hn : n = 2 ^ 17 ∨ (j ≠ 0 ∧ n = 2 ^ 16)) :
    Set.BijOn (rom_addr (cross_maps j)) {i | i < n} {i | i < n} := by
  rcases hn with rfl | ⟨hj, rfl⟩
  · exact rom_addr_bijOn_17 j
  · exact rom_addr_bijOn_16 j hj

theorem decode_image_getElem (map : cross_map_t) (buf : List Nat) (n i : Nat) (hi : i < n) :
    (decode_image map buf n)[i]? = some (decode_byte map (buf.getD (rom_addr map i) 0)) := by
  unfold decode_image
  rw [List.getElem?_map, List.getElem?_range hi]
  rfl

theorem decode_image_injective (j n : Nat) (hn : n = 2 ^ 17 ∨ (j ≠ 0 ∧ n = 2 ^ 16))
    (buf1 buf2 : List Nat) (h1 : buf1.length = n) (h2 : buf2.length = n)
    (hb1 : ∀ b ∈ buf1, b < 256) (hb2 : ∀ b ∈ buf2, b < 256)
    (heq : decode_image (cross_maps j) buf1 n = decode_image (cross_maps j) buf2 n) :
    buf1 = buf2 := by
  have hbij := rom_addr_bijOn j n hn
  have hdec := decode_byte_bijOn j
  apply List.ext_getElem (by rw [h1, h2])
  intro a ha1 ha2
  obtain ⟨i, hi, hia⟩ := hbij.surjOn (show a ∈ {i | i < n} by rw [← h1]; exact ha1)
  have hi' : i < n := hi
  have he := congrArg (fun l : List Nat => l[i]?) heq
  simp only [decode_image_getElem _ _ n i hi', hia, Option.some.injEq] at he
  have hg1 : buf1.getD a 0 = buf1[a] := by
    rw [List.getD_eq_getElem?_getD, List.getElem?_eq_getElem ha1]; rfl
  have hg2 : buf2.getD a 0 = buf2[a] := by
    rw [List.getD_eq_getElem?_getD, List.getElem?_eq_getElem ha2]; rfl
  rw [hg1, hg2] at he
  exact hdec.injOn (hb1 _ (List.getElem_mem _)) (hb2 _ (List.getElem_mem _)) he

theorem PreprocessCart_atrax (E : Env) (cart : CARTRIDGE_image_t) (buf : List Nat) (j : Nat)
    (hk : (E.kind cart.type = CARTRIDGE_ATRAX_128 ∧ j = 0) ∨
      (E.kind cart.type = CARTRIDGE_ATRAX_SDX_64 ∧ j = 1) ∨
      (E.kind cart.type = CARTRIDGE_ATRAX_SDX_128 ∧ j = 1))
    (himg : cart.image = some buf) (hsize : (buf.length : Int) = cart.size * 1024)
    (hfit : buf.length < 2147483648) :
    PreprocessCart E cart =
      { cart with image := some (decode_image (cross_maps j) buf buf.length) } := by
  have hn := size_shl_10 cart.size buf.length hsize hfit
  unfold PreprocessCart
  rw [hn, himg]
  rcases hk with ⟨hk, rfl⟩ | ⟨hk, rfl⟩ | ⟨hk, rfl⟩ <;> rw [hk] <;> rfl

/-- C36. For ATRAX_128 with an image of 128 KB, ATRAX_SDX_64 with one of 64 KB and
ATRAX_SDX_128 with one of 128 KB, and `j` the cross map of the type: for every
index `i` below the length of the image the address `rom_addr` that
`PreprocessCart` computes is below that length too, so `image[rom_addr]` is a
byte of the image, and byte `i` of the new image is that byte decoded. -/
theorem rom_addr_in_image (E : Env) (cart : CARTRIDGE_image_t) (buf : List Nat) (j : Nat)
    (hk : (E.kind cart.type = CARTRIDGE_ATRAX_128 ∧ j = 0 ∧ cart.size = 128) ∨
      (E.kind cart.type = CARTRIDGE_ATRAX_SDX_64 ∧ j = 1 ∧ cart.size = 64) ∨
      (E.kind cart.type = CARTRIDGE_ATRAX_SDX_128 ∧ j = 1 ∧ cart.size = 128))
    (himg : cart.image = some buf) (hsize : (buf.length : Int) = cart.size * 1024) :
    PreprocessCart E cart =
      { cart with image := some (decode_image (cross_maps j) buf buf.length) } ∧
    ∀ i, i < buf.length →
      rom_addr (cross_maps j) i < buf.length ∧
      ∃ b, buf[rom_addr (cross_maps j) i]? = some b ∧
        (decode_image (cross_maps j) buf buf.length)[i]? =
          some (decode_byte (cross_maps j) b) := by
  have hn : buf.length = 2 ^ 17 ∨ (j ≠ 0 ∧ buf.length = 2 ^ 16) := by
    rcases hk with ⟨_, _, hs⟩ | ⟨_, hj, hs⟩ | ⟨_, _, hs⟩
    · left; rw [hs] at hsize; omega
    · right; rw [hs] at hsize; exact ⟨by omega, by omega⟩
    · left; rw [hs] at hsize; omega
  have hk2 : (E.kind cart.type = CARTRIDGE_ATRAX_128 ∧ j = 0) ∨
      (E.kind cart.type = CARTRIDGE_ATRAX_SDX_64 ∧ j = 1) ∨
      (E.kind cart.type = CARTRIDGE_ATRAX_SDX_128 ∧ j = 1) := by
    rcases hk with ⟨h, hj, _⟩ | ⟨h, hj, _⟩ | ⟨h, hj, _⟩
    · exact Or.inl ⟨h, hj⟩
    · exact Or.inr (Or.inl ⟨h, hj⟩)
    · exact Or.inr (Or.inr ⟨h, hj⟩)
  have hfit : buf.length < 2147483648 := by
    rcases hn with h | ⟨_, h⟩ <;> rw [h] <;> norm_num
  refine ⟨PreprocessCart_atrax E cart buf j hk2 himg hsize hfit, fun i hi => ?_⟩
  have hlt : rom_addr (cross_maps j) i < buf.length :=
    (rom_addr_bijOn j buf.length hn).mapsTo hi
  refine ⟨hlt, buf[rom_addr (cross_maps j) i], List.getElem?_eq_getElem hlt, ?_⟩
  rw [decode_image_getElem _ _ _ i hi, List.getD_eq_getElem?_getD,
    List.getElem?_eq_getElem hlt]
  rfl

theorem rawFile_bytes (n : Nat) : ∀ b ∈ rawFile n, b < 256 := by
  intro b hb
  unfold rawFile at hb
  rw [List.mem_replicate] at hb
  omega

/-- Witness for C36: an ATRAX_SDX_64 cartridge (type code 7 of `demoEnv`) with an
image of 64 KB; index 0xffff is read at address 0xffff. -/
theorem rom_addr_in_image_witness :
    rom_addr (cross_maps 1) 0xffff < (rawFile 64).length :=
  ((rom_addr_in_image demoEnv
    { type := 7, state := 0, size := 64, image := some (rawFile 64), filename := "sdx.rom",
      raw := 1 }
    (rawFile 64) 1 (Or.inr (Or.inl ⟨rfl, rfl, rfl⟩)) rfl (by rw [rawFile_length]; rfl)).2
      0xffff (by rw [rawFile_length]; decide)).1

/-- C37. In both cross maps the 17 address entries are the powers of two of 17
distinct lines and the 8 data entries those of 8 distinct lines. So the
address map is a bijection of the numbers below `2 ^ 17`, the map of the
Atrax SDX also one of the numbers below `2 ^ 16`, and the data map is a
bijection of the bytes. Two cartridges of an Atrax type with images of the
declared size, all bytes below 256, that `PreprocessCart` decodes to the same
cartridge are the same cartridge. -/
theorem cross_maps_bijective (E : Env) (j : Nat) (c1 c2 : CARTRIDGE_image_t)
    (buf1 buf2 : List Nat)
    (hk : (E.kind c1.type = CARTRIDGE_ATRAX_128 ∧ j = 0 ∧ c1.size = 128) ∨
      (E.kind c1.type = CARTRIDGE_ATRAX_SDX_64 ∧ j = 1 ∧ c1.size = 64) ∨
      (E.kind c1.type = CARTRIDGE_ATRAX_SDX_128 ∧ j = 1 ∧ c1.size = 128))
    (hi1 : c1.image = some buf1) (hi2 : c2.image = some buf2)
    (hl1 : (buf1.length : Int) = c1.size * 1024) (hl2 : (buf2.length : Int) = c2.size * 1024)
    (hb1 : ∀ b ∈ buf1, b < 256) (hb2 : ∀ b ∈ buf2, b < 256) :
    ((cross_maps j).addr = (addr_lines j).map (fun p => 2 ^ p) ∧
      (addr_lines j).Perm (List.range 17)) ∧
    ((cross_maps j).data = (data_lines j).map (fun p => 2 ^ p) ∧
      (data_lines j).Perm (List.range 8)) ∧
    Set.BijOn (rom_addr (cross_maps j)) {i | i < 2 ^ 17} {i | i < 2 ^ 17} ∧
    Set.BijOn (rom_addr (cross_maps 1)) {i | i < 2 ^ 16} {i | i < 2 ^ 16} ∧
    Set.BijOn (decode_byte (cross_maps j)) {b | b < 2 ^ 8} {b | b < 2 ^ 8} ∧
    (PreprocessCart E c1 = PreprocessCart E c2 → c1 = c2) := by
  have hj : j = 0 ∨ j = 1 := by
    rcases hk with ⟨_, h, _⟩ | ⟨_, h, _⟩ | ⟨_, h, _⟩
    · exact Or.inl h
    · exact Or.inr h
    · exact Or.inr h
  refine ⟨?_, ?_, rom_addr_bijOn_17 j, rom_addr_bijOn_16 1 (by decide), decode_byte_bijOn j,
    fun heq => ?_⟩
  · rcases hj with rfl | rfl <;> exact ⟨by decide, by decide⟩
  · rcases hj with rfl | rfl <;> exact ⟨by decide, by decide⟩
  · have hn1 : buf1.length = 2 ^ 17 ∨ (j ≠ 0 ∧ buf1.length = 2 ^ 16) := by
      rcases hk with ⟨_, _, hs⟩ | ⟨_, hj, hs⟩ | ⟨_, _, hs⟩
      · left; rw [hs] at hl1; omega
      · right; rw [hs] at hl1; exact ⟨by omega, by omega⟩
      · left; rw [hs] at hl1; omega
    have hfit1 : buf1.length < 2147483648 := by
      rcases hn1 with h | ⟨_, h⟩ <;> rw [h] <;> norm_num
    have ht : c2.type = c1.type := by
      have h := congrArg CARTRIDGE_image_t.type heq
      rw [PreprocessCart_type, PreprocessCart_type] at h
      exact h.symm
    have hk1 : (E.kind c1.type = CARTRIDGE_ATRAX_128 ∧ j = 0) ∨
        (E.kind c1.type = CARTRIDGE_ATRAX_SDX_64 ∧ j = 1) ∨
        (E.kind c1.type = CARTRIDGE_ATRAX_SDX_128 ∧ j = 1) := by
      rcases hk with ⟨h, hj, _⟩ | ⟨h, hj, _⟩ | ⟨h, hj, _⟩
      · exact Or.inl ⟨h, hj⟩
      · exact Or.inr (Or.inl ⟨h, hj⟩)
      · exact Or.inr (Or.inr ⟨h, hj⟩)
    have hp1 := PreprocessCart_atrax E c1 buf1 j hk1 hi1 hl1 hfit1
    have hs : c2.size = c1.size := by
      have hdef : ∀ c : CARTRIDGE_image_t, (PreprocessCart E c).size = c.size := by
        intro c
        unfold PreprocessCart
        cases E.kind c.type <;> rfl
      have h := congrArg CARTRIDGE_image_t.size heq
      rw [hdef, hdef] at h
      exact h.symm
    have hlen : buf2.length = buf1.length := by
      rw [hs, ← hl1] at hl2
      exact_mod_cast hl2
    have hp2 := PreprocessCart_atrax E c2 buf2 j (by rw [ht]; exact hk1) hi2 hl2
      (by rw [hlen]; exact hfit1)
    rw [hp1, hp2, hlen] at heq
    have himgs := congrArg CARTRIDGE_image_t.image heq
    simp only [Option.some.injEq] at himgs
    have hbuf := decode_image_injective j buf1.length hn1 buf1 buf2 rfl hlen hb1 hb2 himgs
    have hst := congrArg CARTRIDGE_image_t.state heq
    have hfn := congrArg CARTRIDGE_image_t.filename heq
    have hraw := congrArg CARTRIDGE_image_t.raw heq
    simp only at hst hfn hraw
    cases c1
    cases c2
    simp only [CARTRIDGE_image_t.mk.injEq] at *
    subst hbuf
    exact ⟨ht.symm, hst, hs.symm, by rw [hi1, hi2], hfn, hraw⟩

/-- Witness for C37: two ATRAX_SDX_64 cartridges (type code 7 of `demoEnv`) with the
same image of 64 KB; the map of the Atrax SDX is a bijection below `2 ^ 16`. -/
theorem cross_maps_bijective_witness :
    Set.BijOn (rom_addr (cross_maps 1)) {i | i < 2 ^ 16} {i | i < 2 ^ 16} :=
  (cross_maps_bijective demoEnv 1
    { type := 7, state := 0, size := 64, image := some (rawFile 64), filename := "sdx.rom",
      raw := 1 }
    { type := 7, state := 0, size := 64, image := some (rawFile 64), filename := "sdx.rom",
      raw := 1 }
    (rawFile 64) (rawFile 64) (Or.inr (Or.inl ⟨rfl, rfl, rfl⟩)) rfl rfl
    (by rw [rawFile_length]; rfl) (by rw [rawFile_length]; rfl)
    (rawFile_bytes 64) (rawFile_bytes 64)).2.2.2.1

/-! ## Bank copies stay inside the image -/

theorem mask_state (x M p : Nat) :
    0 ≤ ((x &&& M : Nat) : Int) ∧ ((x &&& M : Nat) : Int) ≤ (M : Int) ∧
    ((x &&& M : Nat) : Int) % 2 ^ p ≤ ((M % 2 ^ p : Nat) : Int) := by
  refine ⟨Int.natCast_nonneg _, by exact_mod_cast Nat.and_le_right, ?_⟩
  have h : (x &&& M) % 2 ^ p ≤ M % 2 ^ p := by
    rw [← Nat.and_pow_two_sub_one_eq_mod, Nat.and_assoc, Nat.and_pow_two_sub_one_eq_mod]
    exact Nat.and_le_right
  exact_mod_cast h

theorem inside_refl (len : Int) (W : World) : adds_inside len W W :=
  ⟨[], (List.append_nil _).symm, fun _ h => absurd h (List.not_mem_nil _)⟩

theorem inside_emit (len : Int) (W V : World) (op : MemOp)
    (hV : adds_inside len W V) (hop : copy_inside W.active_cart len op) :
    adds_inside len W (V.emit op) := by
  obtain ⟨added, h1, h2⟩ := hV
  refine ⟨added ++ [op], ?_, fun o ho => ?_⟩
  · rw [ops_emit, h1, List.append_assoc]
  · rw [List.mem_append, List.mem_singleton] at ho
    rcases ho with h | h
    · exact h2 o h
    · rw [h]; exact hop

theorem copy_inside_img (c : Slot) (len : Int) (V : World) (a1 a2 : Nat) (off : Int)
    (hs : V.active_cart = c)
    (h : 0 ≤ off ∧ off + ((a2 : Int) + 1 - (a1 : Int)) ≤ len ∧
      ((a2 : Int) + 1 - (a1 : Int) = 0x2000 ∨ (a2 : Int) + 1 - (a1 : Int) = 0x4000)) :
    copy_inside c len (.CopyFromCart a1 a2 (V.img off)) := ⟨hs, h⟩

theorem set_bank_809F_inside (main old len : Int) (W : World)
    (h1 : band W.active.state 0x80 = 0 →
      0 ≤ W.active.state * 0x2000 ∧ W.active.state * 0x2000 + 0x2000 ≤ len)
    (h2 : 0 ≤ main ∧ main + 0x2000 ≤ len) :
    adds_inside len W (set_bank_809F main old W) := by
  unfold set_bank_809F
  by_cases h : band W.active.state 0x80 ≠ 0
  · rw [if_pos h]
    exact inside_emit _ _ _ _ (inside_emit _ _ _ _ (inside_refl _ _) trivial) trivial
  · rw [if_neg h]
    have h3 := h1 (not_not.mp h)
    have h4 : adds_inside len W (((W.emit .Cart809fEnable).emit .CartA0bfEnable).emit
        (.CopyFromCart 0x8000 0x9fff (((W.emit .Cart809fEnable).emit .CartA0bfEnable).img
          (((W.emit .Cart809fEnable).emit .CartA0bfEnable).active.state * 0x2000)))) := by
      refine inside_emit _ _ _ _ (inside_emit _ _ _ _ (inside_emit _ _ _ _ (inside_refl _ _)
        trivial) trivial) (copy_inside_img _ _ _ _ _ _ rfl ?_)
      simp only [active_emit]
      omega
    dsimp only
    split_ifs
    · exact inside_emit _ _ _ _ h4 (copy_inside_img _ _ _ _ _ _ rfl (by omega))
    · exact h4

theorem set_bank_XEGS_8F_64_inside (len : Int) (W : World)
    (h1 : band W.active.state 0x08 ≠ 0 →
      0 ≤ band W.active.state (bnot 0x08) * 0x2000 ∧
      band W.active.state (bnot 0x08) * 0x2000 + 0x2000 ≤ len) :
    adds_inside len W (set_bank_XEGS_8F_64 W) := by
  unfold set_bank_XEGS_8F_64
  by_cases h : band W.active.state 0x08 ≠ 0
  · rw [if_pos h]
    have h3 := h1 h
    exact inside_emit _ _ _ _ (inside_refl _ _) (copy_inside_img _ _ _ _ _ _ rfl (by omega))
  · rw [if_neg h]
    exact inside_emit _ _ _ _ (inside_refl _ _) trivial

theorem set_bank_A0BF_inside (dm bm len : Int) (W : World)
    (h1 : 0 ≤ band W.active.state bm * 0x2000 ∧ band W.active.state bm * 0x2000 + 0x2000 ≤ len) :
    adds_inside len W (set_bank_A0BF dm bm W) := by
  unfold set_bank_A0BF
  split_ifs
  · exact inside_emit _ _ _ _ (inside_refl _ _) trivial
  · exact inside_emit _ _ _ _ (inside_emit _ _ _ _ (inside_refl _ _) trivial)
      (copy_inside_img _ _ _ _ _ _ rfl (by omega))

theorem set_bank_80BF_inside (len : Int) (W : World)
    (h1 : 0 ≤ band W.active.state 0x7f * 0x4000 ∧
      band W.active.state 0x7f * 0x4000 + 0x4000 ≤ len) :
    adds_inside len W (set_bank_80BF W) := by
  unfold set_bank_80BF
  split_ifs
  · exact inside_emit _ _ _ _ (inside_emit _ _ _ _ (inside_refl _ _) trivial) trivial
  · exact inside_emit _ _ _ _ (inside_emit _ _ _ _ (inside_emit _ _ _ _ (inside_refl _ _)
      trivial) trivial) (copy_inside_img _ _ _ _ _ _ rfl (by omega))

theorem set_bank_SDX_128_inside (len : Int) (W : World)
    (h1 : 0 ≤ (band W.active.state 7 + shr (band W.active.state 0x10) 1) * 0x2000 ∧
      (band W.active.state 7 + shr (band W.active.state 0x10) 1) * 0x2000 + 0x2000 ≤ len) :
    adds_inside len W (set_bank_SDX_128 W) := by
  unfold set_bank_SDX_128
  split_ifs
  · exact inside_emit _ _ _ _ (inside_refl _ _) trivial
  · exact inside_emit _ _ _ _ (inside_emit _ _ _ _ (inside_refl _ _) trivial)
      (copy_inside_img _ _ _ _ _ _ rfl (by omega))

theorem set_bank_SIC_inside (n len : Int) (W : World)
    (h1 : 0 ≤ band W.active.state n * 0x4000 ∧ band W.active.state n * 0x4000 + 0x4000 ≤ len) :
    adds_inside len W (set_bank_SIC n W) := by
  unfold set_bank_SIC
  dsimp only
  generalize hV : (if band W.active.state 0x20 = 0 then W.emit .Cart809fDisable
      else (W.emit .Cart809fEnable).emit
        (.CopyFromCart 0x8000 0x9fff (W.img (band W.active.state n * 0x4000)))) = V
  have h4 : adds_inside len W V := by
    rw [← hV]
    split_ifs
    · exact inside_emit _ _ _ _ (inside_refl _ _) trivial
    · exact inside_emit _ _ _ _ (inside_emit _ _ _ _ (inside_refl _ _) trivial)
        (copy_inside_img _ _ _ _ _ _ rfl (by omega))
  have h5 : V.active = W.active := by
    rw [← hV]
    split_ifs <;> simp only [active_emit]
  have h6 : V.active_cart = W.active_cart := by
    rw [← hV]
    split_ifs <;> rfl
  rw [h5]
  split_ifs
  · exact inside_emit _ _ _ _ h4 trivial
  · exact inside_emit _ _ _ _ (inside_emit _ _ _ _ h4 trivial)
      (copy_inside_img _ _ _ _ _ _ h6 (by omega))

theorem set_bank_MEGA_4096_inside (len : Int) (W : World)
    (h1 : W.active.state ≠ 0xff →
      0 ≤ W.active.state * 0x4000 ∧ W.active.state * 0x4000 + 0x4000 ≤ len) :
    adds_inside len W (set_bank_MEGA_4096 W) := by
  unfold set_bank_MEGA_4096
  by_cases h : W.active.state = 0xff
  · rw [if_pos h]
    exact inside_emit _ _ _ _ (inside_emit _ _ _ _ (inside_refl _ _) trivial) trivial
  · rw [if_neg h]
    have h3 := h1 h
    exact inside_emit _ _ _ _ (inside_emit _ _ _ _ (inside_emit _ _ _ _ (inside_refl _ _)
      trivial) trivial) (copy_inside_img _ _ _ _ _ _ rfl (by omega))

theorem band_low_state (s : Int) (p : Nat) (M : Int) (hM : M = ((2 ^ p - 1 : Nat) : Int))
    (hp : 2 ^ p - 1 < 2147483648) (h0 : 0 ≤ s) (h1 : s ≤ 255) : band s M = s % 2 ^ p := by
  rw [band_low s p M hM hp]
  have h : bits s = s.toNat := by
    unfold bits
    omega
  rw [h]
  push_cast
  rw [Int.toNat_of_nonneg h0]

theorem band_80_state (s : Int) (h0 : 0 ≤ s) (h1 : s ≤ 255) (h : band s 0x80 = 0) :
    s < 128 := by
  rw [band_field s 7 1 0x80 (by norm_num) (by norm_num)] at h
  have h2 : bits s = s.toNat := by
    unfold bits
    omega
  rw [h2] at h
  omega

theorem band_not_8_state (s : Int) (h0 : 0 ≤ s) (h1 : s ≤ 15) (h : band s 0x08 ≠ 0) :
    0 ≤ band s (bnot 0x08) ∧ band s (bnot 0x08) ≤ 7 := by
  obtain ⟨n, rfl⟩ := Int.eq_ofNat_of_zero_le h0
  have hn : n ≤ 15 := by omega
  clear h0 h1
  revert h
  interval_cases n <;> decide

theorem SDX_128_bank (s : Int) :
    0 ≤ band s 7 + shr (band s 0x10) 1 ∧ band s 7 + shr (band s 0x10) 1 ≤ 15 := by
  rw [band_low s 3 7 (by norm_num) (by norm_num),
    band_field s 4 1 0x10 (by norm_num) (by norm_num), shr_natCast]
  omega

/-- For a type of the table `banked_kb` in a state that its mask lets through,
every call that `SwitchBank` adds and that copies from an image copies from
the image of the active cartridge and reads inside the declared size. -/
theorem SwitchBank_inside (E : Env) (old : Int) (W : World) (kb : Int)
    (hkb : banked_kb (E.kind W.active.type) = some kb)
    (hs : bank_state (E.kind W.active.type) W.active.state) :
    adds_inside (kb * 1024) W (SwitchBank E old W) := by
  have r3 : 0 ≤ band W.active.state 0x03 ∧ band W.active.state 0x03 ≤ 0x03 :=
    band_const_range W.active.state 0x03 (by norm_num)
  have r7 : 0 ≤ band W.active.state 0x07 ∧ band W.active.state 0x07 ≤ 0x07 :=
    band_const_range W.active.state 0x07 (by norm_num)
  have r0f : 0 ≤ band W.active.state 0x0f ∧ band W.active.state 0x0f ≤ 0x0f :=
    band_const_range W.active.state 0x0f (by norm_num)
  have r1f : 0 ≤ band W.active.state 0x1f ∧ band W.active.state 0x1f ≤ 0x1f :=
    band_const_range W.active.state 0x1f (by norm_num)
  have r7f : 0 ≤ band W.active.state 0x7f ∧ band W.active.state 0x7f ≤ 0x7f :=
    band_const_range W.active.state 0x7f (by norm_num)
  have rfff : 0 ≤ band W.active.state 0x0fff ∧ band W.active.state 0x0fff ≤ 0x0fff :=
    band_const_range W.active.state 0x0fff (by norm_num)
  have r1fff : 0 ≤ band W.active.state 0x1fff ∧ band W.active.state 0x1fff ≤ 0x1fff :=
    band_const_range W.active.state 0x1fff (by norm_num)
  have r3fff : 0 ≤ band W.active.state 0x3fff ∧ band W.active.state 0x3fff ≤ 0x3fff :=
    band_const_range W.active.state 0x3fff (by norm_num)
  have sdx := SDX_128_bank W.active.state
  unfold SwitchBank
  cases hk : E.kind W.active.type <;> rw [hk] at hkb hs <;>
    cases hkb <;>
    simp only [bank_state, state_mask, latch_mask] at hs <;> dsimp only <;>
    first
    | (with_reducible refine set_bank_A0BF_inside _ _ _ W ?_
       first
       | (obtain ⟨h0, h1, h2⟩ := hs
          have e3 := band_low_state _ 3 7 (by norm_num) (by norm_num) h0 (by omega)
          have e4 := band_low_state _ 4 0x0f (by norm_num) (by norm_num) h0 (by omega)
          have e7 := band_low_state _ 7 0x7f (by norm_num) (by norm_num) h0 (by omega)
          omega)
       | omega)
    | (with_reducible refine set_bank_809F_inside _ _ _ W (fun hz => ?_) (by omega)
       obtain ⟨h0, h1, h2⟩ := hs
       have z := band_80_state _ h0 (by omega) hz
       omega)
    | (with_reducible refine set_bank_XEGS_8F_64_inside _ W (fun hz => ?_)
       obtain ⟨h0, h1, h2⟩ := hs
       have z := band_not_8_state _ h0 (by omega) hz
       omega)
    | (with_reducible refine set_bank_80BF_inside _ W ?_
       first
       | (obtain ⟨h0, h1, h2⟩ := hs
          have e7 := band_low_state _ 7 0x7f (by norm_num) (by norm_num) h0 (by omega)
          omega)
       | omega)
    | (with_reducible refine set_bank_SDX_128_inside _ W ?_
       omega)
    | (with_reducible refine set_bank_SIC_inside _ _ W ?_
       omega)
    | (with_reducible refine set_bank_MEGA_4096_inside _ W (fun hz => ?_)
       obtain ⟨h0, h1, h2⟩ := hs
       omega)

theorem bank_state_of_mask (k : Kind) (M p x : Nat) (h : state_mask k = some (M, p)) :
    bank_state k ((x &&& M : Nat) : Int) := by
  unfold bank_state
  rw [h]
  exact mask_state x M p

theorem bank_state_free (k : Kind) (s : Int) (h : state_mask k = none) : bank_state k s := by
  unfold bank_state
  rw [h]
  trivial

theorem bank_state_initial (k : Kind) : bank_state k (initial_state k) := by
  cases k <;> simp only [bank_state, state_mask, latch_mask] <;> decide

/-- What the accesses store for a type with a state mask: a value that the mask
lets through, or nothing. -/
theorem state_mask_access (E : Env) (c : Slot) (addr byte : Nat) (W : World) (M p : Nat)
    (hsm : state_mask (E.kind (W.cart c).type) = some (M, p)) (hb : byte < 256)
    (hs : bank_state (E.kind (W.cart c).type) (W.cart c).state) :
    (∃ n, PutByte_state E c addr byte W = (some n, W) ∧
      bank_state (E.kind (W.cart c).type) n) ∧
    (access_D5 E c addr W = (none, W) ∨
      ∃ n, access_D5 E c addr W = (some n, W) ∧ bank_state (E.kind (W.cart c).type) n) := by
  have hff : byte &&& 0xff = byte := by
    have h := Nat.and_pow_two_sub_one_eq_mod byte 8
    simp only [Nat.reducePow, Nat.add_one_sub_one] at h
    rw [show (255 : Nat) = 256 - 1 from rfl, h]
    exact Nat.mod_eq_of_lt hb
  have hsm2 := hsm
  unfold state_mask at hsm2
  cases hlm : latch_mask (E.kind (W.cart c).type) with
  | some m =>
    rw [hlm] at hsm2
    simp only [Option.some.injEq, Prod.mk.injEq] at hsm2
    have h := latch_access E c addr byte W m hlm hb
    refine ⟨⟨_, h.1, ?_⟩, Or.inl h.2.1⟩
    rw [hsm2.1]
    exact bank_state_of_mask _ M p byte hsm
  | none =>
    rw [hlm] at hsm2
    have hkinds : E.kind (W.cart c).type = CARTRIDGE_DB_32 ∨
        E.kind (W.cart c).type = CARTRIDGE_WILL_32 ∨
        E.kind (W.cart c).type = CARTRIDGE_TURBOSOFT_64 ∨
        E.kind (W.cart c).type = CARTRIDGE_MEGA_4096 := by
      revert hsm2
      cases E.kind (W.cart c).type <;> intro hsm2 <;>
        first
        | decide
        | cases hsm2
    rcases hkinds with hk | hk | hk | hk
    · have hM : M = 0x03 := by
        rw [hk] at hsm
        cases hsm
        rfl
      have ha : access_D5 E c addr W = (some ((addr &&& 0x03 : Nat) : Int), W) := by
        unfold access_D5
        rw [hk]
      have hp : PutByte_state E c addr byte W = access_D5 E c addr W :=
        PutByte_state_default E c addr byte W (by rw [hk]; rfl)
      have hb2 := bank_state_of_mask _ M p addr hsm
      rw [hM] at hb2
      exact ⟨⟨_, hp.trans ha, hb2⟩, Or.inr ⟨_, ha, hb2⟩⟩
    · have hM : M = 0x0b := by
        rw [hk] at hsm
        cases hsm
        rfl
      have ha : access_D5 E c addr W = (some ((addr &&& 0x0b : Nat) : Int), W) := by
        unfold access_D5
        rw [hk]
      have hp : PutByte_state E c addr byte W = access_D5 E c addr W :=
        PutByte_state_default E c addr byte W (by rw [hk]; rfl)
      have hb2 := bank_state_of_mask _ M p addr hsm
      rw [hM] at hb2
      exact ⟨⟨_, hp.trans ha, hb2⟩, Or.inr ⟨_, ha, hb2⟩⟩
    · have hM : M = 0x17 := by
        rw [hk] at hsm
        cases hsm
        rfl
      have ha : access_D5 E c addr W = (some ((addr &&& 0x17 : Nat) : Int), W) := by
        unfold access_D5
        rw [hk]
      have hp : PutByte_state E c addr byte W = access_D5 E c addr W :=
        PutByte_state_default E c addr byte W (by rw [hk]; rfl)
      have hb2 := bank_state_of_mask _ M p addr hsm
      rw [hM] at hb2
      exact ⟨⟨_, hp.trans ha, hb2⟩, Or.inr ⟨_, ha, hb2⟩⟩
    · have hM : M = 0xff := by
        rw [hk] at hsm
        cases hsm
        rfl
      have h := reads_back_access E c addr byte W (by rw [hk]; rfl)
      refine ⟨⟨_, h.1, ?_⟩, Or.inl h.2.1⟩
      split_ifs
      · have hb2 := bank_state_of_mask _ M p byte hsm
        rw [hM, hff] at hb2
        exact hb2
      · exact hs

theorem shape_size_eq {c c' : CARTRIDGE_image_t} (h : shape c = shape c') :
    c.size = c'.size := by
  have h1 := congrArg CARTRIDGE_image_t.size h
  exact h1

theorem size_commit_state (E : Env) (c : Slot) (n : Int) (W : World) :
    ((commit_state E c (W.cart c).state n W).cart c).size = (W.cart c).size := by
  have h := shape_commit_state E c n W
  have h1 := shape_size_eq h
  exact h1

/-- The slot after an access of either shape: its type and size stay, and its
state stays or is the one the access returned. -/
theorem slot_after_access (E : Env) (c : Slot) (W : World) (r : Option Int × World)
    (hr : (CartIsPassthrough E (W.cart c).type = false ∧ r.2 = W) ∨
      (CartIsPassthrough E (W.cart c).type = true ∧
        (r = (none, W) ∨ ∃ n, r = (some n, switchPiggyback E c (W.cart c).state n W)))) :
    ((commit_result E c (W.cart c).state r).cart c).type = (W.cart c).type ∧
    ((commit_result E c (W.cart c).state r).cart c).size = (W.cart c).size ∧
    (((commit_result E c (W.cart c).state r).cart c).state = (W.cart c).state ∨
      r.1 = some ((commit_result E c (W.cart c).state r).cart c).state) := by
  unfold commit_result
  rcases hr with ⟨_, h2⟩ | ⟨_, h | ⟨n, h⟩⟩
  · rcases r with ⟨r1, W1⟩
    simp only at h2
    subst h2
    cases r1 with
    | none => exact ⟨rfl, rfl, Or.inl rfl⟩
    | some n =>
      have h := state_commit_state E c n W1
      exact ⟨h.2, size_commit_state E c n W1, Or.inr (congrArg some h.1.symm)⟩
  · rw [h]
    exact ⟨rfl, rfl, Or.inl rfl⟩
  · rw [h]
    simp only []
    have h1 := shape_switchPiggyback E c (W.cart c).state n W c
    have h2 : (W.cart c).state = ((switchPiggyback E c (W.cart c).state n W).cart c).state :=
      (shape_state_eq h1).symm
    have h3 := state_commit_state E c n (switchPiggyback E c (W.cart c).state n W)
    have h4 := size_commit_state E c n (switchPiggyback E c (W.cart c).state n W)
    rw [← h2] at h3 h4
    exact ⟨h3.2.trans (shape_type_eq h1), h4.trans (shape_size_eq h1),
      Or.inr (congrArg some h3.1.symm)⟩

/-- One access to a slot keeps its type, its size and the bound on its state. -/
theorem bank_state_kept (E : Env) (c : Slot) (W : World) (t kb : Int) (addr byte : Nat)
    (hb : byte < 256)
    (hW : (W.cart c).type = t ∧ (W.cart c).size = kb ∧ bank_state (E.kind t) (W.cart c).state) :
    (∀ nse, ((GetByte E c addr nse W).2.cart c).type = t ∧
      ((GetByte E c addr nse W).2.cart c).size = kb ∧
      bank_state (E.kind t) ((GetByte E c addr nse W).2.cart c).state) ∧
    (((PutByte E c addr byte W).cart c).type = t ∧
      ((PutByte E c addr byte W).cart c).size = kb ∧
      bank_state (E.kind t) ((PutByte E c addr byte W).cart c).state) := by
  obtain ⟨ht, hsz, hs⟩ := hW
  have hG := slot_after_access E c W _ (access_D5_form E c addr W)
  have hP := slot_after_access E c W _ (PutByte_state_form E c addr byte W)
  rw [← GetByte_snd_eq] at hG
  rw [← PutByte_eq] at hP
  have key : (∀ n, (access_D5 E c addr W).1 = some n → bank_state (E.kind t) n) ∧
      (∀ n, (PutByte_state E c addr byte W).1 = some n → bank_state (E.kind t) n) := by
    cases hsm : state_mask (E.kind t) with
    | none => exact ⟨fun n _ => bank_state_free _ n hsm, fun n _ => bank_state_free _ n hsm⟩
    | some Mp =>
      obtain ⟨M, p⟩ := Mp
      rw [← ht] at hsm hs ⊢
      have h := state_mask_access E c addr byte W M p hsm hb hs
      refine ⟨fun n hn => ?_, fun n hn => ?_⟩
      · rcases h.2 with h2 | ⟨m, h2, h3⟩
        · rw [h2] at hn
          cases hn
        · rw [h2] at hn
          simp only [Option.some.injEq] at hn
          rw [← hn]
          exact h3
      · obtain ⟨m, h2, h3⟩ := h.1
        rw [h2] at hn
        simp only [Option.some.injEq] at hn
        rw [← hn]
        exact h3
  refine ⟨fun nse => ?_, ?_⟩
  · cases nse
    · refine ⟨hG.1.trans ht, hG.2.1.trans hsz, ?_⟩
      rcases hG.2.2 with h | h
      · rw [h]; exact hs
      · exact key.1 _ h
    · rw [GetByte_peek]
      exact ⟨ht, hsz, hs⟩
  · refine ⟨hP.1.trans ht, hP.2.1.trans hsz, ?_⟩
    rcases hP.2.2 with h | h
    · rw [h]; exact hs
    · exact key.2 _ h

theorem bank_state_run (E : Env) (c : Slot) (W : World) (t kb : Int) (l : List D5Access)
    (hl : ∀ addr byte, D5Access.write addr byte ∈ l → byte < 256)
    (hW : (W.cart c).type = t ∧ (W.cart c).size = kb ∧ bank_state (E.kind t) (W.cart c).state) :
    ((run_accesses E l W).cart c).type = t ∧ ((run_accesses E l W).cart c).size = kb ∧
    bank_state (E.kind t) ((run_accesses E l W).cart c).state := by
  refine slot_run_keeps E c
    (fun x => x.type = t ∧ x.size = kb ∧ bank_state (E.kind t) x.state) (fun b => b < 256)
    ?_ ?_ ?_ l hl W hW
  · intro x y h hx
    show y.type = t ∧ y.size = kb ∧ bank_state (E.kind t) y.state
    have hx2 : x.type = t ∧ x.size = kb ∧ bank_state (E.kind t) x.state := hx
    rw [← shape_type_eq h, ← shape_size_eq h, ← shape_state_eq h]
    exact hx2
  · intro V addr nse hV
    exact (bank_state_kept E c V t kb addr 0 (by decide) hV).1 nse
  · intro V addr byte hb hV
    exact (bank_state_kept E c V t kb addr byte hb hV).2

/-- C38. For every bank-switched ROM type mapped through `set_bank_809F`,
`set_bank_80BF`, `set_bank_A0BF`, `set_bank_SDX_128`, `set_bank_SIC`, `set_bank_MEGA_4096` or
`set_bank_XEGS_8F_64`, in a slot `c` whose size is the `kb` KB that the type declares,
and for every world reached from the cold start by a sequence of reads and
writes of bytes in page `$D5`: the slot still has its type and its size, its
state is one that the mask of the type lets through, and when the slot is
the active one the bank switch for that state, whatever the old state, only
appends calls to those already made, and every call it appends that copies
from an image copies from the image of slot `c` a range of 0x2000 or 0x4000
bytes that starts at offset 0 or later and ends within the `kb * 1024` bytes
of the image. -/
theorem bank_copies_inside (E : Env) (c : Slot) (W : World) (kb : Int) (l : List D5Access)
    (hkb : banked_kb (E.kind (W.cart c).type) = some kb)
    (hsize : (W.cart c).size = kb)
    (hl : ∀ addr byte, D5Access.write addr byte ∈ l → byte < 256) :
    ((run_accesses E l (CARTRIDGE_ColdStart E W)).cart c).type = (W.cart c).type ∧
    ((run_accesses E l (CARTRIDGE_ColdStart E W)).cart c).size = kb ∧
    bank_state (E.kind (W.cart c).type)
      ((run_accesses E l (CARTRIDGE_ColdStart E W)).cart c).state ∧
    ((run_accesses E l (CARTRIDGE_ColdStart E W)).active_cart = c →
      ∀ old, ∃ added : List MemOp,
        (SwitchBank E old (run_accesses E l (CARTRIDGE_ColdStart E W))).ops =
          (run_accesses E l (CARTRIDGE_ColdStart E W)).ops ++ added ∧
        ∀ op ∈ added, ∀ addr1 addr2 s offset,
          op = MemOp.CopyFromCart addr1 addr2 (.image s offset) →
          s = c ∧ 0 ≤ offset ∧ offset + ((addr2 : Int) + 1 - (addr1 : Int)) ≤ kb * 1024 ∧
          ((addr2 : Int) + 1 - (addr1 : Int) = 0x2000 ∨
            (addr2 : Int) + 1 - (addr1 : Int) = 0x4000)) := by
  have h0 := (ColdStart_carts E W).2 c
  have ht1 := shape_type_eq h0
  have hz1 := shape_size_eq h0
  have hs1 := shape_state_eq h0
  have ht : ((CARTRIDGE_ColdStart E W).cart c).type = (W.cart c).type := ht1
  have hz : ((CARTRIDGE_ColdStart E W).cart c).size = (W.cart c).size := hz1
  have hs : ((CARTRIDGE_ColdStart E W).cart c).state = initial_state (E.kind (W.cart c).type) :=
    hs1
  have hrun := bank_state_run E c (CARTRIDGE_ColdStart E W) (W.cart c).type kb l hl
    ⟨ht, hz.trans hsize, by rw [hs]; exact bank_state_initial _⟩
  refine ⟨hrun.1, hrun.2.1, hrun.2.2, fun ha old => ?_⟩
  have hact : (run_accesses E l (CARTRIDGE_ColdStart E W)).active =
      (run_accesses E l (CARTRIDGE_ColdStart E W)).cart c := by
    unfold World.active
    rw [ha]
  have hin := SwitchBank_inside E old (run_accesses E l (CARTRIDGE_ColdStart E W)) kb
    (by rw [hact, hrun.1]; exact hkb) (by rw [hact, hrun.1]; exact hrun.2.2)
  obtain ⟨added, h1, h2⟩ := hin
  refine ⟨added, h1, fun op hop addr1 addr2 s offset he => ?_⟩
  have h3 := h2 op hop
  rw [he, ha] at h3
  exact h3

/-- Witness for C38: the WILL_32 cartridge of `ramEnv` (type code 5, 32 KB) after
a cold start, a write to `$D50B` and a read of `$D503` is in state 3; the bank
switch then enables `$A000-$BFFF` and copies bank 3 there, and that copy reads
`0x6000..0x7FFF` of the image of the first slot. -/
theorem bank_copies_inside_witness :
    ((run_accesses ramEnv [.write 0xd50b 0xff, .read 0xd503]
      (CARTRIDGE_ColdStart ramEnv (ossWorld 5 0 32))).cart .main).state = 3 ∧
    (SwitchBank ramEnv 0 (run_accesses ramEnv [.write 0xd50b 0xff, .read 0xd503]
      (CARTRIDGE_ColdStart ramEnv (ossWorld 5 0 32)))).ops =
      (run_accesses ramEnv [.write 0xd50b 0xff, .read 0xd503]
        (CARTRIDGE_ColdStart ramEnv (ossWorld 5 0 32))).ops ++
        [.CartA0bfEnable, .CopyFromCart 0xa000 0xbfff (.image .main 0x6000)] ∧
    ∃ added : List MemOp,
      (SwitchBank ramEnv 0 (run_accesses ramEnv [.write 0xd50b 0xff, .read 0xd503]
        (CARTRIDGE_ColdStart ramEnv (ossWorld 5 0 32)))).ops =
        (run_accesses ramEnv [.write 0xd50b 0xff, .read 0xd503]
          (CARTRIDGE_ColdStart ramEnv (ossWorld 5 0 32))).ops ++ added ∧
      ∀ op ∈ added, ∀ addr1 addr2 s offset,
        op = MemOp.CopyFromCart addr1 addr2 (.image s offset) →
        s = .main ∧ 0 ≤ offset ∧ offset + ((addr2 : Int) + 1 - (addr1 : Int)) ≤ 32 * 1024 ∧
        ((addr2 : Int) + 1 - (addr1 : Int) = 0x2000 ∨
          (addr2 : Int) + 1 - (addr1 : Int) = 0x4000) :=
  ⟨by decide, by decide,
   (bank_copies_inside ramEnv .main (ossWorld 5 0 32) 32 [.write 0xd50b 0xff, .read 0xd503]
      rfl rfl (by simp)).2.2.2 (by decide) 0⟩

end Cartridge
